import Mathlib

/-! Virtual platooning intersection control: the per-tick coordination engine.

A shallow embedding of the Go package `manager` (files `traffic_manager.go`,
`platoon_operations.go`, `intersection_manager.go`, `vehicle_operations.go`)
and of `models/models.go`.

Modelling conventions.

* `float64` values are rationals (`ℚ`): every constant of the source is a
  finite decimal.  The differences of positions that `FindVehicleAhead` and
  `formAndUpdatePlatoons` compare with a threshold, and the arithmetic of
  `estimateArrivalTime`, are `float64` operations as Go performs them
  (`fsub`, `fadd`, `fmul`, `fdiv`): the operands are read as `float64`
  values and the result is rounded to nearest, ties to even.  The other
  arithmetic is read exactly.
* `time.Time` is an integer number of nanoseconds (`Int`), `time.Duration`
  likewise; `time.Now()` is a reading of a clock supplied by the schedule.
* a Go `map[string]T` is an association list with first-match lookup
  (`GoMap`).  Records reached through pointers are referred to by the key
  under which the pointer was read, and a write through the pointer is a
  write at that key.
* the iteration order of a Go `range` over a map is chosen by the schedule
  (`Sched.ord`): it receives the name of the loop, a context key and the keys
  present when the loop starts, and returns the keys in the order in which
  they are visited.  A key that is no longer present when its turn comes is
  skipped, as in Go.
-/

namespace Platooning

/-! ## Go maps -/

/-- A Go map with string keys: an association list read by first match. -/
abbrev GoMap (V : Type) := List (String × V)

namespace GoMap

variable {V : Type}

/-- The lookup `m[k]` with its presence flag. -/
def get : GoMap V → String → Option V
  | [], _ => none
  | (k', v) :: m, k => if k' = k then some v else get m k

/-- The presence test `_, ok := m[k]`. -/
def has (m : GoMap V) (k : String) : Bool := (get m k).isSome

/-- The assignment `m[k] = v`: overwrite in place, or add a new entry. -/
def set : GoMap V → String → V → GoMap V
  | [], k, v => [(k, v)]
  | (k', v') :: m, k, v => if k' = k then (k, v) :: m else (k', v') :: set m k v

/-- The statement `delete(m, k)`. -/
def del : GoMap V → String → GoMap V
  | [], _ => []
  | (k', v') :: m, k => if k' = k then del m k else (k', v') :: del m k

/-- The keys held by the map, in storage order. -/
def keys (m : GoMap V) : List String := m.map Prod.fst

end GoMap

/-! ## Strings -/

/-- The test `len(s) > 0 && s[0] == ':'`. -/
def startsWithColon (s : String) : Bool :=
  match s.data with
  | c :: _ => c = ':'
  | [] => false

/-- The pieces of a character list between occurrences of `sep`; `cur` holds
the piece being read, reversed. -/
def splitChars (sep : Char) : List Char → List Char → List (List Char)
  | [], cur => [cur.reverse]
  | c :: cs, cur =>
    if c = sep then cur.reverse :: splitChars sep cs [] else splitChars sep cs (c :: cur)

/-- The call `strings.Split(s, "_")`. -/
def splitUnderscore (s : String) : List String :=
  (splitChars '_' s.data []).map String.mk

/-- Whether `sub` occurs in `l` as a contiguous block. -/
def containsChars (sub : List Char) : List Char → Bool
  | [] => sub.isEmpty
  | c :: cs => sub.isPrefixOf (c :: cs) || containsChars sub cs

/-- The call `strings.Contains(s, sub)`. -/
def strContains (s sub : String) : Bool := containsChars sub.data s.data

/-! ## `float64` rounding -/

/-- The power `2^k` for an integer `k`. -/
def pow2 (k : Int) : ℚ :=
  if 0 ≤ k then ((2 ^ k.toNat : Nat) : ℚ) else 1 / ((2 ^ (-k).toNat : Nat) : ℚ)

/-- The number of halvings that bring `n` below 2, at most `fuel` of them:
with `fuel = n` the position of the leading bit of `n`. -/
def halvings : Nat → Nat → Nat
  | 0, _ => 0
  | fuel + 1, n => if n < 2 then 0 else halvings fuel (n / 2) + 1

/-- The binary exponent of a non-zero rational: the integer `e` with
`2^e ≤ |x| < 2^(e+1)`. -/
def binExp (x : ℚ) : Int :=
  let e0 : Int := (halvings x.num.natAbs x.num.natAbs : Int) - (halvings x.den x.den : Int)
  if pow2 e0 ≤ |x| then e0 else e0 - 1

/-- The integer nearest to `m`, the even one of the two when `m` lies half
way between them. -/
def roundHalfEven (m : ℚ) : Int :=
  let fl := Rat.floor m
  if m - fl < 1 / 2 then fl
  else if 1 / 2 < m - fl then fl + 1
  else if fl % 2 = 0 then fl else fl + 1

/-- The `float64` that Go stores for the exact result `x` of an arithmetic
operation (IEEE 754 binary64, round to nearest, ties to even): the nearest
multiple of the spacing `2^(e-52)` of the binade of `x`, of `2^(-1074)` below
the normal range.  An integer below `2^53` is a `float64` and is returned as
it is.  Results beyond the largest `float64` (overflow to infinity) are
outside the model. -/
def f64 (x : ℚ) : ℚ :=
  if x.den = 1 ∧ x.num.natAbs < 2 ^ 53 then x
  else
    let q := pow2 (max (binExp x) (-1022) - 52)
    (roundHalfEven (x / q) : ℚ) * q

/-- The `float64` subtraction `a - b`.  The operands are `float64` values in
the code; a rational that is not one stands for the `float64` that Go reads
from its decimal form. -/
def fsub (a b : ℚ) : ℚ := f64 (f64 a - f64 b)

/-- The `float64` addition `a + b`. -/
def fadd (a b : ℚ) : ℚ := f64 (f64 a + f64 b)

/-- The `float64` multiplication `a * b`. -/
def fmul (a b : ℚ) : ℚ := f64 (f64 a * f64 b)

/-- The `float64` division `a / b`. -/
def fdiv (a b : ℚ) : ℚ := f64 (f64 a / f64 b)

/-! ## The data model (`models/models.go`) -/

/-- The zero value of `time.Time` (1 January of year 1), in nanoseconds
relative to the Unix epoch. -/
def zeroTime : Int := -62135596800000000000

/-- One second, as a `time.Duration`. -/
def second : Int := 1000000000

structure Vehicle where
  ID : String
  Lane : String
  Pos : ℚ
  Speed : ℚ
  Edge : String
  PlatoonID : String
  IsLeader : Bool
  DesiredSpeed : ℚ
  LeaderID : String
  NextEdge : String
  TurnDirection : String
  AtIntersection : Bool
  LastSpeedChange : Int
  StablePlatoonTime : ℚ
  ReactionTime : ℚ
  WaitingTime : Int
  CountedInThroughput : Bool
  CreationTime : Int
  TravelTime : ℚ
  deriving Repr

instance : DecidableEq Vehicle := fun a b =>
  decidable_of_iff (a.ID = b.ID ∧
    a.Lane = b.Lane ∧
    a.Pos = b.Pos ∧
    a.Speed = b.Speed ∧
    a.Edge = b.Edge ∧
    a.PlatoonID = b.PlatoonID ∧
    a.IsLeader = b.IsLeader ∧
    a.DesiredSpeed = b.DesiredSpeed ∧
    a.LeaderID = b.LeaderID ∧
    a.NextEdge = b.NextEdge ∧
    a.TurnDirection = b.TurnDirection ∧
    a.AtIntersection = b.AtIntersection ∧
    a.LastSpeedChange = b.LastSpeedChange ∧
    a.StablePlatoonTime = b.StablePlatoonTime ∧
    a.ReactionTime = b.ReactionTime ∧
    a.WaitingTime = b.WaitingTime ∧
    a.CountedInThroughput = b.CountedInThroughput ∧
    a.CreationTime = b.CreationTime ∧
    a.TravelTime = b.TravelTime)
    (by cases a; cases b; simp only [Vehicle.mk.injEq])

structure Platoon where
  ID : String
  VehicleIDs : List String
  LeaderID : String
  Edge : String
  Lane : String
  StabilityRatio : ℚ
  IntersectionWaitTime : Int
  PriorityUntil : Option Int
  deriving DecidableEq, Repr

structure IntersectionControlState where
  CurrentPriorityEdge : String
  PriorityStartTime : Int
  MinGreenTime : Int
  MaxGreenTime : Int
  deriving DecidableEq, Repr

structure Intersection where
  ID : String
  Edges : List String
  InternalID : String
  Vehicles : List String
  HasReservation : Bool
  LastPlatoonPassTime : Int
  CurrentControlState : Option IntersectionControlState
  deriving DecidableEq, Repr

structure IntersectionReservation where
  ID : String
  IntersectionID : String
  PlatoonID : String
  StartTime : Int
  EndTime : Int
  EdgeFrom : String
  Direction : String
  deriving DecidableEq, Repr

def TurnLeft : String := "left"

def TurnRight : String := "right"

def TurnStraight : String := "straight"

/-- The state of `manager.TrafficManager`.  The recorded benchmark rows
(`BenchmarkMetrics`, `BenchmarkName`, `BenchmarkStartTime`) are reporting data
outside the engine and are not carried. -/
structure TrafficManager where
  Vehicles : GoMap Vehicle
  Platoons : GoMap Platoon
  Intersections : GoMap Intersection
  VehicleToPlatoon : GoMap String
  TimeStep : Int
  DetectionDistance : ℚ
  FollowingGap : ℚ
  CatchupSpeedFactor : ℚ
  PlatoonGapClose : ℚ
  PlatoonGapTooClose : ℚ
  MaxRegularSpeed : ℚ
  MaxPlatoonSpeed : ℚ
  StablePlatoonSpeed : ℚ
  IntersectionReservations : GoMap IntersectionReservation
  TrafficDensity : GoMap ℚ
  LastTrafficMeasurement : Int
  BenchmarkMode : Bool
  BenchmarkDuration : Int
  ThroughputCounter : Int
  ThroughputPerStep : Int
  TotalCreatedVehicles : Int
  TotalRemovedVehicles : Int
  StopBenchmark : Bool
  UseCustomAlgorithm : Bool

instance : DecidableEq TrafficManager := fun a b =>
  decidable_of_iff (a.Vehicles = b.Vehicles ∧
    a.Platoons = b.Platoons ∧
    a.Intersections = b.Intersections ∧
    a.VehicleToPlatoon = b.VehicleToPlatoon ∧
    a.TimeStep = b.TimeStep ∧
    a.DetectionDistance = b.DetectionDistance ∧
    a.FollowingGap = b.FollowingGap ∧
    a.CatchupSpeedFactor = b.CatchupSpeedFactor ∧
    a.PlatoonGapClose = b.PlatoonGapClose ∧
    a.PlatoonGapTooClose = b.PlatoonGapTooClose ∧
    a.MaxRegularSpeed = b.MaxRegularSpeed ∧
    a.MaxPlatoonSpeed = b.MaxPlatoonSpeed ∧
    a.StablePlatoonSpeed = b.StablePlatoonSpeed ∧
    a.IntersectionReservations = b.IntersectionReservations ∧
    a.TrafficDensity = b.TrafficDensity ∧
    a.LastTrafficMeasurement = b.LastTrafficMeasurement ∧
    a.BenchmarkMode = b.BenchmarkMode ∧
    a.BenchmarkDuration = b.BenchmarkDuration ∧
    a.ThroughputCounter = b.ThroughputCounter ∧
    a.ThroughputPerStep = b.ThroughputPerStep ∧
    a.TotalCreatedVehicles = b.TotalCreatedVehicles ∧
    a.TotalRemovedVehicles = b.TotalRemovedVehicles ∧
    a.StopBenchmark = b.StopBenchmark ∧
    a.UseCustomAlgorithm = b.UseCustomAlgorithm)
    (by cases a; cases b; simp only [TrafficManager.mk.injEq])

/-- One record of the census received from the simulator. -/
structure CensusRecord where
  lane : String
  pos : ℚ
  speed : ℚ
  edge : String
  deriving DecidableEq, Repr

/-- The choices the engine leaves to its environment during a run: the order
in which each `range` over a map visits the keys, and the readings of the
clock.  Both are indexed by the name of the function that asks and by a
context key (the empty string at top level). -/
structure Sched where
  ord : String → String → List String → List String
  now : String → String → Int

/-- The schedule that visits every map in storage order and reads the clock
as the constant `t`. -/
def Sched.fixed (t : Int) : Sched where
  ord := fun _ _ ks => ks
  now := fun _ _ => t

/-- The function `NewTrafficManager`; `t` is the reading of `time.Now()`. -/
def NewTrafficManager (t : Int) : TrafficManager where
  Vehicles := []
  Platoons := []
  Intersections := []
  VehicleToPlatoon := []
  TimeStep := 0
  DetectionDistance := 50.0
  FollowingGap := 10.0
  CatchupSpeedFactor := 1.3
  PlatoonGapClose := 15.0
  PlatoonGapTooClose := 5.0
  MaxRegularSpeed := 16.7
  MaxPlatoonSpeed := 19.4
  StablePlatoonSpeed := 22.2
  IntersectionReservations := []
  TrafficDensity := []
  LastTrafficMeasurement := t
  BenchmarkMode := false
  BenchmarkDuration := 0
  ThroughputCounter := 0
  ThroughputPerStep := 0
  TotalCreatedVehicles := 0
  TotalRemovedVehicles := 0
  StopBenchmark := false
  UseCustomAlgorithm := true

/-- A write through a `*models.Vehicle` pointer read at key `k`. -/
def modifyVehicle (tm : TrafficManager) (k : String) (f : Vehicle → Vehicle) :
    TrafficManager :=
  match tm.Vehicles.get k with
  | some v => { tm with Vehicles := tm.Vehicles.set k (f v) }
  | none => tm

/-- A write through a `*models.Platoon` pointer read at key `k`. -/
def modifyPlatoon (tm : TrafficManager) (k : String) (f : Platoon → Platoon) :
    TrafficManager :=
  match tm.Platoons.get k with
  | some p => { tm with Platoons := tm.Platoons.set k (f p) }
  | none => tm

/-- A write through a `*models.Intersection` pointer read at key `k`. -/
def modifyIntersection (tm : TrafficManager) (k : String)
    (f : Intersection → Intersection) : TrafficManager :=
  match tm.Intersections.get k with
  | some i => { tm with Intersections := tm.Intersections.set k (f i) }
  | none => tm

/-! ## Edge tables and the at-intersection test (`intersection_manager.go`) -/

def getEdgeLengths : GoMap ℚ :=
  [("down_incoming", 126.23), ("down_leaving", 126.10), ("left_incoming", 128.80),
   ("left_leaving", 124.29), ("right_incoming", 124.29), ("right_leaving", 128.80),
   ("up_incoming", 126.10), ("up_leaving", 126.23)]

def isEdgeConnectedToJunction (edgeID : String) : Bool :=
  let connectsToJunction : GoMap Bool :=
    [("down_incoming", true), ("down_leaving", true), ("left_incoming", true),
     ("left_leaving", true), ("right_incoming", true), ("right_leaving", true),
     ("up_incoming", true), ("up_leaving", true)]
  (connectsToJunction.get edgeID).getD false

def isVehicleAtIntersection (vehicle : Vehicle) : Bool :=
  if startsWithColon vehicle.Edge then true
  else if (match getEdgeLengths.get vehicle.Edge with
      | some length => decide (length - vehicle.Pos < 15.0)
      | none => false) then true
  else if (isEdgeConnectedToJunction vehicle.Edge &&
      (match getEdgeLengths.get vehicle.Edge with
        | some edgeLength => decide (edgeLength - vehicle.Pos < 20.0)
        | none => false)) then true
  else if decide (vehicle.Speed < 5.0) && isEdgeConnectedToJunction vehicle.Edge then true
  else false

def isLeavingEdge (edge : String) : Bool :=
  edge = "left_leaving" || edge = "right_leaving" || edge = "up_leaving" ||
    edge = "down_leaving"

def isIncomingEdge (edge : String) : Bool :=
  edge = "left_incoming" || edge = "right_incoming" || edge = "up_incoming" ||
    edge = "down_incoming"

def isEdgeTransition (edge1 edge2 : String) : Bool :=
  if isLeavingEdge edge1 && isIncomingEdge edge2 then true
  else if isIncomingEdge edge1 && isLeavingEdge edge2 then true
  else false

/-! ## Edge rotations and the movement-compatibility oracle
(`intersection_manager.go`) -/

def getLeftEdge (edge : String) : String :=
  if edge = "down_incoming" then "right_incoming"
  else if edge = "left_incoming" then "down_incoming"
  else if edge = "up_incoming" then "left_incoming"
  else if edge = "right_incoming" then "up_incoming"
  else ""

def getOppositeEdge (edge : String) : String :=
  if edge = "down_incoming" then "up_incoming"
  else if edge = "left_incoming" then "right_incoming"
  else if edge = "up_incoming" then "down_incoming"
  else if edge = "right_incoming" then "left_incoming"
  else ""

def areMovementsCompatible (edge1 dir1 edge2 dir2 : String) : Bool :=
  if edge1 = edge2 then true
  else if getOppositeEdge edge1 = edge2 then
    (if dir1 = TurnRight ∧ dir2 = TurnRight then true else false)
  else if dir1 = TurnRight ∧ getLeftEdge edge2 = edge1 then
    decide (dir2 ≠ TurnStraight ∧ dir2 ≠ TurnLeft)
  else if dir2 = TurnRight ∧ getLeftEdge edge1 = edge2 then
    decide (dir1 ≠ TurnStraight ∧ dir1 ≠ TurnLeft)
  else false

def areMovementsIncompatible (edge1 dir1 edge2 dir2 : String) : Bool :=
  !areMovementsCompatible edge1 dir1 edge2 dir2

/-- The four canonical incoming edges of the crossing. -/
def incomingEdges : List String :=
  ["down_incoming", "left_incoming", "right_incoming", "up_incoming"]

/-- The three turn directions of `models.go`. -/
def turnDirections : List String := [TurnLeft, TurnRight, TurnStraight]

/-- The compatibility rule as the specification words it (section 4.4): same
edge; or opposite edges and both right; or one movement is right, the other
movement's edge is the left edge of the right-turning movement's edge and the
other direction is neither straight nor left (either movement may be the
right-turning one). -/
def specCompatible (e1 d1 e2 d2 : String) : Prop :=
  e1 = e2 ∨
  (e2 = getOppositeEdge e1 ∧ d1 = TurnRight ∧ d2 = TurnRight) ∨
  (d1 = TurnRight ∧ e2 = getLeftEdge e1 ∧ d2 ≠ TurnStraight ∧ d2 ≠ TurnLeft) ∨
  (d2 = TurnRight ∧ e1 = getLeftEdge e2 ∧ d1 ≠ TurnStraight ∧ d1 ≠ TurnLeft)

instance (e1 d1 e2 d2 : String) : Decidable (specCompatible e1 d1 e2 d2) := by
  unfold specCompatible; infer_instance

/-! ## Platoon bookkeeping (`platoon_operations.go`) -/

def containsVehicle (vehicles : List String) (vehicleID : String) : Bool :=
  vehicles.any (fun id => id = vehicleID)

def AddVehicleToPlatoon (tm : TrafficManager) (vehicleID platoonID : String) :
    TrafficManager :=
  match tm.Platoons.get platoonID with
  | none => tm
  | some platoon =>
    match tm.Vehicles.get vehicleID with
    | none => tm
    | some _ =>
      let tm1 :=
        if !containsVehicle platoon.VehicleIDs vehicleID then
          modifyPlatoon tm platoonID
            (fun p => { p with VehicleIDs := p.VehicleIDs ++ [vehicleID] })
        else tm
      let tm2 := modifyVehicle tm1 vehicleID
        (fun v => { v with PlatoonID := platoonID, IsLeader := false })
      { tm2 with VehicleToPlatoon := tm2.VehicleToPlatoon.set vehicleID platoonID }

def RemoveVehicleFromPlatoon (tm : TrafficManager) (vehicleID platoonID : String) :
    TrafficManager :=
  match tm.Platoons.get platoonID with
  | none => tm
  | some platoon =>
    -- the first occurrence of vehicleID is cut out of the member list
    let members := platoon.VehicleIDs.erase vehicleID
    let tm1 := modifyPlatoon tm platoonID (fun p => { p with VehicleIDs := members })
    let tm2 :=
      if vehicleID = platoon.LeaderID then
        match members with
        | newLeaderID :: _ =>
          modifyVehicle
            (modifyPlatoon tm1 platoonID (fun p => { p with LeaderID := newLeaderID }))
            newLeaderID (fun v => { v with IsLeader := true })
        | [] => tm1
      else tm1
    modifyVehicle tm2 vehicleID (fun v => { v with PlatoonID := "", IsLeader := false })

/-- The search loop of `FindVehicleAhead`; the state is the closest vehicle
found so far (its key) and its distance. -/
def findAheadStep (tm : TrafficManager) (vehicle : Vehicle) (st : Option String × ℚ)
    (k : String) : Option String × ℚ :=
  match tm.Vehicles.get k with
  | none => st
  | some other =>
    if other.ID = vehicle.ID then st
    else if other.Edge ≠ vehicle.Edge ∨ other.Lane ≠ vehicle.Lane then st
    else
      let distance := fsub other.Pos vehicle.Pos
      if distance ≤ 0 ∨ distance > tm.DetectionDistance then st
      else if distance < st.2 then (some k, distance) else st

/-- The function `FindVehicleAhead`; the result is the key of the vehicle
found, `none` for the nil pointer. -/
def FindVehicleAhead (s : Sched) (tm : TrafficManager) (vehicle : Vehicle) :
    Option String :=
  ((s.ord "FindVehicleAhead" vehicle.ID tm.Vehicles.keys).foldl
    (findAheadStep tm vehicle) (none, fadd tm.DetectionDistance 1)).1

/-- The body of the second loop of `updateLeaderRelationships` for the map
entry `k`. -/
def linkStep (s : Sched) (tm : TrafficManager) (k : String) : TrafficManager :=
  match tm.Vehicles.get k with
  | none => tm
  | some v =>
    match FindVehicleAhead s tm v with
    | none => tm
    | some lk =>
      match tm.Vehicles.get lk with
      | none => tm
      | some leader => modifyVehicle tm k (fun v => { v with LeaderID := leader.ID })

def updateLeaderRelationships (s : Sched) (tm : TrafficManager) : TrafficManager :=
  let tm1 := (s.ord "updateLeaderRelationships.clear" "" tm.Vehicles.keys).foldl
    (fun tm k => modifyVehicle tm k (fun v => { v with LeaderID := "" })) tm
  (s.ord "updateLeaderRelationships.link" "" tm1.Vehicles.keys).foldl (linkStep s) tm1

/-- The body of the loop of `formAndUpdatePlatoons` for the map entry `id`. -/
def formStep (tm : TrafficManager) (id : String) : TrafficManager :=
  match tm.Vehicles.get id with
  | none => tm
  | some v =>
    if v.LeaderID = "" then tm
    else
      match tm.Vehicles.get v.LeaderID with
      | none => tm
      | some leader =>
        match tm.VehicleToPlatoon.get leader.ID with
        | some leaderPlatoonID =>
          (match tm.VehicleToPlatoon.get id with
          | none => AddVehicleToPlatoon tm id leaderPlatoonID
          | some currentPlatoonID =>
            if currentPlatoonID ≠ leaderPlatoonID then
              AddVehicleToPlatoon (RemoveVehicleFromPlatoon tm id currentPlatoonID) id
                leaderPlatoonID
            else tm)
        | none =>
          let gap := fsub leader.Pos v.Pos
          if gap ≤ 25.0 ∧ !isEdgeTransition leader.Edge v.Edge then
            let platoonID := "p_" ++ leader.Edge ++ "_" ++ leader.ID
            let tm1 := { tm with
              Platoons := tm.Platoons.set platoonID
                { ID := platoonID, VehicleIDs := [leader.ID, id], LeaderID := leader.ID,
                  Edge := leader.Edge, Lane := leader.Lane, StabilityRatio := 0,
                  IntersectionWaitTime := 0, PriorityUntil := none } }
            let tm2 := { tm1 with
              VehicleToPlatoon :=
                (tm1.VehicleToPlatoon.set leader.ID platoonID).set id platoonID }
            let tm3 := modifyVehicle tm2 v.LeaderID
              (fun l => { l with PlatoonID := platoonID, IsLeader := true })
            modifyVehicle tm3 id (fun w => { w with PlatoonID := platoonID, IsLeader := false })
          else tm

def formAndUpdatePlatoons (s : Sched) (tm : TrafficManager) : TrafficManager :=
  (s.ord "formAndUpdatePlatoons" "" tm.Vehicles.keys).foldl formStep tm

/-- The body of the loop of `cleanupPlatoons` for the map entry `platoonID`. -/
def cleanupStep (tm : TrafficManager) (platoonID : String) : TrafficManager :=
  match tm.Platoons.get platoonID with
  | none => tm
  | some platoon =>
    if platoon.VehicleIDs.length ≤ 1 then
      let tm1 := platoon.VehicleIDs.foldl
        (fun tm vid =>
          let tm' := modifyVehicle tm vid (fun v => { v with PlatoonID := "", IsLeader := false })
          { tm' with VehicleToPlatoon := tm'.VehicleToPlatoon.del vid })
        tm
      { tm1 with Platoons := tm1.Platoons.del platoonID }
    else tm

def cleanupPlatoons (s : Sched) (tm : TrafficManager) : TrafficManager :=
  (s.ord "cleanupPlatoons" "" tm.Platoons.keys).foldl cleanupStep tm

/-- One run of the inner loop of the bubble sorts of the source: `cnt`
adjacent comparisons from the front, swapping when `lt a b`. -/
def bubbleInner {α : Type} (lt : α → α → Bool) : Nat → List α → List α
  | n + 1, a :: b :: rest =>
    if lt a b then b :: bubbleInner lt n (a :: rest) else a :: bubbleInner lt n (b :: rest)
  | _, l => l

/-- The bubble sort written out in `createNewPlatoonFromVehicles`,
`getOrderedPlatoonVehicles` and `ensureProperSpacingOnLeavingEdge`: pass `i`
makes `len - i - 1` comparisons. -/
def bubbleSort {α : Type} (lt : α → α → Bool) (l : List α) : List α :=
  (List.range (l.length - 1)).foldl (fun acc i => bubbleInner lt (l.length - i - 1) acc) l

/-- The comparison `a.Pos < b.Pos` on two vehicle pointers, given by key. -/
def posLess (tm : TrafficManager) (a b : String) : Bool :=
  match tm.Vehicles.get a, tm.Vehicles.get b with
  | some va, some vb => decide (va.Pos < vb.Pos)
  | _, _ => false

/-- The field `ID` read through a vehicle pointer given by key. -/
def vehicleID (tm : TrafficManager) (k : String) : String :=
  match tm.Vehicles.get k with
  | some v => v.ID
  | none => ""

/-- The field `Lane` read through a vehicle pointer given by key. -/
def vehicleLane (tm : TrafficManager) (k : String) : String :=
  match tm.Vehicles.get k with
  | some v => v.Lane
  | none => ""

def createNewPlatoonFromVehicles (tm : TrafficManager) (vehicles : List String)
    (edge : String) : TrafficManager :=
  if vehicles.length < 2 then tm
  else
    let sortedVehicles := bubbleSort (posLess tm) vehicles
    match sortedVehicles with
    | [] => tm
    | newLeader :: _ =>
      let newLeaderID := vehicleID tm newLeader
      let newPlatoonID := "p_" ++ edge ++ "_" ++ newLeaderID ++ "_" ++ toString tm.TimeStep
      let newPlatoon : Platoon :=
        { ID := newPlatoonID, VehicleIDs := sortedVehicles.map (vehicleID tm),
          LeaderID := newLeaderID, Edge := edge, Lane := vehicleLane tm newLeader,
          StabilityRatio := 0, IntersectionWaitTime := 0, PriorityUntil := none }
      let tm1 := sortedVehicles.foldl
        (fun tm k =>
          match tm.Vehicles.get k with
          | none => tm
          | some v =>
            let tm' := modifyVehicle tm k
              (fun w => { w with PlatoonID := newPlatoonID, IsLeader := decide (w.ID = newLeaderID) })
            { tm' with VehicleToPlatoon := tm'.VehicleToPlatoon.set v.ID newPlatoonID })
        tm
      { tm1 with Platoons := tm1.Platoons.set newPlatoonID newPlatoon }

/-- The local map `vehiclesByEdge` of `checkEdgeTransitions`: the members of
the platoon that exist, grouped by their edge. -/
def membersByEdge (tm : TrafficManager) (vehicleIDs : List String) : GoMap (List String) :=
  vehicleIDs.foldl
    (fun m vid =>
      match tm.Vehicles.get vid with
      | none => m
      | some v => m.set v.Edge ((m.get v.Edge).getD [] ++ [vid]))
    []

/-- The flag `splitNeeded` of `checkEdgeTransitions`: some key of the local
map is a leaving edge and another one an incoming edge.  The two nested loops
of the source only search for such a pair, so the order in which they visit
the keys does not change the flag. -/
def splitNeeded (edges : List String) : Bool :=
  edges.any (fun edge1 =>
    (isLeavingEdge edge1 || isIncomingEdge edge1) &&
    edges.any (fun edge2 =>
      decide (edge1 ≠ edge2) &&
      ((isLeavingEdge edge1 && isIncomingEdge edge2) ||
       (isLeavingEdge edge2 && isIncomingEdge edge1))))

/-- The body of the loop of `checkEdgeTransitions` for the map entry
`platoonID`. -/
def edgeTransitionStep (s : Sched) (tm : TrafficManager) (platoonID : String) :
    TrafficManager :=
  match tm.Platoons.get platoonID with
  | none => tm
  | some platoon =>
    let vehiclesByEdge := membersByEdge tm platoon.VehicleIDs
    if vehiclesByEdge.length ≤ 1 then tm
    else if splitNeeded vehiclesByEdge.keys then
      let tm1 := (s.ord "checkEdgeTransitions.vehiclesByEdge" platoonID vehiclesByEdge.keys).foldl
        (fun tm edge =>
          match vehiclesByEdge.get edge with
          | none => tm
          | some edgeVehicles =>
            if edgeVehicles.length ≥ 2 ∧ isLeavingEdge edge then
              createNewPlatoonFromVehicles tm edgeVehicles edge
            else tm)
        tm
      let tm2 := { tm1 with Platoons := tm1.Platoons.del platoonID }
      platoon.VehicleIDs.foldl
        (fun tm vid => { tm with VehicleToPlatoon := tm.VehicleToPlatoon.del vid }) tm2
    else tm

def checkEdgeTransitions (s : Sched) (tm : TrafficManager) : TrafficManager :=
  (s.ord "checkEdgeTransitions" "" tm.Platoons.keys).foldl (edgeTransitionStep s) tm

def FindNearbyPlatoonLeaders (s : Sched) (tm : TrafficManager) (vehicle : Vehicle) :
    List String :=
  (s.ord "FindNearbyPlatoonLeaders" vehicle.ID tm.Vehicles.keys).filter
    (fun id =>
      match tm.Vehicles.get id with
      | none => false
      | some v =>
        if id = vehicle.ID then false
        else if !v.IsLeader ∨ v.Edge ≠ vehicle.Edge ∨ v.Lane ≠ vehicle.Lane then false
        else decide (|v.Pos - vehicle.Pos| ≤ 30.0))

def mergePlatoons (tm : TrafficManager) (leadingPlatoonID trailingPlatoonID : String) :
    TrafficManager :=
  match tm.Platoons.get leadingPlatoonID, tm.Platoons.get trailingPlatoonID with
  | some leadingPlatoon, some trailingPlatoon =>
    let newVehicleIDs := leadingPlatoon.VehicleIDs ++
      trailingPlatoon.VehicleIDs.filter (fun vid => !containsVehicle leadingPlatoon.VehicleIDs vid)
    let tm1 := trailingPlatoon.VehicleIDs.foldl
      (fun tm vid =>
        match tm.Vehicles.get vid with
        | none => tm
        | some _ =>
          if vid ≠ trailingPlatoon.LeaderID then
            let tm' := modifyVehicle tm vid (fun v => { v with PlatoonID := leadingPlatoonID })
            { tm' with VehicleToPlatoon := tm'.VehicleToPlatoon.set vid leadingPlatoonID }
          else tm)
      tm
    let tm2 :=
      match tm1.Vehicles.get trailingPlatoon.LeaderID with
      | none => tm1
      | some trailingLeader =>
        let tm' := modifyVehicle tm1 trailingPlatoon.LeaderID
          (fun v => { v with IsLeader := false, PlatoonID := leadingPlatoonID })
        { tm' with
          VehicleToPlatoon := tm'.VehicleToPlatoon.set trailingLeader.ID leadingPlatoonID }
    let tm3 := modifyPlatoon tm2 leadingPlatoonID (fun p => { p with VehicleIDs := newVehicleIDs })
    { tm3 with Platoons := tm3.Platoons.del trailingPlatoonID }
  | _, _ => tm

/-- The body of the inner loop of `consolidatePlatoons`: `platoon` and
`leaderKey` are the pointers held by the outer loop, `otherID` the current
element of the list returned by `FindNearbyPlatoonLeaders`. -/
def consolidateInner (platoon : Platoon) (leaderKey : String) (tm : TrafficManager)
    (otherID : String) : TrafficManager :=
  match tm.Vehicles.get leaderKey, tm.Vehicles.get otherID with
  | some leader, some otherLeader =>
    if otherLeader.Edge ≠ leader.Edge ∨ otherLeader.Lane ≠ leader.Lane then tm
    else if |otherLeader.Pos - leader.Pos| > 30.0 then tm
    else
      match tm.VehicleToPlatoon.get otherID with
      | none => tm
      | some otherPlatoonID =>
        match tm.Platoons.get otherPlatoonID with
        | none => tm
        | some otherPlatoon =>
          if otherPlatoon.ID = platoon.ID then tm
          else if otherLeader.Pos > leader.Pos then mergePlatoons tm platoon.ID otherPlatoon.ID
          else mergePlatoons tm otherPlatoon.ID platoon.ID
  | _, _ => tm

/-- The body of the outer loop of `consolidatePlatoons` for the map entry
`platoonID`. -/
def consolidateStep (s : Sched) (tm : TrafficManager) (platoonID : String) :
    TrafficManager :=
  match tm.Platoons.get platoonID with
  | none => tm
  | some platoon =>
    match tm.Vehicles.get platoon.LeaderID with
    | none => tm
    | some leader =>
      (FindNearbyPlatoonLeaders s tm leader).foldl (consolidateInner platoon platoon.LeaderID) tm

def consolidatePlatoons (s : Sched) (tm : TrafficManager) : TrafficManager :=
  (s.ord "consolidatePlatoons" "" tm.Platoons.keys).foldl (consolidateStep s) tm

def UpdatePlatoons (s : Sched) (tm : TrafficManager) : TrafficManager :=
  consolidatePlatoons s (checkEdgeTransitions s (cleanupPlatoons s
    (formAndUpdatePlatoons s (updateLeaderRelationships s tm))))

/-! ## Stability and reservations (`traffic_manager.go`) -/

/-- The body of the loop of `EstimatePlatoonStability` for the map entry
`platoonID`. -/
def stabilityStep (tm : TrafficManager) (platoonID : String) : TrafficManager :=
  match tm.Platoons.get platoonID with
  | none => tm
  | some platoon =>
    if platoon.VehicleIDs.length < 2 then tm
    else
      match tm.Vehicles.get platoon.LeaderID with
      | none => tm
      | some leader =>
        let totalVehicles := platoon.VehicleIDs.length
        let stableCount := (platoon.VehicleIDs.filter (fun vid =>
          if vid = platoon.LeaderID then false
          else
            match tm.Vehicles.get vid with
            | none => false
            | some follower => decide (follower.StablePlatoonTime > 5.0))).length
        let ratio : ℚ := (stableCount : ℚ) / ((totalVehicles : ℚ) - 1)
        let tm1 := modifyPlatoon tm platoonID (fun p => { p with StabilityRatio := ratio })
        if ratio > 0.7 ∧ totalVehicles ≥ 3 ∧ !leader.AtIntersection then
          modifyVehicle tm1 platoon.LeaderID
            (fun v => { v with DesiredSpeed := tm.StablePlatoonSpeed })
        else tm1

def EstimatePlatoonStability (s : Sched) (tm : TrafficManager) : TrafficManager :=
  (s.ord "EstimatePlatoonStability" "" tm.Platoons.keys).foldl stabilityStep tm

/-- The route table of `getVehicleRouteEdges`. -/
def routes : GoMap (List String) :=
  [("from_up_to_left", ["down_incoming", "left_leaving"]),
   ("from_up_to_down", ["down_incoming", "down_leaving"]),
   ("from_up_to_right", ["down_incoming", "right_leaving"]),
   ("from_right_to_left", ["left_incoming", "left_leaving"]),
   ("from_right_to_up", ["left_incoming", "up_leaving"]),
   ("from_right_to_down", ["left_incoming", "down_leaving"]),
   ("from_left_to_right", ["right_incoming", "right_leaving"]),
   ("from_left_to_up", ["right_incoming", "up_leaving"]),
   ("from_left_to_down", ["right_incoming", "down_leaving"]),
   ("from_down_to_up", ["up_incoming", "up_leaving"]),
   ("from_down_to_left", ["up_incoming", "left_leaving"]),
   ("from_down_to_right", ["up_incoming", "right_leaving"])]

def getVehicleRouteEdges (vehicleID : String) : List String :=
  let routeType :=
    if strContains vehicleID "up_to_left" then "from_up_to_left"
    else if strContains vehicleID "up_to_down" then "from_up_to_down"
    else if strContains vehicleID "up_to_right" then "from_up_to_right"
    else if strContains vehicleID "right_to_" then "from_right_to_"
    else if strContains vehicleID "left_to_" then "from_left_to_"
    else if strContains vehicleID "down_to_" then "from_down_to_"
    else ""
  match routes.get routeType with
  | some route => route
  | none => []

/-- The test `strings.HasPrefix(s, ":")`. -/
def hasColonPrefix (s : String) : Bool := startsWithColon s

/-- The search of `findNextIntersectionForVehicle` below one route position:
the first intersection, in the order in which the map is visited, one of whose
edges is the next route edge (or any edge at all when the next route edge is
internal). -/
def findIntersectionFor (tm : TrafficManager) (order : List String) (nextEdge : String) :
    Option String :=
  order.find? (fun intersectionID =>
    match tm.Intersections.get intersectionID with
    | none => false
    | some intersection =>
      intersection.Edges.any (fun intEdge => intEdge = nextEdge || hasColonPrefix nextEdge))

/-- The loop of `findNextIntersectionForVehicle` over the route, from index
`i`; `n` is the length of the whole route. -/
def findNextFrom (s : Sched) (tm : TrafficManager) (vehicle : Vehicle) (n : Nat) :
    Nat → List String → Option String
  | _, [] => none
  | _, [_] => none
  | i, edge :: next :: rest =>
    if edge = vehicle.Edge ∧ i < n - 1 then
      match findIntersectionFor tm
          (s.ord "findNextIntersectionForVehicle" (vehicle.ID ++ "/" ++ toString i)
            tm.Intersections.keys) next with
      | some k => some k
      | none => findNextFrom s tm vehicle n (i + 1) (next :: rest)
    else findNextFrom s tm vehicle n (i + 1) (next :: rest)

/-- The function `findNextIntersectionForVehicle`; the result is the key of
the intersection returned, `none` for nil. -/
def findNextIntersectionForVehicle (s : Sched) (tm : TrafficManager) (vehicle : Vehicle) :
    Option String :=
  let routeEdges := getVehicleRouteEdges vehicle.ID
  if routeEdges.length < 2 then none
  else findNextFrom s tm vehicle routeEdges.length 0 routeEdges

def estimateDistanceToIntersection (vehicle : Vehicle) : ℚ :=
  match getEdgeLengths.get vehicle.Edge with
  | some length => length - vehicle.Pos
  | none => -1

/-- The conversion `time.Duration(x)` of a `float64`: the fraction is cut off
(rounding toward zero). -/
def truncToInt (x : ℚ) : Int := x.num.tdiv x.den

/-- The conversion `time.Duration(x)` of a `float64` to the `int64` count of
nanoseconds: the fraction is cut off.  For a value outside the range of
`int64` the Go specification leaves the result to the implementation; it is
the smallest `int64` on amd64. -/
def durationOfFloat (x : ℚ) : Int :=
  if -(2 ^ 63 : Int) ≤ truncToInt x ∧ truncToInt x < 2 ^ 63 then truncToInt x
  else -(2 ^ 63)

/-- The function `estimateArrivalTime`; `now` is the reading of `time.Now()`.
The quotient and the product are `float64` operations. -/
def estimateArrivalTime (now : Int) (vehicle : Vehicle) (distance : ℚ) : Int :=
  if vehicle.Speed < 1.0 then
    now + durationOfFloat (fmul (fdiv distance 5.0) (second : ℚ))
  else now + durationOfFloat (fmul (fdiv distance vehicle.Speed) (second : ℚ))

/-- The overlap test of `hasConflictingReservation`: neither interval ends
before the other starts. -/
def timesOverlap (a b : IntersectionReservation) : Bool :=
  !(decide (a.EndTime < b.StartTime) || decide (a.StartTime > b.EndTime))

/-- The function `hasConflictingReservation`.  The loop only searches for an
entry with three properties, so the order of the visit does not change the
result. -/
def hasConflictingReservation (tm : TrafficManager)
    (newReservation : IntersectionReservation) : Bool :=
  tm.IntersectionReservations.keys.any (fun k =>
    match tm.IntersectionReservations.get k with
    | none => false
    | some existing =>
      if existing.IntersectionID ≠ newReservation.IntersectionID then false
      else if !timesOverlap existing newReservation then false
      else if areMovementsCompatible existing.EdgeFrom existing.Direction
          newReservation.EdgeFrom newReservation.Direction then false
      else true)

/-- The reservation record that `ReservePlatoonIntersectionSlots` builds for
a platoon, its leader and the intersection found; `now` is the clock reading
of `estimateArrivalTime`. -/
def buildReservation (now : Int) (platoon : Platoon) (leader : Vehicle)
    (nextIntersection : Intersection) : IntersectionReservation :=
  let distanceToIntersection := estimateDistanceToIntersection leader
  let estimatedArrivalTime := estimateArrivalTime now leader distanceToIntersection
  let passingTime : ℚ := (platoon.VehicleIDs.length : ℚ) * 1.5
  { ID := platoon.ID ++ "_" ++ nextIntersection.ID,
    IntersectionID := nextIntersection.ID,
    PlatoonID := platoon.ID,
    StartTime := estimatedArrivalTime,
    EndTime := estimatedArrivalTime + truncToInt passingTime * second,
    EdgeFrom := leader.Edge,
    Direction := leader.TurnDirection }

/-- The body of the loop of `ReservePlatoonIntersectionSlots` for the map
entry `platoonID`. -/
def reserveStep (s : Sched) (tm : TrafficManager) (platoonID : String) : TrafficManager :=
  match tm.Platoons.get platoonID with
  | none => tm
  | some platoon =>
    if platoon.VehicleIDs.length < 3 ∨ platoon.StabilityRatio < 0.6 then tm
    else
      match tm.Vehicles.get platoon.LeaderID with
      | none => tm
      | some leader =>
        if leader.AtIntersection then tm
        else
          match findNextIntersectionForVehicle s tm leader with
          | none => tm
          | some ik =>
            match tm.Intersections.get ik with
            | none => tm
            | some nextIntersection =>
              let distanceToIntersection := estimateDistanceToIntersection leader
              if distanceToIntersection > 100 ∨ distanceToIntersection < 0 then tm
              else
                let reservation := buildReservation
                  (s.now "estimateArrivalTime" platoonID) platoon leader nextIntersection
                if tm.IntersectionReservations.has reservation.ID then tm
                else if !hasConflictingReservation tm reservation then
                  modifyIntersection
                    { tm with IntersectionReservations :=
                        tm.IntersectionReservations.set reservation.ID reservation }
                    ik (fun i => { i with HasReservation := true })
                else tm

def ReservePlatoonIntersectionSlots (s : Sched) (tm : TrafficManager) : TrafficManager :=
  (s.ord "ReservePlatoonIntersectionSlots" "" tm.Platoons.keys).foldl (reserveStep s) tm

/-! ## Turn directions (`intersection_manager.go`) -/

/-- Case folding of the regular expressions compiled with `(?i)`: ASCII
capitals, and the long s (U+017F), which folds to `s`. -/
def foldCase (c : Char) : Char :=
  if c = Char.ofNat 0x17F then 's' else c.toLower

/-- The text ends with `pat`, or with `pat` and one decimal digit. -/
def endsWithOptDigit (pat l : List Char) : Bool :=
  pat.isSuffixOf l ||
    (match l.reverse with
     | d :: r => d.isDigit && pat.reverse.isPrefixOf r
     | [] => false)

/-- The match of the pattern `(?i)_l[0-9]?$|_sl[0-9]?$|left`. -/
def leftTurnPattern (lane : String) : Bool :=
  let l := lane.data.map foldCase
  endsWithOptDigit "_l".data l || endsWithOptDigit "_sl".data l || containsChars "left".data l

/-- The match of the pattern `(?i)_r[0-9]?$|_sr[0-9]?$|right`. -/
def rightTurnPattern (lane : String) : Bool :=
  let l := lane.data.map foldCase
  endsWithOptDigit "_r".data l || endsWithOptDigit "_sr".data l || containsChars "right".data l

def calculateTurnDirectionFromEdges (currentEdge nextEdge : String) : String :=
  let turnMap : GoMap (GoMap String) :=
    [("down_incoming", [("left_leaving", TurnRight), ("down_leaving", TurnStraight),
        ("right_leaving", TurnLeft)]),
     ("left_incoming", [("up_leaving", TurnRight), ("left_leaving", TurnStraight),
        ("down_leaving", TurnLeft)]),
     ("up_incoming", [("right_leaving", TurnRight), ("up_leaving", TurnStraight),
        ("left_leaving", TurnLeft)]),
     ("right_incoming", [("down_leaving", TurnRight), ("right_leaving", TurnStraight),
        ("up_leaving", TurnLeft)])]
  match turnMap.get currentEdge with
  | some edgeMap =>
    (match edgeMap.get nextEdge with
     | some direction => direction
     | none => TurnStraight)
  | none => TurnStraight

/-- The loop of `determineTurnDirection` over the inferred route: the edge
after the first position (not the last) that holds the current edge. -/
def routeSuccessor (currentEdge : String) : List String → Option String
  | edge :: next :: rest =>
    if edge = currentEdge then some next else routeSuccessor currentEdge (next :: rest)
  | _ => none

def determineTurnDirection (vehicle : Vehicle) (nextEdge : String) : String :=
  let currentEdge := vehicle.Edge
  if startsWithColon currentEdge then
    if strContains vehicle.Lane "_left" then TurnLeft
    else if strContains vehicle.Lane "_right" then TurnRight
    else if leftTurnPattern vehicle.Lane then TurnLeft
    else if rightTurnPattern vehicle.Lane then TurnRight
    else TurnStraight
  else if nextEdge ≠ "" then calculateTurnDirectionFromEdges currentEdge nextEdge
  else
    match (if (getVehicleRouteEdges vehicle.ID).length > 1 then
        routeSuccessor currentEdge (getVehicleRouteEdges vehicle.ID) else none) with
    | some next => calculateTurnDirectionFromEdges currentEdge next
    | none =>
      if strContains vehicle.Lane "left" || strContains vehicle.Lane "_l" then TurnLeft
      else if strContains vehicle.Lane "right" || strContains vehicle.Lane "_r" then TurnRight
      else TurnStraight

def getSourceEdgeForInternal (vehicle : Vehicle) : String :=
  match splitUnderscore vehicle.Edge with
  | _ :: second :: _ => second
  | _ => ""

def getSourceEdgeForVehicle (vehicle : Vehicle) : String :=
  if startsWithColon vehicle.Edge then getSourceEdgeForInternal vehicle else vehicle.Edge

def extractIntersectionID (edge : String) : String :=
  if startsWithColon edge then
    match splitUnderscore edge with
    | first :: _ => first
    | [] => ""
  else ""

/-! ## Waiting times and the size cap -/

/-- The body of the loop of `updatePlatoonWaitTimes` for the map entry
`platoonID`. -/
def waitStep (tm : TrafficManager) (platoonID : String) : TrafficManager :=
  match tm.Platoons.get platoonID with
  | none => tm
  | some platoon =>
    match tm.Vehicles.get platoon.LeaderID with
    | none => tm
    | some leader =>
      if !isIncomingEdge leader.Edge then
        modifyPlatoon tm platoonID
          (fun p => { p with IntersectionWaitTime := 0, PriorityUntil := none })
      else if leader.Speed < 1.0 ∧ isVehicleAtIntersection leader then
        modifyPlatoon tm platoonID (fun p =>
          { p with IntersectionWaitTime :=
              p.IntersectionWaitTime + 3 +
                (if p.VehicleIDs.length ≥ 5 then 5
                 else if p.VehicleIDs.length ≥ 3 then 2 else 0) })
      else modifyPlatoon tm platoonID (fun p => { p with IntersectionWaitTime := 0 })

def updatePlatoonWaitTimes (s : Sched) (tm : TrafficManager) : TrafficManager :=
  (s.ord "updatePlatoonWaitTimes" "" tm.Platoons.keys).foldl waitStep tm

/-- Insertion of `x` into a list sorted by `before`, after every element that
does not come strictly after it. -/
def insertSorted {α : Type} (before : α → α → Bool) (x : α) : List α → List α
  | [] => [x]
  | h :: t => if before x h then x :: h :: t else h :: insertSorted before x t

/-- The call `sort.Slice(l, before)`.  Go does not fix the order of elements
that compare equal; here they keep their order. -/
def sortSlice {α : Type} (before : α → α → Bool) (l : List α) : List α :=
  l.foldl (fun acc x => insertSorted before x acc) []

/-- The body of the loop of `enforcePlatoonSizeLimits` for the map entry
`platoonID`.  The result is `none` when the source panics: the slice
expression `sortedVehicles[maxSize:]` is out of range when fewer than
`maxSize` members exist. -/
def enforceStep (maxSize : Nat) (tm : TrafficManager) (platoonID : String) :
    Option TrafficManager :=
  match tm.Platoons.get platoonID with
  | none => some tm
  | some platoon =>
    if platoon.VehicleIDs.length > maxSize then
      let existing := platoon.VehicleIDs.filter (fun vid => tm.Vehicles.has vid)
      let sortedVehicles := sortSlice (fun a b => posLess tm b a) existing
      if sortedVehicles.length < maxSize then none
      else
        let firstGroup := sortedVehicles.take maxSize
        let secondGroup := sortedVehicles.drop maxSize
        match secondGroup with
        | [] => some tm
        | newLeader :: _ =>
          let newPlatoonID := "p_split_" ++ platoon.Edge ++ "_" ++ toString tm.TimeStep
          let newLeaderID := vehicleID tm newLeader
          let newPlatoon : Platoon :=
            { ID := newPlatoonID, VehicleIDs := secondGroup.map (vehicleID tm),
              LeaderID := newLeaderID, Edge := platoon.Edge, Lane := vehicleLane tm newLeader,
              StabilityRatio := 0, IntersectionWaitTime := 0, PriorityUntil := none }
          let tm1 := secondGroup.foldl
            (fun tm k =>
              match tm.Vehicles.get k with
              | none => tm
              | some v =>
                let tm' := modifyVehicle tm k (fun w =>
                  { w with PlatoonID := newPlatoonID, IsLeader := decide (w.ID = newLeaderID) })
                { tm' with VehicleToPlatoon := tm'.VehicleToPlatoon.set v.ID newPlatoonID })
            tm
          let tm2 := { tm1 with Platoons := tm1.Platoons.set newPlatoonID newPlatoon }
          -- the write goes through the pointer read at the top of the loop body; the
          -- record is still the entry at `platoonID` unless the new id is that key
          some (if newPlatoonID = platoonID then tm2
            else modifyPlatoon tm2 platoonID
              (fun p => { p with VehicleIDs := firstGroup.map (vehicleID tm) }))
    else some tm

def enforcePlatoonSizeLimits (s : Sched) (maxSize : Nat) (tm : TrafficManager) :
    Option TrafficManager :=
  (s.ord "enforcePlatoonSizeLimits" "" tm.Platoons.keys).foldl
    (fun acc k => acc.bind (fun tm => enforceStep maxSize tm k)) (some tm)

/-! ## Intersection arbitration (`intersection_manager.go`) -/

/-- The field `Speed` read through a vehicle pointer given by key. -/
def vehicleSpeed (tm : TrafficManager) (k : String) : ℚ :=
  match tm.Vehicles.get k with
  | some v => v.Speed
  | none => 0

/-- The field `DesiredSpeed` read through a vehicle pointer given by key. -/
def vehicleDesired (tm : TrafficManager) (k : String) : ℚ :=
  match tm.Vehicles.get k with
  | some v => v.DesiredSpeed
  | none => 0

/-- The field `TurnDirection` read through a vehicle pointer given by key. -/
def vehicleTurn (tm : TrafficManager) (k : String) : String :=
  match tm.Vehicles.get k with
  | some v => v.TurnDirection
  | none => ""

/-- The assignment `v.DesiredSpeed = x` through a vehicle pointer. -/
def setDesired (tm : TrafficManager) (k : String) (x : ℚ) : TrafficManager :=
  modifyVehicle tm k (fun v => { v with DesiredSpeed := x })

/-- The pairs (edge, platoon id) in the order in which the nested loops
`for edge, platoons := range platoonsByEdge { for _, platoonID := range platoons`
meet them. -/
def bucketPairs (order : List String) (platoonsByEdge : GoMap (List String)) :
    List (String × String) :=
  order.flatMap (fun edge =>
    match platoonsByEdge.get edge with
    | none => []
    | some platoons => platoons.map (fun platoonID => (edge, platoonID)))

/-- The platoon holds a priority window that has not run out at `now`, and
its leader exists. -/
def hasActivePriority (tm : TrafficManager) (now : Int) (platoonID : String) : Bool :=
  match tm.Platoons.get platoonID with
  | none => false
  | some platoon =>
    (match platoon.PriorityUntil with
     | some deadline => decide (now < deadline)
     | none => false) && tm.Vehicles.has platoon.LeaderID

/-- The platoon qualifies for forced priority: its leader exists, and it has
at least 5 members or has waited 60 units. -/
def qualifiesForForced (tm : TrafficManager) (platoonID : String) : Bool :=
  match tm.Platoons.get platoonID with
  | none => false
  | some platoon =>
    tm.Vehicles.has platoon.LeaderID &&
      !(decide (platoon.VehicleIDs.length < 5) && decide (platoon.IntersectionWaitTime < 60))

/-- The speed overrides that follow a priority decision: the leader gets
`min(Speed + boost, cap)`, every other member `min(leader.DesiredSpeed,
Speed + followerBoost)`. -/
def boostPlatoon (tm : TrafficManager) (platoon : Platoon) (boost cap followerBoost : ℚ) :
    TrafficManager :=
  let leaderKey := platoon.LeaderID
  let leaderID := vehicleID tm leaderKey
  let tm1 := setDesired tm leaderKey (min (vehicleSpeed tm leaderKey + boost) cap)
  platoon.VehicleIDs.foldl
    (fun tm vid =>
      if vid = leaderID then tm
      else
        match tm.Vehicles.get vid with
        | none => tm
        | some follower =>
          setDesired tm vid (min (vehicleDesired tm leaderKey) (follower.Speed + followerBoost)))
    tm1

/-- The loop that stops every vehicle bucketed under a key other than `edge`. -/
def stopOtherEdges (tm : TrafficManager) (order : List String)
    (vehiclesByEdge : GoMap (List String)) (edge : String) : TrafficManager :=
  order.foldl
    (fun tm otherEdge =>
      if otherEdge = edge then tm
      else
        match vehiclesByEdge.get otherEdge with
        | none => tm
        | some vehicles => vehicles.foldl (fun tm v => setDesired tm v 0.0) tm)
    tm

/-- The pair the first loop of `handleForcedPriorityPlatoons` stops at: a
listed platoon that still holds priority. -/
def findMaintained (s : Sched) (tm : TrafficManager) (intersectionID : String)
    (now : Int) (platoonsByEdge : GoMap (List String)) : Option (String × String) :=
  (bucketPairs (s.ord "handleForcedPriorityPlatoons.maintain" intersectionID
    platoonsByEdge.keys) platoonsByEdge).find? (fun ep => hasActivePriority tm now ep.2)

/-- The pair the second loop of `handleForcedPriorityPlatoons` stops at: a
listed platoon that is granted forced priority. -/
def findForced (s : Sched) (tm : TrafficManager) (intersectionID : String)
    (platoonsByEdge : GoMap (List String)) : Option (String × String) :=
  (bucketPairs (s.ord "handleForcedPriorityPlatoons.grant" intersectionID
    platoonsByEdge.keys) platoonsByEdge).find? (fun ep => qualifiesForForced tm ep.2)

def handleForcedPriorityPlatoons (s : Sched) (tm : TrafficManager) (intersectionID : String)
    (vehiclesByEdge platoonsByEdge : GoMap (List String)) : TrafficManager :=
  let now := s.now "handleForcedPriorityPlatoons" intersectionID
  match findMaintained s tm intersectionID now platoonsByEdge with
  | some (edge, platoonID) =>
    (match tm.Platoons.get platoonID with
     | none => tm
     | some platoon =>
       stopOtherEdges (boostPlatoon tm platoon 5.0 19.4 4.0)
         (s.ord "handleForcedPriorityPlatoons.stop" intersectionID vehiclesByEdge.keys)
         vehiclesByEdge edge)
  | none =>
    match findForced s tm intersectionID platoonsByEdge with
    | none => tm
    | some (edge, platoonID) =>
      match tm.Platoons.get platoonID with
      | none => tm
      | some platoon =>
        let tm1 := modifyPlatoon tm platoonID
          (fun p => { p with PriorityUntil := some (now + 15 * second) })
        stopOtherEdges (boostPlatoon tm1 platoon 5.0 19.4 4.0)
          (s.ord "handleForcedPriorityPlatoons.stop" intersectionID vehiclesByEdge.keys)
          vehiclesByEdge edge

def findReservationsForIntersection (s : Sched) (tm : TrafficManager)
    (intersectionID : String) : List String :=
  (s.ord "findReservationsForIntersection" intersectionID
    tm.IntersectionReservations.keys).filter (fun id =>
      match tm.IntersectionReservations.get id with
      | none => false
      | some reservation => reservation.IntersectionID = intersectionID)

/-- The innermost loops of `handleReservations`: every vehicle bucketed under
a key other than the reserved edge whose movement is incompatible with the
reservation is slowed. -/
def slowIncompatible (tm : TrafficManager) (order : List String)
    (vehiclesByEdge : GoMap (List String)) (reservation : IntersectionReservation) :
    TrafficManager :=
  order.foldl
    (fun tm otherEdge =>
      if otherEdge = reservation.EdgeFrom then tm
      else
        match vehiclesByEdge.get otherEdge with
        | none => tm
        | some otherVehicles =>
          otherVehicles.foldl
            (fun tm k =>
              if areMovementsIncompatible reservation.EdgeFrom reservation.Direction
                  otherEdge (vehicleTurn tm k) then
                setDesired tm k (max 0.0 (vehicleSpeed tm k - 2.0))
              else tm)
            tm)
    tm

/-- The body of the member loop of `handleReservations` for the member
`vehicleKey` of the platoon that holds the active reservation. -/
def reservationMemberStep (s : Sched) (intersectionID : String)
    (vehiclesByEdge : GoMap (List String)) (reservation : IntersectionReservation)
    (platoon : Platoon) (tm : TrafficManager) (vehicleKey : String) : TrafficManager :=
  match tm.Vehicles.get vehicleKey with
  | none => tm
  | some vehicle =>
    if !vehicle.AtIntersection then tm
    else
      let stepped : Option TrafficManager :=
        if vehicle.ID = platoon.LeaderID then
          some (setDesired tm vehicleKey (min (vehicle.Speed + 3.0) tm.MaxPlatoonSpeed))
        else
          match tm.Vehicles.get platoon.LeaderID with
          | none => none
          | some leaderVehicle =>
            let followDist := leaderVehicle.Pos - vehicle.Pos
            some (setDesired tm vehicleKey
              (if followDist > 20.0 then min (leaderVehicle.Speed * 1.2) (leaderVehicle.Speed + 5.0)
               else if followDist < 8.0 then max (leaderVehicle.Speed * 0.8) 5.0
               else leaderVehicle.Speed))
      match stepped with
      | none => tm
      | some tm1 =>
        slowIncompatible tm1
          (s.ord "handleReservations.vehiclesByEdge" (intersectionID ++ "/" ++ vehicleKey)
            vehiclesByEdge.keys)
          vehiclesByEdge reservation

def handleReservations (s : Sched) (tm : TrafficManager) (intersectionID : String)
    (vehiclesByEdge : GoMap (List String)) : TrafficManager :=
  let now := s.now "handleReservations" intersectionID
  (findReservationsForIntersection s tm intersectionID).foldl
    (fun tm reservationID =>
      match tm.IntersectionReservations.get reservationID with
      | none => tm
      | some reservation =>
        if now > reservation.StartTime ∧ now < reservation.EndTime then
          match tm.Platoons.get reservation.PlatoonID with
          | none => tm
          | some platoon =>
            platoon.VehicleIDs.foldl
              (reservationMemberStep s intersectionID vehiclesByEdge reservation platoon) tm
        else tm)
    tm

/-- The loop of `handlePriorityPlatoons` (maintaining branch) over the other
edges: a vehicle is stopped unless its platoon holds a priority window that
has not yet run out at `now`. -/
def stopOthersUnlessPriority (tm : TrafficManager) (now : Int) (order : List String)
    (vehiclesByEdge : GoMap (List String)) (edge : String) : TrafficManager :=
  order.foldl
    (fun tm otherEdge =>
      if otherEdge = edge then tm
      else
        match vehiclesByEdge.get otherEdge with
        | none => tm
        | some vehicles =>
          vehicles.foldl
            (fun tm k =>
              match tm.VehicleToPlatoon.get (vehicleID tm k) with
              | none => setDesired tm k 0.0
              | some otherPlatoonID =>
                match tm.Platoons.get otherPlatoonID with
                | none => setDesired tm k 0.0
                | some otherPlatoon =>
                  match otherPlatoon.PriorityUntil with
                  | none => setDesired tm k 0.0
                  | some deadline => if now > deadline then setDesired tm k 0.0 else tm)
            tm)
    tm

/-- The loop of `handlePriorityPlatoons` (granting branch) over the other
edges: a vehicle is stopped unless its platoon has waited at least half as
long as the selected one (`selectedWait` is read through the pointer to the
selected platoon). -/
def stopOthersUnlessWaiting (tm : TrafficManager) (selectedKey : String)
    (order : List String) (vehiclesByEdge : GoMap (List String)) (edge : String) :
    TrafficManager :=
  order.foldl
    (fun tm otherEdge =>
      if otherEdge = edge then tm
      else
        match vehiclesByEdge.get otherEdge with
        | none => tm
        | some vehicles =>
          vehicles.foldl
            (fun tm k =>
              match tm.VehicleToPlatoon.get (vehicleID tm k) with
              | none => setDesired tm k 0.0
              | some otherPlatoonID =>
                match tm.Platoons.get otherPlatoonID, tm.Platoons.get selectedKey with
                | some otherPlatoon, some platoon =>
                  if otherPlatoon.IntersectionWaitTime < platoon.IntersectionWaitTime.tdiv 2 then
                    setDesired tm k 0.0
                  else tm
                | _, _ => setDesired tm k 0.0)
            tm)
    tm

/-- The score of a platoon in `handlePriorityPlatoons`. -/
def priorityScore (platoon : Platoon) : ℚ :=
  let size := platoon.VehicleIDs.length
  let waitTime := platoon.IntersectionWaitTime
  (size : ℚ) * 20.0 + (waitTime : ℚ) * 10.0 +
    (if size ≥ 5 then 150.0 else if size ≥ 3 then 75.0 else 0) +
    (if waitTime > 60 then 300.0 else if waitTime > 30 then 150.0
     else if waitTime > 15 then 75.0 else 0)

/-- An entry of the local `priorityQueue`. -/
structure PlatoonPriority where
  platoonID : String
  edge : String
  priorityScore : ℚ
  deriving DecidableEq, Repr

/-- The queue built by the second pair of loops of `handlePriorityPlatoons`. -/
def buildPriorityQueue (tm : TrafficManager) (pairs : List (String × String)) :
    List PlatoonPriority :=
  pairs.filterMap (fun ep =>
    match tm.Platoons.get ep.2 with
    | none => none
    | some platoon =>
      match tm.Vehicles.get platoon.LeaderID with
      | none => none
      | some leaderVehicle =>
        if leaderVehicle.Speed > 3.0 then none
        else some { platoonID := ep.2, edge := ep.1, priorityScore := priorityScore platoon })

def handlePriorityPlatoons (s : Sched) (tm : TrafficManager) (intersectionID : String)
    (vehiclesByEdge platoonsByEdge : GoMap (List String)) : TrafficManager :=
  let now := s.now "handlePriorityPlatoons" intersectionID
  match tm.Intersections.get intersectionID with
  | none => tm
  | some intersection =>
    if ((now - intersection.LastPlatoonPassTime : Int) : ℚ) / (second : ℚ) < 3.0 then tm
    else
      match (bucketPairs (s.ord "handlePriorityPlatoons.maintain" intersectionID
          platoonsByEdge.keys) platoonsByEdge).find?
          (fun ep => hasActivePriority tm now ep.2) with
      | some (edge, platoonID) =>
        (match tm.Platoons.get platoonID with
         | none => tm
         | some platoon =>
           let tm1 := boostPlatoon tm platoon 4.0 16.7 3.0
           let tm2 := stopOthersUnlessPriority tm1 now
             (s.ord "handlePriorityPlatoons.stop" intersectionID vehiclesByEdge.keys)
             vehiclesByEdge edge
           modifyIntersection tm2 intersectionID (fun i => { i with LastPlatoonPassTime := now }))
      | none =>
        let priorityQueue := buildPriorityQueue tm
          (bucketPairs (s.ord "handlePriorityPlatoons.score" intersectionID
            platoonsByEdge.keys) platoonsByEdge)
        match sortSlice (fun a b => decide (a.priorityScore > b.priorityScore)) priorityQueue with
        | [] => tm
        | highestPriority :: _ =>
          match tm.Platoons.get highestPriority.platoonID with
          | none => tm
          | some platoon =>
            let tm1 := modifyPlatoon tm highestPriority.platoonID
              (fun p => { p with PriorityUntil := some (now + 15 * second) })
            if !tm1.Vehicles.has platoon.LeaderID then tm1
            else
              let tm2 := boostPlatoon tm1 platoon 4.0 16.7 3.0
              let tm3 := stopOthersUnlessWaiting tm2 highestPriority.platoonID
                (s.ord "handlePriorityPlatoons.stop" intersectionID vehiclesByEdge.keys)
                vehiclesByEdge highestPriority.edge
              modifyIntersection tm3 intersectionID
                (fun i => { i with LastPlatoonPassTime := now })

/-- The follower loop of `handleNonConflictingMovements`: when the cleared
vehicle leads its platoon, every other member gets `min(cap, Speed + boost)`. -/
def boostFollowers (tm : TrafficManager) (vehicle : Vehicle) (cap boost : ℚ) :
    TrafficManager :=
  match tm.VehicleToPlatoon.get vehicle.ID with
  | none => tm
  | some platoonID =>
    match tm.Platoons.get platoonID with
    | none => tm
    | some platoon =>
      if platoon.LeaderID = vehicle.ID then
        platoon.VehicleIDs.foldl
          (fun tm followerId =>
            if followerId = vehicle.ID then tm
            else
              match tm.Vehicles.get followerId with
              | none => tm
              | some follower => setDesired tm followerId (min cap (follower.Speed + boost)))
          tm
      else tm

/-- The flag `canProceed` of the right-turn loop: no vehicle bucketed under
the left edge of the vehicle's source edge goes straight. -/
def canProceed (tm : TrafficManager) (vehiclesByEdge : GoMap (List String))
    (vehicle : Vehicle) : Bool :=
  let leftEdgeKey := getLeftEdge (getSourceEdgeForVehicle vehicle)
  !((vehiclesByEdge.get leftEdgeKey).getD []).any
    (fun leftVehicle => vehicleTurn tm leftVehicle = TurnStraight)

/-- The body of the right-turn loop of `handleNonConflictingMovements` for
the element `x` of `rightTurn`. -/
def rightTurnStep (vehiclesByEdge : GoMap (List String)) (tm : TrafficManager)
    (x : String) : TrafficManager :=
  match tm.Vehicles.get x with
  | none => tm
  | some vehicle =>
    if canProceed tm vehiclesByEdge vehicle then
      boostFollowers (setDesired tm x (min 16.0 (vehicle.Speed + 3.5))) vehicle 14.0 3.0
    else tm

/-- The body of the left-turn loop of `handleNonConflictingMovements` for one
vehicle of the bucket `edgeKey`. -/
def leftTurnStep (vehiclesByEdge : GoMap (List String)) (edgeKey : String)
    (tm : TrafficManager) (x : String) : TrafficManager :=
  match tm.Vehicles.get x with
  | none => tm
  | some vehicle =>
    if vehicle.TurnDirection ≠ TurnLeft then tm
    else
      let oppositeVehicles := (vehiclesByEdge.get (getOppositeEdge edgeKey)).getD []
      let oppositeRightTurns :=
        (oppositeVehicles.filter (fun o => vehicleTurn tm o = TurnRight)).length
      let oppositeOthers :=
        (oppositeVehicles.filter (fun o => vehicleTurn tm o ≠ TurnRight)).length
      if oppositeRightTurns > 0 ∧ oppositeOthers = 0 then
        boostFollowers (setDesired tm x (min 10.0 (vehicle.Speed + 2.0))) vehicle 9.0 1.5
      else tm

/-- The loops of the directional biasing: every STRAIGHT vehicle bucketed
under one of `edges` gets the speed `f Speed`. -/
def biasStraight (tm : TrafficManager) (vehiclesByEdge : GoMap (List String))
    (edges : List String) (f : ℚ → ℚ) : TrafficManager :=
  edges.foldl
    (fun tm edge =>
      ((vehiclesByEdge.get edge).getD []).foldl
        (fun tm k =>
          if vehicleTurn tm k = TurnStraight then setDesired tm k (f (vehicleSpeed tm k))
          else tm)
        tm)
    tm

def handleNonConflictingMovements (s : Sched) (tm : TrafficManager) (intersectionID : String)
    (vehiclesByEdge platoonsByEdge : GoMap (List String)) (rightTurn : List String) :
    TrafficManager :=
  let tm1 := rightTurn.foldl (rightTurnStep vehiclesByEdge) tm
  let tm2 := (s.ord "handleNonConflictingMovements.left" intersectionID
      vehiclesByEdge.keys).foldl
    (fun tm edgeKey =>
      ((vehiclesByEdge.get edgeKey).getD []).foldl (leftTurnStep vehiclesByEdge edgeKey) tm)
    tm1
  let count := fun (m : GoMap (List String)) (k : String) => ((m.get k).getD []).length
  let northSouthPlatoonCount :=
    count platoonsByEdge "down_incoming" + count platoonsByEdge "up_incoming"
  let eastWestPlatoonCount :=
    count platoonsByEdge "left_incoming" + count platoonsByEdge "right_incoming"
  let northSouthCount :=
    count vehiclesByEdge "down_incoming" + count vehiclesByEdge "up_incoming" +
      (if northSouthPlatoonCount > eastWestPlatoonCount then 5 else 0)
  let eastWestCount :=
    count vehiclesByEdge "left_incoming" + count vehiclesByEdge "right_incoming" +
      (if northSouthPlatoonCount > eastWestPlatoonCount then 0
       else if eastWestPlatoonCount > northSouthPlatoonCount then 5 else 0)
  if northSouthCount > eastWestCount + 2 then
    biasStraight
      (biasStraight tm2 vehiclesByEdge ["down_incoming", "up_incoming"]
        (fun v => min 14.0 (v + 3.0)))
      vehiclesByEdge ["left_incoming", "right_incoming"] (fun v => max 0.0 (v - 1.5))
  else if eastWestCount > northSouthCount + 2 then
    biasStraight
      (biasStraight tm2 vehiclesByEdge ["left_incoming", "right_incoming"]
        (fun v => min 14.0 (v + 3.0)))
      vehiclesByEdge ["down_incoming", "up_incoming"] (fun v => max 0.0 (v - 1.5))
  else tm2

/-! ## Vehicles past the intersection -/

/-- The member of greatest `Pos` among the vehicles, the first one among
equals (the selection loop of `splitPlatoon`). -/
def frontMost (tm : TrafficManager) : List String → Option String
  | [] => none
  | first :: rest =>
    some (rest.foldl (fun best v => if posLess tm best v then v else best) first)

/-- The function `splitPlatoon`; `platoonKey` is the key under which the
pointer `platoon` was read, `now` the reading of `time.Now().UnixNano()`. -/
def splitPlatoon (tm : TrafficManager) (now : Int) (platoonKey edgeID : String) :
    TrafficManager :=
  match tm.Platoons.get platoonKey with
  | none => tm
  | some platoon =>
    let existing := platoon.VehicleIDs.filter (fun vid => tm.Vehicles.has vid)
    let onEdge := fun (vid : String) =>
      match tm.Vehicles.get vid with
      | some v => decide (v.Edge = edgeID)
      | none => false
    let vehiclesOnEdge := existing.filter onEdge
    let vehiclesNotOnEdge := existing.filter (fun vid => !onEdge vid)
    if vehiclesOnEdge.length < 2 ∨ vehiclesNotOnEdge.length < 1 then tm
    else
      match frontMost tm vehiclesOnEdge with
      | none => tm
      | some newLeader =>
        let newPlatoonID := "p_" ++ edgeID ++ "_" ++ toString now
        let newLeaderID := vehicleID tm newLeader
        let newPlatoon : Platoon :=
          { ID := newPlatoonID, VehicleIDs := vehiclesOnEdge.map (vehicleID tm),
            LeaderID := newLeaderID, Edge := edgeID, Lane := vehicleLane tm newLeader,
            StabilityRatio := 0, IntersectionWaitTime := 0, PriorityUntil := none }
        let tm1 := vehiclesOnEdge.foldl
          (fun tm k =>
            match tm.Vehicles.get k with
            | none => tm
            | some v =>
              let tm' := modifyVehicle tm k (fun w =>
                { w with IsLeader := decide (w.ID = newLeaderID), PlatoonID := newPlatoonID })
              { tm' with VehicleToPlatoon :=
                  (tm'.VehicleToPlatoon.set v.ID newPlatoonID).del v.ID })
          tm
        let tm2 := { tm1 with Platoons := tm1.Platoons.set newPlatoonID newPlatoon }
        let remainingIDs := vehiclesNotOnEdge.map (vehicleID tm)
        if remainingIDs.length < 2 then
          let tm3 := vehiclesNotOnEdge.foldl
            (fun tm k =>
              match tm.Vehicles.get k with
              | none => tm
              | some v =>
                let tm' := modifyVehicle tm k
                  (fun w => { w with PlatoonID := "", IsLeader := false })
                { tm' with VehicleToPlatoon := tm'.VehicleToPlatoon.del v.ID })
            tm2
          { tm3 with Platoons := tm3.Platoons.del platoon.ID }
        else if newPlatoonID = platoonKey then tm2
        else modifyPlatoon tm2 platoonKey (fun p => { p with VehicleIDs := remainingIDs })

/-- The body of the spacing loop of `ensureProperSpacingOnLeavingEdge` for
two neighbours of the sorted list. -/
def spacingStep (tm : TrafficManager) (front current : String) : TrafficManager :=
  match tm.Vehicles.get front, tm.Vehicles.get current with
  | some frontVehicle, some currentVehicle =>
    let gap := frontVehicle.Pos - currentVehicle.Pos
    let d1 : ℚ :=
      if gap > 25.0 then 19.4
      else if gap > 15.0 then min 16.7 (frontVehicle.Speed * 1.3)
      else if gap > 10.0 then min 13.9 (frontVehicle.Speed * 1.2)
      else if gap < 4.0 then max 5.0 (frontVehicle.Speed * 0.7)
      else frontVehicle.Speed
    let d2 : ℚ := if frontVehicle.Speed < 5.0 ∧ gap > 10.0 then 11.1 else d1
    let d3 : ℚ := if currentVehicle.Speed < 0.5 ∧ gap > 5.0 then 8.3 else d2
    setDesired tm current d3
  | _, _ => tm

/-- The spacing loop over the sorted list, `front` being the element before
the rest. -/
def spacingLoop (tm : TrafficManager) (front : String) : List String → TrafficManager
  | [] => tm
  | current :: rest => spacingLoop (spacingStep tm front current) current rest

def ensureProperSpacingOnLeavingEdge (tm : TrafficManager) (vehicles : List String) :
    TrafficManager :=
  if vehicles.length < 2 then tm
  else
    match bubbleSort (posLess tm) vehicles with
    | [] => tm
    | first :: rest => spacingLoop tm first rest

/-- The local map of `handlePostIntersectionVehicles`, keyed by a field `key`
of the vehicles: the listed vehicles for which `keep` holds, grouped. -/
def groupVehicles (tm : TrafficManager) (order : List String) (keep : Vehicle → Bool)
    (key : Vehicle → String) : GoMap (List String) :=
  order.foldl
    (fun m k =>
      match tm.Vehicles.get k with
      | none => m
      | some v => if keep v then m.set (key v) ((m.get (key v)).getD [] ++ [k]) else m)
    []

/-- The body of the loop of `handlePostIntersectionVehicles` over the platoons
seen on the leaving edge `edgeID`. -/
def postPlatoonStep (s : Sched) (edgeID : String) (platoonsByEdge : GoMap (List String))
    (tm : TrafficManager) (platoonID : String) : TrafficManager :=
  match platoonsByEdge.get platoonID with
  | none => tm
  | some platoonVehicles =>
    if platoonVehicles.length < 2 then tm
    else
      match tm.Platoons.get platoonID with
      | none => tm
      | some platoon =>
        let allOnSameEdge := platoon.VehicleIDs.all (fun vid =>
          match tm.Vehicles.get vid with
          | none => false
          | some v => decide (v.Edge = edgeID))
        if !allOnSameEdge then
          splitPlatoon tm (s.now "splitPlatoon" platoonID) platoonID edgeID
        else tm

def handlePostIntersectionVehicles (s : Sched) (tm : TrafficManager) : TrafficManager :=
  let vehiclesByLeavingEdge := groupVehicles tm
    (s.ord "handlePostIntersectionVehicles" "" tm.Vehicles.keys)
    (fun v => isLeavingEdge v.Edge && !v.AtIntersection) (fun v => v.Edge)
  (s.ord "handlePostIntersectionVehicles.edges" "" vehiclesByLeavingEdge.keys).foldl
    (fun tm edgeID =>
      match vehiclesByLeavingEdge.get edgeID with
      | none => tm
      | some vehicles =>
        if vehicles.length < 2 then tm
        else
          let platoonsByEdge := groupVehicles tm vehicles
            (fun v => decide (v.PlatoonID ≠ "")) (fun v => v.PlatoonID)
          let tm1 := (s.ord "handlePostIntersectionVehicles.platoons" edgeID
              platoonsByEdge.keys).foldl (postPlatoonStep s edgeID platoonsByEdge) tm
          ensureProperSpacingOnLeavingEdge tm1 vehicles)
    tm

/-! ## The arbitration pass -/

/-- The buckets built by `ManageIntersections` for one intersection. -/
structure Buckets where
  leftTurn : List String
  rightTurn : List String
  straight : List String
  vehiclesByEdge : GoMap (List String)
  platoonsByEdge : GoMap (List String)
  deriving DecidableEq, Repr

def containsPlatoon (platoons : List String) (platoonID : String) : Bool :=
  platoons.any (fun p => p = platoonID)

/-- The body of the classification loop of `ManageIntersections` for the
queued vehicle `vid`. -/
def classifyStep (st : TrafficManager × Buckets) (vid : String) : TrafficManager × Buckets :=
  let tm := st.1
  let b := st.2
  match tm.Vehicles.get vid with
  | none => st
  | some vehicle0 =>
    let tm1 :=
      if vehicle0.TurnDirection = "" then
        modifyVehicle tm vid
          (fun v => { v with TurnDirection := determineTurnDirection v v.NextEdge })
      else tm
    let turn := vehicleTurn tm1 vid
    let b1 :=
      if turn = TurnLeft then { b with leftTurn := b.leftTurn ++ [vid] }
      else if turn = TurnRight then { b with rightTurn := b.rightTurn ++ [vid] }
      else { b with straight := b.straight ++ [vid] }
    let edgeKey :=
      if startsWithColon vehicle0.Edge then
        (if getSourceEdgeForInternal vehicle0 ≠ "" then getSourceEdgeForInternal vehicle0
         else vehicle0.Edge)
      else vehicle0.Edge
    let b2 := { b1 with
      vehiclesByEdge := b1.vehiclesByEdge.set edgeKey
        ((b1.vehiclesByEdge.get edgeKey).getD [] ++ [vid]) }
    let b3 :=
      match tm1.VehicleToPlatoon.get vid with
      | none => b2
      | some platoonID =>
        if !containsPlatoon ((b2.platoonsByEdge.get edgeKey).getD []) platoonID then
          { b2 with
            platoonsByEdge := b2.platoonsByEdge.set edgeKey
              ((b2.platoonsByEdge.get edgeKey).getD [] ++ [platoonID]) }
        else b2
    (tm1, b3)

/-- The body of the loop of `ManageIntersections` for the map entry
`intersectionID`. -/
def intersectionStep (s : Sched) (tm : TrafficManager) (intersectionID : String) :
    TrafficManager :=
  match tm.Intersections.get intersectionID with
  | none => tm
  | some intersection =>
    if intersection.Vehicles.length < 2 then tm
    else
      let st := intersection.Vehicles.foldl classifyStep
        (tm, { leftTurn := [], rightTurn := [], straight := [], vehiclesByEdge := [],
               platoonsByEdge := [] })
      let b := st.2
      let tm1 := handleForcedPriorityPlatoons s st.1 intersectionID b.vehiclesByEdge
        b.platoonsByEdge
      let tm2 := handleReservations s tm1 intersectionID b.vehiclesByEdge
      let tm3 := handlePriorityPlatoons s tm2 intersectionID b.vehiclesByEdge b.platoonsByEdge
      handleNonConflictingMovements s tm3 intersectionID b.vehiclesByEdge b.platoonsByEdge
        b.rightTurn

def ManageIntersections (s : Sched) (tm : TrafficManager) : Option TrafficManager :=
  (enforcePlatoonSizeLimits s 15 (updatePlatoonWaitTimes s tm)).map (fun tm1 =>
    handlePostIntersectionVehicles s
      ((s.ord "ManageIntersections" "" tm1.Intersections.keys).foldl (intersectionStep s) tm1))

/-! ## Speed synthesis (`vehicle_operations.go`) -/

def calculateOptimalGap (tm : TrafficManager) (follower : Vehicle) : ℚ :=
  let baseGap0 := tm.FollowingGap
  let speedFactor := follower.Speed / 10.0
  let baseGap1 := if speedFactor > 1.0 then baseGap0 * speedFactor else baseGap0
  let baseGap2 :=
    if follower.PlatoonID ≠ "" ∧ follower.StablePlatoonTime > 5.0 then baseGap1 * 0.7
    else baseGap1
  let baseGap3 :=
    match tm.VehicleToPlatoon.get follower.ID with
    | none => baseGap2
    | some platoonID =>
      match tm.Platoons.get platoonID with
      | none => baseGap2
      | some platoon => if platoon.StabilityRatio > 0.7 then baseGap2 * 0.8 else baseGap2
  let timeGap := follower.ReactionTime * follower.Speed
  max 5.0 (min baseGap3 timeGap)

/-- The speed table of `SynchronizeSpeeds` for a vehicle with a leader link. -/
def followSpeed (currentGap optimalGap leaderSpeed : ℚ) : ℚ :=
  if leaderSpeed < 0.5 then
    if currentGap > optimalGap * 3.0 then 16.7
    else if currentGap > optimalGap * 2.0 then 11.1
    else if currentGap > optimalGap * 1.5 then 8.3
    else if currentGap > optimalGap * 1.2 then 5.6
    else if currentGap > optimalGap * 1.05 then 2.8
    else if currentGap > optimalGap then 1.4
    else 0.0
  else
    if currentGap > optimalGap * 3.0 then max 22.2 (leaderSpeed * 1.5)
    else if currentGap > optimalGap * 2.0 then max 19.4 (leaderSpeed * 1.4)
    else if currentGap > optimalGap * 1.5 then max 16.7 (leaderSpeed * 1.3)
    else if currentGap > optimalGap * 1.1 then min (leaderSpeed * 1.1) (leaderSpeed + 2.0)
    else if currentGap < optimalGap * 0.5 then leaderSpeed * 0.5
    else if currentGap < optimalGap * 0.8 then leaderSpeed * 0.85
    else leaderSpeed

/-- The vehicle leads the platoon it is mapped to, and that platoon holds a
reservation for the intersection of the vehicle's edge (the first test of the
loop of `SynchronizeSpeeds`). -/
def leaderHasReservation (tm : TrafficManager) (id : String) (vehicle : Vehicle) : Bool :=
  vehicle.AtIntersection &&
    (match tm.VehicleToPlatoon.get id with
     | none => false
     | some platoonID =>
       match tm.Platoons.get platoonID with
       | none => false
       | some platoon =>
         decide (platoon.LeaderID = id) &&
           tm.IntersectionReservations.has
             (platoonID ++ "_" ++ extractIntersectionID vehicle.Edge))

/-- The body of the loop of `SynchronizeSpeeds` for the map entry `id`. -/
def syncStep (now : Int) (tm : TrafficManager) (id : String) : TrafficManager :=
  match tm.Vehicles.get id with
  | none => tm
  | some vehicle =>
    if leaderHasReservation tm id vehicle then
      setDesired tm id (min (vehicle.Speed + 2.0) tm.MaxPlatoonSpeed)
    else if vehicle.LeaderID = "" then
      match tm.VehicleToPlatoon.get id with
      | none => setDesired tm id 13.9
      | some platoonID =>
        match tm.Platoons.get platoonID with
        | none => setDesired tm id 13.9
        | some platoon =>
          if platoon.LeaderID = id then
            if platoon.StabilityRatio > 0.8 ∧ platoon.VehicleIDs.length > 3 then
              setDesired tm id (min tm.StablePlatoonSpeed (vehicle.Speed + 1.0))
            else if platoon.StabilityRatio > 0.6 then
              setDesired tm id (min tm.MaxPlatoonSpeed (vehicle.Speed + 0.8))
            else setDesired tm id tm.MaxRegularSpeed
          else setDesired tm id 13.9
    else
      match tm.Vehicles.get vehicle.LeaderID with
      | none => setDesired tm id 13.9
      | some leader =>
        let currentGap := leader.Pos - vehicle.Pos
        let optimalGap := calculateOptimalGap tm vehicle
        let desiredSpeed := followSpeed currentGap optimalGap leader.Speed
        let d1 :=
          if vehicle.Speed < 0.5 ∧ currentGap > optimalGap then max 5.0 desiredSpeed
          else desiredSpeed
        let d2 := max 0.0 d1
        let d3 :=
          if vehicle.PlatoonID ≠ "" then min tm.MaxPlatoonSpeed d2
          else min tm.MaxRegularSpeed d2
        modifyVehicle tm id (fun v =>
          { v with DesiredSpeed := d3,
                   LastSpeedChange := if |d3 - v.Speed| > 0.5 then now else v.LastSpeedChange })

def getOrderedPlatoonVehicles (tm : TrafficManager) (platoon : Platoon) : List String :=
  let vehicles := platoon.VehicleIDs.filter (fun id => tm.Vehicles.has id)
  if vehicles.length ≤ 1 then vehicles else bubbleSort (posLess tm) vehicles

/-- The speed table of `processPlatoonsIndependently`. -/
def cohesionSpeed (currentGap baseOptimalGap frontSpeed : ℚ) : ℚ :=
  if frontSpeed < 0.5 then
    if currentGap > baseOptimalGap * 3.0 then 16.7
    else if currentGap > baseOptimalGap * 2.0 then 11.1
    else if currentGap > baseOptimalGap * 1.5 then 8.3
    else if currentGap > baseOptimalGap * 1.2 then 5.6
    else if currentGap > baseOptimalGap * 1.05 then 2.8
    else if currentGap > baseOptimalGap then 1.4
    else 0.0
  else
    if currentGap > baseOptimalGap * 2.0 then max 19.4 (frontSpeed * 1.4)
    else if currentGap > baseOptimalGap * 1.5 then max 16.7 (frontSpeed * 1.3)
    else if currentGap > baseOptimalGap * 1.2 then frontSpeed * 1.2
    else if currentGap < baseOptimalGap * 0.6 then frontSpeed * 0.6
    else if currentGap < baseOptimalGap * 0.8 then frontSpeed * 0.8
    else frontSpeed

/-- The body of the inner loop of `processPlatoonsIndependently` for two
neighbours of the ordered platoon. -/
def cohesionStep (stabilityRatio : ℚ) (tm : TrafficManager) (front current : String) :
    TrafficManager :=
  match tm.Vehicles.get front, tm.Vehicles.get current with
  | some frontVehicle, some vehicle =>
    let currentGap := frontVehicle.Pos - vehicle.Pos
    let baseOptimalGap : ℚ := if stabilityRatio > 0.6 then 5.0 else 7.0
    let d := cohesionSpeed currentGap baseOptimalGap frontVehicle.Speed
    setDesired tm current
      (if vehicle.Speed < 0.5 ∧ currentGap > baseOptimalGap then max 5.0 d else d)
  | _, _ => tm

/-- The inner loop of `processPlatoonsIndependently`, `front` being the
element before the rest. -/
def cohesionLoop (stabilityRatio : ℚ) (tm : TrafficManager) (front : String) :
    List String → TrafficManager
  | [] => tm
  | current :: rest =>
    cohesionLoop stabilityRatio (cohesionStep stabilityRatio tm front current) current rest

def processPlatoonsIndependently (s : Sched) (tm : TrafficManager) : TrafficManager :=
  (s.ord "processPlatoonsIndependently" "" tm.Platoons.keys).foldl
    (fun tm platoonID =>
      match tm.Platoons.get platoonID with
      | none => tm
      | some platoon =>
        match getOrderedPlatoonVehicles tm platoon with
        | first :: second :: rest => cohesionLoop platoon.StabilityRatio tm first (second :: rest)
        | _ => tm)
    tm

def SynchronizeSpeeds (s : Sched) (tm : TrafficManager) : TrafficManager :=
  let now := s.now "SynchronizeSpeeds" ""
  processPlatoonsIndependently s
    ((s.ord "SynchronizeSpeeds" "" tm.Vehicles.keys).foldl (syncStep now) tm)

/-- The flag `isPlatoonLeader` of `AdjustSpeedForTrafficDensity` together with
`platoonSize`: the size of the platoon the vehicle is mapped to when it is its
leader, `none` when the flag is false. -/
def ledPlatoonSize (tm : TrafficManager) (id : String) : Option Nat :=
  match tm.VehicleToPlatoon.get id with
  | none => none
  | some platoonID =>
    match tm.Platoons.get platoonID with
    | none => none
    | some platoon => if platoon.LeaderID = id then some platoon.VehicleIDs.length else none

/-- The body of the loop of `AdjustSpeedForTrafficDensity` for the map entry
`id`. -/
def adjustStep (tm : TrafficManager) (id : String) : TrafficManager :=
  match tm.Vehicles.get id with
  | none => tm
  | some vehicle =>
    if vehicle.AtIntersection then tm
    else
      match tm.TrafficDensity.get vehicle.Edge with
      | none => tm
      | some density =>
        match ledPlatoonSize tm id with
        | some platoonSize =>
          if density > 70 then setDesired tm id (min vehicle.DesiredSpeed 8.3)
          else if density > 50 then setDesired tm id (min vehicle.DesiredSpeed 11.1)
          else if density > 30 then
            if platoonSize > 5 then setDesired tm id (min vehicle.DesiredSpeed tm.MaxPlatoonSpeed)
            else setDesired tm id (min vehicle.DesiredSpeed 16.7)
          else if platoonSize > 3 ∧ density < 20 then
            setDesired tm id (min tm.StablePlatoonSpeed (vehicle.DesiredSpeed * 1.1))
          else tm
        | none =>
          if !vehicle.IsLeader then
            if density > 70 then setDesired tm id (min vehicle.DesiredSpeed 7.8) else tm
          else tm

def AdjustSpeedForTrafficDensity (s : Sched) (tm : TrafficManager) : TrafficManager :=
  (s.ord "AdjustSpeedForTrafficDensity" "" tm.Vehicles.keys).foldl adjustStep tm

/-! ## The tick (`traffic_manager.go`, `benchmark.go`) -/

def UpdateVehicleThroughput (s : Sched) (tm : TrafficManager) : TrafficManager :=
  (s.ord "UpdateVehicleThroughput" "" tm.Vehicles.keys).foldl
    (fun tm k =>
      match tm.Vehicles.get k with
      | none => tm
      | some vehicle =>
        if isLeavingEdge vehicle.Edge ∧ !vehicle.CountedInThroughput then
          let tm' := { tm with ThroughputCounter := tm.ThroughputCounter + 1,
                               ThroughputPerStep := tm.ThroughputPerStep + 1 }
          modifyVehicle tm' k (fun v => { v with CountedInThroughput := true })
        else tm)
    tm

/-- The effect of `RecordBenchmarkMetrics` on the state that is carried: the
per-step counter is reset and the benchmark ends after its duration.  The
metrics row it appends and the files it writes are reporting only. -/
def RecordBenchmarkMetrics (tm : TrafficManager) : TrafficManager :=
  if !tm.BenchmarkMode then tm
  else
    let tm1 := { tm with ThroughputPerStep := 0 }
    if tm1.TimeStep ≥ tm1.BenchmarkDuration ∨ tm1.StopBenchmark then
      { tm1 with BenchmarkMode := false }
    else tm1

/-- The branch of `Update` for the custom algorithm: the six phases in order.
The result is `none` when the size cap panics. -/
def engineTick (s : Sched) (tm : TrafficManager) : Option TrafficManager :=
  (ManageIntersections s
    (ReservePlatoonIntersectionSlots s (EstimatePlatoonStability s (UpdatePlatoons s tm)))).map
    (fun tm1 => AdjustSpeedForTrafficDensity s (SynchronizeSpeeds s tm1))

/-- The branch of `Update` for the benchmark mode. -/
def benchmarkTick (s : Sched) (tm : TrafficManager) : TrafficManager :=
  if tm.BenchmarkMode then RecordBenchmarkMetrics (UpdateVehicleThroughput s tm) else tm

/-- The function `Update`: one tick of the engine.  The result is `none` when
the size cap panics. -/
def Update (s : Sched) (tm : TrafficManager) : Option TrafficManager :=
  let tm0 := { tm with TimeStep := tm.TimeStep + 1 }
  (if tm0.UseCustomAlgorithm then engineTick s tm0 else some tm0).map (benchmarkTick s)

/-! ## Census ingest (`traffic_manager.go`) -/

/-- The zero value of `models.Vehicle` with the field `Edge` set: the
argument of `isVehicleAtIntersection` when a vehicle is created. -/
def edgeOnlyVehicle (edge : String) : Vehicle :=
  { ID := "", Lane := "", Pos := 0, Speed := 0, Edge := edge, PlatoonID := "",
    IsLeader := false, DesiredSpeed := 0, LeaderID := "", NextEdge := "",
    TurnDirection := "", AtIntersection := false, LastSpeedChange := zeroTime,
    StablePlatoonTime := 0, ReactionTime := 0, WaitingTime := 0,
    CountedInThroughput := false, CreationTime := zeroTime, TravelTime := 0 }

/-- The body of the first loop of `UpdateVehicleData` for the census entry
`id`; `now` is the reading of `time.Now()` for a new vehicle. -/
def upsertStep (s : Sched) (vehicleData : GoMap CensusRecord) (tm : TrafficManager)
    (id : String) : TrafficManager :=
  match vehicleData.get id with
  | none => tm
  | some data =>
    match tm.Vehicles.get id with
    | some _ =>
      modifyVehicle
        (modifyVehicle tm id (fun v =>
          { v with Lane := data.lane, Pos := data.pos, Speed := data.speed, Edge := data.edge }))
        id (fun v => { v with AtIntersection := isVehicleAtIntersection v })
    | none =>
      { tm with
        Vehicles := tm.Vehicles.set id
          { ID := id, Lane := data.lane, Pos := data.pos, Speed := data.speed,
            Edge := data.edge, PlatoonID := "", IsLeader := false, DesiredSpeed := 13.9,
            LeaderID := "", NextEdge := "", TurnDirection := "",
            AtIntersection := isVehicleAtIntersection (edgeOnlyVehicle data.edge),
            LastSpeedChange := s.now "UpdateVehicleData.create" id,
            StablePlatoonTime := 0, ReactionTime := 0.5, WaitingTime := 0,
            CountedInThroughput := false, CreationTime := zeroTime, TravelTime := 0 } }

/-- The body of the second loop of `UpdateVehicleData` for the map entry
`id`: a vehicle that is absent from the census is removed. -/
def removeStep (s : Sched) (vehicleData : GoMap CensusRecord) (tm : TrafficManager)
    (id : String) : TrafficManager :=
  if !tm.Vehicles.has id then tm
  else if vehicleData.has id then tm
  else
    let tm1 :=
      match tm.VehicleToPlatoon.get id with
      | none => tm
      | some platoonID =>
        let tm' := RemoveVehicleFromPlatoon tm id platoonID
        { tm' with VehicleToPlatoon := tm'.VehicleToPlatoon.del id }
    let tm2 := (s.ord "UpdateVehicleData.intersections" id tm1.Intersections.keys).foldl
      (fun tm k => modifyIntersection tm k (fun i => { i with Vehicles := i.Vehicles.erase id }))
      tm1
    { tm2 with Vehicles := tm2.Vehicles.del id }

def cleanExpiredReservations (s : Sched) (tm : TrafficManager) : TrafficManager :=
  let now := s.now "cleanExpiredReservations" ""
  (s.ord "cleanExpiredReservations" "" tm.IntersectionReservations.keys).foldl
    (fun tm id =>
      match tm.IntersectionReservations.get id with
      | none => tm
      | some reservation =>
        if now > reservation.EndTime then
          { tm with IntersectionReservations := tm.IntersectionReservations.del id }
        else tm)
    tm

/-- The body of the second loop of `updateIntersectionStatus` for the map
entry `id`. -/
def rosterStep (s : Sched) (tm : TrafficManager) (id : String) : TrafficManager :=
  match tm.Vehicles.get id with
  | none => tm
  | some vehicle =>
    if vehicle.AtIntersection then
      match splitUnderscore vehicle.Edge with
      | [] => tm
      | intersectionID :: _ =>
        if startsWithColon intersectionID then
          let tm1 :=
            if !tm.Intersections.has intersectionID then
              { tm with
                Intersections := tm.Intersections.set intersectionID
                  { ID := intersectionID, Edges := [], InternalID := intersectionID,
                    Vehicles := [], HasReservation := false,
                    LastPlatoonPassTime :=
                      s.now "updateIntersectionStatus.create" intersectionID - 10 * second,
                    CurrentControlState := none } }
            else tm
          modifyIntersection tm1 intersectionID (fun i => { i with Vehicles := i.Vehicles ++ [id] })
        else tm
    else tm

def updateIntersectionStatus (s : Sched) (tm : TrafficManager) : TrafficManager :=
  let tm1 := (s.ord "updateIntersectionStatus.clear" "" tm.Intersections.keys).foldl
    (fun tm k => modifyIntersection tm k (fun i => { i with Vehicles := [] })) tm
  cleanExpiredReservations s
    ((s.ord "updateIntersectionStatus" "" tm1.Vehicles.keys).foldl (rosterStep s) tm1)

/-- The local map `edgeVehicleCounts` of `measureTrafficDensity`. -/
def edgeVehicleCounts (tm : TrafficManager) (order : List String) : GoMap Nat :=
  order.foldl
    (fun m k =>
      match tm.Vehicles.get k with
      | none => m
      | some vehicle =>
        if vehicle.Edge ≠ "" ∧ !vehicle.AtIntersection then
          m.set vehicle.Edge ((m.get vehicle.Edge).getD 0 + 1)
        else m)
    []

def measureTrafficDensity (s : Sched) (tm : TrafficManager) : TrafficManager :=
  let now := s.now "measureTrafficDensity" ""
  if ((now - tm.LastTrafficMeasurement : Int) : ℚ) / (second : ℚ) < 2.0 then tm
  else
    let tm1 := { tm with LastTrafficMeasurement := now }
    let counts := edgeVehicleCounts tm1 (s.ord "measureTrafficDensity" "" tm1.Vehicles.keys)
    (s.ord "measureTrafficDensity.edges" "" counts.keys).foldl
      (fun tm edge =>
        match counts.get edge with
        | none => tm
        | some count =>
          let length := (getEdgeLengths.get edge).getD 0
          if length > 0 then
            { tm with TrafficDensity := tm.TrafficDensity.set edge ((count : ℚ) / length * 100) }
          else tm)
      tm1

def UpdateVehicleData (s : Sched) (vehicleData : GoMap CensusRecord) (tm : TrafficManager) :
    TrafficManager :=
  let tm1 := (s.ord "UpdateVehicleData.census" "" vehicleData.keys).foldl
    (upsertStep s vehicleData) tm
  let tm2 := (s.ord "UpdateVehicleData.vehicles" "" tm1.Vehicles.keys).foldl
    (removeStep s vehicleData) tm1
  measureTrafficDensity s (updateIntersectionStatus s tm2)

/-- The main loop of the program from a given state: for each census, one call
of `UpdateVehicleData` and one call of `Update`.  Each round has its own
schedule. -/
def runTicks : TrafficManager → List (Sched × GoMap CensusRecord) → Option TrafficManager
  | tm, [] => some tm
  | tm, (s, census) :: rest =>
    match Update s (UpdateVehicleData s census tm) with
    | none => none
    | some tm' => runTicks tm' rest

/-! ## Properties named by the specification -/

/-- The closed intervals `[StartTime, EndTime]` of two reservations share an
instant. -/
def intervalsIntersect (a b : IntersectionReservation) : Prop :=
  ∃ t : Int, a.StartTime ≤ t ∧ t ≤ a.EndTime ∧ b.StartTime ≤ t ∧ t ≤ b.EndTime

/-- Reservation non-overlap: any two reservations at the same intersection
whose intervals intersect have compatible movements. -/
def ReservationsCompatible (tm : TrafficManager) : Prop :=
  ∀ k1 r1 k2 r2,
    tm.IntersectionReservations.get k1 = some r1 →
    tm.IntersectionReservations.get k2 = some r2 →
    r1.IntersectionID = r2.IntersectionID → intervalsIntersect r1 r2 →
    areMovementsCompatible r1.EdgeFrom r1.Direction r2.EdgeFrom r2.Direction = true

/-- The vehicle stored under `k` leads the platoon it is mapped to: the flag
`isPlatoonLeader` of `AdjustSpeedForTrafficDensity`. -/
def leadsPlatoon (tm : TrafficManager) (k : String) : Prop :=
  ∃ pid p, tm.VehicleToPlatoon.get k = some pid ∧ tm.Platoons.get pid = some p ∧
    p.LeaderID = k

/-- Density cap, as the specification states it: on every edge whose density
exceeds 70, every vehicle that is not a platoon leader has a desired speed of
at most 7.8. -/
def DensityCap (tm : TrafficManager) : Prop :=
  ∀ k v d, tm.Vehicles.get k = some v → tm.TrafficDensity.get v.Edge = some d → d > 70 →
    v.IsLeader = false → ¬ leadsPlatoon tm k → v.DesiredSpeed ≤ 7.8

/-- Density cap, restricted to the vehicles that are not at the intersection. -/
def DensityCapAwayFromIntersection (tm : TrafficManager) : Prop :=
  ∀ k v d, tm.Vehicles.get k = some v → v.AtIntersection = false →
    tm.TrafficDensity.get v.Edge = some d → d > 70 →
    v.IsLeader = false → ¬ leadsPlatoon tm k → v.DesiredSpeed ≤ 7.8

/-- The schedule visits every key of a map exactly once: each order it
returns is a rearrangement of the keys it is given. -/
def Sched.Fair (s : Sched) : Prop :=
  ∀ site ctx keys, (s.ord site ctx keys).Perm keys

/-- The loop `site` visits every key of the map it ranges over. -/
def Sched.VisitsAll (s : Sched) (site : String) : Prop :=
  ∀ ctx keys k, k ∈ keys → k ∈ s.ord site ctx keys

/-- A world with one vehicle close to the end of `up_incoming`, flagged as at
the intersection, and a recorded density of 80 on that edge. -/
def denseState : TrafficManager :=
  { NewTrafficManager 0 with
    Vehicles := [("w",
      { ID := "w", Lane := "up_incoming_0", Pos := 120, Speed := 10, Edge := "up_incoming",
        PlatoonID := "", IsLeader := false, DesiredSpeed := 13.9, LeaderID := "",
        NextEdge := "", TurnDirection := "", AtIntersection := true, LastSpeedChange := 0,
        StablePlatoonTime := 0, ReactionTime := 0.5, WaitingTime := 0,
        CountedInThroughput := false, CreationTime := zeroTime, TravelTime := 0 })]
    TrafficDensity := [("up_incoming", 80)] }

/-- The same world with the vehicle further back, not at the intersection. -/
def denseStateAway : TrafficManager :=
  { NewTrafficManager 0 with
    Vehicles := [("w",
      { ID := "w", Lane := "up_incoming_0", Pos := 50, Speed := 10, Edge := "up_incoming",
        PlatoonID := "", IsLeader := false, DesiredSpeed := 13.9, LeaderID := "",
        NextEdge := "", TurnDirection := "", AtIntersection := false, LastSpeedChange := 0,
        StablePlatoonTime := 0, ReactionTime := 0.5, WaitingTime := 0,
        CountedInThroughput := false, CreationTime := zeroTime, TravelTime := 0 })]
    TrafficDensity := [("up_incoming", 80)] }

/-- The density cap at the single key `k`. -/
def CappedAt (tm : TrafficManager) (k : String) : Prop :=
  ∀ v d, tm.Vehicles.get k = some v → v.AtIntersection = false →
    tm.TrafficDensity.get v.Edge = some d → d > 70 → v.IsLeader = false →
    ¬ leadsPlatoon tm k → v.DesiredSpeed ≤ 7.8

/-- The state and the buckets with which `ManageIntersections`, called on
`tm`, calls the handlers for `intersectionID` when this is the first
intersection it visits. -/
def arbiterInput (s : Sched) (tm : TrafficManager) (intersectionID : String) :
    Option (TrafficManager × Buckets) :=
  (enforcePlatoonSizeLimits s 15 (updatePlatoonWaitTimes s tm)).bind (fun tm1 =>
    (tm1.Intersections.get intersectionID).map (fun intersection =>
      intersection.Vehicles.foldl classifyStep
        (tm1, { leftTurn := [], rightTurn := [], straight := [], vehiclesByEdge := [],
                platoonsByEdge := [] })))

/-- The state on which `Update` calls `ManageIntersections`. -/
def beforeArbitration (s : Sched) (tm : TrafficManager) : TrafficManager :=
  ReservePlatoonIntersectionSlots s (EstimatePlatoonStability s
    (UpdatePlatoons s { tm with TimeStep := tm.TimeStep + 1 }))

/-- A census with five vehicles in a row on the internal edge `:J_0`, one
vehicle on the internal edge `:J_1` and one vehicle on `up_incoming`. -/
def crossingCensus : GoMap CensusRecord :=
  [("v1", ⟨":J_0_0", 8, 2, ":J_0"⟩), ("v2", ⟨":J_0_0", 6, 2, ":J_0"⟩),
   ("v3", ⟨":J_0_0", 4, 2, ":J_0"⟩), ("v4", ⟨":J_0_0", 2, 2, ":J_0"⟩),
   ("v5", ⟨":J_0_0", 0, 2, ":J_0"⟩), ("x", ⟨":J_1_0", 3, 2, ":J_1"⟩),
   ("w", ⟨"up_incoming_0", 10, 10, "up_incoming"⟩)]

/-- The world after the first census `crossingCensus`. -/
def crossingState : TrafficManager :=
  UpdateVehicleData (Sched.fixed 0) crossingCensus (NewTrafficManager 0)

/-- A world in which a platoon of five queued under the bucket key `0`
qualifies for forced priority while vehicle `x` is queued under key `1`. -/
def queuedState : TrafficManager :=
  { NewTrafficManager 0 with
    Vehicles := crossingCensus.map (fun kv =>
      (kv.1, { edgeOnlyVehicle kv.2.edge with
                ID := kv.1, Lane := kv.2.lane, Pos := kv.2.pos, Speed := kv.2.speed,
                DesiredSpeed := 13.9, AtIntersection := true }))
    Platoons := [("p",
      { ID := "p", VehicleIDs := ["v1", "v2", "v3", "v4", "v5"], LeaderID := "v1",
        Edge := ":J_0", Lane := ":J_0_0", StabilityRatio := 0, IntersectionWaitTime := 0,
        PriorityUntil := none })] }

/-- Roster consistency: every vehicle with a non-empty `PlatoonID` names an
existing platoon whose member list holds the vehicle's id. -/
def RosterConsistent (tm : TrafficManager) : Prop :=
  ∀ k v, tm.Vehicles.get k = some v → v.PlatoonID ≠ "" →
    ∃ p, tm.Platoons.get v.PlatoonID = some p ∧ v.ID ∈ p.VehicleIDs

/-- The members of a platoon whose vehicle record is flagged `IsLeader`. -/
def flaggedLeaders (tm : TrafficManager) (p : Platoon) : List String :=
  p.VehicleIDs.filter (fun vid =>
    match tm.Vehicles.get vid with
    | some v => v.IsLeader
    | none => false)

/-- Single leader: every platoon has exactly one member flagged `IsLeader`,
and it is the platoon's `LeaderID`. -/
def SingleLeader (tm : TrafficManager) : Prop :=
  ∀ k p, tm.Platoons.get k = some p → flaggedLeaders tm p = [p.LeaderID]

/-- Size bound: no platoon has more than 15 members. -/
def SizeBound (tm : TrafficManager) : Prop :=
  ∀ k p, tm.Platoons.get k = some p → p.VehicleIDs.length ≤ 15

/-- Singleton-free: every platoon has at least 2 members. -/
def SingletonFree (tm : TrafficManager) : Prop :=
  ∀ k p, tm.Platoons.get k = some p → 2 ≤ p.VehicleIDs.length

/-- Scenario S1: vehicles A and B on `up_incoming`, 10 m apart. -/
def censusS1 : GoMap CensusRecord :=
  [("A", ⟨"u0", 50, 10, "up_incoming"⟩), ("B", ⟨"u0", 40, 10, "up_incoming"⟩)]

/-- Scenario S2: A has moved on to `up_leaving`, B is unchanged. -/
def censusS2 : GoMap CensusRecord :=
  [("A", ⟨"u0", 5, 10, "up_leaving"⟩), ("B", ⟨"u0", 40, 10, "up_incoming"⟩)]

/-- Two vehicles C and D on `up_incoming`, 10 m apart. -/
def censusPair : GoMap CensusRecord :=
  [("C", ⟨"u0", 30, 10, "up_incoming"⟩), ("D", ⟨"u0", 20, 10, "up_incoming"⟩)]

/-- C has advanced to 100 m, D stays at 20 m, and a new vehicle X appears
10 m ahead of C. -/
def censusNewcomer : GoMap CensusRecord :=
  [("C", ⟨"u0", 100, 10, "up_incoming"⟩), ("D", ⟨"u0", 20, 10, "up_incoming"⟩),
   ("X", ⟨"u0", 110, 10, "up_incoming"⟩)]

/-- A census with `n` vehicles `v0`, `v1`, ... in one lane of `up_leaving`,
2 m apart, `v0` in front. -/
def columnCensus (n : Nat) : GoMap CensusRecord :=
  (List.range n).map (fun i =>
    ("v" ++ toString i, ⟨"up_leaving_0", 100 - 2 * (i : ℚ), 10, "up_leaving"⟩))

/-- A world with a platoon of three behind a leader on `down_incoming`, an
intersection that lists `left_leaving`, and one reservation already booked
from the same edge. -/
def bookingState : TrafficManager :=
  { NewTrafficManager 0 with
    Vehicles := [
      ("up_to_left_1", { edgeOnlyVehicle "down_incoming" with
        ID := "up_to_left_1", Lane := "down_incoming_0", Pos := 30, Speed := 12,
        TurnDirection := "right" }),
      ("f1", { edgeOnlyVehicle "down_incoming" with
        ID := "f1", Lane := "down_incoming_0", Pos := 22, Speed := 12 }),
      ("f2", { edgeOnlyVehicle "down_incoming" with
        ID := "f2", Lane := "down_incoming_0", Pos := 14, Speed := 12 })]
    Platoons := [("P",
      { ID := "P", VehicleIDs := ["up_to_left_1", "f1", "f2"], LeaderID := "up_to_left_1",
        Edge := "down_incoming", Lane := "down_incoming_0", StabilityRatio := 0.8,
        IntersectionWaitTime := 0, PriorityUntil := none })]
    Intersections := [("J",
      { ID := "J", Edges := ["left_leaving"], InternalID := "J", Vehicles := [],
        HasReservation := false, LastPlatoonPassTime := 0, CurrentControlState := none })]
    IntersectionReservations := [("Q_J",
      { ID := "Q_J", IntersectionID := "J", PlatoonID := "Q", StartTime := 0,
        EndTime := 20 * second, EdgeFrom := "down_incoming", Direction := "straight" })] }

/-- The id `p_<edge>_<leader id>` that `formAndUpdatePlatoons` gives the
platoon it creates behind leader `A`. -/
def pairPlatoonID (A : Vehicle) : String := "p_" ++ A.Edge ++ "_" ++ A.ID

/-- The platoon of scenario S1: leader `A`, members `A` and `B`, on the edge
and lane of `A`. -/
def pairPlatoon (A B : Vehicle) : Platoon :=
  { ID := pairPlatoonID A, VehicleIDs := [A.ID, B.ID], LeaderID := A.ID, Edge := A.Edge,
    Lane := A.Lane, StabilityRatio := 0, IntersectionWaitTime := 0, PriorityUntil := none }

/-- The two vehicles of scenario S1 as world records. -/
def vehicleS1A : Vehicle :=
  { edgeOnlyVehicle "up_incoming" with
    ID := "A", Lane := "u0", Pos := 50, Speed := 10, DesiredSpeed := 13.9, ReactionTime := 0.5 }

def vehicleS1B : Vehicle :=
  { edgeOnlyVehicle "up_incoming" with
    ID := "B", Lane := "u0", Pos := 40, Speed := 10, DesiredSpeed := 13.9, ReactionTime := 0.5 }

/-- The world of scenario S1 before the first tick. -/
def worldS1 : TrafficManager :=
  { NewTrafficManager 0 with Vehicles := [("A", vehicleS1A), ("B", vehicleS1B)] }

/-- Two map entries in one of the two storage orders. -/
def arrange {α : Type} (swap : Bool) (x y : α) : List α :=
  if swap then [y, x] else [x, y]

/-- A right-turning vehicle queued on `down_incoming` at 5 m/s. -/
def turnVehicle : Vehicle :=
  { edgeOnlyVehicle "down_incoming" with
    ID := "r", Lane := "down_incoming_0", Pos := 115, Speed := 5, DesiredSpeed := 2,
    TurnDirection := TurnRight, AtIntersection := true }

/-- A left-turning vehicle on `right_incoming`, the edge to the left of
`down_incoming`. -/
def leftTurner : Vehicle :=
  { edgeOnlyVehicle "right_incoming" with
    ID := "q", Lane := "right_incoming_0", Pos := 110, Speed := 4,
    TurnDirection := TurnLeft, AtIntersection := true }

/-- A vehicle on `right_incoming` that goes straight. -/
def straightGoer : Vehicle :=
  { edgeOnlyVehicle "right_incoming" with
    ID := "g", Lane := "right_incoming_0", Pos := 100, Speed := 4,
    TurnDirection := TurnStraight, AtIntersection := true }

/-- A world with `turnVehicle`, `leftTurner` and `straightGoer`. -/
def turnState : TrafficManager :=
  { NewTrafficManager 0 with
    Vehicles := [("r", turnVehicle), ("q", leftTurner), ("g", straightGoer)] }

/-- Buckets of `turnState` in which only `q` is queued on `right_incoming`. -/
def turnBuckets : GoMap (List String) :=
  [("down_incoming", ["r"]), ("right_incoming", ["q"])]

/-- Buckets of `turnState` in which `g` is queued on `right_incoming` too. -/
def blockedBuckets : GoMap (List String) :=
  [("down_incoming", ["r"]), ("right_incoming", ["q", "g"])]

/-- The schedule `Sched.fixed t`, except that the loop of
`enforcePlatoonSizeLimits` also produces the entry `extra`, as a Go range loop
may do with an entry inserted while it runs. -/
def Sched.revisiting (t : Int) (extra : String) : Sched where
  ord := fun site _ ks => if site = "enforcePlatoonSizeLimits" then ks ++ [extra] else ks
  now := fun _ _ => t

/-! ## Scenarios for the split, reservation and ingest properties -/

/-- A vehicle that moves at 2 m/s. -/
def slowVehicle : Vehicle :=
  { edgeOnlyVehicle "down_incoming" with ID := "s", Lane := "down_incoming_0", Speed := 2 }

/-- A vehicle that moves at 12 m/s. -/
def cruisingVehicle : Vehicle :=
  { edgeOnlyVehicle "up_incoming" with ID := "c", Lane := "up_incoming_0", Pos := 30, Speed := 12 }

/-- The value of `at_intersection` as the specification words it: the edge is
internal, or it is junction-connected with a known length `L` and
`L - pos < 15` or `L - pos < 20` or `speed < 5`. -/
def specAtIntersection (edge : String) (pos speed : ℚ) : Bool :=
  startsWithColon edge ||
    (isEdgeConnectedToJunction edge &&
      match getEdgeLengths.get edge with
      | some length =>
        decide (length - pos < 15) || decide (length - pos < 20) || decide (speed < 5.0)
      | none => false)

/-- The density of an edge as the specification words it: 100 times the
number of vehicles on the edge that are not at the intersection, by the
length of the edge. -/
def specDensity (tm : TrafficManager) (edge : String) : ℚ :=
  100 * ((tm.Vehicles.filter
      (fun kv => decide (kv.2.Edge = edge) && !kv.2.AtIntersection)).length : ℚ) /
    (getEdgeLengths.get edge).getD 0

/-- A member of the two platoons of `twoPlatoons`. -/
def memberAt (id platoon : String) (pos : ℚ) (leads : Bool) : Vehicle :=
  { edgeOnlyVehicle "up_incoming" with
    ID := id, Lane := "u0", Pos := pos, Speed := 10, PlatoonID := platoon, IsLeader := leads,
    DesiredSpeed := 13.9 }

/-- The platoon `P`, led by `p1` at 50 m. -/
def platoonBehind : Platoon :=
  { ID := "P", VehicleIDs := ["p1", "p2"], LeaderID := "p1", Edge := "up_incoming",
    Lane := "u0", StabilityRatio := 0, IntersectionWaitTime := 0, PriorityUntil := none }

/-- The platoon `Q`, led by `q1` at 70 m. -/
def platoonAhead : Platoon :=
  { ID := "Q", VehicleIDs := ["q1", "q2"], LeaderID := "q1", Edge := "up_incoming",
    Lane := "u0", StabilityRatio := 0, IntersectionWaitTime := 0, PriorityUntil := none }

/-- A world with the two platoons `P` and `Q` on the same edge and lane, the
leader of `Q` 20 m ahead of the leader of `P`; `swap` chooses the order in
which the two platoons are stored. -/
def twoPlatoons (swap : Bool) : TrafficManager :=
  { NewTrafficManager 0 with
    Vehicles := [("p1", memberAt "p1" "P" 50 true), ("p2", memberAt "p2" "P" 45 false),
      ("q1", memberAt "q1" "Q" 70 true), ("q2", memberAt "q2" "Q" 65 false)]
    Platoons := arrange swap ("P", platoonBehind) ("Q", platoonAhead)
    VehicleToPlatoon := [("p1", "P"), ("p2", "P"), ("q1", "Q"), ("q2", "Q")] }

/-- The platoon of five of `queuedState`. -/
def queuedPlatoon : Platoon :=
  { ID := "p", VehicleIDs := ["v1", "v2", "v3", "v4", "v5"], LeaderID := "v1",
    Edge := ":J_0", Lane := ":J_0_0", StabilityRatio := 0, IntersectionWaitTime := 0,
    PriorityUntil := none }

/-- The leader of the platoon of `queuedState`. -/
def queuedLeader : Vehicle :=
  { edgeOnlyVehicle ":J_0" with
    ID := "v1", Lane := ":J_0_0", Pos := 8, Speed := 2, DesiredSpeed := 13.9,
    AtIntersection := true }

/-- The part of `edge` before the first `_`. -/
def edgeHead (edge : String) : String :=
  String.mk (edge.data.takeWhile (fun c => c ≠ '_'))

/-- The key of the intersection to whose roster `updateIntersectionStatus`
appends a vehicle, if any. -/
def rosterKey (v : Vehicle) : Option String :=
  if v.AtIntersection then
    match splitUnderscore v.Edge with
    | [] => none
    | first :: _ => if startsWithColon first then some first else none
  else none

/-- The four fields of a vehicle that a census record carries. -/
def censusView (v : Vehicle) : String × ℚ × ℚ × String := (v.Lane, v.Pos, v.Speed, v.Edge)

/-- The four fields of a census record. -/
def recordView (r : CensusRecord) : String × ℚ × ℚ × String := (r.lane, r.pos, r.speed, r.edge)

/-- The rosters after the roster loop has visited `visited`: the roster of
`k` holds the visited ids whose roster key is `k`, in the order of the visit,
and it exists as soon as one such id was visited. -/
def RostersOf (vehicles : GoMap Vehicle) (visited : List String) (tm : TrafficManager) : Prop :=
  tm.Vehicles = vehicles ∧
  (∀ k l, (tm.Intersections.get k).map (fun i => i.Vehicles) = some l →
    l = visited.filter (fun id => decide ((vehicles.get id).bind rosterKey = some k))) ∧
  (∀ k id, id ∈ visited → (vehicles.get id).bind rosterKey = some k →
    (tm.Intersections.get k).isSome = true)

/-- Intersection rosters as the specification states them: an id is in the
roster of `k` iff the vehicle exists, is at the intersection, its edge begins
with `:` and `k` is the part of the edge before the first `_`; no roster
repeats an id; no id is in the rosters of two intersections. -/
def RostersSound (tm : TrafficManager) : Prop :=
  (∀ k id, (∃ i, tm.Intersections.get k = some i ∧ id ∈ i.Vehicles) ↔
      ∃ v, tm.Vehicles.get id = some v ∧ v.AtIntersection = true ∧
        startsWithColon v.Edge = true ∧ k = edgeHead v.Edge) ∧
  (∀ k i, tm.Intersections.get k = some i → i.Vehicles.Nodup) ∧
  (∀ k1 k2 i1 i2 id, tm.Intersections.get k1 = some i1 → id ∈ i1.Vehicles →
      tm.Intersections.get k2 = some i2 → id ∈ i2.Vehicles → k1 = k2)

/-- Whether a vehicle record counts toward the density of `edge`: it is on
the edge and not at the intersection. -/
def countsOn (edge : String) (v : Vehicle) : Bool :=
  decide (v.Edge = edge) && !v.AtIntersection

/-- The number of visited keys whose vehicle counts toward the density of
`edge`. -/
def countedKeys (tm : TrafficManager) (order : List String) (edge : String) : Nat :=
  (order.filter (fun k =>
    match tm.Vehicles.get k with
    | some v => countsOn edge v
    | none => false)).length

/-! ## Scenarios for the size cap, the split, the arbiter and the speed passes -/

/-- A vehicle of `straddlingWorld`. -/
def straddler (id edge lane : String) (pos : ℚ) (leads : Bool) : Vehicle :=
  { edgeOnlyVehicle edge with
    ID := id, Lane := lane, Pos := pos, Speed := 10, PlatoonID := "P", IsLeader := leads,
    DesiredSpeed := 13.9 }

/-- A world with one platoon `P` = [a, b, c, d]: `a` and `b` have reached
`up_leaving`, `c` and `d` are still on the internal edge `:J_0`. -/
def straddlingWorld : TrafficManager :=
  { NewTrafficManager 0 with
    Vehicles := [("a", straddler "a" "up_leaving" "up_leaving_0" 30 true),
      ("b", straddler "b" "up_leaving" "up_leaving_0" 20 false),
      ("c", straddler "c" ":J_0" ":J_0_0" 8 false),
      ("d", straddler "d" ":J_0" ":J_0_0" 2 false)]
    Platoons := [("P",
      { ID := "P", VehicleIDs := ["a", "b", "c", "d"], LeaderID := "a", Edge := "up_incoming",
        Lane := "up_incoming_0", StabilityRatio := 0, IntersectionWaitTime := 0,
        PriorityUntil := none })]
    VehicleToPlatoon := [("a", "P"), ("b", "P"), ("c", "P"), ("d", "P")] }

/-- A stopped vehicle queued at the intersection. -/
def queuedVehicle (id edge platoon : String) (pos : ℚ) (leads : Bool) : Vehicle :=
  { edgeOnlyVehicle edge with
    ID := id, Lane := edge ++ "_0", Pos := pos, Speed := 0, PlatoonID := platoon,
    IsLeader := leads, DesiredSpeed := 0, AtIntersection := true }

/-- A platoon of two that has waited 8 units. -/
def waitingPair (id leader follower edge : String) : Platoon :=
  { ID := id, VehicleIDs := [leader, follower], LeaderID := leader, Edge := edge,
    Lane := edge ++ "_0", StabilityRatio := 0, IntersectionWaitTime := 8,
    PriorityUntil := none }

/-- The intersection of `tiedWorld`; its last platoon passed 10 s before the
clock reads 0. -/
def tiedJunction : Intersection :=
  { ID := ":J", Edges := [], InternalID := ":J", Vehicles := ["a1", "a2", "b1", "b2"],
    HasReservation := false, LastPlatoonPassTime := -10 * second,
    CurrentControlState := none }

/-- A world with the intersection `:J` and two platoons `a` and `b` of the
same size and waiting time, queued on two different edges. -/
def tiedWorld : TrafficManager :=
  { NewTrafficManager 0 with
    Vehicles := [("a1", queuedVehicle "a1" "up_incoming" "a" 120 true),
      ("a2", queuedVehicle "a2" "up_incoming" "a" 114 false),
      ("b1", queuedVehicle "b1" "left_incoming" "b" 122 true),
      ("b2", queuedVehicle "b2" "left_incoming" "b" 116 false)]
    Platoons := [("a", waitingPair "a" "a1" "a2" "up_incoming"),
      ("b", waitingPair "b" "b1" "b2" "left_incoming")]
    VehicleToPlatoon := [("a1", "a"), ("a2", "a"), ("b1", "b"), ("b2", "b")]
    Intersections := [(":J", tiedJunction)] }

/-- The buckets of `tiedWorld`, the bucket of `a` first or last. -/
def tiedVehicles (swap : Bool) : GoMap (List String) :=
  arrange swap ("up_incoming", ["a1", "a2"]) ("left_incoming", ["b1", "b2"])

/-- The platoon buckets of `tiedWorld`, the bucket of `a` first or last. -/
def tiedPlatoons (swap : Bool) : GoMap (List String) :=
  arrange swap ("up_incoming", ["a"]) ("left_incoming", ["b"])

/-- The follower of `fastPlatoonWorld`: a platoon member at 20 m/s with a
leader link to `A`. -/
def fastFollower : Vehicle :=
  { edgeOnlyVehicle "up_incoming" with
    ID := "B", Lane := "u0", Pos := 80, Speed := 20, PlatoonID := "P", IsLeader := false,
    DesiredSpeed := 13.9, LeaderID := "A", ReactionTime := 0.5 }

/-- A world with one platoon `P` = [A, B] at 20 m/s, `B` 20 m behind `A`. -/
def fastPlatoonWorld : TrafficManager :=
  { NewTrafficManager 0 with
    Vehicles := [
      ("A", { edgeOnlyVehicle "up_incoming" with
        ID := "A", Lane := "u0", Pos := 100, Speed := 20, PlatoonID := "P", IsLeader := true,
        DesiredSpeed := 13.9, ReactionTime := 0.5 }),
      ("B", fastFollower)]
    Platoons := [("P",
      { ID := "P", VehicleIDs := ["A", "B"], LeaderID := "A", Edge := "up_incoming",
        Lane := "u0", StabilityRatio := 0, IntersectionWaitTime := 0, PriorityUntil := none })]
    VehicleToPlatoon := [("A", "P"), ("B", "P")] }

/-- The leader of `movingPriorityWorld`: it drives at 10 m/s in the middle of
`up_incoming`. -/
def movingLeader : Vehicle :=
  { edgeOnlyVehicle "up_incoming" with
    ID := "A", Lane := "u0", Pos := 50, Speed := 10, PlatoonID := "P", IsLeader := true }

/-- The platoon of `movingPriorityWorld`: 8 units of waiting time on record and
a priority window open until 5 s. -/
def movingPlatoon : Platoon :=
  { ID := "P", VehicleIDs := ["A", "B"], LeaderID := "A", Edge := "up_incoming",
    Lane := "u0", StabilityRatio := 0, IntersectionWaitTime := 8,
    PriorityUntil := some (5 * second) }

/-- A world with one platoon `P` = [A, B] whose leader drives at 10 m/s in
the middle of `up_incoming`, with 8 units of waiting time on record and a
priority window open until 5 s. -/
def movingPriorityWorld : TrafficManager :=
  { NewTrafficManager 0 with
    Vehicles := [("A", movingLeader),
      ("B", { edgeOnlyVehicle "up_incoming" with
        ID := "B", Lane := "u0", Pos := 40, Speed := 10, PlatoonID := "P", LeaderID := "A" })]
    Platoons := [("P", movingPlatoon)]
    VehicleToPlatoon := [("A", "P"), ("B", "P")] }

/-- The platoon of `waitingWorld`: five members and 4 units of waiting time
on record. -/
def waitingPlatoon : Platoon :=
  { ID := "P", VehicleIDs := ["w0", "w1", "w2", "w3", "w4"], LeaderID := "w0",
    Edge := "up_incoming", Lane := "up_incoming_0", StabilityRatio := 0,
    IntersectionWaitTime := 4, PriorityUntil := none }

/-- A world with one platoon `P` of five stopped vehicles queued at the end
of `up_incoming`, with 4 units of waiting time on record. -/
def waitingWorld : TrafficManager :=
  { NewTrafficManager 0 with
    Vehicles := (List.range 5).map (fun i =>
      ("w" ++ toString i,
        queuedVehicle ("w" ++ toString i) "up_incoming" "P" (120 - 6 * (i : ℚ))
          (decide (i = 0))))
    Platoons := [("P", waitingPlatoon)]
    VehicleToPlatoon := (List.range 5).map (fun i => ("w" ++ toString i, "P")) }

/-- The increase of the waiting time as the specification words it: 3, plus
5 for at least 5 members, plus 2 for at least 3 members. -/
def specWaitIncrease (size : Nat) : Int :=
  3 + (if size ≥ 5 then 5 else 0) + (if size ≥ 3 then 2 else 0)

/-- The vehicle loop of `SynchronizeSpeeds`, before the traversal of the
platoons. -/
def syncPass (s : Sched) (tm : TrafficManager) : TrafficManager :=
  (s.ord "SynchronizeSpeeds" "" tm.Vehicles.keys).foldl
    (syncStep (s.now "SynchronizeSpeeds" "")) tm

/-- The score of the specification for a platoon of `size` members that has
waited `wait` units: `20 size + 10 wait`, a size bonus and a waiting bonus. -/
def specScore (size : Nat) (wait : Int) : ℚ :=
  20 * (size : ℚ) + 10 * (wait : ℚ) +
    (if size ≥ 5 then 150 else if size ≥ 3 then 75 else 0) +
    (if wait > 60 then 300 else if wait > 30 then 150 else if wait > 15 then 75 else 0)

/-- The platoon `platoon` stored under `platoonID` is a candidate of the scored
branch: it is listed in a bucket of `platoonsByEdge`, and its leader exists
with a speed of at most 3.0. -/
def IsCandidate (tm : TrafficManager) (platoonsByEdge : GoMap (List String))
    (platoonID : String) (platoon : Platoon) : Prop :=
  (∃ edge platoons, platoonsByEdge.get edge = some platoons ∧ platoonID ∈ platoons) ∧
  tm.Platoons.get platoonID = some platoon ∧
  ∃ leader, tm.Vehicles.get platoon.LeaderID = some leader ∧ leader.Speed ≤ 3.0

/-! ## Scenarios and views for the leader links, the merge, the cap and the speed passes -/

/-- A member of the platoons of `twinColumns`: vehicle `<name><i>` at
`100 - 2 i` metres on lane `lane` of `up_incoming`. -/
def twinMember (name platoon lane : String) (i : Nat) : String × Vehicle :=
  (name ++ toString i,
    { edgeOnlyVehicle "up_incoming" with
      ID := name ++ toString i, Lane := lane, Pos := 100 - 2 * (i : ℚ), Speed := 10,
      PlatoonID := platoon, IsLeader := decide (i = 0), DesiredSpeed := 13.9 })

/-- A platoon of `twinColumns`: 16 members `<name>0` ... `<name>15` led by the
front one. -/
def twinPlatoon (id name lane : String) : Platoon :=
  { ID := id, VehicleIDs := (List.range 16).map (fun i => name ++ toString i),
    LeaderID := name ++ "0", Edge := "up_incoming", Lane := lane, StabilityRatio := 0,
    IntersectionWaitTime := 0, PriorityUntil := none }

/-- A world with two platoons `P` and `Q` of 16 members each on the two lanes
of `up_incoming`; every member exists. -/
def twinColumns : TrafficManager :=
  { NewTrafficManager 0 with
    Vehicles := (List.range 16).map (twinMember "p" "P" "up_incoming_0") ++
      (List.range 16).map (twinMember "q" "Q" "up_incoming_1")
    Platoons := [("P", twinPlatoon "P" "p" "up_incoming_0"),
      ("Q", twinPlatoon "Q" "q" "up_incoming_1")]
    VehicleToPlatoon := (List.range 16).map (fun i => ("p" ++ toString i, "P")) ++
      (List.range 16).map (fun i => ("q" ++ toString i, "Q")) }

/-- The ids that are members of some platoon of the world. -/
def platoonMembers (tm : TrafficManager) : List String :=
  tm.Platoons.flatMap (fun kv => kv.2.VehicleIDs)

/-- The buckets of `queuedState` when the leader `v1` of platoon `p` is
queued under the key `1` and the rest of the platoon under the key `0`. -/
def splitQueue : GoMap (List String) :=
  [("0", ["v2", "v3", "v4", "v5"]), ("1", ["v1", "x"])]

/-- A follower at 12 m/s in a platoon, with the reaction time the engine
assigns. -/
def gapFollower : Vehicle :=
  { edgeOnlyVehicle "up_incoming" with
    ID := "B", Lane := "u0", Pos := 80, Speed := 12, PlatoonID := "P", LeaderID := "A",
    ReactionTime := 0.5 }

/-- Every vehicle record is stored under its own id, as `UpdateVehicleData`
stores it. -/
def KeyedByID (tm : TrafficManager) : Prop :=
  ∀ k v, tm.Vehicles.get k = some v → v.ID = k

/-- The leading platoon of `mergeWorld`. -/
def mergeLeading : Platoon :=
  { ID := "L", VehicleIDs := ["l1", "l2"], LeaderID := "l1", Edge := "up_incoming",
    Lane := "u0", StabilityRatio := 0, IntersectionWaitTime := 0, PriorityUntil := none }

/-- The trailing platoon of `mergeWorld`; it shares the member `l2` with the
leading one, and its member `t9` does not exist. -/
def mergeTrailing : Platoon :=
  { ID := "T", VehicleIDs := ["t1", "t2", "l2", "t9"], LeaderID := "t1", Edge := "up_incoming",
    Lane := "u0", StabilityRatio := 0, IntersectionWaitTime := 0, PriorityUntil := none }

/-- A world with the platoons `L` = [l1, l2] and `T` = [t1, t2, l2, t9] on
one lane; `t1` leads `T`. -/
def mergeWorld : TrafficManager :=
  { NewTrafficManager 0 with
    Vehicles := [("l1", memberAt "l1" "L" 100 true), ("l2", memberAt "l2" "L" 92 false),
      ("t1", memberAt "t1" "T" 84 true), ("t2", memberAt "t2" "T" 76 false)]
    Platoons := [("L", mergeLeading), ("T", mergeTrailing)]
    VehicleToPlatoon := [("l1", "L"), ("l2", "L"), ("t1", "T"), ("t2", "T")] }

/-- The vehicle `w` stored under `k` is strictly ahead of `v` within the
detection distance of 50 m: another vehicle on the same edge and lane whose
distance `w.Pos - v.Pos`, as the `float64` subtraction gives it, lies in
`(0, 50]`. -/
def IsAhead (tm : TrafficManager) (v : Vehicle) (k : String) (w : Vehicle) : Prop :=
  tm.Vehicles.get k = some w ∧ w.ID ≠ v.ID ∧ w.Edge = v.Edge ∧ w.Lane = v.Lane ∧
    0 < fsub w.Pos v.Pos ∧ fsub w.Pos v.Pos ≤ 50

/-- The vehicle `w` stored under `k` is a nearest vehicle ahead of `v`. -/
def IsNearestAhead (tm : TrafficManager) (v : Vehicle) (k : String) (w : Vehicle) : Prop :=
  IsAhead tm v k w ∧ ∀ k' w', IsAhead tm v k' w' → fsub w.Pos v.Pos ≤ fsub w'.Pos v.Pos

/-- The fields of a vehicle record that `FindVehicleAhead` reads. -/
def linkView (v : Vehicle) : String × String × String × ℚ := (v.ID, v.Edge, v.Lane, v.Pos)

/-- The id that `updateLeaderRelationships` records for the vehicle stored
under `k`: the id of the vehicle that `FindVehicleAhead` returns for it, the
empty string for nil. -/
def linkedLeader (s : Sched) (tm : TrafficManager) (k : String) : String :=
  match tm.Vehicles.get k with
  | none => ""
  | some v =>
    match FindVehicleAhead s tm v with
    | none => ""
    | some lk => vehicleID tm lk

/-! ## Views for the speed passes and the invariants of a run -/

/-- The vehicle record without its desired speed. -/
def eraseDesired (v : Vehicle) : Vehicle := { v with DesiredSpeed := 0 }

/-- The state without the desired speeds of its vehicles: two states differ
only in desired speeds when this view of them is the same. -/
def forgetDesired (tm : TrafficManager) : TrafficManager :=
  { tm with Vehicles := tm.Vehicles.map (fun kv => (kv.1, eraseDesired kv.2)) }

/-! ## Runs of the engine and what they never change -/

/-- A call of the interface of the engine, with the schedule of the call. -/
inductive Call where
  | ingest (s : Sched) (vehicleData : GoMap CensusRecord)
  | tick (s : Sched)

/-- The state after the calls, made in order from `tm`: `UpdateVehicleData`
for an ingest, `Update` for a tick; `none` when a tick panics. -/
def runCalls : TrafficManager → List Call → Option TrafficManager
  | tm, [] => some tm
  | tm, Call.ingest s vehicleData :: rest => runCalls (UpdateVehicleData s vehicleData tm) rest
  | tm, Call.tick s :: rest =>
    match Update s tm with
    | none => none
    | some tm1 => runCalls tm1 rest

/-- Nothing is booked and nothing is stable: no reservation is stored, every
intersection has an empty `Edges` list, every vehicle has
`StablePlatoonTime = 0` and every platoon has `StabilityRatio = 0`. -/
def Dormant (tm : TrafficManager) : Prop :=
  tm.IntersectionReservations = [] ∧
  (∀ k i, tm.Intersections.get k = some i → i.Edges = []) ∧
  (∀ k v, tm.Vehicles.get k = some v → v.StablePlatoonTime = 0) ∧
  (∀ k p, tm.Platoons.get k = some p → p.StabilityRatio = 0)

/-- Every vehicle that is listed in a roster and exists is on an internal
edge. -/
def RosterInternal (tm : TrafficManager) : Prop :=
  ∀ k i id v, tm.Intersections.get k = some i → id ∈ i.Vehicles →
    tm.Vehicles.get id = some v → startsWithColon v.Edge = true

/-- A property of the state that is kept by every kind of write a tick makes:
a write to a vehicle that keeps `Edge` and `StablePlatoonTime`, a write to a
platoon that keeps a zero `StabilityRatio`, a write to an intersection that
keeps `Edges` and the roster, the insertion of a platoon with
`StabilityRatio = 0`, the deletion of a platoon, and any write outside the
vehicles, platoons, intersections and reservations. -/
structure TickClosed (P : TrafficManager → Prop) : Prop where
  mv : ∀ (t : TrafficManager) (k : String) (f : Vehicle → Vehicle),
    (∀ v, (f v).Edge = v.Edge ∧ (f v).StablePlatoonTime = v.StablePlatoonTime) →
    P t → P (modifyVehicle t k f)
  mp : ∀ (t : TrafficManager) (k : String) (f : Platoon → Platoon),
    (∀ p, p.StabilityRatio = 0 → (f p).StabilityRatio = 0) → P t → P (modifyPlatoon t k f)
  mi : ∀ (t : TrafficManager) (k : String) (f : Intersection → Intersection),
    (∀ i, (f i).Edges = i.Edges ∧ (f i).Vehicles = i.Vehicles) →
    P t → P (modifyIntersection t k f)
  setP : ∀ (t : TrafficManager) (k : String) (p : Platoon), p.StabilityRatio = 0 →
    P t → P { t with Platoons := t.Platoons.set k p }
  delP : ∀ (t : TrafficManager) (k : String),
    P t → P { t with Platoons := t.Platoons.del k }
  same : ∀ (t t' : TrafficManager), t'.Vehicles = t.Vehicles → t'.Platoons = t.Platoons →
    t'.Intersections = t.Intersections →
    t'.IntersectionReservations = t.IntersectionReservations → P t → P t'

/-- The empty buckets with which the classification loop starts. -/
def emptyBuckets : Buckets :=
  { leftTurn := [], rightTurn := [], straight := [], vehiclesByEdge := [],
    platoonsByEdge := [] }

/-- The state and the buckets that the classification loop of
`ManageIntersections` builds from the roster of `intersection`. -/
def classifyRoster (tm : TrafficManager) (intersection : Intersection) :
    TrafficManager × Buckets :=
  intersection.Vehicles.foldl classifyStep (tm, emptyBuckets)

/-- The state after the right-turn loop and the left-turn loop of
`handleNonConflictingMovements`, before the directional biasing. -/
def turnLoops (s : Sched) (tm : TrafficManager) (intersectionID : String)
    (vehiclesByEdge : GoMap (List String)) (rightTurn : List String) : TrafficManager :=
  (s.ord "handleNonConflictingMovements.left" intersectionID vehiclesByEdge.keys).foldl
    (fun tm edgeKey =>
      ((vehiclesByEdge.get edgeKey).getD []).foldl (leftTurnStep vehiclesByEdge edgeKey) tm)
    (rightTurn.foldl (rightTurnStep vehiclesByEdge) tm)

/-- A bucket key as the arbiter builds it from a vehicle on an internal edge:
it begins with `:` or holds no `_`. -/
def InternalKey (key : String) : Prop :=
  startsWithColon key = true ∨ '_' ∉ key.data

/-! ## Scenarios at the boundaries of formation and detection -/

/-- Scenario S1 with the empty string as the id of the vehicle in front. -/
def worldEmptyID : TrafficManager :=
  { NewTrafficManager 0 with
    Vehicles := [("", { vehicleS1A with ID := "" }), ("B", vehicleS1B)] }

/-- Scenario S1 with the vehicles at 32.2 m and 7.2 m. -/
def worldGapTwentyFive : TrafficManager :=
  { NewTrafficManager 0 with
    Vehicles := [("A", { vehicleS1A with Pos := 32.2 }), ("B", { vehicleS1B with Pos := 7.2 })] }

/-- A platoon `q` of two vehicles `x` and `y`. -/
def stalePlatoon : Platoon :=
  { ID := "q", VehicleIDs := ["x", "y"], LeaderID := "x", Edge := "up_incoming",
    Lane := "u0", StabilityRatio := 0, IntersectionWaitTime := 0, PriorityUntil := none }

/-- Scenario S1 with the vehicles 40 m apart, in a world that also holds the
platoon `q`, whose two vehicles are not in the world. -/
def worldStalePlatoon : TrafficManager :=
  { NewTrafficManager 0 with
    Vehicles := [("A", { vehicleS1A with Pos := 80 }), ("B", vehicleS1B)],
    Platoons := [("q", stalePlatoon)] }

/-- A follower at `3 · 2^-49` m on `up_incoming`. -/
def vehicleNearZero : Vehicle := { vehicleS1B with ID := "v", Pos := 3 / 2 ^ 49 }

/-- Two vehicles on `up_incoming`, lane `u0`: `v` at `3 · 2^-49` m and `w` at
`50 + 2^-47` m; both positions are `float64` values. -/
def worldJustBeyond : TrafficManager :=
  { NewTrafficManager 0 with
    Vehicles := [("v", vehicleNearZero),
      ("w", { vehicleS1A with ID := "w", Pos := 50 + 1 / 2 ^ 47 })] }

/-- A follower at 14.4 m on `up_incoming`. -/
def vehicleAtFourteen : Vehicle := { vehicleS1B with ID := "v", Pos := 14.4 }

/-- Two vehicles on `up_incoming`, lane `u0`: `v` at 14.4 m and `w` at 64.4 m. -/
def worldFiftyApart : TrafficManager :=
  { NewTrafficManager 0 with
    Vehicles := [("v", vehicleAtFourteen), ("w", { vehicleS1A with ID := "w", Pos := 64.4 })] }

/-- The vehicle of `denseStateAway` with the leader flag set: it is in no
platoon. -/
def denseStateFlagged : TrafficManager :=
  { denseStateAway with
    Vehicles := denseStateAway.Vehicles.map (fun kv => (kv.1, { kv.2 with IsLeader := true })) }

/-- Scenario S1 with the platoon `p_up_incoming_A` of `A` and `B` in place,
the leader flag of `A` not set, and a recorded density of 80 on
`up_incoming`. -/
def denseStateLed : TrafficManager :=
  { worldS1 with
    Vehicles :=
      [("A", { vehicleS1A with PlatoonID := "p_up_incoming_A", IsLeader := false }),
        ("B", { vehicleS1B with PlatoonID := "p_up_incoming_A", IsLeader := false })],
    Platoons := [("p_up_incoming_A", pairPlatoon vehicleS1A vehicleS1B)],
    VehicleToPlatoon := [("A", "p_up_incoming_A"), ("B", "p_up_incoming_A")],
    TrafficDensity := [("up_incoming", 80)] }

/-- The world `tiedWorld` with the waiting time of platoon `b` raised to 9:
the score of `b` is 130, that of `a` is 120. -/
def untiedWorld : TrafficManager :=
  { tiedWorld with
    Platoons := [("a", waitingPair "a" "a1" "a2" "up_incoming"),
      ("b", { waitingPair "b" "b1" "b2" "left_incoming" with IntersectionWaitTime := 9 })] }

/-- The traversal of `processPlatoonsIndependently` writes the desired speed
of the vehicle `id`: some platoon has it behind the front of its ordered
members. -/
def RewrittenByCohesion (tm : TrafficManager) (id : String) : Prop :=
  ∃ pid p, tm.Platoons.get pid = some p ∧ id ∈ (getOrderedPlatoonVehicles tm p).tail

/-- Scenario S1 after the leader links are set: `B` follows `A`, and there is
no platoon. -/
def linkedPair : TrafficManager :=
  { worldS1 with
    Vehicles := [("A", vehicleS1A), ("B", { vehicleS1B with LeaderID := "A" })] }

set_option maxRecDepth 1000000

/-! ## `float64` rounding -/

theorem pow2_eq_zpow (k : Int) : pow2 k = (2 : ℚ) ^ k := by
  unfold pow2
  split
  · next h =>
    obtain ⟨n, rfl⟩ := Int.eq_ofNat_of_zero_le h
    simp
  · next h =>
    have h' : 0 ≤ -k := by omega
    obtain ⟨n, hn⟩ := Int.eq_ofNat_of_zero_le h'
    have hk : k = -(n : Int) := by omega
    subst hk
    simp

theorem pow2_pos (k : Int) : 0 < pow2 k := by
  rw [pow2_eq_zpow]
  positivity

theorem roundHalfEven_cases (m : ℚ) :
    (roundHalfEven m = ⌊m⌋ ∧ m - ⌊m⌋ ≤ 1 / 2) ∨
    (roundHalfEven m = ⌊m⌋ + 1 ∧ 1 / 2 ≤ m - ⌊m⌋) := by
  have hfl : Rat.floor m = ⌊m⌋ := rfl
  unfold roundHalfEven
  simp only [hfl]
  split
  · next h => exact Or.inl ⟨rfl, le_of_lt h⟩
  · next h =>
    split
    · next h2 => exact Or.inr ⟨rfl, le_of_lt h2⟩
    · next h2 =>
      have he : m - ⌊m⌋ = 1 / 2 := le_antisymm (not_lt.mp h2) (not_lt.mp h)
      split
      · exact Or.inl ⟨rfl, le_of_eq he⟩
      · exact Or.inr ⟨rfl, le_of_eq he.symm⟩

/-- Rounding to the nearest integer moves a number by at most one half. -/
theorem roundHalfEven_error (m : ℚ) : |(roundHalfEven m : ℚ) - m| ≤ 1 / 2 := by
  have h1 : (⌊m⌋ : ℚ) ≤ m := Int.floor_le m
  have h2 : m < ⌊m⌋ + 1 := Int.lt_floor_add_one m
  rw [abs_le]
  rcases roundHalfEven_cases m with ⟨h, hb⟩ | ⟨h, hb⟩
  · rw [h]; constructor <;> linarith
  · rw [h]; push_cast; constructor <;> linarith

theorem roundHalfEven_nonneg (m : ℚ) (h : 0 ≤ m) : 0 ≤ roundHalfEven m := by
  have hf : 0 ≤ ⌊m⌋ := Int.floor_nonneg.mpr h
  rcases roundHalfEven_cases m with ⟨h1, _⟩ | ⟨h1, _⟩ <;> rw [h1] <;> omega

theorem roundHalfEven_nonpos (m : ℚ) (h : m ≤ 0) : roundHalfEven m ≤ 0 := by
  have hf : ⌊m⌋ ≤ 0 := by
    have h' : ((⌊m⌋ : Int) : ℚ) ≤ ((0 : Int) : ℚ) := by
      simpa using (Int.floor_le m).trans h
    exact_mod_cast h'
  rcases roundHalfEven_cases m with ⟨h1, _⟩ | ⟨h1, hb⟩
  · rw [h1]; exact hf
  · rw [h1]
    by_contra hc
    have h0 : ⌊m⌋ = 0 := by omega
    rw [h0] at hb
    have : (1 : ℚ) / 2 ≤ m := by simpa using hb
    linarith

/-- The rounded value of a non-negative result is non-negative. -/
theorem f64_nonneg (x : ℚ) (h : 0 ≤ x) : 0 ≤ f64 x := by
  unfold f64
  split
  · exact h
  · simp only []
    have hq := pow2_pos (max (binExp x) (-1022) - 52)
    have hm : 0 ≤ x / pow2 (max (binExp x) (-1022) - 52) := div_nonneg h (le_of_lt hq)
    have hr : (0 : ℚ) ≤ (roundHalfEven (x / pow2 (max (binExp x) (-1022) - 52)) : ℚ) := by
      exact_mod_cast roundHalfEven_nonneg _ hm
    exact mul_nonneg hr (le_of_lt hq)

/-- The rounded value of a non-positive result is non-positive. -/
theorem f64_nonpos (x : ℚ) (h : x ≤ 0) : f64 x ≤ 0 := by
  unfold f64
  split
  · exact h
  · simp only []
    have hq := pow2_pos (max (binExp x) (-1022) - 52)
    have hm : x / pow2 (max (binExp x) (-1022) - 52) ≤ 0 :=
      div_nonpos_of_nonpos_of_nonneg h (le_of_lt hq)
    have hr : (roundHalfEven (x / pow2 (max (binExp x) (-1022) - 52)) : ℚ) ≤ 0 := by
      exact_mod_cast roundHalfEven_nonpos _ hm
    exact mul_nonpos_of_nonpos_of_nonneg hr (le_of_lt hq)

/-- A positive rounded difference comes from a positive difference, so the
difference taken the other way round is not positive after rounding. -/
theorem f64_sub_nonpos_of_pos (a b : ℚ) (h : 0 < f64 (a - b)) : f64 (b - a) ≤ 0 := by
  refine f64_nonpos _ ?_
  by_contra hc
  have h1 : a - b ≤ 0 := by linarith [not_le.mp hc]
  exact absurd (f64_nonpos _ h1) (not_le.mpr h)

theorem fadd_fifty_one : fadd 50 1 = 51 := by decide!

/-- The subtraction at the detection distance: `64.4 - 14.4` is
`50.00000000000001` in `float64`, above 50. -/
theorem fsub_above_fifty : 50 < fsub 64.4 14.4 := by decide!

/-- The subtraction at the platoon gap: `32.2 - 7.2` is
`25.000000000000004` in `float64`, above 25. -/
theorem fsub_above_twenty_five : 25 < fsub 32.2 7.2 := by decide!

/-- The duration for 0.01 m at 1.6 m/s: `0.01 / 1.6 * 1e9` is
`6249999.999999999` in `float64`, cut to 6249999 ns. -/
theorem duration_below_exact :
    durationOfFloat (fmul (fdiv 0.01 1.6) (second : ℚ)) = 6249999 := by decide!

/-- With enough fuel, `halvings` is the position of the leading bit. -/
theorem halvings_spec (fuel : Nat) : ∀ n : Nat, n ≤ fuel → n ≠ 0 →
    2 ^ halvings fuel n ≤ n ∧ n < 2 ^ (halvings fuel n + 1) := by
  induction fuel with
  | zero => intro n h hn; omega
  | succ fuel ih =>
    intro n h hn
    unfold halvings
    split
    · next h2 =>
      have : n = 1 := by omega
      subst this
      simp
    · next h2 =>
      have hle : n / 2 ≤ fuel := by omega
      have hne : n / 2 ≠ 0 := by omega
      obtain ⟨i1, i2⟩ := ih (n / 2) hle hne
      constructor
      · rw [pow_succ]
        omega
      · rw [pow_succ]
        omega

/-- The binary exponent is not above the number: `2^e ≤ |x|`. -/
theorem pow2_binExp_le (x : ℚ) (hx : x ≠ 0) : pow2 (binExp x) ≤ |x| := by
  unfold binExp
  simp only []
  split
  · next h => exact h
  · have hn : x.num.natAbs ≠ 0 := by
      intro h0
      exact hx (Rat.zero_of_num_zero (Int.natAbs_eq_zero.mp h0))
    obtain ⟨a1, _⟩ := halvings_spec x.num.natAbs x.num.natAbs (le_refl _) hn
    obtain ⟨_, b2⟩ := halvings_spec x.den x.den (le_refl _) x.den_nz
    generalize halvings x.num.natAbs x.num.natAbs = a at a1
    generalize halvings x.den x.den = b at b2
    rw [pow2_eq_zpow]
    have hd : (0 : ℚ) < (x.den : ℚ) := by exact_mod_cast x.den_pos
    have habs : |x| = (x.num.natAbs : ℚ) / (x.den : ℚ) := by
      conv_lhs => rw [← Rat.num_div_den x]
      rw [abs_div, abs_of_pos hd, Nat.cast_natAbs, Int.cast_abs]
    rw [habs]
    rw [le_div_iff₀ hd]
    have e1 : ((2 : ℚ) ^ ((a : Int) - (b : Int) - 1)) * (2 : ℚ) ^ ((b : Int) + 1) = (2 : ℚ) ^ (a : Int) := by
      rw [← zpow_add₀ (by norm_num : (2 : ℚ) ≠ 0)]
      congr 1
      ring
    have a1' : ((2 : ℚ) ^ (a : Int)) ≤ (x.num.natAbs : ℚ) := by
      rw [zpow_natCast]
      exact_mod_cast a1
    have b2' : (x.den : ℚ) ≤ (2 : ℚ) ^ ((b : Int) + 1) := by
      have : ((b : Int) + 1) = ((b + 1 : Nat) : Int) := by push_cast; rfl
      rw [this, zpow_natCast]
      exact_mod_cast le_of_lt b2
    calc (2 : ℚ) ^ ((a : Int) - (b : Int) - 1) * (x.den : ℚ)
        ≤ (2 : ℚ) ^ ((a : Int) - (b : Int) - 1) * (2 : ℚ) ^ ((b : Int) + 1) :=
          mul_le_mul_of_nonneg_left b2' (by positivity)
      _ = (2 : ℚ) ^ (a : Int) := e1
      _ ≤ (x.num.natAbs : ℚ) := a1'

/-- The rounding error of `f64`: at most `2^(-53)` of the number, and of
`2^(-1022)` for a number below the normal range. -/
theorem f64_error (x : ℚ) : |f64 x - x| ≤ max |x| (pow2 (-1022)) / 2 ^ 53 := by
  have hmaxpos : 0 ≤ max |x| (pow2 (-1022)) / 2 ^ 53 :=
    div_nonneg (le_max_of_le_left (abs_nonneg x)) (by positivity)
  unfold f64
  split
  · simpa using hmaxpos
  · next hfast =>
    simp only []
    by_cases hx : x = 0
    · subst hx
      exact absurd ⟨rfl, by norm_num⟩ hfast
    · generalize hq : pow2 (max (binExp x) (-1022) - 52) = q
      have hqpos : 0 < q := by rw [← hq]; exact pow2_pos _
      have herr := roundHalfEven_error (x / q)
      have e1 : (roundHalfEven (x / q) : ℚ) * q - x = ((roundHalfEven (x / q) : ℚ) - x / q) * q := by
        field_simp
      rw [e1, abs_mul, abs_of_pos hqpos]
      have hqle : q ≤ max |x| (pow2 (-1022)) / 2 ^ 52 := by
        rw [← hq, pow2_eq_zpow, zpow_sub₀ (by norm_num : (2 : ℚ) ≠ 0)]
        have h52 : (2 : ℚ) ^ (52 : Int) = 2 ^ 52 := by norm_cast
        rw [h52]
        refine div_le_div_of_nonneg_right ?_ (by positivity)
        rcases le_total (binExp x) (-1022) with hle | hle
        · rw [max_eq_right hle, ← pow2_eq_zpow]
          exact le_max_right _ _
        · rw [max_eq_left hle, ← pow2_eq_zpow]
          exact le_max_of_le_left (pow2_binExp_le x hx)
      calc |(roundHalfEven (x / q) : ℚ) - x / q| * q ≤ 1 / 2 * q :=
            mul_le_mul_of_nonneg_right herr (le_of_lt hqpos)
        _ ≤ 1 / 2 * (max |x| (pow2 (-1022)) / 2 ^ 52) :=
            mul_le_mul_of_nonneg_left hqle (by norm_num)
        _ = max |x| (pow2 (-1022)) / 2 ^ 53 := by ring

/-! ## Go maps -/

theorem get_set {V : Type} (m : GoMap V) (k k' : String) (v : V) :
    (m.set k v).get k' = if k = k' then some v else m.get k' := by
  induction m with
  | nil => simp [GoMap.set, GoMap.get]
  | cons hd tl ih =>
    obtain ⟨k0, v0⟩ := hd
    by_cases h0 : k0 = k
    · subst h0
      by_cases h1 : k0 = k' <;> simp [GoMap.set, GoMap.get, h1]
    · by_cases h1 : k0 = k'
      · subst h1
        have : ¬ k = k0 := fun h => h0 h.symm
        simp [GoMap.set, GoMap.get, h0, this]
      · simp [GoMap.set, GoMap.get, h0, h1, ih]

theorem get_del {V : Type} (m : GoMap V) (k k' : String) :
    (m.del k).get k' = if k = k' then none else m.get k' := by
  induction m with
  | nil => simp [GoMap.del, GoMap.get]
  | cons hd tl ih =>
    obtain ⟨k0, v0⟩ := hd
    by_cases h0 : k0 = k
    · subst h0
      by_cases h1 : k0 = k'
      · subst h1
        simpa [GoMap.del] using ih
      · simp [GoMap.del, GoMap.get, h1, ih]
    · by_cases h1 : k0 = k'
      · subst h1
        have : ¬ k = k0 := fun h => h0 h.symm
        simp [GoMap.del, GoMap.get, h0, this]
      · simp [GoMap.del, GoMap.get, h0, h1, ih]

theorem mem_keys_of_get {V : Type} (m : GoMap V) (k : String) (v : V)
    (h : m.get k = some v) : k ∈ m.keys := by
  induction m with
  | nil => simp [GoMap.get] at h
  | cons hd tl ih =>
    obtain ⟨k0, v0⟩ := hd
    by_cases h0 : k0 = k
    · simp [GoMap.keys, h0]
    · simp only [GoMap.get, h0, if_false] at h
      have := ih h
      simp only [GoMap.keys, List.map_cons, List.mem_cons] at this ⊢
      exact Or.inr this

/-- A fold of a state transformer preserves every property that each step
preserves. -/
theorem foldl_preserves {σ α : Type} (P : σ → Prop) (f : σ → α → σ)
    (hf : ∀ s a, P s → P (f s a)) (l : List α) (s : σ) (hs : P s) : P (l.foldl f s) := by
  induction l generalizing s with
  | nil => exact hs
  | cons a l ih => exact ih (f s a) (hf s a hs)

theorem get_of_mem_keys {V : Type} (m : GoMap V) (k : String) (h : k ∈ m.keys) :
    ∃ v, m.get k = some v := by
  induction m with
  | nil => simp [GoMap.keys] at h
  | cons hd tl ih =>
    obtain ⟨k0, v0⟩ := hd
    by_cases h0 : k0 = k
    · exact ⟨v0, by simp [GoMap.get, h0]⟩
    · simp only [GoMap.keys, List.map_cons, List.mem_cons] at h
      rcases h with h | h
      · exact absurd h.symm h0
      · obtain ⟨v, hv⟩ := ih h
        exact ⟨v, by simp [GoMap.get, h0, hv]⟩

/-- A fold establishes at every visited element a property that each step
establishes at its own element and preserves at the others. -/
theorem foldl_establishes {σ α : Type} (Q : σ → α → Prop) (f : σ → α → σ)
    (hA : ∀ s a, Q (f s a) a) (hB : ∀ s a b, Q s b → Q (f s a) b)
    (l : List α) (s : σ) (a : α) (ha : a ∈ l) : Q (l.foldl f s) a := by
  induction l generalizing s with
  | nil => simp at ha
  | cons x l ih =>
    simp only [List.foldl_cons]
    by_cases hx : a = x
    · subst hx
      exact foldl_preserves (fun t => Q t a) f (fun t b ht => hB t b a ht) l _ (hA s a)
    · rcases List.mem_cons.mp ha with h | h
      · exact absurd h hx
      · exact ih (f s x) h

/-- C9. On the four canonical incoming edges and the three directions left,
right and straight, `areMovementsCompatible` is true exactly for the pairs the
specification lists: same edge, opposite edges with both right, or a right
turn against the left edge with the other direction neither straight nor left
(in either role). -/
theorem areMovementsCompatible_iff_spec (e1 e2 d1 d2 : String)
    (he1 : e1 ∈ incomingEdges) (he2 : e2 ∈ incomingEdges)
    (hd1 : d1 ∈ turnDirections) (hd2 : d2 ∈ turnDirections) :
    areMovementsCompatible e1 d1 e2 d2 = true ↔ specCompatible e1 d1 e2 d2 := by
  have key : ∀ a ∈ incomingEdges, ∀ b ∈ incomingEdges, ∀ c ∈ turnDirections,
      ∀ d ∈ turnDirections,
      (areMovementsCompatible a c b d = true ↔ specCompatible a c b d) := by
    decide
  exact key e1 he1 e2 he2 d1 hd1 d2 hd2

theorem areMovementsCompatible_iff_spec_witness :
    (areMovementsCompatible "down_incoming" "right" "right_incoming" "right" = true ↔
      specCompatible "down_incoming" "right" "right_incoming" "right") ∧
    areMovementsCompatible "down_incoming" "right" "right_incoming" "right" = true :=
  ⟨areMovementsCompatible_iff_spec "down_incoming" "right_incoming" "right" "right"
      (by decide) (by decide) (by decide) (by decide), by decide⟩

/-! ## Reservations -/

theorem modifyIntersection_reservations (tm : TrafficManager) (k : String)
    (f : Intersection → Intersection) :
    (modifyIntersection tm k f).IntersectionReservations = tm.IntersectionReservations := by
  unfold modifyIntersection
  split <;> rfl

/-- Compatibility is symmetric as soon as the second edge is one of the four
incoming edges. -/
theorem compatible_symm_of_incoming (e1 d1 e2 d2 : String) (he2 : e2 ∈ incomingEdges)
    (h : areMovementsCompatible e1 d1 e2 d2 = true) :
    areMovementsCompatible e2 d2 e1 d1 = true := by
  by_cases he1 : e1 ∈ incomingEdges
  · have key : ∀ a ∈ incomingEdges, ∀ b ∈ incomingEdges, ∀ r1 r2 s1 s2 l1 l2 : Bool,
        (if a = b then true
          else if getOppositeEdge a = b then (if r1 = true ∧ r2 = true then true else false)
          else if r1 = true ∧ getLeftEdge b = a then decide (¬ s2 = true ∧ ¬ l2 = true)
          else if r2 = true ∧ getLeftEdge a = b then decide (¬ s1 = true ∧ ¬ l1 = true)
          else false) = true →
        (if b = a then true
          else if getOppositeEdge b = a then (if r2 = true ∧ r1 = true then true else false)
          else if r2 = true ∧ getLeftEdge a = b then decide (¬ s1 = true ∧ ¬ l1 = true)
          else if r1 = true ∧ getLeftEdge b = a then decide (¬ s2 = true ∧ ¬ l2 = true)
          else false) = true := by
      decide
    have := key e1 he1 e2 he2 (decide (d1 = TurnRight)) (decide (d2 = TurnRight))
      (decide (d1 = TurnStraight)) (decide (d2 = TurnStraight))
      (decide (d1 = TurnLeft)) (decide (d2 = TurnLeft))
    simp only [decide_eq_true_eq] at this
    unfold areMovementsCompatible at h ⊢
    exact this h
  · exfalso
    simp only [incomingEdges, List.mem_cons, List.mem_singleton, List.not_mem_nil, or_false,
      not_or] at he1 he2
    obtain ⟨h1, h2, h3, h4⟩ := he1
    have ho : getOppositeEdge e1 = "" := by simp [getOppositeEdge, h1, h2, h3, h4]
    have hl : getLeftEdge e1 = "" := by simp [getLeftEdge, h1, h2, h3, h4]
    unfold areMovementsCompatible at h
    rw [ho, hl] at h
    rcases he2 with rfl | rfl | rfl | rfl <;>
      simp [getLeftEdge, h1, h2, h3, h4, Ne.symm h1, Ne.symm h2, Ne.symm h3, Ne.symm h4] at h

theorem routeEdges_cases (id : String) :
    getVehicleRouteEdges id = [] ∨
      ∃ a b, getVehicleRouteEdges id = [a, b] ∧ a ∈ incomingEdges := by
  unfold getVehicleRouteEdges
  simp only
  split_ifs
  · right; exact ⟨"down_incoming", "left_leaving", by decide, by decide⟩
  · right; exact ⟨"down_incoming", "down_leaving", by decide, by decide⟩
  · right; exact ⟨"down_incoming", "right_leaving", by decide, by decide⟩
  · left; decide
  · left; decide
  · left; decide
  · left; decide

theorem edge_incoming_of_next (s : Sched) (tm : TrafficManager) (v : Vehicle) (k : String)
    (h : findNextIntersectionForVehicle s tm v = some k) : v.Edge ∈ incomingEdges := by
  unfold findNextIntersectionForVehicle at h
  rcases routeEdges_cases v.ID with h0 | ⟨a, b, hab, ha⟩
  · simp [h0] at h
  · simp only [hab] at h
    by_cases hav : a = v.Edge
    · rw [← hav]; exact ha
    · simp [findNextFrom, hav] at h

theorem overlap_of_intersect (a b : IntersectionReservation) (h : intervalsIntersect a b) :
    timesOverlap a b = true := by
  obtain ⟨t, h1, h2, h3, h4⟩ := h
  have ha : ¬ a.EndTime < b.StartTime := by omega
  have hb : ¬ a.StartTime > b.EndTime := by omega
  simp [timesOverlap, ha, hb]

theorem intersect_symm (a b : IntersectionReservation) (h : intervalsIntersect a b) :
    intervalsIntersect b a := by
  obtain ⟨t, h1, h2, h3, h4⟩ := h
  exact ⟨t, h3, h4, h1, h2⟩

theorem compatible_of_no_conflict (tm : TrafficManager) (r : IntersectionReservation)
    (h : hasConflictingReservation tm r = false) (k : String) (e : IntersectionReservation)
    (hk : tm.IntersectionReservations.get k = some e)
    (hi : e.IntersectionID = r.IntersectionID) (ho : timesOverlap e r = true) :
    areMovementsCompatible e.EdgeFrom e.Direction r.EdgeFrom r.Direction = true := by
  unfold hasConflictingReservation at h
  rw [List.any_eq_false] at h
  have := h k (mem_keys_of_get _ _ _ hk)
  simp only [hk, hi, ho] at this
  by_contra hc
  simp [hc] at this

/-- Adding a reservation that conflicts with none of the table keeps the
table compatible, provided its edge is an incoming edge. -/
theorem compatible_insert (tm : TrafficManager) (r : IntersectionReservation)
    (hinv : ReservationsCompatible tm) (hedge : r.EdgeFrom ∈ incomingEdges)
    (hconf : hasConflictingReservation tm r = false) :
    ReservationsCompatible
      { tm with IntersectionReservations := tm.IntersectionReservations.set r.ID r } := by
  intro k1 r1 k2 r2 h1 h2 hid hint
  simp only [get_set] at h1 h2
  by_cases e1 : r.ID = k1 <;> by_cases e2 : r.ID = k2
  · rw [if_pos e1] at h1
    rw [if_pos e2] at h2
    have q1 : r = r1 := Option.some.inj h1
    have q2 : r = r2 := Option.some.inj h2
    subst q1; subst q2
    simp [areMovementsCompatible]
  · rw [if_pos e1] at h1
    rw [if_neg e2] at h2
    have q1 : r = r1 := Option.some.inj h1
    subst q1
    exact compatible_symm_of_incoming _ _ _ _ hedge
      (compatible_of_no_conflict tm r hconf k2 r2 h2 hid.symm
        (overlap_of_intersect _ _ (intersect_symm _ _ hint)))
  · rw [if_neg e1] at h1
    rw [if_pos e2] at h2
    have q2 : r = r2 := Option.some.inj h2
    subst q2
    exact compatible_of_no_conflict tm r hconf k1 r1 h1 hid (overlap_of_intersect _ _ hint)
  · rw [if_neg e1] at h1
    rw [if_neg e2] at h2
    exact hinv k1 r1 k2 r2 h1 h2 hid hint

theorem reserveStep_preserves (s : Sched) (tm : TrafficManager) (platoonID : String)
    (hinv : ReservationsCompatible tm) : ReservationsCompatible (reserveStep s tm platoonID) := by
  unfold reserveStep
  split
  · exact hinv
  · rename_i platoon _
    split_ifs
    · exact hinv
    · split
      · exact hinv
      · rename_i leader _
        split_ifs
        · exact hinv
        · split
          · exact hinv
          · rename_i ik hnext
            split
            · exact hinv
            · rename_i nextIntersection _
              simp only
              split_ifs with hd hhas hconf
              · exact hinv
              · exact hinv
              · intro k1 r1 k2 r2 h1 h2
                rw [modifyIntersection_reservations] at h1 h2
                have hedge : (buildReservation (s.now "estimateArrivalTime" platoonID) platoon
                    leader nextIntersection).EdgeFrom ∈ incomingEdges :=
                  edge_incoming_of_next s tm leader ik hnext
                have hc : hasConflictingReservation tm (buildReservation
                    (s.now "estimateArrivalTime" platoonID) platoon leader nextIntersection)
                    = false := by
                  simpa using hconf
                exact compatible_insert tm _ hinv hedge hc k1 r1 k2 r2 h1 h2
              · exact hinv

/-- C1. `ReservePlatoonIntersectionSlots` preserves reservation non-overlap:
if any two reservations at the same intersection whose intervals intersect
have compatible movements before the call, the same holds after it, for every
clock and every iteration order of the schedule. -/
theorem reserve_preserves_compatibility (s : Sched) (tm : TrafficManager)
    (h : ReservationsCompatible tm) :
    ReservationsCompatible (ReservePlatoonIntersectionSlots s tm) := by
  unfold ReservePlatoonIntersectionSlots
  exact foldl_preserves ReservationsCompatible (reserveStep s)
    (fun tm k hk => reserveStep_preserves s tm k hk) _ tm h

/-! ## Writes through vehicle pointers -/

theorem modifyVehicle_get (tm : TrafficManager) (k k' : String) (f : Vehicle → Vehicle) :
    (modifyVehicle tm k f).Vehicles.get k' =
      if k = k' then (tm.Vehicles.get k').map f else tm.Vehicles.get k' := by
  unfold modifyVehicle
  cases h : tm.Vehicles.get k with
  | none =>
    by_cases hk : k = k'
    · subst hk; simp [h]
    · simp [hk]
  | some v =>
    by_cases hk : k = k'
    · subst hk; simp [get_set, h]
    · simp [get_set, hk]

theorem modifyVehicle_platoons (tm : TrafficManager) (k : String) (f : Vehicle → Vehicle) :
    (modifyVehicle tm k f).Platoons = tm.Platoons := by
  unfold modifyVehicle
  split <;> rfl

theorem modifyVehicle_vehicleToPlatoon (tm : TrafficManager) (k : String)
    (f : Vehicle → Vehicle) :
    (modifyVehicle tm k f).VehicleToPlatoon = tm.VehicleToPlatoon := by
  unfold modifyVehicle
  split <;> rfl

theorem modifyVehicle_density (tm : TrafficManager) (k : String) (f : Vehicle → Vehicle) :
    (modifyVehicle tm k f).TrafficDensity = tm.TrafficDensity := by
  unfold modifyVehicle
  split <;> rfl

theorem setDesired_get (tm : TrafficManager) (k k' : String) (x : ℚ) :
    (setDesired tm k x).Vehicles.get k' =
      if k = k' then (tm.Vehicles.get k').map (fun v => { v with DesiredSpeed := x })
      else tm.Vehicles.get k' := by
  unfold setDesired
  exact modifyVehicle_get tm k k' _

theorem setDesired_platoons (tm : TrafficManager) (k : String) (x : ℚ) :
    (setDesired tm k x).Platoons = tm.Platoons := by
  unfold setDesired modifyVehicle
  split <;> rfl

theorem setDesired_vehicleToPlatoon (tm : TrafficManager) (k : String) (x : ℚ) :
    (setDesired tm k x).VehicleToPlatoon = tm.VehicleToPlatoon := by
  unfold setDesired modifyVehicle
  split <;> rfl

theorem setDesired_density (tm : TrafficManager) (k : String) (x : ℚ) :
    (setDesired tm k x).TrafficDensity = tm.TrafficDensity := by
  unfold setDesired modifyVehicle
  split <;> rfl

/-! ## Right-turn gating -/

theorem boostFollowers_get_self (tm : TrafficManager) (vehicle : Vehicle) (cap boost : ℚ) :
    (boostFollowers tm vehicle cap boost).Vehicles.get vehicle.ID =
      tm.Vehicles.get vehicle.ID := by
  unfold boostFollowers
  split
  · rfl
  · split
    · rfl
    · rename_i platoon _
      split_ifs
      · refine foldl_preserves
          (fun t : TrafficManager => t.Vehicles.get vehicle.ID = tm.Vehicles.get vehicle.ID)
          _ ?_ platoon.VehicleIDs tm rfl
        intro t followerId ht
        split_ifs with hf
        · exact ht
        · split
          · exact ht
          · rw [setDesired_get, if_neg hf]
            exact ht
      · rfl

/-- C8. The right-turn step of `handleNonConflictingMovements` for a vehicle
`x` of `rightTurn`: when no vehicle bucketed under the left edge of the source
edge of `x` has turn direction STRAIGHT, `x` is assigned the clearance speed
`min(16.0, x.Speed + 3.5)`; when such a vehicle exists, the step changes
nothing, so `x.DesiredSpeed` is unchanged. -/
theorem right_turn_gating (vehiclesByEdge : GoMap (List String)) (tm : TrafficManager)
    (x : String) (v : Vehicle) (hx : tm.Vehicles.get x = some v) (hid : v.ID = x) :
    ((∀ l ∈ (vehiclesByEdge.get (getLeftEdge (getSourceEdgeForVehicle v))).getD [],
        ∀ w, tm.Vehicles.get l = some w → w.TurnDirection ≠ TurnStraight) →
      ((rightTurnStep vehiclesByEdge tm x).Vehicles.get x).map (fun w => w.DesiredSpeed) =
        some (min 16.0 (v.Speed + 3.5))) ∧
    ((∃ l ∈ (vehiclesByEdge.get (getLeftEdge (getSourceEdgeForVehicle v))).getD [],
        ∃ w, tm.Vehicles.get l = some w ∧ w.TurnDirection = TurnStraight) →
      rightTurnStep vehiclesByEdge tm x = tm) := by
  constructor
  · intro hgate
    have hcan : canProceed tm vehiclesByEdge v = true := by
      unfold canProceed
      simp only [Bool.not_eq_true', List.any_eq_false, decide_eq_true_eq]
      intro l hl hturn
      unfold vehicleTurn at hturn
      cases hw : tm.Vehicles.get l with
      | none => rw [hw] at hturn; simp [TurnStraight] at hturn
      | some w => rw [hw] at hturn; exact hgate l hl w hw hturn
    unfold rightTurnStep
    simp only [hx, hcan, if_true]
    have := boostFollowers_get_self (setDesired tm x (min 16.0 (v.Speed + 3.5))) v 14.0 3.0
    rw [hid] at this
    rw [this, setDesired_get, if_pos rfl, hx]
    rfl
  · rintro ⟨l, hl, w, hw, hturn⟩
    have hcan : canProceed tm vehiclesByEdge v = false := by
      unfold canProceed
      simp only [Bool.not_eq_false', List.any_eq_true, decide_eq_true_eq]
      exact ⟨l, hl, by simp [vehicleTurn, hw, hturn]⟩
    unfold rightTurnStep
    simp [hx, hcan]

/-! ## Density cap -/

theorem adjustStep_frames (tm : TrafficManager) (id : String) :
    (adjustStep tm id).Platoons = tm.Platoons ∧
    (adjustStep tm id).VehicleToPlatoon = tm.VehicleToPlatoon ∧
    (adjustStep tm id).TrafficDensity = tm.TrafficDensity := by
  unfold adjustStep
  repeat' split
  all_goals
    first
    | exact ⟨rfl, rfl, rfl⟩
    | exact ⟨setDesired_platoons _ _ _, setDesired_vehicleToPlatoon _ _ _,
        setDesired_density _ _ _⟩

theorem adjustStep_get_ne (tm : TrafficManager) (id k : String) (h : id ≠ k) :
    (adjustStep tm id).Vehicles.get k = tm.Vehicles.get k := by
  unfold adjustStep
  repeat' split
  all_goals
    first
    | rfl
    | (rw [setDesired_get, if_neg h])

theorem adjustStep_get_self (tm : TrafficManager) (k : String) (v : Vehicle)
    (hv : tm.Vehicles.get k = some v) :
    ∃ x, (adjustStep tm k).Vehicles.get k = some { v with DesiredSpeed := x } := by
  unfold adjustStep
  simp only [hv]
  repeat' split
  all_goals
    first
    | exact ⟨v.DesiredSpeed, hv⟩
    | exact ⟨_, by rw [setDesired_get, if_pos rfl, hv]; rfl⟩

theorem adjustStep_get_none (tm : TrafficManager) (id k : String)
    (hv : tm.Vehicles.get k = none) : (adjustStep tm id).Vehicles.get k = none := by
  by_cases h : id = k
  · subst h
    unfold adjustStep
    simp [hv]
  · rw [adjustStep_get_ne tm id k h]; exact hv

theorem adjustStep_caps (tm : TrafficManager) (k : String) (v : Vehicle) (d : ℚ)
    (hv : tm.Vehicles.get k = some v) (hat : v.AtIntersection = false)
    (hd : tm.TrafficDensity.get v.Edge = some d) (hd70 : d > 70)
    (hl : v.IsLeader = false) (hnl : ¬ leadsPlatoon tm k) :
    ((adjustStep tm k).Vehicles.get k).map (fun w => w.DesiredSpeed) =
      some (min v.DesiredSpeed 7.8) := by
  have hleads : ledPlatoonSize tm k = none := by
    unfold ledPlatoonSize
    split
    · rfl
    · rename_i pid hpid
      split
      · rfl
      · rename_i p hp
        split_ifs with hk
        · exact absurd ⟨pid, p, hpid, hp, hk⟩ hnl
        · rfl
  unfold adjustStep
  rw [hv]
  simp only
  rw [if_neg (by simp [hat]), hd]
  simp only
  rw [hleads]
  simp only
  rw [if_pos (by simp [hl]), if_pos hd70, setDesired_get, if_pos rfl, hv]
  rfl

/-- The desired speed stored under `k` respects the density cap. -/
theorem adjustStep_capped (tm : TrafficManager) (j k : String)
    (h : ∀ v d, tm.Vehicles.get k = some v → v.AtIntersection = false →
      tm.TrafficDensity.get v.Edge = some d → d > 70 → v.IsLeader = false →
      ¬ leadsPlatoon tm k → v.DesiredSpeed ≤ 7.8 ∨ j = k) :
    ∀ v d, (adjustStep tm j).Vehicles.get k = some v → v.AtIntersection = false →
      (adjustStep tm j).TrafficDensity.get v.Edge = some d → d > 70 → v.IsLeader = false →
      ¬ leadsPlatoon (adjustStep tm j) k → v.DesiredSpeed ≤ 7.8 := by
  intro v' d hv' hat hd hd70 hl hnl
  obtain ⟨hP, hM, hD⟩ := adjustStep_frames tm j
  have hnl' : ¬ leadsPlatoon tm k := by
    intro ⟨pid, p, h1, h2, h3⟩
    exact hnl ⟨pid, p, by rw [hM]; exact h1, by rw [hP]; exact h2, h3⟩
  rw [hD] at hd
  by_cases hjk : j = k
  · subst hjk
    cases hv : tm.Vehicles.get j with
    | none => rw [adjustStep_get_none tm j j hv] at hv'; cases hv'
    | some v =>
      obtain ⟨x, hx⟩ := adjustStep_get_self tm j v hv
      rw [hx] at hv'
      have hv'' : v' = { v with DesiredSpeed := x } := (Option.some.inj hv').symm
      subst hv''
      have := adjustStep_caps tm j v d hv hat hd hd70 hl hnl'
      rw [hx] at this
      have hxe : x = min v.DesiredSpeed 7.8 := Option.some.inj this
      show x ≤ 7.8
      rw [hxe]
      exact min_le_right _ _
  · rw [adjustStep_get_ne tm j k hjk] at hv'
    rcases h v' d hv' hat hd hd70 hl hnl' with h | h
    · exact h
    · exact absurd h hjk

theorem adjust_caps_all (s : Sched) (tm : TrafficManager)
    (hvisit : s.VisitsAll "AdjustSpeedForTrafficDensity") :
    DensityCapAwayFromIntersection (AdjustSpeedForTrafficDensity s tm) := by
  intro k
  unfold AdjustSpeedForTrafficDensity
  by_cases hk : k ∈ s.ord "AdjustSpeedForTrafficDensity" "" tm.Vehicles.keys
  · exact foldl_establishes CappedAt adjustStep
      (fun t a => adjustStep_capped t a a (fun _ _ _ _ _ _ _ _ => Or.inr rfl))
      (fun t a b hb => adjustStep_capped t a b (fun v d h1 h2 h3 h4 h5 h6 =>
        Or.inl (hb v d h1 h2 h3 h4 h5 h6)))
      _ tm k hk
  · intro v d hv
    exfalso
    have hnone : tm.Vehicles.get k = none := by
      cases h : tm.Vehicles.get k with
      | none => rfl
      | some w =>
        exact absurd (hvisit _ _ _ (mem_keys_of_get _ _ _ h)) hk
    have := foldl_preserves (fun t : TrafficManager => t.Vehicles.get k = none) adjustStep
      (fun t a ht => adjustStep_get_none t a k ht)
      (s.ord "AdjustSpeedForTrafficDensity" "" tm.Vehicles.keys) tm hnone
    rw [this] at hv
    cases hv

/-- The density cap carries over to a state that has the same platoons,
mappings and densities and whose vehicles agree on the fields it reads. -/
theorem cap_transfer (t t' : TrafficManager) (hP : t'.Platoons = t.Platoons)
    (hM : t'.VehicleToPlatoon = t.VehicleToPlatoon)
    (hD : t'.TrafficDensity = t.TrafficDensity)
    (hV : ∀ k v', t'.Vehicles.get k = some v' → ∃ v, t.Vehicles.get k = some v ∧
      v.DesiredSpeed = v'.DesiredSpeed ∧ v.Edge = v'.Edge ∧
      v.AtIntersection = v'.AtIntersection ∧ v.IsLeader = v'.IsLeader)
    (h : DensityCapAwayFromIntersection t) : DensityCapAwayFromIntersection t' := by
  intro k v' d hv' hat hd hd70 hl hnl
  obtain ⟨v, hv, e1, e2, e3, e4⟩ := hV k v' hv'
  rw [← e1]
  refine h k v d hv (by rw [e3]; exact hat) (by rw [e2, ← hD]; exact hd) hd70
    (by rw [e4]; exact hl) ?_
  intro ⟨pid, p, h1, h2, h3⟩
  exact hnl ⟨pid, p, by rw [hM]; exact h1, by rw [hP]; exact h2, h3⟩

theorem throughput_frames (s : Sched) (tm : TrafficManager) :
    (UpdateVehicleThroughput s tm).Platoons = tm.Platoons ∧
    (UpdateVehicleThroughput s tm).VehicleToPlatoon = tm.VehicleToPlatoon ∧
    (UpdateVehicleThroughput s tm).TrafficDensity = tm.TrafficDensity ∧
    ∀ k v', (UpdateVehicleThroughput s tm).Vehicles.get k = some v' →
      ∃ v, tm.Vehicles.get k = some v ∧ v.DesiredSpeed = v'.DesiredSpeed ∧
        v.Edge = v'.Edge ∧ v.AtIntersection = v'.AtIntersection ∧ v.IsLeader = v'.IsLeader := by
  unfold UpdateVehicleThroughput
  refine foldl_preserves
    (fun t : TrafficManager => t.Platoons = tm.Platoons ∧
      t.VehicleToPlatoon = tm.VehicleToPlatoon ∧ t.TrafficDensity = tm.TrafficDensity ∧
      ∀ k v', t.Vehicles.get k = some v' →
        ∃ v, tm.Vehicles.get k = some v ∧ v.DesiredSpeed = v'.DesiredSpeed ∧
          v.Edge = v'.Edge ∧ v.AtIntersection = v'.AtIntersection ∧ v.IsLeader = v'.IsLeader)
    _ ?_ _ tm ⟨rfl, rfl, rfl, fun k v' h => ⟨v', h, rfl, rfl, rfl, rfl⟩⟩
  intro t a ⟨hP, hM, hD, hV⟩
  split
  · exact ⟨hP, hM, hD, hV⟩
  · rename_i vehicle hveh
    split_ifs
    · refine ⟨?_, ?_, ?_, ?_⟩
      · simp only [modifyVehicle_platoons]; exact hP
      · simp only [modifyVehicle_vehicleToPlatoon]; exact hM
      · simp only [modifyVehicle_density]; exact hD
      · intro k v' hv'
        rw [modifyVehicle_get] at hv'
        by_cases hak : a = k
        · subst hak
          rw [if_pos rfl] at hv'
          simp only [hveh, Option.map_some', Option.some.injEq] at hv'
          obtain ⟨v, hv, e⟩ := hV a vehicle hveh
          subst hv'
          exact ⟨v, hv, e⟩
        · rw [if_neg hak] at hv'
          exact hV k v' hv'
    · exact ⟨hP, hM, hD, hV⟩

theorem record_frames (tm : TrafficManager) :
    (RecordBenchmarkMetrics tm).Platoons = tm.Platoons ∧
    (RecordBenchmarkMetrics tm).VehicleToPlatoon = tm.VehicleToPlatoon ∧
    (RecordBenchmarkMetrics tm).TrafficDensity = tm.TrafficDensity ∧
    (RecordBenchmarkMetrics tm).Vehicles = tm.Vehicles := by
  unfold RecordBenchmarkMetrics
  simp only
  split_ifs <;> exact ⟨rfl, rfl, rfl, rfl⟩

theorem benchmarkTick_cap (s : Sched) (tm : TrafficManager)
    (h : DensityCapAwayFromIntersection tm) :
    DensityCapAwayFromIntersection (benchmarkTick s tm) := by
  unfold benchmarkTick
  split_ifs
  · obtain ⟨r1, r2, r3, r4⟩ := record_frames (UpdateVehicleThroughput s tm)
    obtain ⟨u1, u2, u3, u4⟩ := throughput_frames s tm
    exact cap_transfer _ _ (r1.trans u1) (r2.trans u2) (r3.trans u3)
      (fun k v' hv' => u4 k v' (by rw [← r4]; exact hv')) h
  · exact h

theorem engineTick_cap (s : Sched) (tm tm' : TrafficManager)
    (hvisit : s.VisitsAll "AdjustSpeedForTrafficDensity")
    (h : engineTick s tm = some tm') : DensityCapAwayFromIntersection tm' := by
  unfold engineTick at h
  cases hm : ManageIntersections s (ReservePlatoonIntersectionSlots s
      (EstimatePlatoonStability s (UpdatePlatoons s tm))) with
  | none => rw [hm] at h; cases h
  | some tm1 =>
    rw [hm] at h
    have e : AdjustSpeedForTrafficDensity s (SynchronizeSpeeds s tm1) = tm' :=
      Option.some.inj h
    rw [← e]
    exact adjust_caps_all s (SynchronizeSpeeds s tm1) hvisit

/-- C7 (amended). With the custom algorithm enabled, at the end of every
`Update` every vehicle that is not at the intersection, is on an edge whose
recorded density exceeds 70, has `IsLeader = false` and is not the `LeaderID`
of the platoon that `VehicleToPlatoon` maps it to has a desired speed of at
most 7.8.  The loops of the tick run under any schedule; of the loop of
`AdjustSpeedForTrafficDensity`, which inserts into no map, it is only used
that it visits every vehicle. -/
theorem density_cap_away_from_intersection (s : Sched) (tm tm' : TrafficManager)
    (hvisit : s.VisitsAll "AdjustSpeedForTrafficDensity")
    (hcustom : tm.UseCustomAlgorithm = true)
    (h : Update s tm = some tm') : DensityCapAwayFromIntersection tm' := by
  unfold Update at h
  have hc : ({ tm with TimeStep := tm.TimeStep + 1 } : TrafficManager).UseCustomAlgorithm
      = true := hcustom
  simp only at h
  rw [if_pos hc] at h
  cases he : engineTick s { tm with TimeStep := tm.TimeStep + 1 } with
  | none => rw [he] at h; cases h
  | some tm1 =>
    rw [he] at h
    have e : benchmarkTick s tm1 = tm' := Option.some.inj h
    rw [← e]
    exact benchmarkTick_cap s tm1 (engineTick_cap s _ tm1 hvisit he)

/-! ## Forced priority -/

theorem setDesired_zero_self (t : TrafficManager) (x : String) (v : Vehicle)
    (h : (setDesired t x 0.0).Vehicles.get x = some v) : v.DesiredSpeed = 0 := by
  rw [setDesired_get, if_pos rfl] at h
  cases hv : t.Vehicles.get x with
  | none => rw [hv] at h; cases h
  | some w =>
    rw [hv] at h
    have := Option.some.inj h
    rw [← this]
    norm_num

theorem setDesired_zero_keeps (t : TrafficManager) (x y : String)
    (hz : ∀ v, t.Vehicles.get x = some v → v.DesiredSpeed = 0) :
    ∀ v, (setDesired t y 0.0).Vehicles.get x = some v → v.DesiredSpeed = 0 := by
  intro v h
  by_cases hyx : y = x
  · subst hyx; exact setDesired_zero_self t y v h
  · rw [setDesired_get, if_neg hyx] at h
    exact hz v h

/-- One bucket of `stopOtherEdges` keeps every desired speed that is zero. -/
theorem stopBucket_keeps (vehicles : List String) (t : TrafficManager) (x : String)
    (hz : ∀ v, t.Vehicles.get x = some v → v.DesiredSpeed = 0) :
    ∀ v, (vehicles.foldl (fun tm v => setDesired tm v 0.0) t).Vehicles.get x = some v →
      v.DesiredSpeed = 0 :=
  foldl_preserves (fun t' : TrafficManager => ∀ v, t'.Vehicles.get x = some v → v.DesiredSpeed = 0)
    _ (fun t' y h => setDesired_zero_keeps t' x y h) vehicles t hz

theorem stopBucket_zeroes (vehicles : List String) (t : TrafficManager) (x : String)
    (hx : x ∈ vehicles) :
    ∀ v, (vehicles.foldl (fun tm v => setDesired tm v 0.0) t).Vehicles.get x = some v →
      v.DesiredSpeed = 0 :=
  foldl_establishes
    (fun (t' : TrafficManager) (y : String) =>
      ∀ v, t'.Vehicles.get y = some v → v.DesiredSpeed = 0)
    _ (fun t' y v h => setDesired_zero_self t' y v h)
    (fun t' y z h => setDesired_zero_keeps t' z y h) vehicles t x hx

/-- After `stopOtherEdges`, every vehicle of a visited bucket other than
`edge` has desired speed zero. -/
theorem stopOtherEdges_zero (tm : TrafficManager) (order : List String)
    (vehiclesByEdge : GoMap (List String)) (edge other : String) (vehicles : List String)
    (x : String) (ho : other ∈ order) (hb : vehiclesByEdge.get other = some vehicles)
    (hne : other ≠ edge) (hx : x ∈ vehicles) :
    ∀ v, (stopOtherEdges tm order vehiclesByEdge edge).Vehicles.get x = some v →
      v.DesiredSpeed = 0 := by
  unfold stopOtherEdges
  refine foldl_establishes
    (fun (t : TrafficManager) (o : String) =>
      o = other → ∀ v, t.Vehicles.get x = some v → v.DesiredSpeed = 0)
    _ ?_ ?_ order tm other ho rfl
  · intro t o ho'
    subst ho'
    simp only [if_neg hne, hb]
    exact stopBucket_zeroes vehicles t x hx
  · intro t a b hprev hb'
    have hz := hprev hb'
    split_ifs
    · exact hz
    · split
      · exact hz
      · exact stopBucket_keeps _ t x hz

/-- C6 (amended). When `handleForcedPriorityPlatoons` grants forced priority
to a platoon listed under the bucket key `e` (no listed platoon holds an
active priority window), then when the handler returns every vehicle queued at
that intersection under a bucket key other than `e` has desired speed 0. -/
theorem forced_grant_stops_other_buckets (s : Sched) (tm : TrafficManager)
    (intersectionID : String) (vehiclesByEdge platoonsByEdge : GoMap (List String))
    (e p : String) (hfair : s.Fair)
    (hm : findMaintained s tm intersectionID
      (s.now "handleForcedPriorityPlatoons" intersectionID) platoonsByEdge = none)
    (hf : findForced s tm intersectionID platoonsByEdge = some (e, p))
    (other : String) (vehicles : List String) (x : String) (v : Vehicle)
    (hb : vehiclesByEdge.get other = some vehicles) (hne : other ≠ e) (hx : x ∈ vehicles)
    (hv : (handleForcedPriorityPlatoons s tm intersectionID vehiclesByEdge
      platoonsByEdge).Vehicles.get x = some v) :
    v.DesiredSpeed = 0 := by
  have hq : qualifiesForForced tm p = true := by
    unfold findForced at hf
    exact List.find?_some (p := fun ep : String × String => qualifiesForForced tm ep.2) hf
  unfold handleForcedPriorityPlatoons at hv
  simp only [hm, hf] at hv
  cases hp : tm.Platoons.get p with
  | none => simp [qualifiesForForced, hp] at hq
  | some platoon =>
    rw [hp] at hv
    exact stopOtherEdges_zero _ _ vehiclesByEdge e other vehicles x
      ((hfair _ _ _).mem_iff.mpr (mem_keys_of_get _ _ _ hb)) hb hne hx v hv

/-! ## Formation of a platoon by two vehicles -/

theorem perm_pair_cases {α : Type} {l : List α} {x y : α} (h : l.Perm [x, y]) :
    l = [x, y] ∨ l = [y, x] := by
  have hl := h.length_eq
  match l, hl, h with
  | [u, v], _, h =>
    have hu : u ∈ [x, y] := h.subset (by simp)
    have hv : v ∈ [x, y] := h.subset (by simp)
    have hx : x ∈ [u, v] := h.symm.subset (by simp)
    have hy : y ∈ [u, v] := h.symm.subset (by simp)
    simp only [List.mem_cons, List.mem_singleton, List.not_mem_nil, or_false] at hu hv hx hy
    rcases hu with rfl | rfl <;> rcases hv with rfl | rfl
    · rcases hy with rfl | rfl <;> exact Or.inl rfl
    · exact Or.inl rfl
    · exact Or.inr rfl
    · rcases hx with rfl | rfl <;> exact Or.inl rfl

theorem perm_arrange_cases {l : List String} {sw : Bool} {x y : String}
    (h : l.Perm (arrange sw x y)) : l = [x, y] ∨ l = [y, x] := by
  cases sw
  · exact perm_pair_cases h
  · exact (perm_pair_cases h).symm

theorem arrange_keys {V : Type} (sw : Bool) (a b : String) (x y : V) :
    GoMap.keys (arrange sw (a, x) (b, y)) = arrange sw a b := by
  cases sw <;> rfl

theorem arrange_get_fst {V : Type} (sw : Bool) (a b : String) (x y : V) (hab : a ≠ b) :
    GoMap.get (arrange sw (a, x) (b, y)) a = some x := by
  cases sw <;> simp [arrange, GoMap.get, Ne.symm hab]

theorem arrange_get_snd {V : Type} (sw : Bool) (a b : String) (x y : V) (hab : a ≠ b) :
    GoMap.get (arrange sw (a, x) (b, y)) b = some y := by
  cases sw <;> simp [arrange, GoMap.get, hab]

theorem arrange_set_fst {V : Type} (sw : Bool) (a b : String) (x y x' : V) (hab : a ≠ b) :
    GoMap.set (arrange sw (a, x) (b, y)) a x' = arrange sw (a, x') (b, y) := by
  cases sw <;> simp [arrange, GoMap.set, Ne.symm hab]

theorem arrange_set_snd {V : Type} (sw : Bool) (a b : String) (x y y' : V) (hab : a ≠ b) :
    GoMap.set (arrange sw (a, x) (b, y)) b y' = arrange sw (a, x) (b, y') := by
  cases sw <;> simp [arrange, GoMap.set, hab]

theorem modifyVehicle_fst (t : TrafficManager) (a b : String) (A B : Vehicle) (sw : Bool)
    (f : Vehicle → Vehicle) (hV : t.Vehicles = arrange sw (a, A) (b, B)) (hab : a ≠ b) :
    modifyVehicle t a f = { t with Vehicles := arrange sw (a, f A) (b, B) } := by
  unfold modifyVehicle
  rw [hV, arrange_get_fst sw _ _ _ _ hab]
  simp only [arrange_set_fst sw _ _ _ _ _ hab]

theorem modifyVehicle_snd (t : TrafficManager) (a b : String) (A B : Vehicle) (sw : Bool)
    (f : Vehicle → Vehicle) (hV : t.Vehicles = arrange sw (a, A) (b, B)) (hab : a ≠ b) :
    modifyVehicle t b f = { t with Vehicles := arrange sw (a, A) (b, f B) } := by
  unfold modifyVehicle
  rw [hV, arrange_get_snd sw _ _ _ _ hab]
  simp only [arrange_set_snd sw _ _ _ _ _ hab]

theorem modifyVehicle_both (t : TrafficManager) (a b : String) (A B : Vehicle) (sw : Bool)
    (f g : Vehicle → Vehicle) (hV : t.Vehicles = arrange sw (a, A) (b, B)) (hab : a ≠ b) :
    modifyVehicle (modifyVehicle t a f) b g =
      { t with Vehicles := arrange sw (a, f A) (b, g B) } := by
  rw [modifyVehicle_fst t a b A B sw f hV hab]
  exact modifyVehicle_snd _ a b (f A) B sw g rfl hab

theorem modifyVehicle_both_rev (t : TrafficManager) (a b : String) (A B : Vehicle) (sw : Bool)
    (f g : Vehicle → Vehicle) (hV : t.Vehicles = arrange sw (a, A) (b, B)) (hab : a ≠ b) :
    modifyVehicle (modifyVehicle t b g) a f =
      { t with Vehicles := arrange sw (a, f A) (b, g B) } := by
  rw [modifyVehicle_snd t a b A B sw g hV hab]
  exact modifyVehicle_fst _ a b A (g B) sw f rfl hab

theorem clear_pair (s : Sched) (tm : TrafficManager) (A B : Vehicle) (hfair : s.Fair)
    (sw : Bool) (hV : tm.Vehicles = arrange sw (A.ID, A) (B.ID, B)) (hAB : A.ID ≠ B.ID) :
    (s.ord "updateLeaderRelationships.clear" "" tm.Vehicles.keys).foldl
      (fun tm k => modifyVehicle tm k (fun v => { v with LeaderID := "" })) tm =
    { tm with Vehicles :=
        arrange sw (A.ID, { A with LeaderID := "" }) (B.ID, { B with LeaderID := "" }) } := by
  have hperm := hfair "updateLeaderRelationships.clear" "" tm.Vehicles.keys
  rw [hV, arrange_keys] at hperm
  rw [hV, arrange_keys]
  rcases perm_arrange_cases hperm with h | h <;> rw [h] <;>
    simp only [List.foldl_cons, List.foldl_nil]
  · exact modifyVehicle_both tm A.ID B.ID A B sw _ _ hV hAB
  · exact modifyVehicle_both_rev tm A.ID B.ID A B sw _ _ hV hAB

theorem fva_pair_front (s : Sched) (t : TrafficManager) (A B : Vehicle) (hfair : s.Fair)
    (sw : Bool) (hV : t.Vehicles = arrange sw (A.ID, A) (B.ID, B)) (hAB : A.ID ≠ B.ID)
    (hg0 : 0 < fsub A.Pos B.Pos) :
    FindVehicleAhead s t A = none := by
  have hperm := hfair "FindVehicleAhead" A.ID t.Vehicles.keys
  have h1 : fsub B.Pos A.Pos ≤ 0 := f64_sub_nonpos_of_pos _ _ hg0
  have hgA := arrange_get_fst sw A.ID B.ID A B hAB
  have hgB := arrange_get_snd sw A.ID B.ID A B hAB
  unfold FindVehicleAhead
  rw [hV, arrange_keys] at hperm
  rw [hV, arrange_keys]
  rcases perm_arrange_cases hperm with h | h <;> rw [h] <;>
    simp [findAheadStep, hV, hgA, hgB, hAB, Ne.symm hAB, h1]

theorem fva_pair_back (s : Sched) (t : TrafficManager) (A B : Vehicle) (hfair : s.Fair)
    (sw : Bool) (hV : t.Vehicles = arrange sw (A.ID, A) (B.ID, B))
    (hD : t.DetectionDistance = 50)
    (hAB : A.ID ≠ B.ID) (hedge : B.Edge = A.Edge) (hlane : B.Lane = A.Lane)
    (hg0 : 0 < fsub A.Pos B.Pos) (hg50 : fsub A.Pos B.Pos ≤ 50) :
    FindVehicleAhead s t B = some A.ID := by
  have hperm := hfair "FindVehicleAhead" B.ID t.Vehicles.keys
  have h1 : ¬ fsub A.Pos B.Pos ≤ 0 := by linarith
  have h2 : ¬ fsub A.Pos B.Pos > 50 := by linarith
  have h3 : fsub A.Pos B.Pos < fadd 50 1 := by rw [fadd_fifty_one]; linarith
  have hgA := arrange_get_fst sw A.ID B.ID A B hAB
  have hgB := arrange_get_snd sw A.ID B.ID A B hAB
  unfold FindVehicleAhead
  rw [hV, arrange_keys] at hperm
  rw [hV, arrange_keys]
  rcases perm_arrange_cases hperm with h | h <;> rw [h] <;>
    simp only [List.foldl_cons, List.foldl_nil, findAheadStep, hV, hgA, hgB, hD, hAB,
      Ne.symm hAB, if_true, if_false, hedge, hlane, ne_eq, not_true_eq_false, or_self,
      not_false_eq_true, h1, h2, h3]

theorem linkStep_front (s : Sched) (t : TrafficManager) (A B : Vehicle) (hfair : s.Fair)
    (sw : Bool) (hV : t.Vehicles = arrange sw (A.ID, A) (B.ID, B)) (hAB : A.ID ≠ B.ID)
    (hg0 : 0 < fsub A.Pos B.Pos) :
    linkStep s t A.ID = t := by
  unfold linkStep
  have hget : t.Vehicles.get A.ID = some A := by rw [hV]; exact arrange_get_fst sw _ _ _ _ hAB
  rw [hget]
  simp only [fva_pair_front s t A B hfair sw hV hAB hg0]

theorem linkStep_back (s : Sched) (t : TrafficManager) (A B : Vehicle) (hfair : s.Fair)
    (sw : Bool) (hV : t.Vehicles = arrange sw (A.ID, A) (B.ID, B))
    (hD : t.DetectionDistance = 50)
    (hAB : A.ID ≠ B.ID) (hedge : B.Edge = A.Edge) (hlane : B.Lane = A.Lane)
    (hg0 : 0 < fsub A.Pos B.Pos) (hg50 : fsub A.Pos B.Pos ≤ 50) :
    linkStep s t B.ID =
      { t with Vehicles := arrange sw (A.ID, A) (B.ID, { B with LeaderID := A.ID }) } := by
  unfold linkStep
  have hgetB : t.Vehicles.get B.ID = some B := by rw [hV]; exact arrange_get_snd sw _ _ _ _ hAB
  have hgetA : t.Vehicles.get A.ID = some A := by rw [hV]; exact arrange_get_fst sw _ _ _ _ hAB
  rw [hgetB]
  simp only [fva_pair_back s t A B hfair sw hV hD hAB hedge hlane hg0 hg50, hgetA]
  exact modifyVehicle_snd t A.ID B.ID A B sw _ hV hAB

theorem link_pair (s : Sched) (t : TrafficManager) (A B : Vehicle) (hfair : s.Fair)
    (sw : Bool) (hV : t.Vehicles = arrange sw (A.ID, A) (B.ID, B))
    (hD : t.DetectionDistance = 50)
    (hAB : A.ID ≠ B.ID) (hedge : B.Edge = A.Edge) (hlane : B.Lane = A.Lane)
    (hg0 : 0 < fsub A.Pos B.Pos) (hg50 : fsub A.Pos B.Pos ≤ 50) :
    (s.ord "updateLeaderRelationships.link" "" t.Vehicles.keys).foldl (linkStep s) t =
      { t with Vehicles := arrange sw (A.ID, A) (B.ID, { B with LeaderID := A.ID }) } := by
  have hperm := hfair "updateLeaderRelationships.link" "" t.Vehicles.keys
  rw [hV, arrange_keys] at hperm
  rw [hV, arrange_keys]
  have hstep := linkStep_back s t A B hfair sw hV hD hAB hedge hlane hg0 hg50
  rcases perm_arrange_cases hperm with h | h <;> rw [h] <;>
    simp only [List.foldl_cons, List.foldl_nil]
  · rw [linkStep_front s t A B hfair sw hV hAB hg0, hstep]
  · rw [hstep]
    exact linkStep_front s _ A { B with LeaderID := A.ID } hfair sw rfl hAB hg0

theorem isEdgeTransition_self (e : String) : isEdgeTransition e e = false := by
  by_cases h : isLeavingEdge e = true
  · have : isIncomingEdge e = false := by
      simp only [isLeavingEdge, Bool.or_eq_true, decide_eq_true_eq] at h
      rcases h with ((h | h) | h) | h <;> subst h <;> decide
    simp [isEdgeTransition, this]
  · simp [isEdgeTransition, h]

theorem formStep_front (t : TrafficManager) (A B : Vehicle)
    (sw : Bool) (hV : t.Vehicles = arrange sw (A.ID, A) (B.ID, B)) (hAB : A.ID ≠ B.ID)
    (hLA : A.LeaderID = "") :
    formStep t A.ID = t := by
  unfold formStep
  have hget : t.Vehicles.get A.ID = some A := by rw [hV]; exact arrange_get_fst sw _ _ _ _ hAB
  rw [hget]
  simp only [hLA, if_true]

theorem formStep_back_far (t : TrafficManager) (A B : Vehicle)
    (sw : Bool) (hV : t.Vehicles = arrange sw (A.ID, A) (B.ID, B))
    (hM : t.VehicleToPlatoon = [])
    (hA : A.ID ≠ "") (hAB : A.ID ≠ B.ID) (hLB : B.LeaderID = A.ID)
    (hfar : ¬ fsub A.Pos B.Pos ≤ 25) :
    formStep t B.ID = t := by
  unfold formStep
  have hgetB : t.Vehicles.get B.ID = some B := by rw [hV]; exact arrange_get_snd sw _ _ _ _ hAB
  have hgetA : t.Vehicles.get A.ID = some A := by rw [hV]; exact arrange_get_fst sw _ _ _ _ hAB
  have h25 : ¬ fsub A.Pos B.Pos ≤ 25.0 := by norm_num; linarith
  rw [hgetB]
  simp only [hLB, hA, if_false, hgetA, hM, GoMap.get, h25, false_and]

theorem formStep_back_near (t : TrafficManager) (A B : Vehicle)
    (sw : Bool) (hV : t.Vehicles = arrange sw (A.ID, A) (B.ID, B))
    (hM : t.VehicleToPlatoon = []) (hP : t.Platoons = [])
    (hA : A.ID ≠ "") (hAB : A.ID ≠ B.ID) (hLB : B.LeaderID = A.ID)
    (hedge : B.Edge = A.Edge) (hnear : fsub A.Pos B.Pos ≤ 25) :
    formStep t B.ID =
      { t with
        Platoons := [(pairPlatoonID A, pairPlatoon A B)]
        VehicleToPlatoon := [(A.ID, pairPlatoonID A), (B.ID, pairPlatoonID A)]
        Vehicles := arrange sw
          (A.ID, { A with PlatoonID := pairPlatoonID A, IsLeader := true })
          (B.ID, { B with PlatoonID := pairPlatoonID A, IsLeader := false }) } := by
  unfold formStep
  have hgetB : t.Vehicles.get B.ID = some B := by rw [hV]; exact arrange_get_snd sw _ _ _ _ hAB
  have hgetA : t.Vehicles.get A.ID = some A := by rw [hV]; exact arrange_get_fst sw _ _ _ _ hAB
  have h25 : fsub A.Pos B.Pos ≤ 25.0 := by norm_num; linarith
  have htr : isEdgeTransition A.Edge B.Edge = false := by
    rw [hedge]; exact isEdgeTransition_self _
  rw [hgetB]
  generalize hR : ({ t with
        Platoons := [(pairPlatoonID A, pairPlatoon A B)]
        VehicleToPlatoon := [(A.ID, pairPlatoonID A), (B.ID, pairPlatoonID A)]
        Vehicles := arrange sw
          (A.ID, { A with PlatoonID := pairPlatoonID A, IsLeader := true })
          (B.ID, { B with PlatoonID := pairPlatoonID A, IsLeader := false }) } :
      TrafficManager) = R
  simp only [hLB, hA, if_false, hgetA, hM, GoMap.get, h25, htr, Bool.not_false, and_self,
    if_true, hP, GoMap.set, hAB]
  rw [← hR]
  exact modifyVehicle_both
    { t with
      Platoons := [(pairPlatoonID A, pairPlatoon A B)]
      VehicleToPlatoon := [(A.ID, pairPlatoonID A), (B.ID, pairPlatoonID A)] }
    A.ID B.ID A B sw
    (fun l => { l with PlatoonID := pairPlatoonID A, IsLeader := true })
    (fun w => { w with PlatoonID := pairPlatoonID A, IsLeader := false }) hV hAB

theorem form_pair_far (s : Sched) (t : TrafficManager) (A B : Vehicle) (hfair : s.Fair)
    (sw : Bool) (hV : t.Vehicles = arrange sw (A.ID, A) (B.ID, B))
    (hM : t.VehicleToPlatoon = [])
    (hA : A.ID ≠ "") (hAB : A.ID ≠ B.ID) (hLA : A.LeaderID = "") (hLB : B.LeaderID = A.ID)
    (hfar : ¬ fsub A.Pos B.Pos ≤ 25) :
    formAndUpdatePlatoons s t = t := by
  unfold formAndUpdatePlatoons
  have hperm := hfair "formAndUpdatePlatoons" "" t.Vehicles.keys
  rw [hV, arrange_keys] at hperm
  rw [hV, arrange_keys]
  have h1 := formStep_front t A B sw hV hAB hLA
  have h2 := formStep_back_far t A B sw hV hM hA hAB hLB hfar
  rcases perm_arrange_cases hperm with h | h <;> rw [h] <;>
    simp only [List.foldl_cons, List.foldl_nil, h1, h2]

theorem form_pair_near (s : Sched) (t : TrafficManager) (A B : Vehicle) (hfair : s.Fair)
    (sw : Bool) (hV : t.Vehicles = arrange sw (A.ID, A) (B.ID, B))
    (hM : t.VehicleToPlatoon = []) (hP : t.Platoons = [])
    (hA : A.ID ≠ "") (hAB : A.ID ≠ B.ID) (hLA : A.LeaderID = "") (hLB : B.LeaderID = A.ID)
    (hedge : B.Edge = A.Edge) (hnear : fsub A.Pos B.Pos ≤ 25) :
    formAndUpdatePlatoons s t =
      { t with
        Platoons := [(pairPlatoonID A, pairPlatoon A B)]
        VehicleToPlatoon := [(A.ID, pairPlatoonID A), (B.ID, pairPlatoonID A)]
        Vehicles := arrange sw
          (A.ID, { A with PlatoonID := pairPlatoonID A, IsLeader := true })
          (B.ID, { B with PlatoonID := pairPlatoonID A, IsLeader := false }) } := by
  unfold formAndUpdatePlatoons
  have hperm := hfair "formAndUpdatePlatoons" "" t.Vehicles.keys
  rw [hV, arrange_keys] at hperm
  rw [hV, arrange_keys]
  have h1 := formStep_front t A B sw hV hAB hLA
  have h2 := formStep_back_near t A B sw hV hM hP hA hAB hLB hedge hnear
  rcases perm_arrange_cases hperm with h | h <;> rw [h] <;>
    simp only [List.foldl_cons, List.foldl_nil, h1, h2]
  exact formStep_front _ { A with PlatoonID := pairPlatoonID A, IsLeader := true }
    { B with PlatoonID := pairPlatoonID A, IsLeader := false } sw rfl hAB hLA

theorem cleanup_pair (s : Sched) (t : TrafficManager) (A B : Vehicle) (hfair : s.Fair)
    (hP : t.Platoons = [(pairPlatoonID A, pairPlatoon A B)]) :
    cleanupPlatoons s t = t := by
  unfold cleanupPlatoons
  have hperm := hfair "cleanupPlatoons" "" t.Platoons.keys
  rw [show t.Platoons.keys = [pairPlatoonID A] by simp [hP, GoMap.keys]] at hperm ⊢
  rw [List.perm_singleton.mp hperm]
  simp [cleanupStep, hP, GoMap.get, pairPlatoon]

theorem membersByEdge_pair (t : TrafficManager) (A B : Vehicle)
    (sw : Bool) (hV : t.Vehicles = arrange sw (A.ID, A) (B.ID, B))
    (hAB : A.ID ≠ B.ID) (hedge : B.Edge = A.Edge) :
    membersByEdge t [A.ID, B.ID] = [(A.Edge, [A.ID, B.ID])] := by
  have hgetB : t.Vehicles.get B.ID = some B := by rw [hV]; exact arrange_get_snd sw _ _ _ _ hAB
  have hgetA : t.Vehicles.get A.ID = some A := by rw [hV]; exact arrange_get_fst sw _ _ _ _ hAB
  simp [membersByEdge, hgetA, hgetB, hedge, GoMap.set, GoMap.get]

theorem edge_pair (s : Sched) (t : TrafficManager) (A B : Vehicle) (hfair : s.Fair)
    (sw : Bool) (hV : t.Vehicles = arrange sw (A.ID, A) (B.ID, B))
    (hP : t.Platoons = [(pairPlatoonID A, pairPlatoon A B)])
    (hAB : A.ID ≠ B.ID) (hedge : B.Edge = A.Edge) :
    checkEdgeTransitions s t = t := by
  unfold checkEdgeTransitions
  have hperm := hfair "checkEdgeTransitions" "" t.Platoons.keys
  rw [show t.Platoons.keys = [pairPlatoonID A] by simp [hP, GoMap.keys]] at hperm ⊢
  rw [List.perm_singleton.mp hperm]
  have hgetP : t.Platoons.get (pairPlatoonID A) = some (pairPlatoon A B) := by
    simp [hP, GoMap.get]
  have hm : membersByEdge t (pairPlatoon A B).VehicleIDs = [(A.Edge, [A.ID, B.ID])] :=
    membersByEdge_pair t A B sw hV hAB hedge
  simp only [List.foldl_cons, List.foldl_nil, edgeTransitionStep, hgetP, hm]
  simp

theorem nearby_pair (s : Sched) (t : TrafficManager) (A B : Vehicle) (hfair : s.Fair)
    (sw : Bool) (hV : t.Vehicles = arrange sw (A.ID, A) (B.ID, B)) (hAB : A.ID ≠ B.ID)
    (hBL : B.IsLeader = false) :
    FindNearbyPlatoonLeaders s t A = [] := by
  unfold FindNearbyPlatoonLeaders
  rw [List.filter_eq_nil_iff]
  intro id hid
  have hperm := hfair "FindNearbyPlatoonLeaders" A.ID t.Vehicles.keys
  have hmem := hperm.mem_iff.mp hid
  have hgetB : t.Vehicles.get B.ID = some B := by rw [hV]; exact arrange_get_snd sw _ _ _ _ hAB
  have hgetA : t.Vehicles.get A.ID = some A := by rw [hV]; exact arrange_get_fst sw _ _ _ _ hAB
  rw [hV, arrange_keys] at hmem
  have hid' : id = A.ID ∨ id = B.ID := by
    cases sw <;> simp [arrange] at hmem <;> tauto
  rcases hid' with rfl | rfl
  · simp [hgetA]
  · simp [hgetB, Ne.symm hAB, hBL]

theorem consolidate_pair (s : Sched) (t : TrafficManager) (A B : Vehicle) (hfair : s.Fair)
    (sw : Bool) (hV : t.Vehicles = arrange sw (A.ID, A) (B.ID, B))
    (hP : t.Platoons = [(pairPlatoonID A, pairPlatoon A B)])
    (hAB : A.ID ≠ B.ID) (hBL : B.IsLeader = false) :
    consolidatePlatoons s t = t := by
  unfold consolidatePlatoons
  have hperm := hfair "consolidatePlatoons" "" t.Platoons.keys
  rw [show t.Platoons.keys = [pairPlatoonID A] by simp [hP, GoMap.keys]] at hperm ⊢
  rw [List.perm_singleton.mp hperm]
  have hgetA : t.Vehicles.get A.ID = some A := by rw [hV]; exact arrange_get_fst sw _ _ _ _ hAB
  have hgetP : t.Platoons.get (pairPlatoonID A) = some (pairPlatoon A B) := by
    simp [hP, GoMap.get]
  simp only [List.foldl_cons, List.foldl_nil, consolidateStep, hgetP]
  have hl : (pairPlatoon A B).LeaderID = A.ID := rfl
  rw [hl, hgetA]
  simp only [nearby_pair s t A B hfair sw hV hAB hBL, List.foldl_nil]

/-- With no platoon in the world, the three phases after formation change
nothing. -/
theorem no_platoon_phases (s : Sched) (t : TrafficManager) (hfair : s.Fair)
    (hP : t.Platoons = []) :
    consolidatePlatoons s (checkEdgeTransitions s (cleanupPlatoons s t)) = t := by
  have h0 : ∀ site ctx, s.ord site ctx ([] : List String) = [] :=
    fun site ctx => List.perm_nil.mp (hfair site ctx [])
  have hk : t.Platoons.keys = [] := by simp [hP, GoMap.keys]
  have h1 : cleanupPlatoons s t = t := by
    unfold cleanupPlatoons; rw [hk, h0]; rfl
  have h2 : checkEdgeTransitions s t = t := by
    unfold checkEdgeTransitions; rw [hk, h0]; rfl
  have h3 : consolidatePlatoons s t = t := by
    unfold consolidatePlatoons; rw [hk, h0]; rfl
  rw [h1, h2, h3]

theorem leaders_pair (s : Sched) (tm : TrafficManager) (A B : Vehicle) (hfair : s.Fair)
    (sw : Bool) (hV : tm.Vehicles = arrange sw (A.ID, A) (B.ID, B))
    (hD : tm.DetectionDistance = 50)
    (hAB : A.ID ≠ B.ID) (hedge : B.Edge = A.Edge) (hlane : B.Lane = A.Lane)
    (hg0 : 0 < fsub A.Pos B.Pos) (hg50 : fsub A.Pos B.Pos ≤ 50) :
    updateLeaderRelationships s tm =
      { tm with Vehicles :=
          arrange sw (A.ID, { A with LeaderID := "" }) (B.ID, { B with LeaderID := A.ID }) } := by
  unfold updateLeaderRelationships
  simp only
  rw [clear_pair s tm A B hfair sw hV hAB]
  exact link_pair s _ { A with LeaderID := "" } { B with LeaderID := "" } hfair sw rfl hD hAB
    hedge hlane hg0 hg50

/-- C10 (amended). In a world that holds exactly two vehicles `A` and `B`,
stored under their ids, the id of `A` not empty and different from that of
`B`, on the same edge and lane, no platoon and no platoon mapping, a
detection distance of 50 and gap `g = A.Pos - B.Pos` as the `float64`
subtraction gives it, `0 < g ≤ 50`: after `UpdatePlatoons` a platoon exists
iff `g ≤ 25`; when it exists it is the single platoon `p_<edge>_<A.ID>` with
members `[A, B]`, leader `A`, the edge and lane of `A`; `A` is flagged as
leader, `B` is not, and both are mapped to it.  This holds for every
schedule that visits every key once and for both storage orders. -/
theorem two_vehicle_formation (s : Sched) (tm : TrafficManager) (A B : Vehicle)
    (hfair : s.Fair) (sw : Bool)
    (hV : tm.Vehicles = arrange sw (A.ID, A) (B.ID, B))
    (hP : tm.Platoons = []) (hM : tm.VehicleToPlatoon = [])
    (hD : tm.DetectionDistance = 50)
    (hA : A.ID ≠ "") (hAB : A.ID ≠ B.ID)
    (hedge : B.Edge = A.Edge) (hlane : B.Lane = A.Lane)
    (hg0 : 0 < fsub A.Pos B.Pos) (hg50 : fsub A.Pos B.Pos ≤ 50) :
    (fsub A.Pos B.Pos ≤ 25 →
      (UpdatePlatoons s tm).Platoons = [(pairPlatoonID A, pairPlatoon A B)] ∧
      (UpdatePlatoons s tm).VehicleToPlatoon.get A.ID = some (pairPlatoonID A) ∧
      (UpdatePlatoons s tm).VehicleToPlatoon.get B.ID = some (pairPlatoonID A) ∧
      ((UpdatePlatoons s tm).Vehicles.get A.ID).map (fun v => (v.PlatoonID, v.IsLeader)) =
        some (pairPlatoonID A, true) ∧
      ((UpdatePlatoons s tm).Vehicles.get B.ID).map (fun v => (v.PlatoonID, v.IsLeader)) =
        some (pairPlatoonID A, false)) ∧
    (¬ fsub A.Pos B.Pos ≤ 25 → (UpdatePlatoons s tm).Platoons = []) := by
  have h1 := leaders_pair s tm A B hfair sw hV hD hAB hedge hlane hg0 hg50
  unfold UpdatePlatoons
  rw [h1]
  generalize ht1 : ({ tm with
      Vehicles :=
        arrange sw (A.ID, { A with LeaderID := "" }) (B.ID, { B with LeaderID := A.ID }) } :
      TrafficManager) = t1
  have hV1 : t1.Vehicles =
      arrange sw (A.ID, { A with LeaderID := "" }) (B.ID, { B with LeaderID := A.ID }) := by
    rw [← ht1]
  have hP1 : t1.Platoons = [] := by rw [← ht1]; exact hP
  have hM1 : t1.VehicleToPlatoon = [] := by rw [← ht1]; exact hM
  constructor
  · intro hnear
    have hform : formAndUpdatePlatoons s t1 = ({ t1 with
        Platoons := [(pairPlatoonID A, pairPlatoon A B)]
        VehicleToPlatoon := [(A.ID, pairPlatoonID A), (B.ID, pairPlatoonID A)]
        Vehicles :=
          arrange sw
            (A.ID, { A with LeaderID := "", PlatoonID := pairPlatoonID A, IsLeader := true })
            (B.ID, { B with LeaderID := A.ID, PlatoonID := pairPlatoonID A, IsLeader := false }) } :
        TrafficManager) :=
      form_pair_near s t1 { A with LeaderID := "" } { B with LeaderID := A.ID } hfair sw hV1
        hM1 hP1 hA hAB rfl rfl hedge hnear
    rw [hform]
    generalize ht2 : ({ t1 with
        Platoons := [(pairPlatoonID A, pairPlatoon A B)]
        VehicleToPlatoon := [(A.ID, pairPlatoonID A), (B.ID, pairPlatoonID A)]
        Vehicles :=
          arrange sw
            (A.ID, { A with LeaderID := "", PlatoonID := pairPlatoonID A, IsLeader := true })
            (B.ID, { B with LeaderID := A.ID, PlatoonID := pairPlatoonID A, IsLeader := false }) } :
        TrafficManager) = t2
    have hV2 : t2.Vehicles = arrange sw
          (A.ID, { A with LeaderID := "", PlatoonID := pairPlatoonID A, IsLeader := true })
          (B.ID, { B with LeaderID := A.ID, PlatoonID := pairPlatoonID A, IsLeader := false }) := by
      rw [← ht2]
    have hP2 : t2.Platoons = [(pairPlatoonID A, pairPlatoon A B)] := by rw [← ht2]
    have hM2 : t2.VehicleToPlatoon = [(A.ID, pairPlatoonID A), (B.ID, pairPlatoonID A)] := by
      rw [← ht2]
    rw [cleanup_pair s t2 A B hfair hP2]
    rw [edge_pair s t2
      { A with LeaderID := "", PlatoonID := pairPlatoonID A, IsLeader := true }
      { B with LeaderID := A.ID, PlatoonID := pairPlatoonID A, IsLeader := false }
      hfair sw hV2 hP2 hAB hedge]
    rw [consolidate_pair s t2
      { A with LeaderID := "", PlatoonID := pairPlatoonID A, IsLeader := true }
      { B with LeaderID := A.ID, PlatoonID := pairPlatoonID A, IsLeader := false }
      hfair sw hV2 hP2 hAB rfl]
    refine ⟨hP2, ?_, ?_, ?_, ?_⟩
    · rw [hM2]; simp [GoMap.get]
    · rw [hM2]; simp [GoMap.get, hAB]
    · rw [hV2, arrange_get_fst sw _ _ _ _ hAB]
      rfl
    · rw [hV2, arrange_get_snd sw _ _ _ _ hAB]
      rfl
  · intro hfar
    rw [form_pair_far s t1 { A with LeaderID := "" } { B with LeaderID := A.ID } hfair sw hV1
      hM1 hA hAB rfl rfl hfar]
    rw [no_platoon_phases s t1 hfair hP1]
    exact hP1

/-! ## Concrete runs -/

theorem fixed_fair (t : Int) : (Sched.fixed t).Fair :=
  fun _ _ _ => List.Perm.refl _

/-- The reservation table of `bookingState` after one scheduling pass: the
platoon `P` is booked next to the reservation that was there. -/
theorem bookingState_books :
    ((ReservePlatoonIntersectionSlots (Sched.fixed 0) bookingState).IntersectionReservations.map
      (fun kv => (kv.1, kv.2.StartTime, kv.2.EndTime, kv.2.EdgeFrom, kv.2.Direction))) =
      [("Q_J", 0, 20000000000, "down_incoming", "straight"),
       ("P_J", 8019166666, 12019166666, "down_incoming", "right")] := by decide!

theorem bookingState_compatible : ReservationsCompatible bookingState := by
  intro k1 r1 k2 r2 h1 h2 _ _
  have e : ∀ k r, bookingState.IntersectionReservations.get k = some r →
      r.EdgeFrom = "down_incoming" ∧ r.Direction = "straight" := by
    intro k r h
    simp only [bookingState, GoMap.get] at h
    split_ifs at h
    · cases h; exact ⟨rfl, rfl⟩
  rw [(e k1 r1 h1).1, (e k1 r1 h1).2, (e k2 r2 h2).1, (e k2 r2 h2).2]
  decide

theorem reserve_preserves_compatibility_witness :
    ReservationsCompatible bookingState ∧
    ReservationsCompatible (ReservePlatoonIntersectionSlots (Sched.fixed 0) bookingState) :=
  ⟨bookingState_compatible,
   reserve_preserves_compatibility (Sched.fixed 0) bookingState bookingState_compatible⟩

/-! ## Runs on which an invariant of the specification fails -/

theorem transition_run :
    ((runTicks (NewTrafficManager 0)
        [(Sched.fixed 0, censusS1), (Sched.fixed 0, censusS2)]).map (fun tm =>
      (((UpdateVehicleData (Sched.fixed 0) censusS2 tm).Vehicles.get "A").map
          (fun v => v.PlatoonID),
        (UpdateVehicleData (Sched.fixed 0) censusS2 tm).Platoons.get "p_up_incoming_A")))
    = some (some "p_up_incoming_A", none) := by decide!

/-- C2. Roster consistency fails on a run of the code: after the censuses
`censusS1`, `censusS2` (each followed by `Update`) and a third ingest of
`censusS2`, vehicle `A` still carries the platoon id `p_up_incoming_A`, and no
platoon is stored under that id. -/
theorem roster_inconsistent_after_edge_transition :
    ∃ tm, runTicks (NewTrafficManager 0)
        [(Sched.fixed 0, censusS1), (Sched.fixed 0, censusS2)] = some tm ∧
      ¬ RosterConsistent (UpdateVehicleData (Sched.fixed 0) censusS2 tm) := by
  have h := transition_run
  cases hr : runTicks (NewTrafficManager 0)
      [(Sched.fixed 0, censusS1), (Sched.fixed 0, censusS2)] with
  | none => rw [hr] at h; cases h
  | some tm =>
    rw [hr] at h
    simp only [Option.map_some', Option.some.injEq, Prod.mk.injEq] at h
    obtain ⟨hv, hp⟩ := h
    obtain ⟨v, hget, hpid⟩ := Option.map_eq_some'.mp hv
    refine ⟨tm, rfl, ?_⟩
    intro hc
    obtain ⟨p, hp', _⟩ := hc "A" v hget (by rw [hpid]; decide)
    rw [hpid, hp] at hp'
    cases hp'

theorem newcomer_run :
    ((runTicks (NewTrafficManager 0)
        [(Sched.fixed 0, censusPair), (Sched.fixed 0, censusNewcomer)]).map (fun tm =>
      (tm.Platoons.get "p_up_incoming_C").map
        (fun p => (p.VehicleIDs, p.LeaderID, flaggedLeaders tm p))))
    = some (some (["C", "D", "X"], "C", [])) := by decide!

/-- C3. Single leader fails on a run of the code: after the censuses
`censusPair` and `censusNewcomer`, the platoon `p_up_incoming_C` has members
`C`, `D`, `X` and leader `C`, and none of its members is flagged `IsLeader`. -/
theorem no_flagged_leader_after_newcomer :
    ∃ tm, runTicks (NewTrafficManager 0)
        [(Sched.fixed 0, censusPair), (Sched.fixed 0, censusNewcomer)] = some tm ∧
      ¬ SingleLeader tm := by
  have h := newcomer_run
  cases hr : runTicks (NewTrafficManager 0)
      [(Sched.fixed 0, censusPair), (Sched.fixed 0, censusNewcomer)] with
  | none => rw [hr] at h; cases h
  | some tm =>
    rw [hr] at h
    simp only [Option.map_some', Option.some.injEq] at h
    obtain ⟨p, hget, hp⟩ := Option.map_eq_some'.mp h
    simp only [Prod.mk.injEq] at hp
    refine ⟨tm, rfl, ?_⟩
    intro hc
    have := hc "p_up_incoming_C" p hget
    rw [hp.2.2] at this
    cases this

theorem column46_run :
    ((runTicks (NewTrafficManager 0) [(Sched.fixed 0, columnCensus 46)]).map (fun tm =>
      (tm.Platoons.get "p_split_up_leaving_1").map (fun p => p.VehicleIDs.length)))
    = some (some 31) := by decide!

/-- The same tick when the loop of the size cap also visits the platoon it
has just inserted: the platoon `p_split_up_leaving_1` is split once more and
keeps 16 members. -/
theorem column46_run_revisiting :
    ((runTicks (NewTrafficManager 0)
        [(Sched.revisiting 0 "p_split_up_leaving_1", columnCensus 46)]).map (fun tm =>
      (tm.Platoons.get "p_split_up_leaving_1").map (fun p => p.VehicleIDs.length)))
    = some (some 16) := by decide!

/-- C4. The size bound fails on a run of the code: one tick on a column of
46 vehicles ends with 31 members in the platoon `p_split_up_leaving_1`. -/
theorem oversized_platoon_after_split :
    ∃ tm, runTicks (NewTrafficManager 0) [(Sched.fixed 0, columnCensus 46)] = some tm ∧
      ¬ SizeBound tm := by
  have h := column46_run
  cases hr : runTicks (NewTrafficManager 0) [(Sched.fixed 0, columnCensus 46)] with
  | none => rw [hr] at h; cases h
  | some tm =>
    rw [hr] at h
    simp only [Option.map_some', Option.some.injEq] at h
    obtain ⟨p, hget, hp⟩ := Option.map_eq_some'.mp h
    refine ⟨tm, rfl, ?_⟩
    intro hc
    have := hc "p_split_up_leaving_1" p hget
    omega

theorem column16_run :
    ((runTicks (NewTrafficManager 0) [(Sched.fixed 0, columnCensus 16)]).map (fun tm =>
      (tm.Platoons.get "p_split_up_leaving_1").map (fun p => p.VehicleIDs)))
    = some (some ["v15"]) := by decide!

/-- C5. Singleton-freedom fails on a run of the code: one tick on a column of
16 vehicles ends with the platoon `p_split_up_leaving_1` holding the single
member `v15`. -/
theorem singleton_platoon_after_split :
    ∃ tm, runTicks (NewTrafficManager 0) [(Sched.fixed 0, columnCensus 16)] = some tm ∧
      ¬ SingletonFree tm := by
  have h := column16_run
  cases hr : runTicks (NewTrafficManager 0) [(Sched.fixed 0, columnCensus 16)] with
  | none => rw [hr] at h; cases h
  | some tm =>
    rw [hr] at h
    simp only [Option.map_some', Option.some.injEq] at h
    obtain ⟨p, hget, hp⟩ := Option.map_eq_some'.mp h
    refine ⟨tm, rfl, ?_⟩
    intro hc
    have := hc "p_split_up_leaving_1" p hget
    rw [hp] at this
    simp at this

/-! ## Forced priority and the density cap on concrete worlds -/

/-- C6, counterexample. In the tick on `crossingState` the arbiter reaches
`handleForcedPriorityPlatoons` with no priority to maintain and grants forced
priority to the platoon `p_:J_0_v1`, bucketed under the key `0`; the platoon
holds the priority at the end of the tick, and yet vehicle `x` on edge `:J_1`
and vehicle `w` on edge `up_incoming` end the tick with a desired speed of
13.9. -/
theorem forced_grant_leaves_other_edges_moving :
    ((arbiterInput (Sched.fixed 0) (beforeArbitration (Sched.fixed 0) crossingState) ":J").map
      (fun st =>
        (findMaintained (Sched.fixed 0) st.1 ":J" 0 st.2.platoonsByEdge,
         findForced (Sched.fixed 0) st.1 ":J" st.2.platoonsByEdge,
         st.2.vehiclesByEdge)) =
      some (none, some ("0", "p_:J_0_v1"),
        [("0", ["v1", "v2", "v3", "v4", "v5"]), ("1", ["x"])])) ∧
    (Update (Sched.fixed 0) crossingState).map (fun t =>
      ((t.Platoons.get "p_:J_0_v1").map (fun p => (p.Edge, p.PriorityUntil)),
       (t.Vehicles.get "x").map (fun v => (v.Edge, v.DesiredSpeed)),
       (t.Vehicles.get "w").map (fun v => (v.Edge, v.DesiredSpeed)))) =
      some (some (":J_0", some (15 * second)), some (":J_1", 13.9),
        some ("up_incoming", 13.9)) := by
  constructor <;> decide!

theorem queuedState_maintains_nothing :
    findMaintained (Sched.fixed 0) queuedState ":J"
      ((Sched.fixed 0).now "handleForcedPriorityPlatoons" ":J") [("0", ["p"])] = none := by
  decide!

theorem queuedState_grants :
    findForced (Sched.fixed 0) queuedState ":J" [("0", ["p"])] = some ("0", "p") := by
  decide!

theorem queuedState_keeps_x :
    ((handleForcedPriorityPlatoons (Sched.fixed 0) queuedState ":J"
      [("0", ["v1", "v2", "v3", "v4", "v5"]), ("1", ["x"])] [("0", ["p"])]).Vehicles.get
        "x").isSome = true := by
  decide!

theorem forced_grant_stops_other_buckets_witness :
    findForced (Sched.fixed 0) queuedState ":J" [("0", ["p"])] = some ("0", "p") ∧
    ∃ v, (handleForcedPriorityPlatoons (Sched.fixed 0) queuedState ":J"
        [("0", ["v1", "v2", "v3", "v4", "v5"]), ("1", ["x"])] [("0", ["p"])]).Vehicles.get
          "x" = some v ∧ v.DesiredSpeed = 0 := by
  obtain ⟨v, hv⟩ := Option.isSome_iff_exists.mp queuedState_keeps_x
  exact ⟨queuedState_grants, v, hv,
    forced_grant_stops_other_buckets (Sched.fixed 0) queuedState ":J"
      [("0", ["v1", "v2", "v3", "v4", "v5"]), ("1", ["x"])] [("0", ["p"])] "0" "p"
      (fixed_fair 0) queuedState_maintains_nothing queuedState_grants
      "1" ["x"] "x" v (by decide) (by decide) (by decide) hv⟩

theorem denseState_run :
    (Update (Sched.fixed 0) denseState).map (fun t =>
      ((t.Vehicles.get "w").map (fun v => (v.Edge, v.IsLeader, v.DesiredSpeed)),
        t.TrafficDensity.get "up_incoming", t.VehicleToPlatoon.get "w")) =
      some (some ("up_incoming", false, 13.9), some 80, none) := by decide!

/-- C7, counterexample. One tick on `denseState`, where the density of
`up_incoming` is 80 and vehicle `w` on that edge is at the intersection and
leads no platoon, ends with `w` at a desired speed of 13.9: the density cap
does not hold at the end of that `Update`. -/
theorem density_cap_fails_at_intersection :
    ∃ tm, Update (Sched.fixed 0) denseState = some tm ∧ ¬ DensityCap tm := by
  have h := denseState_run
  cases hr : Update (Sched.fixed 0) denseState with
  | none => rw [hr] at h; cases h
  | some tm =>
    rw [hr] at h
    simp only [Option.map_some', Option.some.injEq, Prod.mk.injEq] at h
    obtain ⟨hv, hd, hm⟩ := h
    obtain ⟨v, hget, hf⟩ := Option.map_eq_some'.mp hv
    simp only [Prod.mk.injEq] at hf
    refine ⟨tm, rfl, ?_⟩
    intro hc
    have hle := hc "w" v 80 hget (by rw [hf.1]; exact hd) (by norm_num) hf.2.1
      (by
        rintro ⟨pid, p, h1, _⟩
        rw [hm] at h1
        cases h1)
    rw [hf.2.2] at hle
    norm_num at hle

theorem denseStateAway_runs : (Update (Sched.fixed 0) denseStateAway).isSome = true := by
  decide!

theorem denseStateAway_run :
    (Update (Sched.fixed 0) denseStateAway).map (fun t =>
      ((t.Vehicles.get "w").map
          (fun v => (v.Edge, v.IsLeader, v.AtIntersection, v.DesiredSpeed)),
        t.TrafficDensity.get "up_incoming", t.VehicleToPlatoon.get "w")) =
      some (some ("up_incoming", false, false, 7.8), some 80, none) := by decide!

theorem density_cap_away_from_intersection_witness :
    ∃ tm, Update (Sched.fixed 0) denseStateAway = some tm ∧
      DensityCapAwayFromIntersection tm := by
  obtain ⟨tm, h⟩ := Option.isSome_iff_exists.mp denseStateAway_runs
  exact ⟨tm, h, density_cap_away_from_intersection (Sched.fixed 0) denseStateAway tm
    (fun _ _ _ hk => (fixed_fair 0 _ _ _).mem_iff.mpr hk) (by decide) h⟩

/-- The two conditions on the vehicle are both needed.  In `denseStateFlagged`
the vehicle `w` is away from the intersection on an edge of density 80, is in
no platoon and carries `IsLeader = true`: it ends the tick at a desired speed
of 13.9.  In `denseStateLed` the vehicle `A` is away from the intersection on
an edge of density 80, carries `IsLeader = false` and is the `LeaderID` of
the platoon it is mapped to: it ends the tick at 8.3. -/
theorem density_cap_needs_both_conditions :
    (Update (Sched.fixed 0) denseStateFlagged).map (fun t =>
      ((t.Vehicles.get "w").map
          (fun v => (v.Edge, v.AtIntersection, v.IsLeader, v.DesiredSpeed)),
        t.TrafficDensity.get "up_incoming", t.VehicleToPlatoon.get "w")) =
      some (some ("up_incoming", false, true, 13.9), some 80, none) ∧
    (Update (Sched.fixed 0) denseStateLed).map (fun t =>
      ((t.Vehicles.get "A").map
          (fun v => (v.Edge, v.AtIntersection, v.IsLeader, v.DesiredSpeed)),
        t.TrafficDensity.get "up_incoming", t.VehicleToPlatoon.get "A")) =
      some (some ("up_incoming", false, false, 8.3), some 80, some "p_up_incoming_A") ∧
    (Update (Sched.fixed 0) denseStateLed).map (fun t =>
      (t.Platoons.get "p_up_incoming_A").map (fun q => q.LeaderID)) = some (some "A") := by
  refine ⟨?_, ?_, ?_⟩ <;> decide!

/-! ## Right turns and formation on concrete worlds -/

theorem right_turn_gating_witness :
    turnState.Vehicles.get "r" = some turnVehicle ∧
    ((rightTurnStep turnBuckets turnState "r").Vehicles.get "r").map
      (fun w => w.DesiredSpeed) = some (min 16.0 (turnVehicle.Speed + 3.5)) ∧
    rightTurnStep blockedBuckets turnState "r" = turnState := by
  refine ⟨rfl, ?_, ?_⟩
  · refine (right_turn_gating turnBuckets turnState "r" turnVehicle rfl rfl).1 ?_
    intro l hl w hw
    have hl' : l = "q" := by
      have : (turnBuckets.get (getLeftEdge (getSourceEdgeForVehicle turnVehicle))).getD []
          = ["q"] := by decide
      rw [this] at hl
      simpa using hl
    subst hl'
    have : turnState.Vehicles.get "q" = some leftTurner := by decide
    rw [this] at hw
    cases hw
    decide
  · refine (right_turn_gating blockedBuckets turnState "r" turnVehicle rfl rfl).2 ?_
    exact ⟨"g", by decide, straightGoer, by decide, by decide⟩

theorem two_vehicle_formation_witness :
    fsub vehicleS1A.Pos vehicleS1B.Pos = 10 ∧
    (UpdatePlatoons (Sched.fixed 0) worldS1).Platoons =
      [(pairPlatoonID vehicleS1A, pairPlatoon vehicleS1A vehicleS1B)] ∧
    (UpdatePlatoons (Sched.fixed 0) worldS1).VehicleToPlatoon.get "A" =
      some "p_up_incoming_A" ∧
    (UpdatePlatoons (Sched.fixed 0) worldS1).VehicleToPlatoon.get "B" =
      some "p_up_incoming_A" ∧
    ((UpdatePlatoons (Sched.fixed 0) worldS1).Vehicles.get "A").map
      (fun v => (v.PlatoonID, v.IsLeader)) = some ("p_up_incoming_A", true) ∧
    ((UpdatePlatoons (Sched.fixed 0) worldS1).Vehicles.get "B").map
      (fun v => (v.PlatoonID, v.IsLeader)) = some ("p_up_incoming_A", false) := by
  have hgap : fsub vehicleS1A.Pos vehicleS1B.Pos = 10 := by decide!
  exact ⟨hgap,
    (two_vehicle_formation (Sched.fixed 0) worldS1 vehicleS1A vehicleS1B (fixed_fair 0) false
      rfl rfl rfl (by simp only [worldS1, NewTrafficManager]; norm_num)
      (by decide) (by decide) rfl rfl (by rw [hgap]; norm_num) (by rw [hgap]; norm_num)).1
      (by rw [hgap]; norm_num)⟩

/-! ## Runs on which a scenario of the specification fails -/

/-- C11. The edge-transition split on a run of the code: after the censuses
`censusS1` and `censusS2` (each followed by `Update`) the platoon
`p_up_incoming_A` is gone, no platoon is left and neither `A` nor `B` has a
`VehicleToPlatoon` entry, but both vehicles still carry the platoon id
`p_up_incoming_A`, and `A` is still flagged as leader. -/
theorem stale_platoon_id_after_edge_split :
    (runTicks (NewTrafficManager 0)
        [(Sched.fixed 0, censusS1)]).map (fun tm =>
      tm.Platoons.map (fun kv => (kv.1, kv.2.VehicleIDs, kv.2.LeaderID, kv.2.Edge))) =
      some [("p_up_incoming_A", ["A", "B"], "A", "up_incoming")] ∧
    (runTicks (NewTrafficManager 0)
        [(Sched.fixed 0, censusS1), (Sched.fixed 0, censusS2)]).map (fun tm =>
      (tm.Platoons.keys, tm.VehicleToPlatoon.keys)) = some ([], []) ∧
    (runTicks (NewTrafficManager 0)
        [(Sched.fixed 0, censusS1), (Sched.fixed 0, censusS2)]).map (fun tm =>
      (tm.Vehicles.get "A").map (fun v => (v.Edge, v.PlatoonID, v.IsLeader))) =
      some (some ("up_leaving", "p_up_incoming_A", true)) ∧
    (runTicks (NewTrafficManager 0)
        [(Sched.fixed 0, censusS1), (Sched.fixed 0, censusS2)]).map (fun tm =>
      (tm.Vehicles.get "B").map (fun v => (v.Edge, v.PlatoonID, v.IsLeader))) =
      some (some ("up_incoming", "p_up_incoming_A", false)) := by
  refine ⟨?_, ?_, ?_, ?_⟩ <;> decide!

/-- C12, counterexample. In the tick on `crossingState` the arbiter reaches
`handleForcedPriorityPlatoons` with no priority to maintain and grants forced
priority to the platoon `p_:J_0_v1`; when `ManageIntersections` returns, the
platoon holds the priority until 15 s, and its leader `v1`, whose speed is 2,
has a desired speed of 6, not `min(2 + 5, 19.4) = 7`. -/
theorem forced_leader_speed_overwritten :
    ((arbiterInput (Sched.fixed 0) (beforeArbitration (Sched.fixed 0) crossingState) ":J").map
      (fun st =>
        (findMaintained (Sched.fixed 0) st.1 ":J" 0 st.2.platoonsByEdge,
         findForced (Sched.fixed 0) st.1 ":J" st.2.platoonsByEdge)) =
      some (none, some ("0", "p_:J_0_v1"))) ∧
    (ManageIntersections (Sched.fixed 0)
        (beforeArbitration (Sched.fixed 0) crossingState)).map (fun tm =>
      ((tm.Platoons.get "p_:J_0_v1").map (fun p => (p.LeaderID, p.PriorityUntil)),
       (tm.Vehicles.get "v1").map (fun v => (v.Speed, v.DesiredSpeed)))) =
      some (some ("v1", some (15 * second)), some (2, 6)) ∧
    min ((2 : ℚ) + 5) 19.4 = 7 := by
  refine ⟨?_, ?_, ?_⟩
  · decide!
  · decide!
  · norm_num

/-- C15, counterexample. For a vehicle at 2 m/s and a distance of 50 m the
estimate is `now + 25 s`, while `50 / max(2, 5)` is 10.  For a vehicle at
12 m/s and a distance of 96.10 m the estimate is `now + 8008333333 ns`, a
third of a nanosecond below `96.10 / max(12, 5)` seconds. -/
theorem arrival_estimate_slow_vehicle :
    (slowVehicle.Speed = 2 ∧
      estimateArrivalTime 0 slowVehicle 50 = 25 * second ∧
      (50 : ℚ) / max slowVehicle.Speed 5 = 10) ∧
    (cruisingVehicle.Speed = 12 ∧
      estimateArrivalTime 0 cruisingVehicle 96.10 = 8008333333 ∧
      (96.10 : ℚ) / max cruisingVehicle.Speed 5 * (second : ℚ) = 8008333333 + 1 / 3) := by
  refine ⟨⟨?_, ?_, ?_⟩, ⟨?_, ?_, ?_⟩⟩ <;> decide!

/-- C17. The flag on a run of the code: vehicle `A` enters the world at 50 m
and 10 m/s on `up_incoming`, where the rule of the specification gives
`false`, and the ingest stores `AtIntersection = true`. -/
theorem new_vehicle_flagged_at_intersection :
    censusS1.get "A" = some ⟨"u0", 50, 10, "up_incoming"⟩ ∧
    ((UpdateVehicleData (Sched.fixed 0) censusS1 (NewTrafficManager 0)).Vehicles.get "A").map
      (fun v => (v.Edge, v.Pos, v.Speed, v.AtIntersection)) =
      some ("up_incoming", 50, 10, true) ∧
    specAtIntersection "up_incoming" 50 10 = false := by
  refine ⟨?_, ?_, ?_⟩ <;> decide!

/-- C19. The density on a run of the code: `denseState` records a density of
80 for `up_incoming` and has no vehicle there that is away from the
intersection; a recomputation 3 s after the last one leaves the entry at 80,
where the formula gives 0. -/
theorem stale_density_after_recomputation :
    denseState.LastTrafficMeasurement = 0 ∧
    (measureTrafficDensity (Sched.fixed (3 * second)) denseState).LastTrafficMeasurement
      = 3 * second ∧
    (measureTrafficDensity (Sched.fixed (3 * second)) denseState).TrafficDensity.get
      "up_incoming" = some 80 ∧
    specDensity (measureTrafficDensity (Sched.fixed (3 * second)) denseState) "up_incoming"
      = 0 := by
  refine ⟨?_, ?_, ?_, ?_⟩ <;> decide!

/-- C20. The direction of consolidation on a run of the code: with the leader
`q1` of `Q` 20 m ahead of the leader `p1` of `P`, in either storage order of
the two platoons, `consolidatePlatoons` removes `Q`, keeps `P` with leader
`p1` and all four members, and clears the leader flag of `q1`. -/
theorem consolidation_keeps_rear_platoon :
    (((consolidatePlatoons (Sched.fixed 0) (twoPlatoons false)).Platoons.map
        (fun kv => (kv.1, kv.2.VehicleIDs, kv.2.LeaderID)),
      ((consolidatePlatoons (Sched.fixed 0) (twoPlatoons false)).Vehicles.get "q1").map
        (fun v => (v.PlatoonID, v.IsLeader))) =
      ([("P", ["p1", "p2", "q1", "q2"], "p1")], some ("P", false))) ∧
    (((consolidatePlatoons (Sched.fixed 0) (twoPlatoons true)).Platoons.map
        (fun kv => (kv.1, kv.2.VehicleIDs, kv.2.LeaderID)),
      ((consolidatePlatoons (Sched.fixed 0) (twoPlatoons true)).Vehicles.get "q1").map
        (fun v => (v.PlatoonID, v.IsLeader))) =
      ([("P", ["p1", "p2", "q1", "q2"], "p1")], some ("P", false))) := by
  constructor <;> decide!

/-! ## The forced grant at the level of the handler -/

theorem boostPlatoon_platoons (tm : TrafficManager) (platoon : Platoon)
    (boost cap followerBoost : ℚ) :
    (boostPlatoon tm platoon boost cap followerBoost).Platoons = tm.Platoons := by
  unfold boostPlatoon
  try simp only []
  refine foldl_preserves (fun t : TrafficManager => t.Platoons = tm.Platoons) _ ?_ _ _
    (setDesired_platoons _ _ _)
  intro t vid ht
  try simp only []
  split_ifs
  · exact ht
  · split
    · exact ht
    · rw [setDesired_platoons]; exact ht

theorem boostPlatoon_leader (tm : TrafficManager) (platoon : Platoon) (leader : Vehicle)
    (boost cap followerBoost : ℚ)
    (hl : tm.Vehicles.get platoon.LeaderID = some leader) (hid : leader.ID = platoon.LeaderID) :
    ((boostPlatoon tm platoon boost cap followerBoost).Vehicles.get platoon.LeaderID).map
      (fun v => v.DesiredSpeed) = some (min (leader.Speed + boost) cap) := by
  unfold boostPlatoon
  try simp only []
  have hvid : vehicleID tm platoon.LeaderID = platoon.LeaderID := by
    simp only [vehicleID, hl, hid]
  have hsp : vehicleSpeed tm platoon.LeaderID = leader.Speed := by
    simp only [vehicleSpeed, hl]
  rw [hvid, hsp]
  refine foldl_preserves
    (fun t : TrafficManager => (t.Vehicles.get platoon.LeaderID).map (fun v => v.DesiredSpeed)
      = some (min (leader.Speed + boost) cap)) _ ?_ _ _ ?_
  · intro t vid ht
    try simp only []
    split_ifs with hv
    · exact ht
    · split
      · exact ht
      · rw [setDesired_get, if_neg hv]; exact ht
  · show ((setDesired tm platoon.LeaderID (min (leader.Speed + boost) cap)).Vehicles.get
        platoon.LeaderID).map (fun v => v.DesiredSpeed) = _
    rw [setDesired_get, if_pos rfl, hl]
    rfl

theorem stopOtherEdges_platoons (tm : TrafficManager) (order : List String)
    (vehiclesByEdge : GoMap (List String)) (edge : String) :
    (stopOtherEdges tm order vehiclesByEdge edge).Platoons = tm.Platoons := by
  unfold stopOtherEdges
  refine foldl_preserves (fun t : TrafficManager => t.Platoons = tm.Platoons) _ ?_ _ _ rfl
  intro t o ht
  try simp only []
  split_ifs
  · exact ht
  · split
    · exact ht
    · exact foldl_preserves (fun t' : TrafficManager => t'.Platoons = tm.Platoons) _
        (fun t' v h => (setDesired_platoons t' v 0.0).trans h) _ _ ht

/-- The stop loop leaves alone a vehicle that is queued in no bucket other
than `edge`. -/
theorem stopOtherEdges_keeps (tm : TrafficManager) (order : List String)
    (vehiclesByEdge : GoMap (List String)) (edge x : String)
    (hx : ∀ other vehicles, other ≠ edge → vehiclesByEdge.get other = some vehicles →
      x ∉ vehicles) :
    (stopOtherEdges tm order vehiclesByEdge edge).Vehicles.get x = tm.Vehicles.get x := by
  unfold stopOtherEdges
  refine foldl_preserves (fun t : TrafficManager => t.Vehicles.get x = tm.Vehicles.get x)
    _ ?_ _ _ rfl
  intro t o ht
  try simp only []
  split_ifs with ho
  · exact ht
  · split
    · exact ht
    · rename_i vehicles hb
      have hnot := hx o vehicles ho hb
      clear hb
      induction vehicles generalizing t with
      | nil => exact ht
      | cons y ys ih =>
        simp only [List.foldl_cons]
        apply ih
        · rw [setDesired_get, if_neg (fun h => hnot (by rw [h]; exact List.mem_cons_self _ _))]
          exact ht
        · exact fun h => hnot (List.mem_cons_of_mem _ h)

/-- C12 (amended). When `handleForcedPriorityPlatoons` grants forced priority
to the platoon `p` (no listed platoon holds an active priority window) and the
leader of `p` is queued in no bucket other than that of the grant, then when
the handler returns the leader has desired speed `min(Speed + 5, 19.4)` and
`PriorityUntil` of `p` is the handler's clock reading plus 15 s. -/
theorem forced_grant_sets_leader_and_window (s : Sched) (tm : TrafficManager)
    (intersectionID : String) (vehiclesByEdge platoonsByEdge : GoMap (List String))
    (e p : String) (platoon : Platoon) (leader : Vehicle)
    (hm : findMaintained s tm intersectionID
      (s.now "handleForcedPriorityPlatoons" intersectionID) platoonsByEdge = none)
    (hf : findForced s tm intersectionID platoonsByEdge = some (e, p))
    (hp : tm.Platoons.get p = some platoon)
    (hl : tm.Vehicles.get platoon.LeaderID = some leader) (hid : leader.ID = platoon.LeaderID)
    (hx : ∀ other vehicles, other ≠ e → vehiclesByEdge.get other = some vehicles →
      platoon.LeaderID ∉ vehicles) :
    ((handleForcedPriorityPlatoons s tm intersectionID vehiclesByEdge
        platoonsByEdge).Vehicles.get platoon.LeaderID).map (fun v => v.DesiredSpeed) =
      some (min (leader.Speed + 5) 19.4) ∧
    ((handleForcedPriorityPlatoons s tm intersectionID vehiclesByEdge
        platoonsByEdge).Platoons.get p).map (fun q => q.PriorityUntil) =
      some (some (s.now "handleForcedPriorityPlatoons" intersectionID + 15 * second)) := by
  unfold handleForcedPriorityPlatoons
  simp only [hm, hf, hp]
  constructor
  · rw [stopOtherEdges_keeps _ _ _ _ _ hx]
    have hl' : ∀ f, (modifyPlatoon tm p f).Vehicles.get platoon.LeaderID = some leader := by
      intro f; unfold modifyPlatoon; rw [hp]; exact hl
    rw [boostPlatoon_leader _ platoon leader 5.0 19.4 4.0 (hl' _) hid]
    norm_num
  · rw [stopOtherEdges_platoons, boostPlatoon_platoons]
    unfold modifyPlatoon
    rw [hp]
    simp only [get_set, if_true]
    rfl

/-! ## The arrival estimate -/

/-- On non-negative values the conversion to a duration is the floor. -/
theorem truncToInt_eq_floor (x : ℚ) (h : 0 ≤ x) : truncToInt x = ⌊x⌋ := by
  unfold truncToInt
  rw [Rat.floor_def, Int.tdiv_eq_ediv (Rat.num_nonneg.mpr h) (by exact_mod_cast Nat.zero_le _)]

theorem pow2_subnormal_le_one : pow2 (-1022) ≤ 1 := by
  rw [pow2_eq_zpow]
  exact zpow_le_one_of_nonpos₀ (by norm_num) (by norm_num)

/-- The rounding error of `f64` on a value of magnitude at most `b`, `b ≥ 1`. -/
theorem f64_error_le (x b : ℚ) (hb : 1 ≤ b) (hx : |x| ≤ b) : |f64 x - x| ≤ b / 2 ^ 53 :=
  (f64_error x).trans
    (div_le_div_of_nonneg_right (max_le hx (pow2_subnormal_le_one.trans hb)) (by positivity))

/-- The duration that `estimateArrivalTime` adds for a distance `0 ≤ d ≤ 100`
and a divisor `s ≥ 1`: the roundings of the division and of the
multiplication and the cut to whole nanoseconds leave it within
`(d / s · 10⁹ - 1.001, d / s · 10⁹ + 0.001]`. -/
theorem duration_near (d s : ℚ) (hd : 0 ≤ d) (hd100 : d ≤ 100) (hs : 1 ≤ s) :
    d / s * (second : ℚ) - 1 - 1 / 1000
        < (durationOfFloat (fmul (fdiv d s) (second : ℚ)) : ℚ) ∧
      (durationOfFloat (fmul (fdiv d s) (second : ℚ)) : ℚ)
        ≤ d / s * (second : ℚ) + 1 / 1000 := by
  have hsec : (second : ℚ) = 1000000000 := by simp only [second]; norm_num
  have hfsec : f64 (1000000000 : ℚ) = 1000000000 := by decide!
  rw [hsec]
  unfold fmul fdiv
  rw [hfsec]
  -- the exact quotient
  have hs0 : 0 < s := by linarith
  obtain ⟨q, hq⟩ : ∃ q : ℚ, q = d / s := ⟨_, rfl⟩
  have hqs : q * s = d := by rw [hq]; field_simp
  have hq0 : 0 ≤ q := by rw [hq]; exact div_nonneg hd hs0.le
  have hq100 : q ≤ 100 := by rw [hq]; exact (div_le_self hd hs).trans hd100
  rw [← hq]
  -- the operands
  have ed := abs_le.mp (f64_error_le d 100 (by norm_num) (by rw [abs_of_nonneg hd]; exact hd100))
  have es := abs_le.mp (f64_error_le s s hs (by rw [abs_of_nonneg hs0.le]))
  have d0 : 0 ≤ f64 d := f64_nonneg d hd
  generalize f64 d = d' at ed d0
  generalize f64 s = s' at es
  obtain ⟨ed1, ed2⟩ := ed
  obtain ⟨es1, es2⟩ := es
  have hε : (0 : ℚ) < 1 / 2 ^ 53 := by positivity
  have hε1 : (1 : ℚ) / 2 ^ 53 ≤ 2 / 10 ^ 16 := by norm_num
  have hsε : s / 2 ^ 53 = s * (1 / 2 ^ 53) := by ring
  have h100 : (100 : ℚ) / 2 ^ 53 = 100 * (1 / 2 ^ 53) := by ring
  rw [hsε] at es1 es2
  rw [h100] at ed1 ed2
  generalize (1 : ℚ) / 2 ^ 53 = ε at hε hε1 es1 es2 ed1 ed2
  have hs'0 : 0 < s' := by nlinarith
  have hqs100 : q * s ≤ 100 * s := by nlinarith
  -- the quotient of the operands
  have hup : d' / s' ≤ q + 400 * ε := by
    rw [div_le_iff₀ hs'0]
    have h1 : 0 ≤ (q + 400 * ε) * (s' - (s - s * ε)) :=
      mul_nonneg (by nlinarith) (by linarith)
    nlinarith
  have hlo : q - 400 * ε ≤ d' / s' := by
    rw [le_div_iff₀ hs'0]
    rcases le_or_lt (q - 400 * ε) 0 with hc | hc
    · have : (q - 400 * ε) * s' ≤ 0 := mul_nonpos_of_nonpos_of_nonneg hc hs'0.le
      linarith
    · have h1 : 0 ≤ (q - 400 * ε) * ((s + s * ε) - s') :=
        mul_nonneg hc.le (by linarith)
      nlinarith
  have hq'0 : 0 ≤ d' / s' := div_nonneg d0 hs'0.le
  generalize d' / s' = q' at hup hlo hq'0
  -- the rounded quotient
  have e1 := abs_le.mp (f64_error_le q' 101 (by norm_num)
    (by rw [abs_of_nonneg hq'0]; linarith))
  have y0 : 0 ≤ f64 q' := f64_nonneg q' hq'0
  generalize f64 q' = y at e1 y0
  obtain ⟨e1a, e1b⟩ := e1
  have hsmall : (101 : ℚ) / 2 ^ 53 ≤ 1 / 1000000 := by norm_num
  -- the operand of the multiplication
  have e2 := abs_le.mp (f64_error_le y 102 (by norm_num)
    (by rw [abs_of_nonneg y0]; linarith))
  have z0 : 0 ≤ f64 y := f64_nonneg y y0
  generalize f64 y = z at e2 z0
  obtain ⟨e2a, e2b⟩ := e2
  have hsmall2 : (102 : ℚ) / 2 ^ 53 ≤ 1 / 1000000 := by norm_num
  -- the product
  have x0 : 0 ≤ z * 1000000000 := by positivity
  have e3 := abs_le.mp (f64_error_le (z * 1000000000) 103000000000 (by norm_num)
    (by rw [abs_of_nonneg x0]; linarith))
  have w0 : 0 ≤ f64 (z * 1000000000) := f64_nonneg _ x0
  generalize f64 (z * 1000000000) = w at e3 w0
  obtain ⟨e3a, e3b⟩ := e3
  have k1 : (103000000000 : ℚ) / 2 ^ 53 ≤ 2 / 100000 := by norm_num
  have k2 : (102 : ℚ) / 2 ^ 53 ≤ 2 / 10 ^ 14 := by norm_num
  have k3 : (101 : ℚ) / 2 ^ 53 ≤ 2 / 10 ^ 14 := by norm_num
  generalize (103000000000 : ℚ) / 2 ^ 53 = c1 at e3a e3b k1
  generalize (102 : ℚ) / 2 ^ 53 = c2 at e2a e2b k2 hsmall2
  generalize (101 : ℚ) / 2 ^ 53 = c3 at e1a e1b k3 hsmall
  have hup' : w ≤ q * 1000000000 + 1 / 1000 := by norm_num at hε1 k1 k2 k3 ⊢; linarith
  have hlo' : q * 1000000000 - 1 / 1000 ≤ w := by norm_num at hε1 k1 k2 k3 ⊢; linarith
  -- the conversion
  have hfl : truncToInt w = ⌊w⌋ := truncToInt_eq_floor w w0
  have hf0 : 0 ≤ ⌊w⌋ := Int.floor_nonneg.mpr w0
  have hf1 : (⌊w⌋ : ℚ) ≤ w := Int.floor_le w
  have hf2 : w < ⌊w⌋ + 1 := Int.lt_floor_add_one w
  have hrange : ⌊w⌋ < 2 ^ 63 := by
    have : (⌊w⌋ : ℚ) < ((2 ^ 63 : Int) : ℚ) := by
      push_cast
      have : w ≤ 100000000001 := by linarith
      have h63 : (100000000001 : ℚ) < 2 ^ 63 := by norm_num
      linarith
    exact_mod_cast this
  have hdur : durationOfFloat w = ⌊w⌋ := by
    unfold durationOfFloat
    rw [hfl, if_pos ⟨by omega, hrange⟩]
  rw [hdur]
  constructor <;> linarith

/-- C15 (amended). For a distance `0 ≤ d ≤ 100`, with `t` the exact time
`now + d / max(speed, 5)` seconds when the speed is below 1 or at least 5,
and `now + d / speed` seconds when the speed lies in `[1, 5)`:
`estimateArrivalTime`, which divides and multiplies in `float64` and cuts
the result to whole nanoseconds, returns a time in
`(t - 1.001 ns, t + 0.001 ns]`. -/
theorem arrival_estimate_by_speed_band (now : Int) (v : Vehicle) (d : ℚ) (hd : 0 ≤ d)
    (hd100 : d ≤ 100) :
    (v.Speed < 1 ∨ 5 ≤ v.Speed →
      (now : ℚ) + d / max v.Speed 5 * (second : ℚ) - 1 - 1 / 1000
          < (estimateArrivalTime now v d : ℚ) ∧
        (estimateArrivalTime now v d : ℚ)
          ≤ (now : ℚ) + d / max v.Speed 5 * (second : ℚ) + 1 / 1000) ∧
    (1 ≤ v.Speed → v.Speed < 5 →
      (now : ℚ) + d / v.Speed * (second : ℚ) - 1 - 1 / 1000
          < (estimateArrivalTime now v d : ℚ) ∧
        (estimateArrivalTime now v d : ℚ)
          ≤ (now : ℚ) + d / v.Speed * (second : ℚ) + 1 / 1000) := by
  have hslow : v.Speed < 1 →
      (now : ℚ) + d / 5 * (second : ℚ) - 1 - 1 / 1000 < (estimateArrivalTime now v d : ℚ) ∧
        (estimateArrivalTime now v d : ℚ) ≤ (now : ℚ) + d / 5 * (second : ℚ) + 1 / 1000 := by
    intro h
    have h1 : v.Speed < 1.0 := by norm_num; exact h
    have hq := duration_near d 5.0 hd hd100 (by norm_num)
    unfold estimateArrivalTime
    rw [if_pos h1]
    push_cast
    have h5 : (5.0 : ℚ) = 5 := by norm_num
    rw [h5] at hq ⊢
    constructor <;> linarith [hq.1, hq.2]
  have hfast : 1 ≤ v.Speed →
      (now : ℚ) + d / v.Speed * (second : ℚ) - 1 - 1 / 1000
          < (estimateArrivalTime now v d : ℚ) ∧
        (estimateArrivalTime now v d : ℚ)
          ≤ (now : ℚ) + d / v.Speed * (second : ℚ) + 1 / 1000 := by
    intro h
    have h1 : ¬ v.Speed < 1.0 := by norm_num; exact h
    have hq := duration_near d v.Speed hd hd100 h
    unfold estimateArrivalTime
    rw [if_neg h1]
    push_cast
    constructor <;> linarith [hq.1, hq.2]
  constructor
  · rintro (h | h)
    · rw [max_eq_right (by linarith : v.Speed ≤ 5)]
      exact hslow h
    · rw [max_eq_left h]
      exact hfast (by linarith)
  · intro h1 _
    exact hfast h1

theorem arrival_estimate_by_speed_band_witness :
    ((0 : Int) : ℚ) + (96.10 : ℚ) / max cruisingVehicle.Speed 5 * (second : ℚ) - 1 - 1 / 1000
        < (estimateArrivalTime 0 cruisingVehicle 96.10 : ℚ) ∧
      (estimateArrivalTime 0 cruisingVehicle 96.10 : ℚ)
        ≤ ((0 : Int) : ℚ) + (96.10 : ℚ) / max cruisingVehicle.Speed 5 * (second : ℚ) + 1 / 1000 ∧
    cruisingVehicle.Speed = 12 ∧
    estimateArrivalTime 0 cruisingVehicle 96.10 = 8008333333 :=
  have h := (arrival_estimate_by_speed_band 0 cruisingVehicle 96.10 (by norm_num)
    (by norm_num)).1 (Or.inr (by simp only [cruisingVehicle, edgeOnlyVehicle]; norm_num))
  ⟨h.1, h.2, by decide!, by decide!⟩

theorem queuedState_platoon : queuedState.Platoons.get "p" = some queuedPlatoon := by
  decide!

theorem queuedState_leader : queuedState.Vehicles.get "v1" = some queuedLeader := by
  decide!

theorem forced_grant_sets_leader_and_window_witness :
    ((handleForcedPriorityPlatoons (Sched.fixed 0) queuedState ":J"
        [("0", ["v1", "v2", "v3", "v4", "v5"]), ("1", ["x"])] [("0", ["p"])]).Vehicles.get
          "v1").map (fun v => v.DesiredSpeed) = some (min (queuedLeader.Speed + 5) 19.4) ∧
    ((handleForcedPriorityPlatoons (Sched.fixed 0) queuedState ":J"
        [("0", ["v1", "v2", "v3", "v4", "v5"]), ("1", ["x"])] [("0", ["p"])]).Platoons.get
          "p").map (fun q => q.PriorityUntil) = some (some (0 + 15 * second)) ∧
    min (queuedLeader.Speed + 5) 19.4 = 7 :=
  have h := forced_grant_sets_leader_and_window (Sched.fixed 0) queuedState ":J"
    [("0", ["v1", "v2", "v3", "v4", "v5"]), ("1", ["x"])] [("0", ["p"])] "0" "p"
    queuedPlatoon queuedLeader queuedState_maintains_nothing queuedState_grants
    queuedState_platoon queuedState_leader rfl
    (by
      intro other vehicles hne hb
      simp only [GoMap.get] at hb
      split_ifs at hb with h0 h1
      · exact absurd h0.symm hne
      · cases hb; decide)
  ⟨h.1, h.2, by decide!⟩

/-! ## Supporting facts for the scenarios -/

/-- The test of the source agrees with the rule of the specification on
every vehicle record. -/
theorem isVehicleAtIntersection_eq_spec (v : Vehicle) :
    isVehicleAtIntersection v = specAtIntersection v.Edge v.Pos v.Speed := by
  unfold isVehicleAtIntersection specAtIntersection
  by_cases hc : startsWithColon v.Edge = true
  · simp [hc]
  · by_cases h1 : v.Edge = "down_incoming"
    · simp [hc, h1, getEdgeLengths, isEdgeConnectedToJunction, GoMap.get]
      norm_num [Bool.or_assoc]
    by_cases h2 : v.Edge = "down_leaving"
    · simp [hc, h2, getEdgeLengths, isEdgeConnectedToJunction, GoMap.get]
      norm_num [Bool.or_assoc]
    by_cases h3 : v.Edge = "left_incoming"
    · simp [hc, h3, getEdgeLengths, isEdgeConnectedToJunction, GoMap.get]
      norm_num [Bool.or_assoc]
    by_cases h4 : v.Edge = "left_leaving"
    · simp [hc, h4, getEdgeLengths, isEdgeConnectedToJunction, GoMap.get]
      norm_num [Bool.or_assoc]
    by_cases h5 : v.Edge = "right_incoming"
    · simp [hc, h5, getEdgeLengths, isEdgeConnectedToJunction, GoMap.get]
      norm_num [Bool.or_assoc]
    by_cases h6 : v.Edge = "right_leaving"
    · simp [hc, h6, getEdgeLengths, isEdgeConnectedToJunction, GoMap.get]
      norm_num [Bool.or_assoc]
    by_cases h7 : v.Edge = "up_incoming"
    · simp [hc, h7, getEdgeLengths, isEdgeConnectedToJunction, GoMap.get]
      norm_num [Bool.or_assoc]
    by_cases h8 : v.Edge = "up_leaving"
    · simp [hc, h8, getEdgeLengths, isEdgeConnectedToJunction, GoMap.get]
      norm_num [Bool.or_assoc]
    simp [hc, getEdgeLengths, isEdgeConnectedToJunction, GoMap.get, Ne.symm h1, Ne.symm h2,
      Ne.symm h3, Ne.symm h4, Ne.symm h5, Ne.symm h6, Ne.symm h7, Ne.symm h8]

/-- The route search finds an intersection only for a vehicle on
`down_incoming`. -/
theorem next_intersection_only_from_down_incoming (s : Sched) (tm : TrafficManager)
    (v : Vehicle) (h : v.Edge ≠ "down_incoming") :
    findNextIntersectionForVehicle s tm v = none := by
  unfold findNextIntersectionForVehicle getVehicleRouteEdges
  simp only
  have hne : ¬ ("down_incoming" = v.Edge) := fun e => h e.symm
  split_ifs <;> simp [routes, GoMap.get, findNextFrom, hne]

theorem modifyIntersection_get (tm : TrafficManager) (k k' : String)
    (f : Intersection → Intersection) :
    (modifyIntersection tm k f).Intersections.get k' =
      if k = k' then (tm.Intersections.get k').map f else tm.Intersections.get k' := by
  unfold modifyIntersection
  cases h : tm.Intersections.get k with
  | none =>
    by_cases hk : k = k'
    · subst hk; simp [h]
    · simp [hk]
  | some v =>
    by_cases hk : k = k'
    · subst hk; simp [get_set, h]
    · simp [get_set, hk]

theorem modifyIntersection_vehicles (tm : TrafficManager) (k : String)
    (f : Intersection → Intersection) :
    (modifyIntersection tm k f).Vehicles = tm.Vehicles := by
  unfold modifyIntersection
  split <;> rfl

/-- The first piece of a split is what precedes the first separator. -/
theorem splitChars_head (sep : Char) (cs cur : List Char) :
    ∃ rest, splitChars sep cs cur =
      (cur.reverse ++ cs.takeWhile (fun c => c ≠ sep)) :: rest := by
  induction cs generalizing cur with
  | nil => exact ⟨[], by simp [splitChars]⟩
  | cons c cs ih =>
    by_cases h : c = sep
    · exact ⟨splitChars sep cs [], by simp [splitChars, h]⟩
    · obtain ⟨rest, hr⟩ := ih (c :: cur)
      exact ⟨rest, by simp [splitChars, h, hr]⟩

theorem splitUnderscore_head (e : String) :
    ∃ rest, splitUnderscore e = edgeHead e :: rest := by
  obtain ⟨rest, hr⟩ := splitChars_head '_' e.data []
  exact ⟨rest.map String.mk, by simp [splitUnderscore, edgeHead, hr]⟩

theorem startsWithColon_edgeHead (e : String) :
    startsWithColon (edgeHead e) = startsWithColon e := by
  unfold startsWithColon edgeHead
  cases h : e.data with
  | nil => simp
  | cons c cs =>
    by_cases hc : c = '_'
    · subst hc; simp
    · simp [List.takeWhile, hc]

/-- The roster key in the words of the specification: the vehicle is at the
intersection, its edge begins with `:`, and the key is the part of the edge
before the first `_`. -/
theorem rosterKey_eq_some (v : Vehicle) (k : String) :
    rosterKey v = some k ↔
      v.AtIntersection = true ∧ startsWithColon v.Edge = true ∧ k = edgeHead v.Edge := by
  obtain ⟨rest, hr⟩ := splitUnderscore_head v.Edge
  unfold rosterKey
  rw [hr]
  simp only [startsWithColon_edgeHead]
  by_cases ha : v.AtIntersection = true <;> by_cases hc : startsWithColon v.Edge = true <;>
    simp [ha, hc, eq_comm]

/-- The roster key of the vehicle stored under `id`, if there is one. -/
theorem rosterStep_none (s : Sched) (tm : TrafficManager) (id : String)
    (h : (tm.Vehicles.get id).bind rosterKey = none) : rosterStep s tm id = tm := by
  unfold rosterStep
  cases hv : tm.Vehicles.get id with
  | none => rfl
  | some v =>
    rw [hv] at h
    simp only [Option.some_bind, rosterKey] at h
    simp only
    by_cases ha : v.AtIntersection = true
    · rw [if_pos ha] at h ⊢
      cases hs : splitUnderscore v.Edge with
      | nil => rfl
      | cons first rest =>
        rw [hs] at h
        simp only at h ⊢
        by_cases hc : startsWithColon first = true
        · rw [if_pos hc] at h; cases h
        · rw [if_neg hc]
    · rw [if_neg ha]

theorem rosterStep_vehicles (s : Sched) (tm : TrafficManager) (id : String) :
    (rosterStep s tm id).Vehicles = tm.Vehicles := by
  unfold rosterStep
  split
  · rfl
  · split_ifs
    · split
      · rfl
      · split_ifs
        · rw [modifyIntersection_vehicles]
        · rw [modifyIntersection_vehicles]
        · rfl
    · rfl

/-- The effect of the roster step on the rosters when the vehicle has the
roster key `k0`: the roster at `k0` is created empty if it is missing, and
`id` is appended to it; no other roster changes. -/
theorem rosterStep_some (s : Sched) (tm : TrafficManager) (id k0 : String)
    (h : (tm.Vehicles.get id).bind rosterKey = some k0) (k : String) :
    ((rosterStep s tm id).Intersections.get k).map (fun i => i.Vehicles) =
      if k0 = k then some (((tm.Intersections.get k).map (fun i => i.Vehicles)).getD [] ++ [id])
      else (tm.Intersections.get k).map (fun i => i.Vehicles) := by
  unfold rosterStep
  cases hv : tm.Vehicles.get id with
  | none => rw [hv] at h; cases h
  | some v =>
    rw [hv] at h
    simp only [Option.some_bind, rosterKey] at h
    simp only
    by_cases ha : v.AtIntersection = true
    · rw [if_pos ha] at h ⊢
      cases hs : splitUnderscore v.Edge with
      | nil => rw [hs] at h; cases h
      | cons first rest =>
        rw [hs] at h
        simp only at h ⊢
        by_cases hc : startsWithColon first = true
        · rw [if_pos hc] at h ⊢
          have hk0 : first = k0 := Option.some.inj h
          subst hk0
          rw [modifyIntersection_get]
          by_cases hk : first = k
          · subst hk
            rw [if_pos rfl, if_pos rfl]
            cases hi : tm.Intersections.get first with
            | none => simp [GoMap.has, hi, get_set]
            | some i => simp [GoMap.has, hi]
          · rw [if_neg hk, if_neg hk]
            cases hi : tm.Intersections.get first with
            | none => simp [GoMap.has, hi, get_set, hk]
            | some i => simp [GoMap.has, hi]
        · rw [if_neg hc] at h; cases h
    · rw [if_neg ha] at h; cases h

theorem rostersOf_step (s : Sched) (vehicles : GoMap Vehicle) (visited : List String)
    (tm : TrafficManager) (id : String) (h : RostersOf vehicles visited tm) :
    RostersOf vehicles (visited ++ [id]) (rosterStep s tm id) := by
  obtain ⟨hV, hL, hE⟩ := h
  cases hk : (vehicles.get id).bind rosterKey with
  | none =>
    have hstep : rosterStep s tm id = tm := rosterStep_none s tm id (by rw [hV]; exact hk)
    rw [hstep]
    refine ⟨hV, ?_, ?_⟩
    · intro k l hl
      rw [List.filter_append, hL k l hl]
      simp [hk]
    · intro k id' hmem hq
      rcases List.mem_append.mp hmem with h1 | h1
      · exact hE k id' h1 hq
      · rw [List.mem_singleton.mp h1, hk] at hq; cases hq
  | some k0 =>
    have hsome := rosterStep_some s tm id k0 (by rw [hV]; exact hk)
    refine ⟨by rw [rosterStep_vehicles]; exact hV, ?_, ?_⟩
    · intro k l hl
      rw [hsome k] at hl
      rw [List.filter_append]
      by_cases hkk : k0 = k
      · subst hkk
        rw [if_pos rfl] at hl
        have hl' := (Option.some.inj hl).symm
        rw [hl']
        have hlast : List.filter
            (fun id => decide ((vehicles.get id).bind rosterKey = some k0)) [id] = [id] := by
          simp [hk]
        rw [hlast]
        congr 1
        cases hi : (tm.Intersections.get k0).map (fun i => i.Vehicles) with
        | none =>
          simp only [Option.getD_none]
          symm
          rw [List.filter_eq_nil_iff]
          intro id' hmem
          simp only [decide_eq_true_eq]
          intro hq
          have := hE k0 id' hmem hq
          cases hg : tm.Intersections.get k0 with
          | none => rw [hg] at this; cases this
          | some i => rw [hg] at hi; cases hi
        | some l0 =>
          simp only [Option.getD_some]
          exact hL k0 l0 hi
      · rw [if_neg hkk] at hl
        rw [hL k l hl]
        have : ¬ (some k0 = some k) := fun h => hkk (Option.some.inj h)
        simp [hk, this]
    · intro k id' hmem hq
      have hget := hsome k
      by_cases hkk : k0 = k
      · rw [if_pos hkk] at hget
        cases hg : (rosterStep s tm id).Intersections.get k with
        | none => rw [hg] at hget; cases hget
        | some i => rfl
      · rw [if_neg hkk] at hget
        rcases List.mem_append.mp hmem with h1 | h1
        · have := hE k id' h1 hq
          cases hg : (rosterStep s tm id).Intersections.get k with
          | none =>
            rw [hg] at hget
            cases hg' : tm.Intersections.get k with
            | none => rw [hg'] at this; cases this
            | some i => rw [hg'] at hget; cases hget
          | some i => rfl
        · rw [List.mem_singleton.mp h1, hk] at hq
          exact absurd (Option.some.inj hq) hkk

theorem rostersOf_fold (s : Sched) (vehicles : GoMap Vehicle) (order : List String) :
    ∀ (visited : List String) (tm : TrafficManager), RostersOf vehicles visited tm →
      RostersOf vehicles (visited ++ order) (order.foldl (rosterStep s) tm) := by
  induction order with
  | nil => intro visited tm h; simpa using h
  | cons id rest ih =>
    intro visited tm h
    have := ih (visited ++ [id]) (rosterStep s tm id) (rostersOf_step s vehicles visited tm id h)
    simpa [List.append_assoc] using this

theorem get_none_of_not_mem_keys {V : Type} (m : GoMap V) (k : String) (h : k ∉ m.keys) :
    m.get k = none := by
  cases hg : m.get k with
  | none => rfl
  | some v => exact absurd (mem_keys_of_get m k v hg) h

theorem modifyIntersection_get_none (tm : TrafficManager) (a k : String)
    (f : Intersection → Intersection) (h : tm.Intersections.get k = none) :
    (modifyIntersection tm a f).Intersections.get k = none := by
  rw [modifyIntersection_get]
  split_ifs
  · rw [h]; rfl
  · exact h

theorem clearRosters_spec (tm : TrafficManager) (order : List String)
    (hall : ∀ k, k ∈ tm.Intersections.keys → k ∈ order) :
    RostersOf tm.Vehicles []
      (order.foldl (fun tm k => modifyIntersection tm k (fun i => { i with Vehicles := [] }))
        tm) := by
  refine ⟨?_, ?_, ?_⟩
  · exact foldl_preserves (fun t : TrafficManager => t.Vehicles = tm.Vehicles) _
      (fun t k h => (modifyIntersection_vehicles t k _).trans h) order tm rfl
  · intro k l hl
    simp only [List.filter_nil]
    by_cases hk : k ∈ order
    · refine foldl_establishes
        (fun (t : TrafficManager) (k : String) =>
          ∀ l, (t.Intersections.get k).map (fun i => i.Vehicles) = some l → l = [])
        _ ?_ ?_ order tm k hk l hl
      · intro t a l' h
        rw [modifyIntersection_get, if_pos rfl] at h
        cases hg : t.Intersections.get a with
        | none => rw [hg] at h; cases h
        | some i => rw [hg] at h; exact (Option.some.inj h).symm
      · intro t a b hprev l' h
        rw [modifyIntersection_get] at h
        by_cases hab : a = b
        · rw [if_pos hab] at h
          cases hg : t.Intersections.get b with
          | none => rw [hg] at h; cases h
          | some i => rw [hg] at h; exact (Option.some.inj h).symm
        · rw [if_neg hab] at h
          exact hprev l' h
    · have h0 : tm.Intersections.get k = none :=
        get_none_of_not_mem_keys _ _ (fun h => hk (hall k h))
      have hfin : (List.foldl
          (fun tm k => modifyIntersection tm k (fun i => { i with Vehicles := [] })) tm
          order).Intersections.get k = none :=
        foldl_preserves (fun t : TrafficManager => t.Intersections.get k = none) _
          (fun t a h => modifyIntersection_get_none t a k _ h) order tm h0
      rw [hfin] at hl
      cases hl
  · intro k id hmem
    cases hmem

theorem cleanExpiredReservations_frames (s : Sched) (tm : TrafficManager) :
    (cleanExpiredReservations s tm).Vehicles = tm.Vehicles ∧
    (cleanExpiredReservations s tm).Intersections = tm.Intersections := by
  unfold cleanExpiredReservations
  refine foldl_preserves
    (fun t : TrafficManager => t.Vehicles = tm.Vehicles ∧ t.Intersections = tm.Intersections)
    _ ?_ _ tm ⟨rfl, rfl⟩
  intro t id h
  try simp only []
  split
  · exact h
  · split_ifs
    · exact h
    · exact h

/-- The rosters that `updateIntersectionStatus` leaves under a fair schedule:
the vehicles are untouched, and the roster of `k` is the schedule's order of
the vehicle keys filtered by roster key `k`. -/
theorem updateIntersectionStatus_rosters (s : Sched) (hfair : s.Fair) (tm : TrafficManager) :
    ∃ order : List String, order.Perm tm.Vehicles.keys ∧
      RostersOf tm.Vehicles order (updateIntersectionStatus s tm) := by
  unfold updateIntersectionStatus
  simp only
  have hclear := clearRosters_spec tm
    (s.ord "updateIntersectionStatus.clear" "" tm.Intersections.keys)
    (fun k hk => (hfair _ _ _).mem_iff.mpr hk)
  generalize hT : List.foldl
    (fun tm k => modifyIntersection tm k (fun i => { i with Vehicles := [] })) tm
    (s.ord "updateIntersectionStatus.clear" "" tm.Intersections.keys) = tm1 at hclear ⊢
  have hV1 : tm1.Vehicles = tm.Vehicles := hclear.1
  refine ⟨s.ord "updateIntersectionStatus" "" tm1.Vehicles.keys, ?_, ?_⟩
  · rw [hV1]; exact hfair _ _ _
  · have hfold := rostersOf_fold s tm.Vehicles
      (s.ord "updateIntersectionStatus" "" tm1.Vehicles.keys) [] tm1 hclear
    simp only [List.nil_append] at hfold
    obtain ⟨h1, h2, h3⟩ := hfold
    obtain ⟨c1, c2⟩ := cleanExpiredReservations_frames s
      (List.foldl (rosterStep s) tm1 (s.ord "updateIntersectionStatus" "" tm1.Vehicles.keys))
    exact ⟨c1.trans h1, by rw [c2]; exact h2, by rw [c2]; exact h3⟩

/-! ## Census ingest -/

theorem modifyPlatoon_vehicles (tm : TrafficManager) (k : String) (f : Platoon → Platoon) :
    (modifyPlatoon tm k f).Vehicles = tm.Vehicles := by
  unfold modifyPlatoon
  split <;> rfl

theorem modifyVehicle_view (tm : TrafficManager) (x k : String) (f : Vehicle → Vehicle)
    (hf : ∀ v, censusView (f v) = censusView v) :
    ((modifyVehicle tm x f).Vehicles.get k).map censusView =
      (tm.Vehicles.get k).map censusView := by
  rw [modifyVehicle_get]
  split_ifs
  · cases tm.Vehicles.get k with
    | none => rfl
    | some v => simp [hf]
  · rfl

theorem removeFromPlatoon_view (tm : TrafficManager) (vehicleID platoonID k : String) :
    ((RemoveVehicleFromPlatoon tm vehicleID platoonID).Vehicles.get k).map censusView =
      (tm.Vehicles.get k).map censusView := by
  unfold RemoveVehicleFromPlatoon
  split
  · rfl
  · simp only
    refine (modifyVehicle_view _ _ _ _ ?_).trans ?_
    · intro v; rfl
    · split_ifs
      · split
        · refine (modifyVehicle_view _ _ _ _ ?_).trans ?_
          · intro v; rfl
          · rw [modifyPlatoon_vehicles, modifyPlatoon_vehicles]
        · rw [modifyPlatoon_vehicles]
      · rw [modifyPlatoon_vehicles]

theorem dropFromRosters_vehicles (tm : TrafficManager) (order : List String) (id : String) :
    (order.foldl
      (fun tm k => modifyIntersection tm k (fun i => { i with Vehicles := i.Vehicles.erase id }))
      tm).Vehicles = tm.Vehicles :=
  foldl_preserves (fun t : TrafficManager => t.Vehicles = tm.Vehicles) _
    (fun t k h => (modifyIntersection_vehicles t k _).trans h) order tm rfl

/-- The census fields after one step of the removal loop. -/
theorem removeStep_view (s : Sched) (c : GoMap CensusRecord) (tm : TrafficManager)
    (id k : String) :
    ((removeStep s c tm id).Vehicles.get k).map censusView =
      if id = k ∧ c.has id = false then none else (tm.Vehicles.get k).map censusView := by
  unfold removeStep
  by_cases h1 : tm.Vehicles.has id = true
  · by_cases h2 : c.has id = true
    · simp [h1, h2]
    · have h2' : c.has id = false := by simpa using h2
      simp only [h1, h2', Bool.not_true, Bool.false_eq_true, if_false, and_true]
      rw [get_del, dropFromRosters_vehicles]
      by_cases hk : id = k
      · simp [hk]
      · rw [if_neg hk, if_neg hk]
        split
        · rfl
        · exact removeFromPlatoon_view _ _ _ _
  · have h1' : tm.Vehicles.has id = false := by simpa using h1
    simp only [h1', Bool.not_false, if_true]
    split_ifs with hc
    · obtain ⟨rfl, _⟩ := hc
      have : tm.Vehicles.get id = none := by
        simpa [GoMap.has] using h1'
      rw [this]; rfl
    · rfl

/-- The census fields after one step of the upsert loop. -/
theorem upsertStep_view (s : Sched) (c : GoMap CensusRecord) (tm : TrafficManager)
    (id k : String) :
    ((upsertStep s c tm id).Vehicles.get k).map censusView =
      if id = k then
        (match c.get id with
         | some r => some (recordView r)
         | none => (tm.Vehicles.get k).map censusView)
      else (tm.Vehicles.get k).map censusView := by
  unfold upsertStep
  cases hc : c.get id with
  | none => simp
  | some r =>
    simp only
    cases hv : tm.Vehicles.get id with
    | some v =>
      simp only
      rw [modifyVehicle_get, modifyVehicle_get]
      by_cases hk : id = k
      · subst hk
        simp [hv, censusView, recordView]
      · simp [hk]
    | none =>
      simp only
      rw [get_set]
      by_cases hk : id = k
      · simp [hk, censusView, recordView]
      · simp [hk]

theorem has_iff_get {V : Type} (m : GoMap V) (k : String) :
    m.has k = true ↔ ∃ v, m.get k = some v := by
  unfold GoMap.has
  exact Option.isSome_iff_exists

/-- The census fields after the upsert loop over an order that visits every
census key. -/
theorem upsertLoop_view (s : Sched) (c : GoMap CensusRecord) (tm : TrafficManager)
    (order : List String) (hall : ∀ k, k ∈ c.keys → k ∈ order) (k : String) :
    ((order.foldl (upsertStep s c) tm).Vehicles.get k).map censusView =
      match c.get k with
      | some r => some (recordView r)
      | none => (tm.Vehicles.get k).map censusView := by
  cases hc : c.get k with
  | some r =>
    simp only
    refine foldl_establishes
      (fun (t : TrafficManager) (a : String) =>
        ∀ r, c.get a = some r → (t.Vehicles.get a).map censusView = some (recordView r))
      _ ?_ ?_ order tm k (hall k (mem_keys_of_get c k r hc)) r hc
    · intro t a r' hr'
      rw [upsertStep_view, if_pos rfl, hr']
    · intro t a b hprev r' hr'
      rw [upsertStep_view]
      by_cases hab : a = b
      · subst hab; rw [if_pos rfl, hr']
      · rw [if_neg hab]; exact hprev r' hr'
  | none =>
    simp only
    refine foldl_preserves
      (fun t : TrafficManager =>
        (t.Vehicles.get k).map censusView = (tm.Vehicles.get k).map censusView)
      _ ?_ order tm rfl
    intro t a h
    show ((upsertStep s c t a).Vehicles.get k).map censusView = _
    rw [upsertStep_view]
    by_cases hak : a = k
    · subst hak; rw [if_pos rfl, hc]; exact h
    · rw [if_neg hak]; exact h

/-- The census fields after the removal loop over an order that visits every
vehicle key. -/
theorem removeLoop_view (s : Sched) (c : GoMap CensusRecord) (tm : TrafficManager)
    (order : List String) (hall : ∀ k, k ∈ tm.Vehicles.keys → k ∈ order) (k : String) :
    ((order.foldl (removeStep s c) tm).Vehicles.get k).map censusView =
      if c.has k = true then (tm.Vehicles.get k).map censusView else none := by
  by_cases hc : c.has k = true
  · rw [if_pos hc]
    refine foldl_preserves
      (fun t : TrafficManager =>
        (t.Vehicles.get k).map censusView = (tm.Vehicles.get k).map censusView)
      _ ?_ order tm rfl
    intro t a h
    show ((removeStep s c t a).Vehicles.get k).map censusView = _
    rw [removeStep_view, if_neg]
    · exact h
    · rintro ⟨rfl, h2⟩
      rw [hc] at h2; cases h2
  · rw [if_neg hc]
    have hc' : c.has k = false := by simpa using hc
    by_cases hk : k ∈ order
    · refine foldl_establishes
        (fun (t : TrafficManager) (a : String) =>
          c.has a = false → (t.Vehicles.get a).map censusView = none)
        _ ?_ ?_ order tm k hk hc'
      · intro t a ha
        rw [removeStep_view, if_pos ⟨rfl, ha⟩]
      · intro t a b hprev hb
        rw [removeStep_view]
        split_ifs
        · rfl
        · exact hprev hb
    · have h0 : tm.Vehicles.get k = none :=
        get_none_of_not_mem_keys _ _ (fun h => hk (hall k h))
      refine foldl_preserves
        (fun t : TrafficManager => (t.Vehicles.get k).map censusView = none)
        _ ?_ order tm (by show (tm.Vehicles.get k).map censusView = none; rw [h0]; rfl)
      intro t a h
      show ((removeStep s c t a).Vehicles.get k).map censusView = none
      rw [removeStep_view]
      split_ifs
      · rfl
      · exact h

theorem measureTrafficDensity_frames (s : Sched) (tm : TrafficManager) :
    (measureTrafficDensity s tm).Vehicles = tm.Vehicles ∧
    (measureTrafficDensity s tm).Intersections = tm.Intersections := by
  unfold measureTrafficDensity
  simp only
  split_ifs
  · exact ⟨rfl, rfl⟩
  · refine foldl_preserves
      (fun t : TrafficManager => t.Vehicles = tm.Vehicles ∧ t.Intersections = tm.Intersections)
      _ ?_ _ _ ⟨rfl, rfl⟩
    intro t edge h
    try simp only []
    split
    · exact h
    · split_ifs
      · exact h
      · exact h

/-- The vehicles and rosters of the world after an ingest are those that
`updateIntersectionStatus` leaves on the world after the two loops. -/
theorem ingest_census_view (s : Sched) (hfair : s.Fair) (c : GoMap CensusRecord)
    (tm : TrafficManager) (k : String) :
    ((UpdateVehicleData s c tm).Vehicles.get k).map censusView = (c.get k).map recordView := by
  unfold UpdateVehicleData
  simp only
  rw [(measureTrafficDensity_frames s _).1]
  obtain ⟨order, _, hV, _, _⟩ := updateIntersectionStatus_rosters s hfair
    (List.foldl (removeStep s c)
      (List.foldl (upsertStep s c) tm (s.ord "UpdateVehicleData.census" "" c.keys))
      (s.ord "UpdateVehicleData.vehicles" ""
        (List.foldl (upsertStep s c) tm
          (s.ord "UpdateVehicleData.census" "" c.keys)).Vehicles.keys))
  rw [hV, removeLoop_view s c _ _ (fun k hk => (hfair _ _ _).mem_iff.mpr hk),
    upsertLoop_view s c tm _ (fun k hk => (hfair _ _ _).mem_iff.mpr hk)]
  cases hc : c.get k with
  | none => simp [GoMap.has, hc]
  | some r => simp [GoMap.has, hc]

/-- C16. Census mirror under a schedule that visits every key: after
`UpdateVehicleData s c`, a key holds a vehicle iff the census has a record
under it, the fields `Lane`, `Pos`, `Speed`, `Edge` of that vehicle are those
of the record, and every id in the roster of an intersection is a key of the
census. -/
theorem census_mirror (s : Sched) (hfair : s.Fair) (c : GoMap CensusRecord)
    (tm : TrafficManager) :
    (∀ k, ((UpdateVehicleData s c tm).Vehicles.get k).isSome = (c.get k).isSome) ∧
    (∀ k v r, (UpdateVehicleData s c tm).Vehicles.get k = some v → c.get k = some r →
      v.Lane = r.lane ∧ v.Pos = r.pos ∧ v.Speed = r.speed ∧ v.Edge = r.edge) ∧
    (∀ k i id, (UpdateVehicleData s c tm).Intersections.get k = some i → id ∈ i.Vehicles →
      (c.get id).isSome = true ∧ (UpdateVehicleData s c tm).Vehicles.get id ≠ none) := by
  have hview := ingest_census_view s hfair c tm
  have hsome : ∀ k, ((UpdateVehicleData s c tm).Vehicles.get k).isSome = (c.get k).isSome := by
    intro k
    have := congrArg Option.isSome (hview k)
    simpa using this
  refine ⟨hsome, ?_, ?_⟩
  · intro k v r hv hr
    have := hview k
    rw [hv, hr] at this
    simp only [Option.map_some', Option.some.injEq, censusView, recordView,
      Prod.mk.injEq] at this
    exact this
  · intro k i id hi hmem
    have hin : ((UpdateVehicleData s c tm).Vehicles.get id).isSome = true := by
      unfold UpdateVehicleData at hi ⊢
      simp only at hi ⊢
      rw [(measureTrafficDensity_frames s _).2] at hi
      rw [(measureTrafficDensity_frames s _).1]
      obtain ⟨order, _, hV, hL, _⟩ := updateIntersectionStatus_rosters s hfair
        (List.foldl (removeStep s c)
          (List.foldl (upsertStep s c) tm (s.ord "UpdateVehicleData.census" "" c.keys))
          (s.ord "UpdateVehicleData.vehicles" ""
            (List.foldl (upsertStep s c) tm
              (s.ord "UpdateVehicleData.census" "" c.keys)).Vehicles.keys))
      have := hL k i.Vehicles (by rw [hi]; rfl)
      rw [this, List.mem_filter] at hmem
      have hq := hmem.2
      simp only [decide_eq_true_eq] at hq
      rw [hV]
      cases hg : GoMap.get _ id with
      | none => rw [hg] at hq; cases hq
      | some v => rfl
    refine ⟨by rw [← hsome id]; exact hin, ?_⟩
    intro hnone
    rw [hnone] at hin
    cases hin

theorem rostersSound_of_rostersOf (vehicles : GoMap Vehicle) (order : List String)
    (tm : TrafficManager) (hperm : order.Perm vehicles.keys) (hnodup : vehicles.keys.Nodup)
    (h : RostersOf vehicles order tm) : RostersSound tm := by
  obtain ⟨hV, hL, hE⟩ := h
  have hiff : ∀ k id, (∃ i, tm.Intersections.get k = some i ∧ id ∈ i.Vehicles) ↔
      (vehicles.get id).bind rosterKey = some k := by
    intro k id
    constructor
    · rintro ⟨i, hi, hmem⟩
      have := hL k i.Vehicles (by rw [hi]; rfl)
      rw [this, List.mem_filter] at hmem
      simpa using hmem.2
    · intro hq
      have hin : id ∈ order := by
        cases hv : vehicles.get id with
        | none => rw [hv] at hq; cases hq
        | some v => exact hperm.mem_iff.mpr (mem_keys_of_get _ _ _ hv)
      have hex := hE k id hin hq
      cases hg : tm.Intersections.get k with
      | none => rw [hg] at hex; cases hex
      | some i =>
        refine ⟨i, rfl, ?_⟩
        have := hL k i.Vehicles (by rw [hg]; rfl)
        rw [this, List.mem_filter]
        exact ⟨hin, by simpa using hq⟩
  have hkey : ∀ k id, (vehicles.get id).bind rosterKey = some k ↔
      ∃ v, tm.Vehicles.get id = some v ∧ v.AtIntersection = true ∧
        startsWithColon v.Edge = true ∧ k = edgeHead v.Edge := by
    intro k id
    rw [hV]
    cases hv : vehicles.get id with
    | none => simp
    | some v =>
      simp only [Option.some_bind, rosterKey_eq_some]
      constructor
      · intro h; exact ⟨v, rfl, h⟩
      · rintro ⟨w, hw, h⟩; cases hw; exact h
  refine ⟨fun k id => (hiff k id).trans (hkey k id), ?_, ?_⟩
  · intro k i hi
    have := hL k i.Vehicles (by rw [hi]; rfl)
    rw [this]
    exact (hperm.nodup_iff.mpr hnodup).filter _
  · intro k1 k2 i1 i2 id h1 m1 h2 m2
    have e1 := (hiff k1 id).mp ⟨i1, h1, m1⟩
    have e2 := (hiff k2 id).mp ⟨i2, h2, m2⟩
    rw [e1] at e2
    exact Option.some.inj e2

/-! ### Key lists stay free of repetitions -/

theorem keys_set {V : Type} (m : GoMap V) (k : String) (v : V) :
    (m.set k v).keys = if k ∈ m.keys then m.keys else m.keys ++ [k] := by
  induction m with
  | nil => simp [GoMap.set, GoMap.keys]
  | cons hd tl ih =>
    obtain ⟨k0, v0⟩ := hd
    by_cases h0 : k0 = k
    · subst h0; simp [GoMap.set, GoMap.keys]
    · have hne : ¬ k = k0 := fun h => h0 h.symm
      simp only [GoMap.keys] at ih
      simp only [GoMap.set, h0, if_false, GoMap.keys, List.map_cons, List.mem_cons, hne,
        false_or, ih]
      split_ifs <;> simp

theorem keys_del {V : Type} (m : GoMap V) (k : String) :
    (m.del k).keys = m.keys.filter (fun x => decide (x ≠ k)) := by
  induction m with
  | nil => simp [GoMap.del, GoMap.keys]
  | cons hd tl ih =>
    obtain ⟨k0, v0⟩ := hd
    simp only [GoMap.keys] at ih
    by_cases h0 : k0 = k
    · simp [GoMap.del, GoMap.keys, h0, ih]
    · simp [GoMap.del, GoMap.keys, h0, ih]

theorem nodup_keys_set {V : Type} (m : GoMap V) (k : String) (v : V) (h : m.keys.Nodup) :
    (m.set k v).keys.Nodup := by
  rw [keys_set]
  split_ifs with hk
  · exact h
  · exact List.nodup_append.mpr ⟨h, List.nodup_singleton k, by
      intro a ha hb
      rw [List.mem_singleton] at hb
      subst hb
      exact hk ha⟩

theorem modifyVehicle_nodup (tm : TrafficManager) (k : String) (f : Vehicle → Vehicle)
    (h : tm.Vehicles.keys.Nodup) : (modifyVehicle tm k f).Vehicles.keys.Nodup := by
  unfold modifyVehicle
  split
  · exact nodup_keys_set _ _ _ h
  · exact h

theorem removeFromPlatoon_nodup (tm : TrafficManager) (vehicleID platoonID : String)
    (h : tm.Vehicles.keys.Nodup) :
    (RemoveVehicleFromPlatoon tm vehicleID platoonID).Vehicles.keys.Nodup := by
  unfold RemoveVehicleFromPlatoon
  split
  · exact h
  · simp only
    apply modifyVehicle_nodup
    split_ifs
    · split
      · apply modifyVehicle_nodup
        rw [modifyPlatoon_vehicles, modifyPlatoon_vehicles]; exact h
      · rw [modifyPlatoon_vehicles]; exact h
    · rw [modifyPlatoon_vehicles]; exact h

theorem removeStep_nodup (s : Sched) (c : GoMap CensusRecord) (tm : TrafficManager)
    (id : String) (h : tm.Vehicles.keys.Nodup) :
    (removeStep s c tm id).Vehicles.keys.Nodup := by
  unfold removeStep
  split_ifs
  · exact h
  · exact h
  · simp only
    rw [keys_del, dropFromRosters_vehicles]
    apply List.Nodup.filter
    split
    · exact h
    · exact removeFromPlatoon_nodup _ _ _ h

theorem upsertStep_nodup (s : Sched) (c : GoMap CensusRecord) (tm : TrafficManager)
    (id : String) (h : tm.Vehicles.keys.Nodup) :
    (upsertStep s c tm id).Vehicles.keys.Nodup := by
  unfold upsertStep
  split
  · exact h
  · split
    · exact modifyVehicle_nodup _ _ _ (modifyVehicle_nodup _ _ _ h)
    · exact nodup_keys_set _ _ _ h

/-- C18. Under a schedule that visits every key, on a world whose vehicle map
has no repeated key, the rosters are sound after `updateIntersectionStatus`,
and after `UpdateVehicleData` for every census: an id is in the roster of `k`
iff the vehicle exists, has `AtIntersection = true`, its edge begins with `:`
and `k` is the part of the edge before the first `_`; no roster repeats an
id, and no id is in two rosters. -/
theorem intersection_rosters (s : Sched) (hfair : s.Fair) (tm : TrafficManager)
    (hnodup : tm.Vehicles.keys.Nodup) :
    RostersSound (updateIntersectionStatus s tm) ∧
    ∀ c : GoMap CensusRecord, RostersSound (UpdateVehicleData s c tm) := by
  have key : ∀ t : TrafficManager, t.Vehicles.keys.Nodup →
      RostersSound (updateIntersectionStatus s t) := by
    intro t ht
    obtain ⟨order, hperm, hR⟩ := updateIntersectionStatus_rosters s hfair t
    have hsound := rostersSound_of_rostersOf t.Vehicles order _ hperm ht hR
    exact hsound
  refine ⟨key tm hnodup, ?_⟩
  intro c
  have h1 : (List.foldl (upsertStep s c) tm
      (s.ord "UpdateVehicleData.census" "" c.keys)).Vehicles.keys.Nodup :=
    foldl_preserves (fun t : TrafficManager => t.Vehicles.keys.Nodup) _
      (fun t a h => upsertStep_nodup s c t a h) _ tm hnodup
  have h2 := foldl_preserves (fun t : TrafficManager => t.Vehicles.keys.Nodup)
    (removeStep s c) (fun t a h => removeStep_nodup s c t a h)
    (s.ord "UpdateVehicleData.vehicles" ""
      (List.foldl (upsertStep s c) tm
        (s.ord "UpdateVehicleData.census" "" c.keys)).Vehicles.keys) _ h1
  have hs := key _ h2
  unfold UpdateVehicleData
  simp only
  obtain ⟨f1, f2⟩ := measureTrafficDensity_frames s
    (updateIntersectionStatus s
      (List.foldl (removeStep s c)
        (List.foldl (upsertStep s c) tm (s.ord "UpdateVehicleData.census" "" c.keys))
        (s.ord "UpdateVehicleData.vehicles" ""
          (List.foldl (upsertStep s c) tm
            (s.ord "UpdateVehicleData.census" "" c.keys)).Vehicles.keys)))
  unfold RostersSound at hs ⊢
  rw [f1, f2]
  exact hs

/-! ## The ingest on concrete worlds -/

theorem census_mirror_witness :
    ((UpdateVehicleData (Sched.fixed 0) censusS1 crossingState).Vehicles.keys = ["A", "B"]) ∧
    (∀ k, ((UpdateVehicleData (Sched.fixed 0) censusS1 crossingState).Vehicles.get k).isSome =
      (censusS1.get k).isSome) ∧
    (∀ k v r, (UpdateVehicleData (Sched.fixed 0) censusS1 crossingState).Vehicles.get k = some v →
      censusS1.get k = some r →
      v.Lane = r.lane ∧ v.Pos = r.pos ∧ v.Speed = r.speed ∧ v.Edge = r.edge) ∧
    (∀ k i id, (UpdateVehicleData (Sched.fixed 0) censusS1 crossingState).Intersections.get k
        = some i → id ∈ i.Vehicles →
      (censusS1.get id).isSome = true ∧
        (UpdateVehicleData (Sched.fixed 0) censusS1 crossingState).Vehicles.get id ≠ none) :=
  ⟨by decide!, census_mirror (Sched.fixed 0) (fixed_fair 0) censusS1 crossingState⟩

theorem crossingState_keys :
    crossingState.Vehicles.keys = ["v1", "v2", "v3", "v4", "v5", "x", "w"] := by decide!

theorem intersection_rosters_witness :
    (updateIntersectionStatus (Sched.fixed 0) crossingState).Intersections.map
      (fun kv => (kv.1, kv.2.Vehicles)) = [(":J", ["v1", "v2", "v3", "v4", "v5", "x"])] ∧
    RostersSound (updateIntersectionStatus (Sched.fixed 0) crossingState) ∧
    ∀ c : GoMap CensusRecord, RostersSound (UpdateVehicleData (Sched.fixed 0) c crossingState) :=
  ⟨by decide!,
    intersection_rosters (Sched.fixed 0) (fixed_fair 0) crossingState
      (by rw [crossingState_keys]; decide)⟩

/-! ## The flag of a vehicle that the world already knew -/

theorem modifyVehicle_flag (tm : TrafficManager) (x k : String) (f : Vehicle → Vehicle)
    (hf : ∀ v, (f v).AtIntersection = v.AtIntersection) :
    ((modifyVehicle tm x f).Vehicles.get k).map (fun v => v.AtIntersection) =
      (tm.Vehicles.get k).map (fun v => v.AtIntersection) := by
  rw [modifyVehicle_get]
  split_ifs
  · cases tm.Vehicles.get k with
    | none => rfl
    | some v => simp [hf]
  · rfl

theorem removeFromPlatoon_flag (tm : TrafficManager) (vehicleID platoonID k : String) :
    ((RemoveVehicleFromPlatoon tm vehicleID platoonID).Vehicles.get k).map
        (fun v => v.AtIntersection) =
      (tm.Vehicles.get k).map (fun v => v.AtIntersection) := by
  unfold RemoveVehicleFromPlatoon
  split
  · rfl
  · simp only
    refine (modifyVehicle_flag _ _ _ _ ?_).trans ?_
    · intro v; rfl
    · split_ifs
      · split
        · refine (modifyVehicle_flag _ _ _ _ ?_).trans ?_
          · intro v; rfl
          · rw [modifyPlatoon_vehicles, modifyPlatoon_vehicles]
        · rw [modifyPlatoon_vehicles]
      · rw [modifyPlatoon_vehicles]

/-- The removal loop keeps the flag of every vehicle that the census lists. -/
theorem removeStep_flag (s : Sched) (c : GoMap CensusRecord) (tm : TrafficManager)
    (id k : String) (hk : c.has k = true) :
    ((removeStep s c tm id).Vehicles.get k).map (fun v => v.AtIntersection) =
      (tm.Vehicles.get k).map (fun v => v.AtIntersection) := by
  unfold removeStep
  by_cases h1 : tm.Vehicles.has id = true
  · by_cases h2 : c.has id = true
    · simp [h1, h2]
    · have h2' : c.has id = false := by simpa using h2
      have hne : ¬ id = k := by
        rintro rfl
        rw [hk] at h2'; cases h2'
      simp only [h1, h2', Bool.not_true, Bool.false_eq_true, if_false]
      rw [get_del, dropFromRosters_vehicles, if_neg hne]
      split
      · rfl
      · exact removeFromPlatoon_flag _ _ _ _
  · have h1' : tm.Vehicles.has id = false := by simpa using h1
    simp [h1']

/-- One upsert step on a vehicle that the world knows and the census lists:
whichever entry the step visits, the vehicle is still there, and once its own
entry has been visited its flag is the value of the rule on its record. -/
theorem upsertStep_known (s : Sched) (c : GoMap CensusRecord) (tm : TrafficManager)
    (id k : String) (r : CensusRecord) (hr : c.get k = some r)
    (hk : (tm.Vehicles.get k).isSome = true) :
    ((upsertStep s c tm id).Vehicles.get k).isSome = true ∧
    (id = k → ((upsertStep s c tm id).Vehicles.get k).map (fun v => v.AtIntersection) =
      some (specAtIntersection r.edge r.pos r.speed)) ∧
    (id ≠ k → ((upsertStep s c tm id).Vehicles.get k).map (fun v => v.AtIntersection) =
      (tm.Vehicles.get k).map (fun v => v.AtIntersection)) := by
  obtain ⟨v0, hv0⟩ := Option.isSome_iff_exists.mp hk
  unfold upsertStep
  by_cases hid : id = k
  · subst hid
    simp only [hr, hv0]
    refine ⟨?_, fun _ => ?_, fun h => absurd rfl h⟩
    · simp [modifyVehicle_get, hv0]
    · simp [modifyVehicle_get, hv0, isVehicleAtIntersection_eq_spec]
  · refine ⟨?_, fun h => absurd h hid, fun _ => ?_⟩
    · cases hc : c.get id with
      | none => simpa using hk
      | some r' =>
        simp only
        cases hv : tm.Vehicles.get id with
        | some v => simp [modifyVehicle_get, hid, hv0]
        | none => simp [get_set, hid, hv0]
    · cases hc : c.get id with
      | none => rfl
      | some r' =>
        simp only
        cases hv : tm.Vehicles.get id with
        | some v => simp [modifyVehicle_get, hid]
        | none => simp [get_set, hid]

/-- For a vehicle that the world knew before the ingest and that the census
lists, the ingest stores the flag that the rule of the specification gives on
the census record. -/
theorem known_vehicle_flag (s : Sched) (hfair : s.Fair) (c : GoMap CensusRecord)
    (tm : TrafficManager) (k : String) (r : CensusRecord) (hr : c.get k = some r)
    (hk : (tm.Vehicles.get k).isSome = true) :
    ((UpdateVehicleData s c tm).Vehicles.get k).map (fun v => v.AtIntersection) =
      some (specAtIntersection r.edge r.pos r.speed) := by
  unfold UpdateVehicleData
  simp only
  rw [(measureTrafficDensity_frames s _).1]
  obtain ⟨order, _, hV, _, _⟩ := updateIntersectionStatus_rosters s hfair
    (List.foldl (removeStep s c)
      (List.foldl (upsertStep s c) tm (s.ord "UpdateVehicleData.census" "" c.keys))
      (s.ord "UpdateVehicleData.vehicles" ""
        (List.foldl (upsertStep s c) tm
          (s.ord "UpdateVehicleData.census" "" c.keys)).Vehicles.keys))
  rw [hV]
  have hhas : c.has k = true := by simp [GoMap.has, hr]
  have hrem : ∀ (order : List String) (t : TrafficManager),
      ((order.foldl (removeStep s c) t).Vehicles.get k).map (fun v => v.AtIntersection) =
        (t.Vehicles.get k).map (fun v => v.AtIntersection) := by
    intro order t
    exact foldl_preserves
      (fun t' : TrafficManager =>
        (t'.Vehicles.get k).map (fun v => v.AtIntersection) =
          (t.Vehicles.get k).map (fun v => v.AtIntersection))
      _ (fun t' a h => (removeStep_flag s c t' a k hhas).trans h) order t rfl
  rw [hrem]
  have hin : k ∈ s.ord "UpdateVehicleData.census" "" c.keys :=
    (hfair _ _ _).mem_iff.mpr (mem_keys_of_get c k r hr)
  -- the upsert loop: the vehicle stays known, and after the visit of `k` the flag is set
  have hup : ∀ (order : List String) (t : TrafficManager),
      (t.Vehicles.get k).isSome = true →
      ((order.foldl (upsertStep s c) t).Vehicles.get k).isSome = true ∧
      ((k ∈ order ∨ (t.Vehicles.get k).map (fun v => v.AtIntersection) =
          some (specAtIntersection r.edge r.pos r.speed)) →
        ((order.foldl (upsertStep s c) t).Vehicles.get k).map (fun v => v.AtIntersection) =
          some (specAtIntersection r.edge r.pos r.speed)) := by
    intro order
    induction order with
    | nil =>
      intro t ht
      refine ⟨ht, ?_⟩
      rintro (h | h)
      · cases h
      · exact h
    | cons a rest ih =>
      intro t ht
      obtain ⟨s1, s2, s3⟩ := upsertStep_known s c t a k r hr ht
      obtain ⟨i1, i2⟩ := ih (upsertStep s c t a) s1
      refine ⟨i1, ?_⟩
      intro h
      apply i2
      by_cases hak : a = k
      · exact Or.inr (s2 hak)
      · rcases h with h | h
        · rcases List.mem_cons.mp h with h' | h'
          · exact absurd h'.symm hak
          · exact Or.inl h'
        · exact Or.inr ((s3 hak).trans h)
  exact (hup _ tm hk).2 (Or.inl hin)

/-! ## The density of an edge with counted vehicles -/

/-- One step of the counting loop, read at a non-empty edge name. -/
theorem countStep_get (tm : TrafficManager) (edge : String) (he : edge ≠ "")
    (m : GoMap Nat) (k : String) :
    (match tm.Vehicles.get k with
      | none => m
      | some vehicle =>
        if vehicle.Edge ≠ "" ∧ !vehicle.AtIntersection then
          m.set vehicle.Edge ((m.get vehicle.Edge).getD 0 + 1)
        else m).get edge =
      if (match tm.Vehicles.get k with
          | some v => countsOn edge v
          | none => false) = true
      then some ((m.get edge).getD 0 + 1) else m.get edge := by
  cases hv : tm.Vehicles.get k with
  | none => simp
  | some v =>
    simp only
    by_cases hc : countsOn edge v = true
    · rw [if_pos hc]
      simp only [countsOn, Bool.and_eq_true, decide_eq_true_eq, Bool.not_eq_true'] at hc
      obtain ⟨hedge, hat⟩ := hc
      subst hedge
      rw [if_pos ⟨he, by rw [hat]; rfl⟩, get_set, if_pos rfl]
    · rw [if_neg hc]
      split_ifs with hcond
      · have hne : ¬ v.Edge = edge := by
          intro h
          apply hc
          simp only [countsOn, Bool.and_eq_true, decide_eq_true_eq]
          exact ⟨h, hcond.2⟩
        rw [get_set, if_neg hne]
      · rfl

/-- The local count map after the counting loop, read at a non-empty edge
name: the entry grows by the number of visited vehicles that count. -/
theorem countLoop_get (tm : TrafficManager) (edge : String) (he : edge ≠ "")
    (order : List String) :
    ∀ m : GoMap Nat,
      (order.foldl
        (fun m k =>
          match tm.Vehicles.get k with
          | none => m
          | some vehicle =>
            if vehicle.Edge ≠ "" ∧ !vehicle.AtIntersection then
              m.set vehicle.Edge ((m.get vehicle.Edge).getD 0 + 1)
            else m) m).get edge =
        if countedKeys tm order edge = 0 then m.get edge
        else some ((m.get edge).getD 0 + countedKeys tm order edge) := by
  induction order with
  | nil => intro m; simp [countedKeys]
  | cons k rest ih =>
    intro m
    simp only [List.foldl_cons]
    rw [ih, countStep_get tm edge he m k]
    by_cases hc : (match tm.Vehicles.get k with
          | some v => countsOn edge v
          | none => false) = true
    · have hcnt : countedKeys tm (k :: rest) edge = countedKeys tm rest edge + 1 := by
        unfold countedKeys
        rw [List.filter_cons]
        cases hv : tm.Vehicles.get k with
        | none => rw [hv] at hc; cases hc
        | some v =>
          rw [hv] at hc
          simp only [] at hc ⊢
          rw [if_pos hc, List.length_cons]
      rw [hcnt, if_pos hc, if_neg (Nat.succ_ne_zero _)]
      split_ifs with h0
      · rw [h0]
      · simp only [Option.getD_some, Option.some.injEq]
        omega
    · have hcnt : countedKeys tm (k :: rest) edge = countedKeys tm rest edge := by
        unfold countedKeys
        rw [List.filter_cons]
        cases hv : tm.Vehicles.get k with
        | none => rfl
        | some v =>
          rw [hv] at hc
          simp only [] at hc ⊢
          rw [if_neg hc]
      rw [hcnt, if_neg hc]

theorem edgeVehicleCounts_get (tm : TrafficManager) (order : List String) (edge : String)
    (he : edge ≠ "") :
    (edgeVehicleCounts tm order).get edge =
      if countedKeys tm order edge = 0 then none else some (countedKeys tm order edge) := by
  unfold edgeVehicleCounts
  refine (countLoop_get tm edge he order []).trans ?_
  simp [GoMap.get]

/-- In a map without repeated keys, counting keys by the record they look up
is counting entries. -/
theorem count_keys_eq_count_entries (m : GoMap Vehicle) (q : Vehicle → Bool)
    (h : m.keys.Nodup) :
    (m.keys.filter (fun k =>
      match m.get k with
      | some v => q v
      | none => false)).length = (m.filter (fun kv => q kv.2)).length := by
  induction m with
  | nil => rfl
  | cons hd tl ih =>
    obtain ⟨k0, v0⟩ := hd
    have hkeys : GoMap.keys ((k0, v0) :: tl) = k0 :: GoMap.keys tl := rfl
    rw [hkeys] at h ⊢
    obtain ⟨hnot, htl⟩ := List.nodup_cons.mp h
    have hcongr : (GoMap.keys tl).filter (fun k =>
        match GoMap.get ((k0, v0) :: tl) k with
        | some v => q v
        | none => false) = (GoMap.keys tl).filter (fun k =>
        match GoMap.get tl k with
        | some v => q v
        | none => false) := by
      apply List.filter_congr
      intro k hk
      have hne : ¬ k0 = k := by
        rintro rfl
        exact hnot hk
      simp only [GoMap.get, if_neg hne]
    have hhead : GoMap.get ((k0, v0) :: tl) k0 = some v0 := by simp [GoMap.get]
    rw [List.filter_cons, List.filter_cons, hcongr, hhead]
    have ih' := ih htl
    by_cases hq : q v0 = true
    · simp only [hq, if_true, List.length_cons]
      rw [ih']
    · have hq' : q v0 = false := by simpa using hq
      simp only [hq', Bool.false_eq_true, if_false]
      exact ih'

theorem countedKeys_eq_entries (tm : TrafficManager) (order : List String) (edge : String)
    (hperm : order.Perm tm.Vehicles.keys) (hnodup : tm.Vehicles.keys.Nodup) :
    countedKeys tm order edge =
      (tm.Vehicles.filter (fun kv => decide (kv.2.Edge = edge) && !kv.2.AtIntersection)).length := by
  unfold countedKeys
  rw [(hperm.filter _).length_eq]
  exact count_keys_eq_count_entries tm.Vehicles (countsOn edge) hnodup

theorem edgeLength_pos (edge : String) (length : ℚ) (h : getEdgeLengths.get edge = some length) :
    0 < length ∧ edge ≠ "" := by
  simp only [getEdgeLengths, GoMap.get] at h
  split_ifs at h with h1 h2 h3 h4 h5 h6 h7 h8 <;>
    (cases h; subst_vars; exact ⟨by norm_num, by decide⟩)

/-- The write loop of `measureTrafficDensity`, read at an edge that the count
map holds: the entry becomes `count / length * 100`. -/
theorem densityLoop_counted (counts : GoMap Nat) (order : List String) (tm : TrafficManager)
    (edge : String) (n : Nat) (length : ℚ) (hn : counts.get edge = some n)
    (hl : getEdgeLengths.get edge = some length) (hpos : 0 < length) (hin : edge ∈ order) :
    (order.foldl
      (fun tm edge =>
        match counts.get edge with
        | none => tm
        | some count =>
          let length := (getEdgeLengths.get edge).getD 0
          if length > 0 then
            { tm with TrafficDensity := tm.TrafficDensity.set edge ((count : ℚ) / length * 100) }
          else tm) tm).TrafficDensity.get edge = some ((n : ℚ) / length * 100) := by
  refine foldl_establishes
    (fun (t : TrafficManager) (a : String) =>
      a = edge → t.TrafficDensity.get edge = some ((n : ℚ) / length * 100))
    _ ?_ ?_ order tm edge hin rfl
  · intro t a ha
    subst ha
    simp only [hn, hl, Option.getD_some, gt_iff_lt, hpos, if_true, get_set]
  · intro t a b hprev hb
    subst hb
    have hp := hprev rfl
    cases hc : counts.get a with
    | none => simpa [hc] using hp
    | some count =>
      simp only
      split_ifs
      · by_cases hab : a = b
        · subst hab
          rw [hn] at hc
          cases hc
          simp only [hl, Option.getD_some, get_set, if_true]
        · simp only [get_set, if_neg hab]
          exact hp
      · exact hp

/-- The write loop leaves alone the entry of an edge that the count map does
not hold. -/
theorem densityLoop_uncounted (counts : GoMap Nat) (order : List String) (tm : TrafficManager)
    (edge : String) (hn : counts.get edge = none) :
    (order.foldl
      (fun tm edge =>
        match counts.get edge with
        | none => tm
        | some count =>
          let length := (getEdgeLengths.get edge).getD 0
          if length > 0 then
            { tm with TrafficDensity := tm.TrafficDensity.set edge ((count : ℚ) / length * 100) }
          else tm) tm).TrafficDensity.get edge = tm.TrafficDensity.get edge := by
  refine foldl_preserves
    (fun t : TrafficManager => t.TrafficDensity.get edge = tm.TrafficDensity.get edge)
    _ ?_ order tm rfl
  intro t a h
  cases hc : counts.get a with
  | none => simpa [hc] using h
  | some count =>
    simp only
    split_ifs
    · have hab : ¬ a = edge := by
        rintro rfl
        rw [hn] at hc; cases hc
      simp only [get_set, if_neg hab]
      exact h
    · exact h

/-- The density after a recomputation, for an edge of known length, under a
schedule that visits every key once and on a vehicle map without repeated
keys: when at least one vehicle on the edge is away from the intersection the
entry is the value of the formula; when none is, the entry keeps its prior
content. -/
theorem density_after_recomputation (s : Sched) (hfair : s.Fair) (tm : TrafficManager)
    (hnodup : tm.Vehicles.keys.Nodup)
    (hdue : ¬ (((s.now "measureTrafficDensity" "" - tm.LastTrafficMeasurement : Int) : ℚ) /
      (second : ℚ) < 2.0))
    (edge : String) (length : ℚ) (hl : getEdgeLengths.get edge = some length) :
    (specDensity tm edge ≠ 0 →
      (measureTrafficDensity s tm).TrafficDensity.get edge = some (specDensity tm edge)) ∧
    (specDensity tm edge = 0 →
      (measureTrafficDensity s tm).TrafficDensity.get edge = tm.TrafficDensity.get edge) := by
  obtain ⟨hpos, hne⟩ := edgeLength_pos edge length hl
  unfold measureTrafficDensity
  simp only [if_neg hdue]
  generalize htm1 : ({ tm with
      LastTrafficMeasurement := s.now "measureTrafficDensity" "" } : TrafficManager) = tm1
  have hV1 : tm1.Vehicles = tm.Vehicles := by rw [← htm1]
  have hD1 : tm1.TrafficDensity = tm.TrafficDensity := by rw [← htm1]
  have hcount := edgeVehicleCounts_get tm1
    (s.ord "measureTrafficDensity" "" tm.Vehicles.keys) edge hne
  have hentries := countedKeys_eq_entries tm1
    (s.ord "measureTrafficDensity" "" tm.Vehicles.keys) edge
    (by rw [hV1]; exact hfair _ _ _) (by rw [hV1]; exact hnodup)
  have hspec : specDensity tm edge = 100 *
      ((countedKeys tm1 (s.ord "measureTrafficDensity" "" tm.Vehicles.keys) edge : Nat) : ℚ) /
        length := by
    unfold specDensity
    rw [hl, hentries, hV1]
    rfl
  generalize countedKeys tm1 (s.ord "measureTrafficDensity" "" tm.Vehicles.keys) edge = n
    at hcount hspec
  rw [← hD1]
  constructor
  · intro hnz
    have hn0 : n ≠ 0 := by
      rintro rfl
      apply hnz
      rw [hspec]; simp
    rw [if_neg hn0] at hcount
    refine (densityLoop_counted _ _ tm1 edge n length hcount hl hpos
      ((hfair _ _ _).mem_iff.mpr (mem_keys_of_get _ _ _ hcount))).trans ?_
    rw [hspec]
    congr 1
    ring
  · intro hz
    have hn0 : n = 0 := by
      rw [hspec] at hz
      have : (n : ℚ) = 0 := by
        have h100 : (100 : ℚ) * (n : ℚ) / length = 0 := hz
        rcases div_eq_zero_iff.mp h100 with h | h
        · rcases mul_eq_zero.mp h with h' | h'
          · norm_num at h'
          · exact h'
        · exact absurd h (ne_of_gt hpos)
      exact_mod_cast this
    rw [if_pos hn0] at hcount
    exact densityLoop_uncounted _ _ tm1 edge hcount

/-! ## The creation counter -/

theorem modifyVehicle_created (tm : TrafficManager) (k : String) (f : Vehicle → Vehicle) :
    (modifyVehicle tm k f).TotalCreatedVehicles = tm.TotalCreatedVehicles := by
  unfold modifyVehicle
  split <;> rfl

theorem modifyPlatoon_created (tm : TrafficManager) (k : String) (f : Platoon → Platoon) :
    (modifyPlatoon tm k f).TotalCreatedVehicles = tm.TotalCreatedVehicles := by
  unfold modifyPlatoon
  split <;> rfl

theorem modifyIntersection_created (tm : TrafficManager) (k : String)
    (f : Intersection → Intersection) :
    (modifyIntersection tm k f).TotalCreatedVehicles = tm.TotalCreatedVehicles := by
  unfold modifyIntersection
  split <;> rfl

theorem removeFromPlatoon_created (tm : TrafficManager) (vehicleID platoonID : String) :
    (RemoveVehicleFromPlatoon tm vehicleID platoonID).TotalCreatedVehicles =
      tm.TotalCreatedVehicles := by
  unfold RemoveVehicleFromPlatoon
  split
  · rfl
  · simp only []
    rw [modifyVehicle_created]
    split_ifs
    · split
      · rw [modifyVehicle_created, modifyPlatoon_created, modifyPlatoon_created]
      · rw [modifyPlatoon_created]
    · rw [modifyPlatoon_created]

theorem upsertStep_created (s : Sched) (c : GoMap CensusRecord) (tm : TrafficManager)
    (id : String) : (upsertStep s c tm id).TotalCreatedVehicles = tm.TotalCreatedVehicles := by
  unfold upsertStep
  split
  · rfl
  · split
    · rw [modifyVehicle_created, modifyVehicle_created]
    · rfl

theorem removeStep_created (s : Sched) (c : GoMap CensusRecord) (tm : TrafficManager)
    (id : String) : (removeStep s c tm id).TotalCreatedVehicles = tm.TotalCreatedVehicles := by
  unfold removeStep
  split_ifs
  · rfl
  · rfl
  · show TrafficManager.TotalCreatedVehicles (List.foldl _ _ _) = _
    refine foldl_preserves
      (fun t : TrafficManager => t.TotalCreatedVehicles = tm.TotalCreatedVehicles) _ ?_ _ _ ?_
    · intro t k h
      exact (modifyIntersection_created _ _ _).trans h
    · split
      · rfl
      · exact removeFromPlatoon_created _ _ _

theorem updateIntersectionStatus_created (s : Sched) (tm : TrafficManager) :
    (updateIntersectionStatus s tm).TotalCreatedVehicles = tm.TotalCreatedVehicles := by
  unfold updateIntersectionStatus cleanExpiredReservations
  try simp only []
  refine foldl_preserves
    (fun t : TrafficManager => t.TotalCreatedVehicles = tm.TotalCreatedVehicles) _ ?_ _ _ ?_
  · intro t id h
    try simp only []
    split
    · exact h
    · split_ifs
      · exact h
      · exact h
  · refine foldl_preserves
      (fun t : TrafficManager => t.TotalCreatedVehicles = tm.TotalCreatedVehicles) _ ?_ _ _ ?_
    · intro t id h
      unfold rosterStep
      split
      · exact h
      · split_ifs
        · split
          · exact h
          · split_ifs
            · exact (modifyIntersection_created _ _ _).trans h
            · exact (modifyIntersection_created _ _ _).trans h
            · exact h
        · exact h
    · exact foldl_preserves
        (fun t : TrafficManager => t.TotalCreatedVehicles = tm.TotalCreatedVehicles) _
        (fun t k h => (modifyIntersection_created _ _ _).trans h) _ _ rfl

theorem measureTrafficDensity_created (s : Sched) (tm : TrafficManager) :
    (measureTrafficDensity s tm).TotalCreatedVehicles = tm.TotalCreatedVehicles := by
  unfold measureTrafficDensity
  simp only
  split_ifs
  · rfl
  · refine foldl_preserves
      (fun t : TrafficManager => t.TotalCreatedVehicles = tm.TotalCreatedVehicles) _ ?_ _ _ rfl
    intro t edge h
    try simp only []
    split
    · exact h
    · split_ifs
      · exact h
      · exact h

/-- The ingest never writes the creation counter. -/
theorem UpdateVehicleData_created (s : Sched) (c : GoMap CensusRecord) (tm : TrafficManager) :
    (UpdateVehicleData s c tm).TotalCreatedVehicles = tm.TotalCreatedVehicles := by
  unfold UpdateVehicleData
  simp only
  rw [measureTrafficDensity_created, updateIntersectionStatus_created]
  refine foldl_preserves
    (fun t : TrafficManager => t.TotalCreatedVehicles = tm.TotalCreatedVehicles) _ ?_ _ _ ?_
  · intro t id h
    exact (removeStep_created s c t id).trans h
  · exact foldl_preserves
      (fun t : TrafficManager => t.TotalCreatedVehicles = tm.TotalCreatedVehicles) _
      (fun t id h => (upsertStep_created s c t id).trans h) _ _ rfl

/-! ## Runs on which a rule of the specification fails (size cap, split, arbiter, speeds) -/

/-- C22. The reverse map on a run of the code: `splitPlatoon` on the platoon
`P` of `straddlingWorld` and the edge `up_leaving` moves `a` and `b` into the
new platoon `p_up_leaving_7`; both get that `PlatoonID`, and neither has a
`VehicleToPlatoon` entry afterwards.  The same holds when the split is reached
through `handlePostIntersectionVehicles`. -/
theorem split_drops_reverse_map :
    ((splitPlatoon straddlingWorld 7 "P" "up_leaving").Platoons.get "p_up_leaving_7").map
      (fun p => p.VehicleIDs) = some ["a", "b"] ∧
    ((splitPlatoon straddlingWorld 7 "P" "up_leaving").Vehicles.get "a").map
      (fun v => v.PlatoonID) = some "p_up_leaving_7" ∧
    ((splitPlatoon straddlingWorld 7 "P" "up_leaving").Vehicles.get "b").map
      (fun v => v.PlatoonID) = some "p_up_leaving_7" ∧
    (splitPlatoon straddlingWorld 7 "P" "up_leaving").VehicleToPlatoon.get "a" = none ∧
    (splitPlatoon straddlingWorld 7 "P" "up_leaving").VehicleToPlatoon.get "b" = none ∧
    (handlePostIntersectionVehicles (Sched.fixed 7) straddlingWorld).VehicleToPlatoon.keys
      = ["c", "d"] := by
  refine ⟨?_, ?_, ?_, ?_, ?_, ?_⟩ <;> decide!

/-- C24, counterexample. In `tiedWorld` the platoons `a` and `b` have the same
score.  When the bucket of `b` is visited first, `b` receives the priority,
not `a`; when the bucket of `a` is visited first, `a` receives it. -/
theorem tie_follows_iteration_order :
    ((tiedWorld.Platoons.get "a").map priorityScore,
      (tiedWorld.Platoons.get "b").map priorityScore) = (some 120, some 120) ∧
    (handlePriorityPlatoons (Sched.fixed 0) tiedWorld ":J" (tiedVehicles true)
        (tiedPlatoons true)).Platoons.map (fun kv => (kv.1, kv.2.PriorityUntil)) =
      [("a", none), ("b", some (15 * second))] ∧
    (handlePriorityPlatoons (Sched.fixed 0) tiedWorld ":J" (tiedVehicles false)
        (tiedPlatoons false)).Platoons.map (fun kv => (kv.1, kv.2.PriorityUntil)) =
      [("a", some (15 * second)), ("b", none)] := by
  refine ⟨?_, ?_, ?_⟩ <;> decide!

/-- C25, counterexample. In `fastPlatoonWorld` the follower `B` has a leader
link to `A`, is a platoon member and drives at 20 m/s; after the vehicle loop
its desired speed is 19.4, and after `SynchronizeSpeeds` it is 28. -/
theorem cohesion_pass_exceeds_cap :
    ((fastPlatoonWorld.Vehicles.get "B").map (fun v => (v.LeaderID, v.PlatoonID, v.Speed)) =
      some ("A", "P", 20)) ∧
    ((syncPass (Sched.fixed 0) fastPlatoonWorld).Vehicles.get "B").map
      (fun v => v.DesiredSpeed) = some 19.4 ∧
    ((SynchronizeSpeeds (Sched.fixed 0) fastPlatoonWorld).Vehicles.get "B").map
      (fun v => v.DesiredSpeed) = some 28 := by
  refine ⟨?_, ?_, ?_⟩ <;> decide!

/-- C26, counterexample. In `movingPriorityWorld` the leader exists, is not at
the intersection and drives at 10 m/s on `up_incoming`; after
`updatePlatoonWaitTimes` the waiting time of the platoon is 0 and its priority
window is still open until 5 s. -/
theorem moving_leader_keeps_priority_window :
    (movingPriorityWorld.Vehicles.get "A").map
      (fun v => (v.Edge, v.AtIntersection, isVehicleAtIntersection v, v.Speed)) =
      some ("up_incoming", false, false, 10) ∧
    ((updatePlatoonWaitTimes (Sched.fixed 0) movingPriorityWorld).Platoons.get "P").map
      (fun p => (p.IntersectionWaitTime, p.PriorityUntil)) = some (0, some (5 * second)) := by
  constructor <;> decide!

/-- C28. The creation count: no call of `UpdateVehicleData` changes
`TotalCreatedVehicles`.  On a run of the code, the first ingest of `censusS1`
creates the two vehicles `A` and `B` with desired speed 13.9 and reaction time
0.5, and `TotalCreatedVehicles` is still 0. -/
theorem creation_not_counted :
    (∀ (s : Sched) (c : GoMap CensusRecord) (tm : TrafficManager),
      (UpdateVehicleData s c tm).TotalCreatedVehicles = tm.TotalCreatedVehicles) ∧
    (NewTrafficManager 0).Vehicles.keys = [] ∧ (NewTrafficManager 0).TotalCreatedVehicles = 0 ∧
    (UpdateVehicleData (Sched.fixed 0) censusS1 (NewTrafficManager 0)).Vehicles.map
      (fun kv => (kv.1, kv.2.DesiredSpeed, kv.2.ReactionTime)) =
      [("A", 13.9, 0.5), ("B", 13.9, 0.5)] ∧
    (UpdateVehicleData (Sched.fixed 0) censusS1 (NewTrafficManager 0)).TotalCreatedVehicles
      = 0 := by
  refine ⟨UpdateVehicleData_created, ?_, ?_, ?_, ?_⟩ <;> decide!

/-- C29, counterexample. In `waitingWorld` the leader of the platoon of five
stands at the end of `up_incoming`; `updatePlatoonWaitTimes` raises the
waiting time from 4 to 12, an increase of 8, where the sum of 3, 5 (at least
5 members) and 2 (at least 3 members) is 10. -/
theorem wait_increase_is_tiered :
    (waitingWorld.Platoons.get "P").map (fun p => (p.VehicleIDs.length, p.IntersectionWaitTime))
      = some (5, 4) ∧
    (waitingWorld.Vehicles.get "w0").map
      (fun v => (v.Edge, decide (v.Speed < 1.0), v.AtIntersection, isVehicleAtIntersection v)) =
      some ("up_incoming", true, true, true) ∧
    ((updatePlatoonWaitTimes (Sched.fixed 0) waitingWorld).Platoons.get "P").map
      (fun p => p.IntersectionWaitTime) = some 12 ∧
    specWaitIncrease 5 = 10 := by
  refine ⟨?_, ?_, ?_, ?_⟩ <;> decide!

/-- C30, counterexample. The oracle on a right turn against its left edge with
an unset direction: on each canonical incoming edge `e`, a RIGHT movement from `e` and
a movement with the empty direction from `getLeftEdge e` are reported
incompatible in both argument orders; the pair is reported compatible when the
RIGHT movement comes from `getLeftEdge e` and the other one from `e`. -/
theorem right_turn_oracle_on_unset_direction :
    incomingEdges.map (fun e =>
      (areMovementsCompatible e TurnRight (getLeftEdge e) "",
       areMovementsCompatible (getLeftEdge e) "" e TurnRight)) =
      List.replicate 4 (false, false) ∧
    incomingEdges.map (fun e =>
      (areMovementsCompatible (getLeftEdge e) TurnRight e "",
       areMovementsCompatible e "" (getLeftEdge e) TurnRight)) =
      List.replicate 4 (true, true) := by
  constructor <;> decide

/-! ## The scored branch of the priority handler -/

theorem insertSorted_perm {α : Type} (before : α → α → Bool) (x : α) (l : List α) :
    (insertSorted before x l).Perm (x :: l) := by
  induction l with
  | nil => exact List.Perm.refl _
  | cons h t ih =>
    unfold insertSorted
    split_ifs
    · exact List.Perm.refl _
    · exact ((List.Perm.cons h ih).trans (List.Perm.swap x h t))

theorem sortSlice_perm {α : Type} (before : α → α → Bool) (l : List α) :
    (sortSlice before l).Perm l := by
  have key : ∀ (l acc : List α),
      (l.foldl (fun acc x => insertSorted before x acc) acc).Perm (l ++ acc) := by
    intro l
    induction l with
    | nil => intro acc; exact List.Perm.refl _
    | cons x l ih =>
      intro acc
      simp only [List.foldl_cons]
      refine (ih _).trans ?_
      refine (List.Perm.append_left l (insertSorted_perm before x acc)).trans ?_
      simp
  simpa [sortSlice] using key l []

theorem insertSorted_sorted {α : Type} (key : α → ℚ) (x : α) (l : List α)
    (h : l.Pairwise (fun a b => key b ≤ key a)) :
    (insertSorted (fun a b => decide (key a > key b)) x l).Pairwise
      (fun a b => key b ≤ key a) := by
  induction l with
  | nil => simp [insertSorted]
  | cons hd tl ih =>
    unfold insertSorted
    have hh := List.pairwise_cons.mp h
    by_cases hx : key x > key hd
    · simp only [hx, decide_True, if_true]
      refine List.pairwise_cons.mpr ⟨?_, h⟩
      intro b hb
      rcases List.mem_cons.mp hb with rfl | hb
      · exact le_of_lt hx
      · exact (hh.1 b hb).trans (le_of_lt hx)
    · simp only [hx, decide_False, Bool.false_eq_true, if_false]
      refine List.pairwise_cons.mpr ⟨?_, ih hh.2⟩
      intro b hb
      have hb' := (insertSorted_perm (fun a b => decide (key a > key b)) x tl).mem_iff.mp hb
      rcases List.mem_cons.mp hb' with rfl | hb'
      · exact not_lt.mp hx
      · exact hh.1 b hb'

/-- The first element of a slice sorted by decreasing `key` is an element of
the slice with the greatest `key`. -/
theorem sortSlice_head_max {α : Type} (key : α → ℚ) (l : List α) (hd : α) (tl : List α)
    (h : sortSlice (fun a b => decide (key a > key b)) l = hd :: tl) :
    hd ∈ l ∧ ∀ x ∈ l, key x ≤ key hd := by
  have hsorted : (sortSlice (fun a b => decide (key a > key b)) l).Pairwise
      (fun a b => key b ≤ key a) := by
    unfold sortSlice
    refine foldl_preserves (fun acc : List α => acc.Pairwise (fun a b => key b ≤ key a)) _ ?_ l []
      List.Pairwise.nil
    intro acc x hacc
    exact insertSorted_sorted key x acc hacc
  have hperm := sortSlice_perm (fun a b => decide (key a > key b)) l
  rw [h] at hsorted hperm
  refine ⟨hperm.mem_iff.mp (List.mem_cons_self _ _), ?_⟩
  intro x hx
  rcases List.mem_cons.mp (hperm.mem_iff.mpr hx) with rfl | hx'
  · exact le_refl _
  · exact (List.pairwise_cons.mp hsorted).1 x hx'

theorem mem_bucketPairs (order : List String) (m : GoMap (List String)) (edge k : String) :
    (edge, k) ∈ bucketPairs order m ↔
      edge ∈ order ∧ ∃ platoons, m.get edge = some platoons ∧ k ∈ platoons := by
  unfold bucketPairs
  rw [List.mem_flatMap]
  constructor
  · rintro ⟨e, he, hmem⟩
    cases hg : m.get e with
    | none => rw [hg] at hmem; simp at hmem
    | some platoons =>
      rw [hg] at hmem
      simp only [List.mem_map, Prod.mk.injEq] at hmem
      obtain ⟨a, ha, rfl, rfl⟩ := hmem
      exact ⟨he, platoons, hg, ha⟩
  · rintro ⟨he, platoons, hg, hk⟩
    refine ⟨edge, he, ?_⟩
    rw [hg]
    exact List.mem_map.mpr ⟨k, hk, rfl⟩

theorem mem_buildPriorityQueue (tm : TrafficManager) (pairs : List (String × String))
    (q : PlatoonPriority) :
    q ∈ buildPriorityQueue tm pairs ↔
      ∃ ep ∈ pairs, ∃ p, tm.Platoons.get ep.2 = some p ∧
        ∃ l, tm.Vehicles.get p.LeaderID = some l ∧ l.Speed ≤ 3.0 ∧
          q = { platoonID := ep.2, edge := ep.1, priorityScore := priorityScore p } := by
  unfold buildPriorityQueue
  rw [List.mem_filterMap]
  constructor
  · rintro ⟨ep, hep, h⟩
    refine ⟨ep, hep, ?_⟩
    cases hp : tm.Platoons.get ep.2 with
    | none => rw [hp] at h; simp at h
    | some p =>
      cases hl : tm.Vehicles.get p.LeaderID with
      | none => rw [hp] at h; simp only [hl] at h; simp at h
      | some l =>
        rw [hp] at h
        simp only [hl] at h
        by_cases hs : l.Speed > 3.0
        · simp [hs] at h
        · simp only [hs, if_false, Option.some.injEq] at h
          exact ⟨p, rfl, l, hl, not_lt.mp hs, h.symm⟩
  · rintro ⟨ep, hep, p, hp, l, hl, hs, rfl⟩
    refine ⟨ep, hep, ?_⟩
    rw [hp]
    simp only [hl]
    rw [if_neg (not_lt.mpr hs)]

theorem stopOthersUnlessWaiting_platoons (tm : TrafficManager) (selectedKey : String)
    (order : List String) (vehiclesByEdge : GoMap (List String)) (edge : String) :
    (stopOthersUnlessWaiting tm selectedKey order vehiclesByEdge edge).Platoons = tm.Platoons := by
  unfold stopOthersUnlessWaiting
  refine foldl_preserves (fun t : TrafficManager => t.Platoons = tm.Platoons) _ ?_ _ _ rfl
  intro t o ht
  try simp only []
  split_ifs
  · exact ht
  · split
    · exact ht
    · refine foldl_preserves (fun t' : TrafficManager => t'.Platoons = tm.Platoons) _ ?_ _ _ ht
      intro t' v h
      try simp only []
      split
      · exact (setDesired_platoons t' v 0.0).trans h
      · split
        · split_ifs
          · exact (setDesired_platoons t' v 0.0).trans h
          · exact h
        · exact (setDesired_platoons t' v 0.0).trans h

theorem modifyIntersection_platoons (tm : TrafficManager) (k : String)
    (f : Intersection → Intersection) :
    (modifyIntersection tm k f).Platoons = tm.Platoons := by
  unfold modifyIntersection
  split <;> rfl

theorem modifyPlatoon_platoons_of_get (tm : TrafficManager) (k : String) (f : Platoon → Platoon)
    (p : Platoon) (h : tm.Platoons.get k = some p) :
    (modifyPlatoon tm k f).Platoons = tm.Platoons.set k (f p) := by
  unfold modifyPlatoon
  rw [h]

theorem priorityScore_eq_spec (p : Platoon) :
    priorityScore p = specScore p.VehicleIDs.length p.IntersectionWaitTime := by
  unfold priorityScore specScore
  simp only []
  split_ifs <;> norm_num <;> ring

/-- The scored branch of `handlePriorityPlatoons`: past the cooldown, with no
active priority window among the listed platoons and at least one candidate,
the head of the sorted queue is a candidate of maximal score, and the call
changes the platoon map only by giving it `PriorityUntil = now + 15 s`. -/
theorem scored_grant_is_maximal (s : Sched) (tm : TrafficManager)
    (intersectionID : String) (vehiclesByEdge platoonsByEdge : GoMap (List String))
    (intersection : Intersection) (hfair : s.Fair)
    (hi : tm.Intersections.get intersectionID = some intersection)
    (hcool : ¬ (((s.now "handlePriorityPlatoons" intersectionID -
      intersection.LastPlatoonPassTime : Int) : ℚ) / (second : ℚ) < 3.0))
    (hnone : ∀ edge platoons platoonID, platoonsByEdge.get edge = some platoons →
      platoonID ∈ platoons →
      hasActivePriority tm (s.now "handlePriorityPlatoons" intersectionID) platoonID = false)
    (hcand : ∃ k p, IsCandidate tm platoonsByEdge k p) :
    ∃ k p, IsCandidate tm platoonsByEdge k p ∧
      (∀ k' p', IsCandidate tm platoonsByEdge k' p' →
        specScore p'.VehicleIDs.length p'.IntersectionWaitTime ≤
          specScore p.VehicleIDs.length p.IntersectionWaitTime) ∧
      (handlePriorityPlatoons s tm intersectionID vehiclesByEdge platoonsByEdge).Platoons =
        tm.Platoons.set k { p with
          PriorityUntil := some (s.now "handlePriorityPlatoons" intersectionID + 15 * second) } := by
  -- no listed platoon is met by the maintaining loop
  have hfind : (bucketPairs (s.ord "handlePriorityPlatoons.maintain" intersectionID
      platoonsByEdge.keys) platoonsByEdge).find?
      (fun ep => hasActivePriority tm (s.now "handlePriorityPlatoons" intersectionID) ep.2)
        = none := by
    rw [List.find?_eq_none]
    rintro ⟨edge, k⟩ hmem
    obtain ⟨_, platoons, hg, hk⟩ := (mem_bucketPairs _ _ _ _).mp hmem
    simp [hnone edge platoons k hg hk]
  -- the queue holds exactly the candidates
  have hqueue : ∀ k p, IsCandidate tm platoonsByEdge k p →
      ∃ q ∈ buildPriorityQueue tm (bucketPairs (s.ord "handlePriorityPlatoons.score"
          intersectionID platoonsByEdge.keys) platoonsByEdge),
        q.priorityScore = priorityScore p := by
    rintro k p ⟨⟨edge, platoons, hg, hk⟩, hp, l, hl, hs⟩
    have hedge : edge ∈ s.ord "handlePriorityPlatoons.score" intersectionID
        platoonsByEdge.keys :=
      (hfair _ _ _).mem_iff.mpr (mem_keys_of_get _ _ _ hg)
    exact ⟨{ platoonID := k, edge := edge, priorityScore := priorityScore p },
      (mem_buildPriorityQueue _ _ _).mpr
        ⟨(edge, k), (mem_bucketPairs _ _ _ _).mpr ⟨hedge, platoons, hg, hk⟩, p, hp, l, hl, hs,
          rfl⟩, rfl⟩
  -- the sorted queue has a head
  obtain ⟨k0, p0, hc0⟩ := hcand
  obtain ⟨q0, hq0, _⟩ := hqueue k0 p0 hc0
  obtain ⟨hd, tl, hsort⟩ : ∃ hd tl,
      sortSlice (fun a b : PlatoonPriority => decide (a.priorityScore > b.priorityScore))
        (buildPriorityQueue tm (bucketPairs (s.ord "handlePriorityPlatoons.score"
          intersectionID platoonsByEdge.keys) platoonsByEdge)) = hd :: tl := by
    cases hsl : sortSlice (fun a b : PlatoonPriority =>
        decide (a.priorityScore > b.priorityScore))
        (buildPriorityQueue tm (bucketPairs (s.ord "handlePriorityPlatoons.score"
          intersectionID platoonsByEdge.keys) platoonsByEdge)) with
    | nil =>
      have := (sortSlice_perm (fun a b : PlatoonPriority =>
        decide (a.priorityScore > b.priorityScore)) _).mem_iff.mpr hq0
      rw [hsl] at this
      simp at this
    | cons hd tl => exact ⟨hd, tl, rfl⟩
  obtain ⟨hmem, hmax⟩ := sortSlice_head_max (fun q : PlatoonPriority => q.priorityScore) _ hd tl
    hsort
  obtain ⟨ep, hep, p, hp, l, hl, hs, hq⟩ := (mem_buildPriorityQueue _ _ _).mp hmem
  obtain ⟨edge, k⟩ := ep
  obtain ⟨_, platoons, hg, hk⟩ := (mem_bucketPairs _ _ _ _).mp hep
  have hid : hd.platoonID = k := by rw [hq]
  have hscore : hd.priorityScore = priorityScore p := by rw [hq]
  refine ⟨k, p, ⟨⟨edge, platoons, hg, hk⟩, hp, l, hl, hs⟩, ?_, ?_⟩
  · intro k' p' hc'
    obtain ⟨q', hq', hs'⟩ := hqueue k' p' hc'
    rw [← priorityScore_eq_spec, ← priorityScore_eq_spec, ← hs', ← hscore]
    exact hmax q' hq'
  · unfold handlePriorityPlatoons
    simp only [hi, if_neg hcool, hfind, hsort, hid, hp]
    split_ifs
    · exact modifyPlatoon_platoons_of_get _ _ _ _ hp
    · rw [modifyIntersection_platoons, stopOthersUnlessWaiting_platoons, boostPlatoon_platoons]
      exact modifyPlatoon_platoons_of_get _ _ _ _ hp

/-- C23. Scored priority picks a maximum: when `handlePriorityPlatoons` runs
past its cooldown under a fair schedule, no listed platoon holds an active
priority window and there is at least one candidate (a listed platoon whose
leader exists with speed at most 3.0), the call changes exactly one platoon
record: a candidate whose score `specScore` is at least the score of every
candidate gets `PriorityUntil = now + 15 s`. -/
theorem scored_priority_picks_maximum (s : Sched) (tm : TrafficManager)
    (intersectionID : String) (vehiclesByEdge platoonsByEdge : GoMap (List String))
    (intersection : Intersection) (hfair : s.Fair)
    (hi : tm.Intersections.get intersectionID = some intersection)
    (hcool : ¬ (((s.now "handlePriorityPlatoons" intersectionID -
      intersection.LastPlatoonPassTime : Int) : ℚ) / (second : ℚ) < 3.0))
    (hnone : ∀ edge platoons platoonID, platoonsByEdge.get edge = some platoons →
      platoonID ∈ platoons →
      hasActivePriority tm (s.now "handlePriorityPlatoons" intersectionID) platoonID = false)
    (hcand : ∃ k p, IsCandidate tm platoonsByEdge k p) :
    ∃ k p, IsCandidate tm platoonsByEdge k p ∧
      (∀ k' p', IsCandidate tm platoonsByEdge k' p' →
        specScore p'.VehicleIDs.length p'.IntersectionWaitTime ≤
          specScore p.VehicleIDs.length p.IntersectionWaitTime) ∧
      (handlePriorityPlatoons s tm intersectionID vehiclesByEdge platoonsByEdge).Platoons =
        tm.Platoons.set k { p with
          PriorityUntil := some (s.now "handlePriorityPlatoons" intersectionID + 15 * second) } :=
  scored_grant_is_maximal s tm intersectionID vehiclesByEdge platoonsByEdge intersection hfair
    hi hcool hnone hcand

theorem tiedWorld_no_window (k : String) : hasActivePriority tiedWorld 0 k = false := by
  by_cases ha : k = "a"
  · subst ha; decide!
  · by_cases hb : k = "b"
    · subst hb; decide!
    · have hnone : tiedWorld.Platoons.get k = none := by
        have h1 : ¬ "a" = k := fun h => ha h.symm
        have h2 : ¬ "b" = k := fun h => hb h.symm
        simp [tiedWorld, GoMap.get, h1, h2]
      unfold hasActivePriority
      rw [hnone]

theorem scored_priority_picks_maximum_witness :
    (∃ k p, IsCandidate tiedWorld (tiedPlatoons false) k p) ∧
    ∃ k p, IsCandidate tiedWorld (tiedPlatoons false) k p ∧
      (∀ k' p', IsCandidate tiedWorld (tiedPlatoons false) k' p' →
        specScore p'.VehicleIDs.length p'.IntersectionWaitTime ≤
          specScore p.VehicleIDs.length p.IntersectionWaitTime) ∧
      (handlePriorityPlatoons (Sched.fixed 0) tiedWorld ":J" (tiedVehicles false)
          (tiedPlatoons false)).Platoons =
        tiedWorld.Platoons.set k { p with
          PriorityUntil := some ((Sched.fixed 0).now "handlePriorityPlatoons" ":J" +
            15 * second) } :=
  ⟨⟨"a", waitingPair "a" "a1" "a2" "up_incoming",
      ⟨"up_incoming", ["a"], by decide, by decide⟩, by decide!,
      queuedVehicle "a1" "up_incoming" "a" 120 true, by decide!, by decide!⟩,
    scored_priority_picks_maximum (Sched.fixed 0) tiedWorld ":J" (tiedVehicles false)
      (tiedPlatoons false) tiedJunction (fixed_fair 0) (by decide!) (by decide!)
      (fun _ _ k _ _ => tiedWorld_no_window k)
      ⟨"a", waitingPair "a" "a1" "a2" "up_incoming",
        ⟨"up_incoming", ["a"], by decide, by decide⟩, by decide!,
        queuedVehicle "a1" "up_incoming" "a" 120 true, by decide!, by decide!⟩⟩

/-! ## Waiting times -/

theorem modifyPlatoon_get (tm : TrafficManager) (k k' : String) (f : Platoon → Platoon) :
    (modifyPlatoon tm k f).Platoons.get k' =
      if k = k' then (tm.Platoons.get k').map f else tm.Platoons.get k' := by
  unfold modifyPlatoon
  cases h : tm.Platoons.get k with
  | none =>
    by_cases hk : k = k'
    · subst hk; simp [h]
    · simp [hk]
  | some v =>
    by_cases hk : k = k'
    · subst hk; simp [get_set, h]
    · simp [get_set, hk]

theorem waitStep_vehicles (t : TrafficManager) (a : String) :
    (waitStep t a).Vehicles = t.Vehicles := by
  unfold waitStep
  split
  · rfl
  · split
    · rfl
    · split_ifs <;> exact modifyPlatoon_vehicles _ _ _

theorem waitStep_other (t : TrafficManager) (a k : String) (h : a ≠ k) :
    (waitStep t a).Platoons.get k = t.Platoons.get k := by
  unfold waitStep
  split
  · rfl
  · split
    · rfl
    · split_ifs <;> rw [modifyPlatoon_get, if_neg h]

/-- The entry that `waitStep` writes at its own key depends only on the
vehicles and on that entry. -/
theorem waitStep_congr (t t' : TrafficManager) (k : String)
    (hv : t'.Vehicles = t.Vehicles) (hp : t'.Platoons.get k = t.Platoons.get k) :
    (waitStep t' k).Platoons.get k = (waitStep t k).Platoons.get k := by
  unfold waitStep
  rw [hp, hv]
  cases hg : t.Platoons.get k with
  | none => exact hp
  | some p =>
    simp only []
    cases hl : t.Vehicles.get p.LeaderID with
    | none => exact hp
    | some l =>
      simp only []
      split_ifs <;> rw [modifyPlatoon_get, modifyPlatoon_get, if_pos rfl, if_pos rfl, hp]

theorem waitLoop_frame (k : String) (l : List String) (t : TrafficManager) (hk : k ∉ l) :
    (l.foldl waitStep t).Platoons.get k = t.Platoons.get k ∧
      (l.foldl waitStep t).Vehicles = t.Vehicles := by
  induction l generalizing t with
  | nil => exact ⟨rfl, rfl⟩
  | cons x l ih =>
    simp only [List.foldl_cons]
    have hx : x ≠ k := fun h => hk (h ▸ List.mem_cons_self _ _)
    obtain ⟨h1, h2⟩ := ih (waitStep t x) (fun h => hk (List.mem_cons_of_mem _ h))
    exact ⟨h1.trans (waitStep_other t x k hx), h2.trans (waitStep_vehicles t x)⟩

/-- A loop over pairwise distinct keys writes the entry of `k` once: the
entry afterwards is the one that the body writes on the state before the loop. -/
theorem waitLoop_once (k : String) (l : List String) (t : TrafficManager) (hn : l.Nodup)
    (hk : k ∈ l) :
    (l.foldl waitStep t).Platoons.get k = (waitStep t k).Platoons.get k := by
  induction l generalizing t with
  | nil => simp at hk
  | cons x l ih =>
    simp only [List.foldl_cons]
    have hn' := List.nodup_cons.mp hn
    by_cases hx : x = k
    · subst hx
      exact (waitLoop_frame x l _ hn'.1).1
    · rcases List.mem_cons.mp hk with h | h
      · exact absurd h.symm hx
      · rw [ih (waitStep t x) hn'.2 h]
        exact waitStep_congr t (waitStep t x) k (waitStep_vehicles t x) (waitStep_other t x k hx)

theorem updatePlatoonWaitTimes_entry (s : Sched) (tm : TrafficManager) (hfair : s.Fair)
    (hn : tm.Platoons.keys.Nodup) (k : String) (p : Platoon)
    (hp : tm.Platoons.get k = some p) :
    (updatePlatoonWaitTimes s tm).Platoons.get k = (waitStep tm k).Platoons.get k := by
  unfold updatePlatoonWaitTimes
  exact waitLoop_once k _ tm ((hfair _ _ _).nodup_iff.mpr hn)
    ((hfair _ _ _).mem_iff.mpr (mem_keys_of_get _ _ _ hp))

/-- C26, amended. Wait reset: under a fair schedule, for every platoon whose
leader exists and is either not at the intersection or moving (speed at least
1.0), after `updatePlatoonWaitTimes` the waiting time of the platoon is 0; its
`PriorityUntil` is cleared when the leader is not on an incoming edge, and is
left as it was when the leader is on an incoming edge. -/
theorem wait_reset (s : Sched) (tm : TrafficManager) (hfair : s.Fair)
    (hn : tm.Platoons.keys.Nodup) (k : String) (p : Platoon) (leader : Vehicle)
    (hp : tm.Platoons.get k = some p) (hl : tm.Vehicles.get p.LeaderID = some leader)
    (hmov : isVehicleAtIntersection leader = false ∨ 1.0 ≤ leader.Speed) :
    (updatePlatoonWaitTimes s tm).Platoons.get k =
      some { p with
        IntersectionWaitTime := 0
        PriorityUntil := if isIncomingEdge leader.Edge then p.PriorityUntil else none } := by
  rw [updatePlatoonWaitTimes_entry s tm hfair hn k p hp]
  unfold waitStep
  simp only [hp, hl]
  by_cases hin : isIncomingEdge leader.Edge = true
  · have hno : ¬ (leader.Speed < 1.0 ∧ isVehicleAtIntersection leader = true) := by
      rintro ⟨h1, h2⟩
      rcases hmov with h | h
      · rw [h] at h2; exact Bool.false_ne_true h2
      · exact absurd h1 (not_lt.mpr h)
    simp only [hin, Bool.not_true, Bool.false_eq_true, if_false, hno, if_true]
    rw [modifyPlatoon_get, if_pos rfl, hp]
    rfl
  · simp only [hin, Bool.not_false, if_true, Bool.not_eq_true] at hin ⊢
    simp only [hin, Bool.not_false, if_true, Bool.false_eq_true, if_false]
    rw [modifyPlatoon_get, if_pos rfl, hp]
    rfl

theorem wait_reset_witness :
    movingPriorityWorld.Platoons.get "P" = some movingPlatoon ∧
    movingPriorityWorld.Vehicles.get movingPlatoon.LeaderID = some movingLeader ∧
    (isVehicleAtIntersection movingLeader = false ∨ 1.0 ≤ movingLeader.Speed) ∧
    (updatePlatoonWaitTimes (Sched.fixed 0) movingPriorityWorld).Platoons.get "P" =
      some { movingPlatoon with
        IntersectionWaitTime := 0
        PriorityUntil :=
          if isIncomingEdge movingLeader.Edge then movingPlatoon.PriorityUntil else none } :=
  ⟨by decide!, by decide!, Or.inl (by decide!),
    wait_reset (Sched.fixed 0) movingPriorityWorld (fixed_fair 0) (by decide) "P" movingPlatoon
      movingLeader (by decide!) (by decide!) (Or.inl (by decide!))⟩

/-- C29, amended. Wait accrual: under a fair schedule, for every platoon whose
leader is on an incoming edge, has speed below 1.0 and is at the intersection,
one call of `updatePlatoonWaitTimes` changes the platoon record only in its
waiting time, which it increases by 8 when the platoon has at least 5 members,
by 5 when it has 3 or 4, and by 3 otherwise; below 5 members this is the sum
`specWaitIncrease`. -/
theorem wait_accrual (s : Sched) (tm : TrafficManager) (hfair : s.Fair)
    (hn : tm.Platoons.keys.Nodup) (k : String) (p : Platoon) (leader : Vehicle)
    (hp : tm.Platoons.get k = some p) (hl : tm.Vehicles.get p.LeaderID = some leader)
    (hin : isIncomingEdge leader.Edge = true) (hslow : leader.Speed < 1.0)
    (hat : isVehicleAtIntersection leader = true) :
    (updatePlatoonWaitTimes s tm).Platoons.get k =
      some { p with
        IntersectionWaitTime := p.IntersectionWaitTime +
          (if p.VehicleIDs.length ≥ 5 then 8 else if p.VehicleIDs.length ≥ 3 then 5 else 3) } ∧
    (p.VehicleIDs.length < 5 →
      (if p.VehicleIDs.length ≥ 5 then 8 else if p.VehicleIDs.length ≥ 3 then 5 else 3) =
        specWaitIncrease p.VehicleIDs.length) := by
  constructor
  · rw [updatePlatoonWaitTimes_entry s tm hfair hn k p hp]
    unfold waitStep
    simp only [hp, hl, hin, Bool.not_true, Bool.false_eq_true, if_false, hslow, hat,
      and_self, if_true]
    rw [modifyPlatoon_get, if_pos rfl, hp]
    simp only [Option.map_some']
    congr 2
    split_ifs <;> ring
  · intro h5
    unfold specWaitIncrease
    have : ¬ p.VehicleIDs.length ≥ 5 := not_le.mpr h5
    simp only [this, if_false]
    split_ifs <;> rfl

theorem wait_accrual_witness :
    isIncomingEdge (queuedVehicle "w0" "up_incoming" "P" 120 true).Edge = true ∧
    (queuedVehicle "w0" "up_incoming" "P" 120 true).Speed < 1.0 ∧
    isVehicleAtIntersection (queuedVehicle "w0" "up_incoming" "P" 120 true) = true ∧
    ((updatePlatoonWaitTimes (Sched.fixed 0) waitingWorld).Platoons.get "P" =
      some { waitingPlatoon with
        IntersectionWaitTime := waitingPlatoon.IntersectionWaitTime +
          (if waitingPlatoon.VehicleIDs.length ≥ 5 then 8
           else if waitingPlatoon.VehicleIDs.length ≥ 3 then 5 else 3) } ∧
    (waitingPlatoon.VehicleIDs.length < 5 →
      (if waitingPlatoon.VehicleIDs.length ≥ 5 then 8
       else if waitingPlatoon.VehicleIDs.length ≥ 3 then 5 else 3) =
        specWaitIncrease waitingPlatoon.VehicleIDs.length)) :=
  ⟨by decide, by decide!, by decide!,
    wait_accrual (Sched.fixed 0) waitingWorld (fixed_fair 0) (by decide) "P" waitingPlatoon
      (queuedVehicle "w0" "up_incoming" "P" 120 true) (by decide!) (by decide!) (by decide)
      (by decide!) (by decide!)⟩

/-! ## The speed caps of the vehicle loop -/

theorem modifyVehicle_maxPlatoonSpeed (tm : TrafficManager) (k : String)
    (f : Vehicle → Vehicle) : (modifyVehicle tm k f).MaxPlatoonSpeed = tm.MaxPlatoonSpeed := by
  unfold modifyVehicle
  split <;> rfl

theorem modifyVehicle_maxRegularSpeed (tm : TrafficManager) (k : String)
    (f : Vehicle → Vehicle) : (modifyVehicle tm k f).MaxRegularSpeed = tm.MaxRegularSpeed := by
  unfold modifyVehicle
  split <;> rfl

theorem cap_bounds (b : Prop) [Decidable b] (d : ℚ) :
    0 ≤ (if b then min 19.4 (max 0.0 d) else min 16.7 (max 0.0 d)) ∧
    (if b then min 19.4 (max 0.0 d) else min 16.7 (max 0.0 d)) ≤ 19.4 ∧
    (¬ b → (if b then min 19.4 (max 0.0 d) else min 16.7 (max 0.0 d)) ≤ 16.7) := by
  have h0 : (0 : ℚ) ≤ max 0.0 d := (by norm_num : (0 : ℚ) ≤ 0.0).trans (le_max_left _ _)
  refine ⟨?_, ?_, ?_⟩
  · split_ifs
    · exact le_min (by norm_num) h0
    · exact le_min (by norm_num) h0
  · split_ifs
    · exact min_le_left _ _
    · exact (min_le_left _ _).trans (by norm_num)
  · intro hb
    rw [if_neg hb]
    exact min_le_left _ _

/-- The body of the vehicle loop is one write through the pointer of the
visited entry; the write keeps the speed, the leader link and the platoon id,
and for a vehicle with a leader link and a non-negative speed it leaves a
desired speed between 0 and 19.4, and at most 16.7 when the vehicle belongs to
no platoon. -/
theorem syncStep_shape (now : Int) (t : TrafficManager) (id : String)
    (hP : t.MaxPlatoonSpeed = 19.4) (hR : t.MaxRegularSpeed = 16.7) :
    ∃ f : Vehicle → Vehicle, syncStep now t id = modifyVehicle t id f ∧
      ∀ v, t.Vehicles.get id = some v →
        (f v).Speed = v.Speed ∧ (f v).LeaderID = v.LeaderID ∧ (f v).PlatoonID = v.PlatoonID ∧
        (v.LeaderID ≠ "" → 0 ≤ v.Speed →
          0 ≤ (f v).DesiredSpeed ∧ (f v).DesiredSpeed ≤ 19.4 ∧
          (v.PlatoonID = "" → t.VehicleToPlatoon.get id = none → (f v).DesiredSpeed ≤ 16.7)) := by
  unfold syncStep
  cases hv : t.Vehicles.get id with
  | none =>
    refine ⟨fun v => v, ?_, ?_⟩
    · unfold modifyVehicle
      rw [hv]
    · intro v h
      exact absurd h (by simp)
  | some vehicle =>
    simp only []
    by_cases hres : leaderHasReservation t id vehicle = true
    · rw [if_pos hres]
      refine ⟨fun v => { v with DesiredSpeed := min (vehicle.Speed + 2.0) t.MaxPlatoonSpeed },
        rfl, ?_⟩
      intro v h
      obtain rfl : vehicle = v := Option.some.inj h
      refine ⟨rfl, rfl, rfl, ?_⟩
      intro _ hs
      refine ⟨?_, ?_, ?_⟩
      · show (0 : ℚ) ≤ min (vehicle.Speed + 2.0) t.MaxPlatoonSpeed
        rw [hP]
        exact le_min (by linarith) (by norm_num)
      · show min (vehicle.Speed + 2.0) t.MaxPlatoonSpeed ≤ 19.4
        rw [hP]
        exact min_le_right _ _
      · intro _ hvtp
        exfalso
        unfold leaderHasReservation at hres
        rw [hvtp] at hres
        simp at hres
    · rw [if_neg hres]
      by_cases hlead : vehicle.LeaderID = ""
      · rw [if_pos hlead]
        have hframe : ∀ x : ℚ, ∀ v, some vehicle = some v →
            ({ v with DesiredSpeed := x } : Vehicle).Speed = v.Speed ∧
            ({ v with DesiredSpeed := x } : Vehicle).LeaderID = v.LeaderID ∧
            ({ v with DesiredSpeed := x } : Vehicle).PlatoonID = v.PlatoonID ∧
            (v.LeaderID ≠ "" → 0 ≤ v.Speed →
              0 ≤ ({ v with DesiredSpeed := x } : Vehicle).DesiredSpeed ∧
              ({ v with DesiredSpeed := x } : Vehicle).DesiredSpeed ≤ 19.4 ∧
              (v.PlatoonID = "" → t.VehicleToPlatoon.get id = none →
                ({ v with DesiredSpeed := x } : Vehicle).DesiredSpeed ≤ 16.7)) := by
          intro x v h
          obtain rfl : vehicle = v := Option.some.inj h
          exact ⟨rfl, rfl, rfl, fun hne => absurd hlead hne⟩
        split
        · exact ⟨_, rfl, hframe _⟩
        · split
          · exact ⟨_, rfl, hframe _⟩
          · split_ifs <;> exact ⟨_, rfl, hframe _⟩
      · rw [if_neg hlead]
        cases hl : t.Vehicles.get vehicle.LeaderID with
        | none =>
          simp only []
          refine ⟨fun v => { v with DesiredSpeed := 13.9 }, rfl, ?_⟩
          intro v h
          obtain rfl : vehicle = v := Option.some.inj h
          refine ⟨rfl, rfl, rfl, ?_⟩
          intro _ _
          refine ⟨?_, ?_, ?_⟩
          · show (0 : ℚ) ≤ 13.9
            norm_num
          · show (13.9 : ℚ) ≤ 19.4
            norm_num
          · intro _ _
            show (13.9 : ℚ) ≤ 16.7
            norm_num
        | some leader =>
          simp only []
          refine ⟨_, rfl, ?_⟩
          intro v h
          obtain rfl : vehicle = v := Option.some.inj h
          refine ⟨rfl, rfl, rfl, ?_⟩
          intro _ _
          have hb := cap_bounds (vehicle.PlatoonID ≠ "")
            (if vehicle.Speed < 0.5 ∧ leader.Pos - vehicle.Pos > calculateOptimalGap t vehicle
              then max 5.0 (followSpeed (leader.Pos - vehicle.Pos) (calculateOptimalGap t vehicle)
                leader.Speed)
              else followSpeed (leader.Pos - vehicle.Pos) (calculateOptimalGap t vehicle)
                leader.Speed)
          simp only [hP, hR]
          exact ⟨hb.1, hb.2.1, fun hpl _ => hb.2.2 (not_not.mpr hpl)⟩

/-- A fold establishes at `a` a property that the step at `a` establishes and
every step preserves, under an invariant of the fold. -/
theorem foldl_establishes_under {σ α : Type} (I Q : σ → Prop) (f : σ → α → σ) (a : α)
    (hI : ∀ s b, I s → I (f s b)) (hA : ∀ s, I s → Q (f s a))
    (hB : ∀ s b, I s → Q s → Q (f s b)) (l : List α) (s : σ) (ha : a ∈ l) (hs : I s) :
    Q (l.foldl f s) := by
  have keep : ∀ (l : List α) (s : σ), I s → Q s → Q (l.foldl f s) := by
    intro l
    induction l with
    | nil => intro s _ h; exact h
    | cons x l ih => intro s hi h; exact ih (f s x) (hI s x hi) (hB s x hi h)
  induction l generalizing s with
  | nil => simp at ha
  | cons x l ih =>
    simp only [List.foldl_cons]
    by_cases hx : a = x
    · subst hx
      exact keep l _ (hI s a hs) (hA s hs)
    · rcases List.mem_cons.mp ha with h | h
      · exact absurd h hx
      · exact ih (f s x) h (hI s x hs)

/-- The speed cap of the vehicle loop: `SynchronizeSpeeds` is the vehicle loop
`syncPass` followed by `processPlatoonsIndependently`, and when the loop
visits every vehicle, with the caps 19.4 and 16.7, every vehicle with a
leader link and a non-negative speed has after the vehicle loop a desired
speed between 0 and 19.4, and at most 16.7 when it belongs to no platoon. -/
theorem vehicle_loop_speed_cap (s : Sched) (tm : TrafficManager)
    (hvisit : s.VisitsAll "SynchronizeSpeeds")
    (hP : tm.MaxPlatoonSpeed = 19.4) (hR : tm.MaxRegularSpeed = 16.7)
    (id : String) (v0 : Vehicle) (hv : tm.Vehicles.get id = some v0)
    (hl : v0.LeaderID ≠ "") (hs : 0 ≤ v0.Speed) :
    SynchronizeSpeeds s tm = processPlatoonsIndependently s (syncPass s tm) ∧
    ∃ v, (syncPass s tm).Vehicles.get id = some v ∧
      v.Speed = v0.Speed ∧ v.LeaderID = v0.LeaderID ∧ v.PlatoonID = v0.PlatoonID ∧
      0 ≤ v.DesiredSpeed ∧ v.DesiredSpeed ≤ 19.4 ∧
      (v0.PlatoonID = "" → tm.VehicleToPlatoon.get id = none → v.DesiredSpeed ≤ 16.7) := by
  refine ⟨rfl, ?_⟩
  unfold syncPass
  have hid : id ∈ s.ord "SynchronizeSpeeds" "" tm.Vehicles.keys :=
    hvisit _ _ _ (mem_keys_of_get _ _ _ hv)
  refine foldl_establishes_under
    (fun t : TrafficManager => t.MaxPlatoonSpeed = 19.4 ∧ t.MaxRegularSpeed = 16.7 ∧
      t.VehicleToPlatoon = tm.VehicleToPlatoon ∧
      ∃ v, t.Vehicles.get id = some v ∧
        v.Speed = v0.Speed ∧ v.LeaderID = v0.LeaderID ∧ v.PlatoonID = v0.PlatoonID)
    (fun t : TrafficManager => ∃ v, t.Vehicles.get id = some v ∧
      v.Speed = v0.Speed ∧ v.LeaderID = v0.LeaderID ∧ v.PlatoonID = v0.PlatoonID ∧
      0 ≤ v.DesiredSpeed ∧ v.DesiredSpeed ≤ 19.4 ∧
      (v0.PlatoonID = "" → tm.VehicleToPlatoon.get id = none → v.DesiredSpeed ≤ 16.7))
    (syncStep (s.now "SynchronizeSpeeds" "")) id ?_ ?_ ?_ _ tm hid
    ⟨hP, hR, rfl, v0, hv, rfl, rfl, rfl⟩
  · rintro t b ⟨h1, h2, h3, v, hg, e1, e2, e3⟩
    obtain ⟨f, hf, hprop⟩ := syncStep_shape (s.now "SynchronizeSpeeds" "") t b h1 h2
    rw [hf]
    refine ⟨(modifyVehicle_maxPlatoonSpeed _ _ _).trans h1,
      (modifyVehicle_maxRegularSpeed _ _ _).trans h2,
      (modifyVehicle_vehicleToPlatoon _ _ _).trans h3, ?_⟩
    rw [modifyVehicle_get]
    by_cases hb : b = id
    · subst hb
      obtain ⟨p1, p2, p3, _⟩ := hprop v hg
      exact ⟨f v, by rw [if_pos rfl, hg]; rfl, p1.trans e1, p2.trans e2, p3.trans e3⟩
    · exact ⟨v, by rw [if_neg hb]; exact hg, e1, e2, e3⟩
  · rintro t ⟨h1, h2, h3, v, hg, e1, e2, e3⟩
    obtain ⟨f, hf, hprop⟩ := syncStep_shape (s.now "SynchronizeSpeeds" "") t id h1 h2
    rw [hf, modifyVehicle_get, if_pos rfl, hg]
    obtain ⟨p1, p2, p3, p4⟩ := hprop v hg
    obtain ⟨q1, q2, q3⟩ := p4 (e2 ▸ hl) (e1 ▸ hs)
    exact ⟨f v, rfl, p1.trans e1, p2.trans e2, p3.trans e3, q1, q2,
      fun c1 c2 => q3 (e3.trans c1) (h3 ▸ c2)⟩
  · rintro t b ⟨h1, h2, h3, v, hg, e1, e2, e3⟩ ⟨w, hw, r1, r2, r3, r4⟩
    obtain ⟨f, hf, hprop⟩ := syncStep_shape (s.now "SynchronizeSpeeds" "") t b h1 h2
    rw [hf, modifyVehicle_get]
    by_cases hb : b = id
    · subst hb
      rw [if_pos rfl, hg]
      obtain ⟨p1, p2, p3, p4⟩ := hprop v hg
      obtain ⟨q1, q2, q3⟩ := p4 (e2 ▸ hl) (e1 ▸ hs)
      exact ⟨f v, rfl, p1.trans e1, p2.trans e2, p3.trans e3, q1, q2,
        fun c1 c2 => q3 (e3.trans c1) (h3 ▸ c2)⟩
    · rw [if_neg hb]
      exact ⟨w, hw, r1, r2, r3, r4⟩

/-! ## The oracle on arbitrary strings -/

theorem getLeftEdge_cases (e : String) : getLeftEdge e = "" ∨ getLeftEdge e ∈ incomingEdges := by
  unfold getLeftEdge
  split_ifs <;> simp [incomingEdges]

theorem getOppositeEdge_cases (e : String) :
    getOppositeEdge e = "" ∨ getOppositeEdge e ∈ incomingEdges := by
  unfold getOppositeEdge
  split_ifs <;> simp [incomingEdges]

theorem getLeftEdge_of_not_incoming (e : String) (h : e ∉ incomingEdges) :
    getLeftEdge e = "" := by
  simp only [incomingEdges, List.mem_cons, List.mem_singleton, List.not_mem_nil, or_false,
    not_or] at h
  obtain ⟨h1, h2, h3, h4⟩ := h
  simp [getLeftEdge, h1, h2, h3, h4]

theorem getOppositeEdge_of_not_incoming (e : String) (h : e ∉ incomingEdges) :
    getOppositeEdge e = "" := by
  simp only [incomingEdges, List.mem_cons, List.mem_singleton, List.not_mem_nil, or_false,
    not_or] at h
  obtain ⟨h1, h2, h3, h4⟩ := h
  simp [getOppositeEdge, h1, h2, h3, h4]

theorem empty_not_incoming : "" ∉ incomingEdges := by decide

/-- C37, amended. Oracle symmetry: for all non-empty edge strings `e1`, `e2`
(canonical or not) and all direction strings `d1`, `d2` (the empty string
included), `areMovementsCompatible e1 d1 e2 d2 = areMovementsCompatible e2 d2
e1 d1`. -/
theorem oracle_symmetric_on_nonempty_edges (e1 d1 e2 d2 : String)
    (h1 : e1 ≠ "") (h2 : e2 ≠ "") :
    areMovementsCompatible e1 d1 e2 d2 = areMovementsCompatible e2 d2 e1 d1 := by
  by_cases heq : e1 = e2
  · subst heq
    unfold areMovementsCompatible
    simp
  have hne : e1 ≠ e2 := heq
  by_cases he1 : e1 ∈ incomingEdges
  · by_cases he2 : e2 ∈ incomingEdges
    · have key : ∀ a ∈ incomingEdges, ∀ b ∈ incomingEdges, ∀ r1 r2 s1 s2 l1 l2 : Bool,
          (if a = b then true
            else if getOppositeEdge a = b then (if r1 = true ∧ r2 = true then true else false)
            else if r1 = true ∧ getLeftEdge b = a then decide (¬ s2 = true ∧ ¬ l2 = true)
            else if r2 = true ∧ getLeftEdge a = b then decide (¬ s1 = true ∧ ¬ l1 = true)
            else false) =
          (if b = a then true
            else if getOppositeEdge b = a then (if r2 = true ∧ r1 = true then true else false)
            else if r2 = true ∧ getLeftEdge a = b then decide (¬ s1 = true ∧ ¬ l1 = true)
            else if r1 = true ∧ getLeftEdge b = a then decide (¬ s2 = true ∧ ¬ l2 = true)
            else false) := by
        decide
      have := key e1 he1 e2 he2 (decide (d1 = TurnRight)) (decide (d2 = TurnRight))
        (decide (d1 = TurnStraight)) (decide (d2 = TurnStraight))
        (decide (d1 = TurnLeft)) (decide (d2 = TurnLeft))
      simp only [decide_eq_true_eq] at this
      unfold areMovementsCompatible
      exact this
    · -- `e2` is no incoming edge: only the test for equal edges can succeed
      have hl2 := getLeftEdge_of_not_incoming e2 he2
      have ho2 := getOppositeEdge_of_not_incoming e2 he2
      have ho1 : getOppositeEdge e1 ≠ e2 := by
        intro h
        rcases getOppositeEdge_cases e1 with h0 | h0
        · exact h2 (h ▸ h0)
        · exact he2 (h ▸ h0)
      have hl1 : getLeftEdge e1 ≠ e2 := by
        intro h
        rcases getLeftEdge_cases e1 with h0 | h0
        · exact h2 (h ▸ h0)
        · exact he2 (h ▸ h0)
      have h1' : ¬ ("" = e1) := fun h => h1 h.symm
      unfold areMovementsCompatible
      simp [hne, Ne.symm hne, ho1, hl1, hl2, ho2, h1']
  · have hl1 := getLeftEdge_of_not_incoming e1 he1
    have ho1 := getOppositeEdge_of_not_incoming e1 he1
    have ho2 : getOppositeEdge e2 ≠ e1 := by
      intro h
      rcases getOppositeEdge_cases e2 with h0 | h0
      · exact h1 (h ▸ h0)
      · exact he1 (h ▸ h0)
    have hl2 : getLeftEdge e2 ≠ e1 := by
      intro h
      rcases getLeftEdge_cases e2 with h0 | h0
      · exact h1 (h ▸ h0)
      · exact he1 (h ▸ h0)
    have h2' : ¬ ("" = e2) := fun h => h2 h.symm
    unfold areMovementsCompatible
    simp [hne, Ne.symm hne, ho2, hl2, hl1, ho1, h2']

theorem oracle_symmetric_on_nonempty_edges_witness :
    areMovementsCompatible "junction_7" "" "down_incoming" "right" =
      areMovementsCompatible "down_incoming" "right" "junction_7" "" :=
  oracle_symmetric_on_nonempty_edges "junction_7" "" "down_incoming" "right" (by decide)
    (by decide)

/-- C37, counterexample. With the non-canonical edge `x` and the empty edge,
the oracle answers `false` for (`x`, unset) against (empty, right) and `true`
for the same two movements in the other order. -/
theorem oracle_asymmetric_on_empty_edge :
    areMovementsCompatible "x" "" "" "right" = false ∧
    areMovementsCompatible "" "right" "x" "" = true := by
  constructor <;> decide

/-! ## The optimal gap -/

/-- C38. Optimal gap: with `FollowingGap = 10` and `ReactionTime = 0.5`,
`calculateOptimalGap` returns `max(5, 0.5 s)` for every follower speed `s`,
whatever the platoon membership, the stable time and the stability ratio. -/
theorem optimal_gap_is_time_gap (tm : TrafficManager) (follower : Vehicle)
    (hg : tm.FollowingGap = 10) (hr : follower.ReactionTime = 0.5) :
    calculateOptimalGap tm follower = max 5 (0.5 * follower.Speed) := by
  have key : ∀ b : ℚ, 0.56 * max 10 follower.Speed ≤ b →
      max 5.0 (min b (follower.ReactionTime * follower.Speed)) =
        max 5 (0.5 * follower.Speed) := by
    intro b hb
    rw [hr]
    rcases le_total follower.Speed 10 with hs | hs
    · rw [max_eq_left hs] at hb
      have h5 : (0.5 : ℚ) * follower.Speed ≤ 5 := by linarith
      have hb5 : (5 : ℚ) ≤ b := by
        have : (0.56 : ℚ) * 10 = 5.6 := by norm_num
        linarith
      rw [min_eq_right (h5.trans hb5)]
      norm_num
    · rw [max_eq_right hs] at hb
      have : (0.5 : ℚ) * follower.Speed ≤ b := by linarith
      rw [min_eq_right this]
      norm_num
  have hbase : max 10 follower.Speed ≤
      (if follower.Speed / 10.0 > 1.0 then tm.FollowingGap * (follower.Speed / 10.0)
       else tm.FollowingGap) := by
    rw [hg]
    split_ifs with h
    · have : (10 : ℚ) * (follower.Speed / 10.0) = follower.Speed := by
        norm_num
        ring
      rw [this]
      have : (10 : ℚ) < follower.Speed := by
        have h' : follower.Speed / 10 > 1 := by norm_num at h ⊢; exact h
        linarith [(lt_div_iff₀ (by norm_num : (0 : ℚ) < 10)).mp h']
      exact max_le this.le le_rfl
    · have : follower.Speed ≤ 10 := by
        have h' : ¬ follower.Speed / 10 > 1 := by norm_num at h ⊢; exact h
        have := not_lt.mp h'
        linarith [(div_le_iff₀ (by norm_num : (0 : ℚ) < 10)).mp this]
      exact max_le le_rfl this
  have hpos : (0 : ℚ) ≤ max 10 follower.Speed := le_trans (by norm_num) (le_max_left _ _)
  unfold calculateOptimalGap
  simp only []
  apply key
  generalize (if follower.Speed / 10.0 > 1.0 then tm.FollowingGap * (follower.Speed / 10.0)
    else tm.FollowingGap) = b1 at hbase
  have h07 : (0.7 : ℚ) * max 10 follower.Speed ≤
      (if follower.PlatoonID ≠ "" ∧ follower.StablePlatoonTime > 5.0 then b1 * 0.7 else b1) := by
    split_ifs
    · have : b1 * 0.7 = 0.7 * b1 := by ring
      rw [this]
      exact mul_le_mul_of_nonneg_left hbase (by norm_num)
    · have : (0.7 : ℚ) * max 10 follower.Speed ≤ 1 * max 10 follower.Speed :=
        mul_le_mul_of_nonneg_right (by norm_num) hpos
      linarith
  generalize (if follower.PlatoonID ≠ "" ∧ follower.StablePlatoonTime > 5.0 then b1 * 0.7
    else b1) = b2 at h07
  have h56 : (0.56 : ℚ) * max 10 follower.Speed ≤ b2 * 0.8 := by
    have : (0.56 : ℚ) * max 10 follower.Speed = (0.7 * max 10 follower.Speed) * 0.8 := by
      norm_num
      ring
    rw [this]
    exact mul_le_mul_of_nonneg_right h07 (by norm_num)
  have h56' : (0.56 : ℚ) * max 10 follower.Speed ≤ b2 := by
    have : (0.56 : ℚ) * max 10 follower.Speed ≤ 0.7 * max 10 follower.Speed :=
      mul_le_mul_of_nonneg_right (by norm_num) hpos
    exact this.trans h07
  split
  · exact h56'
  · split
    · exact h56'
    · split_ifs
      · exact h56
      · exact h56'

theorem optimal_gap_is_time_gap_witness :
    (NewTrafficManager 0).FollowingGap = 10 ∧ gapFollower.ReactionTime = 0.5 ∧
    calculateOptimalGap (NewTrafficManager 0) gapFollower = max 5 (0.5 * gapFollower.Speed) ∧
    calculateOptimalGap (NewTrafficManager 0) gapFollower = 6 :=
  ⟨by decide!, by decide!,
    optimal_gap_is_time_gap (NewTrafficManager 0) gapFollower (by decide!) (by decide!),
    by decide!⟩

/-! ## The size cap on two platoons of one edge -/

/-- C40. The size cap on a run of the code: in `twinColumns` the platoons `P`
and `Q` on `up_incoming` have 16 members each, all of which exist.  After
`enforcePlatoonSizeLimits(15)` the tail `q15` of `Q` is the only member of
`p_split_up_incoming_0`, and the tail `p15` of `P`, a platoon member before the
call, is a member of no platoon (its `PlatoonID` still names the split
platoon). -/
theorem size_cap_loses_vehicle :
    (twinColumns.Platoons.all (fun kv => kv.2.VehicleIDs.all twinColumns.Vehicles.has) = true ∧
      "p15" ∈ platoonMembers twinColumns) ∧
    (enforcePlatoonSizeLimits (Sched.fixed 0) 15 twinColumns).map (fun t =>
      t.Platoons.map (fun kv => (kv.1, kv.2.VehicleIDs.length))) =
      some [("P", 15), ("Q", 15), ("p_split_up_incoming_0", 1)] ∧
    (enforcePlatoonSizeLimits (Sched.fixed 0) 15 twinColumns).map (fun t =>
      (t.Platoons.get "p_split_up_incoming_0").map (fun p => p.VehicleIDs)) =
      some (some ["q15"]) ∧
    (enforcePlatoonSizeLimits (Sched.fixed 0) 15 twinColumns).map (fun t =>
      decide ("p15" ∈ platoonMembers t)) = some false ∧
    (enforcePlatoonSizeLimits (Sched.fixed 0) 15 twinColumns).map (fun t =>
      (t.Vehicles.get "p15").map (fun v => v.PlatoonID)) =
      some (some "p_split_up_incoming_0") := by
  refine ⟨⟨?_, ?_⟩, ?_, ?_, ?_, ?_⟩ <;> decide!

/-! ## Suppression of the other buckets by the forced-priority handler -/

theorem setDesired_isSome (tm : TrafficManager) (k x : String) (q : ℚ) :
    ((setDesired tm k q).Vehicles.get x).isSome = (tm.Vehicles.get x).isSome := by
  rw [setDesired_get]
  split_ifs
  · cases tm.Vehicles.get x <;> rfl
  · rfl

theorem boostPlatoon_isSome (tm : TrafficManager) (platoon : Platoon)
    (boost cap followerBoost : ℚ) (x : String) :
    ((boostPlatoon tm platoon boost cap followerBoost).Vehicles.get x).isSome =
      (tm.Vehicles.get x).isSome := by
  unfold boostPlatoon
  try simp only []
  refine foldl_preserves
    (fun t : TrafficManager => (t.Vehicles.get x).isSome = (tm.Vehicles.get x).isSome) _ ?_ _ _
    (setDesired_isSome _ _ _ _)
  intro t vid ht
  try simp only []
  split_ifs
  · exact ht
  · split
    · exact ht
    · exact (setDesired_isSome _ _ _ _).trans ht

theorem stopOtherEdges_isSome (tm : TrafficManager) (order : List String)
    (vehiclesByEdge : GoMap (List String)) (edge x : String) :
    ((stopOtherEdges tm order vehiclesByEdge edge).Vehicles.get x).isSome =
      (tm.Vehicles.get x).isSome := by
  unfold stopOtherEdges
  refine foldl_preserves
    (fun t : TrafficManager => (t.Vehicles.get x).isSome = (tm.Vehicles.get x).isSome) _ ?_ _ _
    rfl
  intro t o ht
  try simp only []
  split_ifs
  · exact ht
  · split
    · exact ht
    · exact foldl_preserves
        (fun t' : TrafficManager => (t'.Vehicles.get x).isSome = (tm.Vehicles.get x).isSome) _
        (fun t' v h => (setDesired_isSome t' v x 0.0).trans h) _ _ ht

/-- The stop loop of the forced-priority handler, on any state: a vehicle
that exists and is held under a bucket key other than `edge` still exists
afterwards and has desired speed 0. -/
theorem stopOtherEdges_stops (s : Sched) (hfair : s.Fair) (tm : TrafficManager)
    (site ctx : String) (vehiclesByEdge : GoMap (List String)) (edge other : String)
    (vehicles : List String) (x : String)
    (hb : vehiclesByEdge.get other = some vehicles) (hne : other ≠ edge) (hx : x ∈ vehicles)
    (hsome : (tm.Vehicles.get x).isSome = true) :
    ∃ v, (stopOtherEdges tm (s.ord site ctx vehiclesByEdge.keys) vehiclesByEdge
      edge).Vehicles.get x = some v ∧ v.DesiredSpeed = 0 := by
  have h1 := stopOtherEdges_isSome tm (s.ord site ctx vehiclesByEdge.keys) vehiclesByEdge edge x
  rw [hsome] at h1
  obtain ⟨v, hv⟩ := Option.isSome_iff_exists.mp h1
  exact ⟨v, hv, stopOtherEdges_zero tm _ vehiclesByEdge edge other vehicles x
    ((hfair _ _ _).mem_iff.mpr (mem_keys_of_get _ _ _ hb)) hb hne hx v hv⟩

/-- C32. Forced-priority suppression at handler level: under a fair schedule,
whenever `handleForcedPriorityPlatoons` reasserts the priority of a platoon
listed under the bucket key `e`, or grants forced priority to one, every
vehicle that exists and is held in `vehiclesByEdge` under a key other than `e`
exists on return and has desired speed 0, whether or not it belongs to the
prioritised platoon. -/
theorem forced_priority_suppression (s : Sched) (hfair : s.Fair) (tm : TrafficManager)
    (intersectionID : String) (vehiclesByEdge platoonsByEdge : GoMap (List String))
    (e p : String)
    (hsel : findMaintained s tm intersectionID
        (s.now "handleForcedPriorityPlatoons" intersectionID) platoonsByEdge = some (e, p) ∨
      (findMaintained s tm intersectionID
        (s.now "handleForcedPriorityPlatoons" intersectionID) platoonsByEdge = none ∧
       findForced s tm intersectionID platoonsByEdge = some (e, p)))
    (other : String) (vehicles : List String) (x : String) (v0 : Vehicle)
    (hb : vehiclesByEdge.get other = some vehicles) (hne : other ≠ e) (hx : x ∈ vehicles)
    (hv0 : tm.Vehicles.get x = some v0) :
    ∃ v, (handleForcedPriorityPlatoons s tm intersectionID vehiclesByEdge
      platoonsByEdge).Vehicles.get x = some v ∧ v.DesiredSpeed = 0 := by
  have hsome : (tm.Vehicles.get x).isSome = true := by rw [hv0]; rfl
  unfold handleForcedPriorityPlatoons
  rcases hsel with hm | ⟨hm, hf⟩
  · have hq : hasActivePriority tm (s.now "handleForcedPriorityPlatoons" intersectionID) p
        = true := by
      unfold findMaintained at hm
      exact List.find?_some
        (p := fun ep : String × String =>
          hasActivePriority tm (s.now "handleForcedPriorityPlatoons" intersectionID) ep.2) hm
    simp only [hm]
    cases hp : tm.Platoons.get p with
    | none => simp [hasActivePriority, hp] at hq
    | some platoon =>
      simp only []
      exact stopOtherEdges_stops s hfair _ _ _ vehiclesByEdge e other vehicles x hb hne hx
        ((boostPlatoon_isSome _ _ _ _ _ _).trans hsome)
  · have hq : qualifiesForForced tm p = true := by
      unfold findForced at hf
      exact List.find?_some (p := fun ep : String × String => qualifiesForForced tm ep.2) hf
    simp only [hm, hf]
    cases hp : tm.Platoons.get p with
    | none => simp [qualifiesForForced, hp] at hq
    | some platoon =>
      simp only []
      refine stopOtherEdges_stops s hfair _ _ _ vehiclesByEdge e other vehicles x hb hne hx
        ((boostPlatoon_isSome _ _ _ _ _ _).trans ?_)
      rw [modifyPlatoon_vehicles]
      exact hsome

theorem forced_priority_suppression_witness :
    findForced (Sched.fixed 0) queuedState ":J" [("0", ["p"])] = some ("0", "p") ∧
    queuedPlatoon.LeaderID = "v1" ∧
    ∃ v, (handleForcedPriorityPlatoons (Sched.fixed 0) queuedState ":J" splitQueue
        [("0", ["p"])]).Vehicles.get "v1" = some v ∧ v.DesiredSpeed = 0 :=
  ⟨by decide!, rfl,
    forced_priority_suppression (Sched.fixed 0) (fixed_fair 0) queuedState ":J" splitQueue
      [("0", ["p"])] "0" "p" (Or.inr ⟨by decide!, by decide!⟩) "1" ["v1", "x"] "v1" queuedLeader
      (by decide) (by decide) (by decide) (by decide!)⟩

/-! ## The merge of two platoons -/

theorem modifyPlatoon_vehicleToPlatoon (tm : TrafficManager) (k : String)
    (f : Platoon → Platoon) :
    (modifyPlatoon tm k f).VehicleToPlatoon = tm.VehicleToPlatoon := by
  unfold modifyPlatoon
  split <;> rfl

/-- The member loop of `mergePlatoons` on one member `vid`: the state after
the step, read at the vehicle `x` and at the map entry of `x`. -/
theorem mergeStep_get (L leader : String) (t : TrafficManager) (vid x : String) :
    let t' := (match t.Vehicles.get vid with
      | none => t
      | some _ =>
        if vid ≠ leader then
          let tm' := modifyVehicle t vid (fun v => { v with PlatoonID := L })
          { tm' with VehicleToPlatoon := tm'.VehicleToPlatoon.set vid L }
        else t)
    t'.Platoons = t.Platoons ∧
    (t'.Vehicles.get x).isSome = (t.Vehicles.get x).isSome ∧
    (vid ≠ x → t'.Vehicles.get x = t.Vehicles.get x ∧
      t'.VehicleToPlatoon.get x = t.VehicleToPlatoon.get x) ∧
    (vid = leader → t' = t) ∧
    (vid = x → vid ≠ leader → ∀ v0, t.Vehicles.get x = some v0 →
      ∃ v, t'.Vehicles.get x = some v ∧ v.PlatoonID = L ∧
        t'.VehicleToPlatoon.get x = some L) := by
  intro t'
  cases hv : t.Vehicles.get vid with
  | none =>
    have ht : t' = t := by simp only [t', hv]
    rw [ht]
    refine ⟨rfl, rfl, fun _ => ⟨rfl, rfl⟩, fun _ => rfl, ?_⟩
    intro hx _ v0 h0
    rw [← hx, hv] at h0
    cases h0
  | some w =>
    by_cases hl : vid = leader
    · have ht : t' = t := by
        subst hl
        simp only [t', hv, ne_eq, not_true_eq_false, if_false]
      rw [ht]
      exact ⟨rfl, rfl, fun _ => ⟨rfl, rfl⟩, fun _ => rfl, fun _ h => absurd hl h⟩
    · have ht : t' = { modifyVehicle t vid (fun v => { v with PlatoonID := L }) with
          VehicleToPlatoon :=
            (modifyVehicle t vid (fun v => { v with PlatoonID := L })).VehicleToPlatoon.set
              vid L } := by
        simp only [t', hv, ne_eq, hl, not_false_eq_true, if_true]
      rw [ht]
      refine ⟨modifyVehicle_platoons _ _ _, ?_, ?_, fun h => absurd h hl, ?_⟩
      · show ((modifyVehicle t vid _).Vehicles.get x).isSome = _
        rw [modifyVehicle_get]
        split_ifs
        · cases t.Vehicles.get x <;> rfl
        · rfl
      · intro hne
        constructor
        · show (modifyVehicle t vid _).Vehicles.get x = _
          rw [modifyVehicle_get, if_neg hne]
        · show ((modifyVehicle t vid _).VehicleToPlatoon.set vid L).get x = _
          rw [get_set, if_neg hne, modifyVehicle_vehicleToPlatoon]
      · intro hx _ v0 h0
        subst hx
        refine ⟨{ v0 with PlatoonID := L }, ?_, rfl, ?_⟩
        · show (modifyVehicle t vid _).Vehicles.get vid = _
          rw [modifyVehicle_get, if_pos rfl, h0]
          rfl
        · show ((modifyVehicle t vid _).VehicleToPlatoon.set vid L).get vid = _
          rw [get_set, if_pos rfl]

/-- The member loop of `mergePlatoons`: it leaves the platoons, the entry of
the trailing leader and every vehicle outside the list as they are, and gives
every other listed vehicle that exists the id of the leading platoon, in its
record and in the reverse map. -/
theorem mergeLoop_spec (L leader : String) (members : List String) (t : TrafficManager) :
    (members.foldl
      (fun (tm : TrafficManager) (vid : String) =>
        match tm.Vehicles.get vid with
        | none => tm
        | some _ =>
          if vid ≠ leader then
            let tm' := modifyVehicle tm vid (fun v => { v with PlatoonID := L })
            { tm' with VehicleToPlatoon := tm'.VehicleToPlatoon.set vid L }
          else tm) t).Platoons = t.Platoons ∧
    (∀ x, ((members.foldl
      (fun (tm : TrafficManager) (vid : String) =>
        match tm.Vehicles.get vid with
        | none => tm
        | some _ =>
          if vid ≠ leader then
            let tm' := modifyVehicle tm vid (fun v => { v with PlatoonID := L })
            { tm' with VehicleToPlatoon := tm'.VehicleToPlatoon.set vid L }
          else tm) t).Vehicles.get x).isSome = (t.Vehicles.get x).isSome) ∧
    (∀ x, (x ∉ members ∨ x = leader) →
      (members.foldl
        (fun (tm : TrafficManager) (vid : String) =>
          match tm.Vehicles.get vid with
          | none => tm
          | some _ =>
            if vid ≠ leader then
              let tm' := modifyVehicle tm vid (fun v => { v with PlatoonID := L })
              { tm' with VehicleToPlatoon := tm'.VehicleToPlatoon.set vid L }
            else tm) t).Vehicles.get x = t.Vehicles.get x ∧
      (members.foldl
        (fun (tm : TrafficManager) (vid : String) =>
          match tm.Vehicles.get vid with
          | none => tm
          | some _ =>
            if vid ≠ leader then
              let tm' := modifyVehicle tm vid (fun v => { v with PlatoonID := L })
              { tm' with VehicleToPlatoon := tm'.VehicleToPlatoon.set vid L }
            else tm) t).VehicleToPlatoon.get x = t.VehicleToPlatoon.get x) ∧
    (∀ x, x ∈ members → x ≠ leader → ∀ v0, t.Vehicles.get x = some v0 →
      ∃ v, (members.foldl
        (fun (tm : TrafficManager) (vid : String) =>
          match tm.Vehicles.get vid with
          | none => tm
          | some _ =>
            if vid ≠ leader then
              let tm' := modifyVehicle tm vid (fun v => { v with PlatoonID := L })
              { tm' with VehicleToPlatoon := tm'.VehicleToPlatoon.set vid L }
            else tm) t).Vehicles.get x = some v ∧ v.PlatoonID = L ∧
        (members.foldl
          (fun (tm : TrafficManager) (vid : String) =>
            match tm.Vehicles.get vid with
            | none => tm
            | some _ =>
              if vid ≠ leader then
                let tm' := modifyVehicle tm vid (fun v => { v with PlatoonID := L })
                { tm' with VehicleToPlatoon := tm'.VehicleToPlatoon.set vid L }
              else tm) t).VehicleToPlatoon.get x = some L) := by
  induction members generalizing t with
  | nil =>
    refine ⟨rfl, fun _ => rfl, fun _ _ => ⟨rfl, rfl⟩, ?_⟩
    intro x hx
    simp at hx
  | cons a l ih =>
    simp only [List.foldl_cons]
    obtain ⟨i1, i2, i3, i4⟩ := ih
      (match t.Vehicles.get a with
        | none => t
        | some _ =>
          if a ≠ leader then
            let tm' := modifyVehicle t a (fun v => { v with PlatoonID := L })
            { tm' with VehicleToPlatoon := tm'.VehicleToPlatoon.set a L }
          else t)
    have step := fun x => mergeStep_get L leader t a x
    refine ⟨i1.trans (step a).1, fun x => (i2 x).trans (step x).2.1, ?_, ?_⟩
    · intro x hx
      have hx' : x ∉ l ∨ x = leader := by
        rcases hx with h | h
        · exact Or.inl (fun hm => h (List.mem_cons_of_mem _ hm))
        · exact Or.inr h
      obtain ⟨j1, j2⟩ := i3 x hx'
      by_cases hax : a = x
      · rcases hx with h | h
        · exact absurd (hax ▸ List.mem_cons_self a l) h
        · have hal : a = leader := hax.trans h
          have hsame := (step x).2.2.2.1 hal
          rw [j1, j2]
          constructor
          · exact congrArg (fun u : TrafficManager => u.Vehicles.get x) hsame
          · exact congrArg (fun u : TrafficManager => u.VehicleToPlatoon.get x) hsame
      · obtain ⟨k1, k2⟩ := (step x).2.2.1 hax
        exact ⟨j1.trans k1, j2.trans k2⟩
    · intro x hx hxl v0 h0
      by_cases hin : x ∈ l
      · have hs := (step x).2.1
        rw [h0] at hs
        obtain ⟨v1, hv1⟩ := Option.isSome_iff_exists.mp hs
        exact i4 x hin hxl v1 hv1
      · have hax : a = x := by
          rcases List.mem_cons.mp hx with h | h
          · exact h.symm
          · exact absurd h hin
        obtain ⟨v, e1, e2, e3⟩ := (step x).2.2.2.2 hax (hax ▸ hxl) v0 h0
        obtain ⟨j1, j2⟩ := i3 x (Or.inl hin)
        exact ⟨v, j1.trans e1, e2, j2.trans e3⟩

/-- C39. Merge transfers membership: for two distinct existing platoons `L`
and `T` with duplicate-free member lists, in a world whose vehicles are stored
under their ids, after `mergePlatoons(L, T)` platoon `T` no longer exists; the
member list of `L` is duplicate-free, starts with the former members of `L`
in their order and holds exactly the members of `L` and of `T`; the leader of
`L` is unchanged; every member of `T` that exists has `PlatoonID = L` and is
mapped to `L`; and the former leader of `T`, if it exists, is no longer
flagged as a leader. -/
theorem merge_transfers_membership (tm : TrafficManager) (L T : String) (pL pT : Platoon)
    (hne : L ≠ T) (hL : tm.Platoons.get L = some pL) (hT : tm.Platoons.get T = some pT)
    (hdL : pL.VehicleIDs.Nodup) (hdT : pT.VehicleIDs.Nodup) (hid : KeyedByID tm) :
    (mergePlatoons tm L T).Platoons.get T = none ∧
    (∃ pL', (mergePlatoons tm L T).Platoons.get L = some pL' ∧
      pL'.VehicleIDs.Nodup ∧ pL.VehicleIDs <+: pL'.VehicleIDs ∧
      (∀ id, id ∈ pL'.VehicleIDs ↔ id ∈ pL.VehicleIDs ∨ id ∈ pT.VehicleIDs) ∧
      pL'.LeaderID = pL.LeaderID) ∧
    (∀ id v0, id ∈ pT.VehicleIDs → tm.Vehicles.get id = some v0 →
      ∃ v, (mergePlatoons tm L T).Vehicles.get id = some v ∧ v.PlatoonID = L ∧
        (mergePlatoons tm L T).VehicleToPlatoon.get id = some L) ∧
    (∀ v0, tm.Vehicles.get pT.LeaderID = some v0 →
      ∃ v, (mergePlatoons tm L T).Vehicles.get pT.LeaderID = some v ∧ v.IsLeader = false) := by
  obtain ⟨t1, ht1⟩ : ∃ t1 : TrafficManager, t1 = pT.VehicleIDs.foldl
      (fun (tm : TrafficManager) (vid : String) =>
        match tm.Vehicles.get vid with
        | none => tm
        | some _ =>
          if vid ≠ pT.LeaderID then
            let tm' := modifyVehicle tm vid (fun v => { v with PlatoonID := L })
            { tm' with VehicleToPlatoon := tm'.VehicleToPlatoon.set vid L }
          else tm) tm := ⟨_, rfl⟩
  have m := mergeLoop_spec L pT.LeaderID pT.VehicleIDs tm
  rw [← ht1] at m
  obtain ⟨m1, m2, m3, m4⟩ := m
  obtain ⟨l1, l2⟩ := m3 pT.LeaderID (Or.inr rfl)
  -- the state after the write through the pointer to the trailing leader
  obtain ⟨t2, ht2⟩ : ∃ t2 : TrafficManager, t2 =
      (match t1.Vehicles.get pT.LeaderID with
      | none => t1
      | some trailingLeader =>
        let tm' := modifyVehicle t1 pT.LeaderID
          (fun v => { v with IsLeader := false, PlatoonID := L })
        { tm' with VehicleToPlatoon := tm'.VehicleToPlatoon.set trailingLeader.ID L }) :=
    ⟨_, rfl⟩
  have hform : mergePlatoons tm L T =
      { modifyPlatoon t2 L (fun p => { p with
          VehicleIDs := pL.VehicleIDs ++
            pT.VehicleIDs.filter (fun vid => !containsVehicle pL.VehicleIDs vid) }) with
        Platoons := (modifyPlatoon t2 L (fun p => { p with
          VehicleIDs := pL.VehicleIDs ++
            pT.VehicleIDs.filter (fun vid => !containsVehicle pL.VehicleIDs vid) })).Platoons.del
              T } := by
    rw [ht2, ht1]
    unfold mergePlatoons
    rw [hL, hT]
    try rfl
  rw [hform]
  have hP2 : t2.Platoons = tm.Platoons := by
    rw [ht2]
    split
    · exact m1
    · exact (modifyVehicle_platoons _ _ _).trans m1
  have hlead : ∀ v0, tm.Vehicles.get pT.LeaderID = some v0 →
      t2.Vehicles.get pT.LeaderID = some { v0 with IsLeader := false, PlatoonID := L } ∧
      t2.VehicleToPlatoon.get pT.LeaderID = some L := by
    intro v0 h0
    have h1 : t1.Vehicles.get pT.LeaderID = some v0 := l1.trans h0
    rw [ht2]
    simp only [h1]
    constructor
    · show (modifyVehicle t1 pT.LeaderID _).Vehicles.get pT.LeaderID = _
      rw [modifyVehicle_get, if_pos rfl, h1]
      rfl
    · show ((modifyVehicle t1 pT.LeaderID _).VehicleToPlatoon.set v0.ID L).get pT.LeaderID = _
      rw [get_set, if_pos (hid _ _ h0)]
  have hother : ∀ x, x ≠ pT.LeaderID → t2.Vehicles.get x = t1.Vehicles.get x ∧
      (t1.VehicleToPlatoon.get x = some L → t2.VehicleToPlatoon.get x = some L) := by
    intro x hx
    rw [ht2]
    split
    · exact ⟨rfl, fun h => h⟩
    · constructor
      · show (modifyVehicle t1 pT.LeaderID _).Vehicles.get x = _
        rw [modifyVehicle_get, if_neg (Ne.symm hx)]
      · intro h
        show ((modifyVehicle t1 pT.LeaderID _).VehicleToPlatoon.set _ L).get x = _
        rw [get_set, modifyVehicle_vehicleToPlatoon]
        split_ifs
        · rfl
        · exact h
  have hPl : (modifyPlatoon t2 L (fun p => { p with
      VehicleIDs := pL.VehicleIDs ++
        pT.VehicleIDs.filter (fun vid => !containsVehicle pL.VehicleIDs vid) })).Platoons =
      tm.Platoons.set L { pL with
        VehicleIDs := pL.VehicleIDs ++
          pT.VehicleIDs.filter (fun vid => !containsVehicle pL.VehicleIDs vid) } := by
    unfold modifyPlatoon
    rw [hP2, hL]
  have hmem : ∀ id, containsVehicle pL.VehicleIDs id = true ↔ id ∈ pL.VehicleIDs := by
    intro id
    unfold containsVehicle
    rw [List.any_eq_true]
    constructor
    · rintro ⟨a, ha, h⟩
      have hx : a = id := of_decide_eq_true h
      exact hx ▸ ha
    · intro h
      exact ⟨id, h, decide_eq_true rfl⟩
  refine ⟨?_, ?_, ?_, ?_⟩
  · show ((modifyPlatoon t2 L _).Platoons.del T).get T = none
    rw [get_del, if_pos rfl]
  · refine ⟨{ pL with
        VehicleIDs := pL.VehicleIDs ++
          pT.VehicleIDs.filter (fun vid => !containsVehicle pL.VehicleIDs vid) }, ?_, ?_, ?_, ?_,
      rfl⟩
    · show ((modifyPlatoon t2 L _).Platoons.del T).get L = _
      rw [get_del, if_neg (Ne.symm hne), hPl, get_set, if_pos rfl]
    · show (pL.VehicleIDs ++ _).Nodup
      refine List.Nodup.append hdL (hdT.filter _) ?_
      intro a ha hb
      have := (List.mem_filter.mp hb).2
      rw [(hmem a).mpr ha] at this
      simp at this
    · exact List.prefix_append _ _
    · intro id
      show id ∈ pL.VehicleIDs ++ _ ↔ _
      rw [List.mem_append, List.mem_filter]
      constructor
      · rintro (h | ⟨h, _⟩)
        · exact Or.inl h
        · exact Or.inr h
      · rintro (h | h)
        · exact Or.inl h
        · by_cases hc : id ∈ pL.VehicleIDs
          · exact Or.inl hc
          · refine Or.inr ⟨h, ?_⟩
            have : containsVehicle pL.VehicleIDs id = false := by
              cases hcv : containsVehicle pL.VehicleIDs id
              · rfl
              · exact absurd ((hmem id).mp hcv) hc
            rw [this]
            rfl
  · intro id v0 hin h0
    show ∃ v, (modifyPlatoon t2 L _).Vehicles.get id = some v ∧ v.PlatoonID = L ∧
      (modifyPlatoon t2 L _).VehicleToPlatoon.get id = some L
    rw [modifyPlatoon_vehicles, modifyPlatoon_vehicleToPlatoon]
    by_cases hl : id = pT.LeaderID
    · subst hl
      obtain ⟨a, b⟩ := hlead v0 h0
      exact ⟨_, a, rfl, b⟩
    · obtain ⟨v, e1, e2, e3⟩ := m4 id hin hl v0 h0
      obtain ⟨o1, o2⟩ := hother id hl
      exact ⟨v, o1.trans e1, e2, o2 e3⟩
  · intro v0 h0
    show ∃ v, (modifyPlatoon t2 L _).Vehicles.get pT.LeaderID = some v ∧ v.IsLeader = false
    rw [modifyPlatoon_vehicles]
    exact ⟨_, (hlead v0 h0).1, rfl⟩

theorem mem_of_get {V : Type} (m : GoMap V) (k : String) (v : V) (h : m.get k = some v) :
    (k, v) ∈ m := by
  induction m with
  | nil => simp [GoMap.get] at h
  | cons hd tl ih =>
    obtain ⟨k0, v0⟩ := hd
    by_cases h0 : k0 = k
    · subst h0
      simp only [GoMap.get, if_true, Option.some.injEq] at h
      subst h
      exact List.mem_cons_self _ _
    · simp only [GoMap.get, h0, if_false] at h
      exact List.mem_cons_of_mem _ (ih h)

theorem keyedByID_of_all (tm : TrafficManager)
    (h : tm.Vehicles.all (fun kv => decide (kv.2.ID = kv.1)) = true) : KeyedByID tm := by
  intro k v hg
  have := List.all_eq_true.mp h (k, v) (mem_of_get _ _ _ hg)
  exact of_decide_eq_true this

theorem merge_transfers_membership_witness :
    (mergePlatoons mergeWorld "L" "T").Platoons.get "T" = none ∧
    (∃ pL', (mergePlatoons mergeWorld "L" "T").Platoons.get "L" = some pL' ∧
      pL'.VehicleIDs.Nodup ∧ mergeLeading.VehicleIDs <+: pL'.VehicleIDs ∧
      (∀ id, id ∈ pL'.VehicleIDs ↔ id ∈ mergeLeading.VehicleIDs ∨ id ∈ mergeTrailing.VehicleIDs) ∧
      pL'.LeaderID = mergeLeading.LeaderID) ∧
    (∀ id v0, id ∈ mergeTrailing.VehicleIDs → mergeWorld.Vehicles.get id = some v0 →
      ∃ v, (mergePlatoons mergeWorld "L" "T").Vehicles.get id = some v ∧ v.PlatoonID = "L" ∧
        (mergePlatoons mergeWorld "L" "T").VehicleToPlatoon.get id = some "L") ∧
    (∀ v0, mergeWorld.Vehicles.get mergeTrailing.LeaderID = some v0 →
      ∃ v, (mergePlatoons mergeWorld "L" "T").Vehicles.get mergeTrailing.LeaderID = some v ∧
        v.IsLeader = false) :=
  merge_transfers_membership mergeWorld "L" "T" mergeLeading mergeTrailing (by decide)
    (by decide!) (by decide!) (by decide) (by decide)
    (keyedByID_of_all mergeWorld (by decide!))

/-! ## The nearest vehicle ahead -/

/-- The search loop of `FindVehicleAhead` after the keys `visited`: when no
vehicle is held, none of the visited ones is ahead; otherwise the one held is
ahead, at the distance held, and no visited vehicle ahead is closer. -/
theorem findAhead_fold (tm : TrafficManager) (v : Vehicle) (hD : tm.DetectionDistance = 50)
    (l visited : List String) (st : Option String × ℚ)
    (h0 : st.1 = none → st.2 = 51 ∧ ∀ k ∈ visited, ∀ w, ¬ IsAhead tm v k w)
    (h1 : ∀ k0, st.1 = some k0 → ∃ w0, IsAhead tm v k0 w0 ∧ fsub w0.Pos v.Pos = st.2 ∧
      ∀ k ∈ visited, ∀ w, IsAhead tm v k w → st.2 ≤ fsub w.Pos v.Pos) :
    ((l.foldl (findAheadStep tm v) st).1 = none →
      ∀ k ∈ visited ++ l, ∀ w, ¬ IsAhead tm v k w) ∧
    (∀ k0, (l.foldl (findAheadStep tm v) st).1 = some k0 →
      ∃ w0, IsAhead tm v k0 w0 ∧
        ∀ k ∈ visited ++ l, ∀ w, IsAhead tm v k w → fsub w0.Pos v.Pos ≤ fsub w.Pos v.Pos) := by
  induction l generalizing st visited with
  | nil =>
    simp only [List.foldl_nil, List.append_nil]
    refine ⟨fun h => (h0 h).2, ?_⟩
    intro k0 hk0
    obtain ⟨w0, a, b, c⟩ := h1 k0 hk0
    exact ⟨w0, a, fun k hk w hw => b ▸ c k hk w hw⟩
  | cons a l ih =>
    simp only [List.foldl_cons]
    have happ : visited ++ a :: l = (visited ++ [a]) ++ l := by simp
    rw [happ]
    apply ih
    · -- nothing is held after the step at `a`
      intro hnone
      unfold findAheadStep at hnone ⊢
      cases hg : tm.Vehicles.get a with
      | none =>
        simp only [hg] at hnone ⊢
        obtain ⟨e, hall⟩ := h0 hnone
        refine ⟨e, ?_⟩
        intro k hk w hw
        rcases List.mem_append.mp hk with hk | hk
        · exact hall k hk w hw
        · simp only [List.mem_singleton] at hk
          subst hk
          rw [hw.1] at hg
          cases hg
      | some other =>
        simp only [hg] at hnone ⊢
        split_ifs at hnone ⊢ with c1 c2 c3 c4
        · obtain ⟨e, hall⟩ := h0 hnone
          refine ⟨e, ?_⟩
          intro k hk w hw
          rcases List.mem_append.mp hk with hk | hk
          · exact hall k hk w hw
          · simp only [List.mem_singleton] at hk
            subst hk
            have : w = other := Option.some.inj (hw.1.symm.trans hg)
            subst this
            exact hw.2.1 c1
        · obtain ⟨e, hall⟩ := h0 hnone
          refine ⟨e, ?_⟩
          intro k hk w hw
          rcases List.mem_append.mp hk with hk | hk
          · exact hall k hk w hw
          · simp only [List.mem_singleton] at hk
            subst hk
            have : w = other := Option.some.inj (hw.1.symm.trans hg)
            subst this
            rcases c2 with c | c
            · exact c hw.2.2.1
            · exact c hw.2.2.2.1
        · obtain ⟨e, hall⟩ := h0 hnone
          refine ⟨e, ?_⟩
          intro k hk w hw
          rcases List.mem_append.mp hk with hk | hk
          · exact hall k hk w hw
          · simp only [List.mem_singleton] at hk
            subst hk
            have : w = other := Option.some.inj (hw.1.symm.trans hg)
            subst this
            rw [hD] at c3
            rcases c3 with c | c
            · exact absurd hw.2.2.2.2.1 (not_lt.mpr c)
            · exact absurd hw.2.2.2.2.2 (not_le.mpr c)
        · -- a candidate that is not closer than the distance held: impossible
          obtain ⟨e, _⟩ := h0 hnone
          exfalso
          rw [hD] at c3
          have hle : fsub other.Pos v.Pos ≤ 50 := by
            by_contra hc
            exact c3 (Or.inr (not_le.mp hc))
          rw [e] at c4
          exact c4 (lt_of_le_of_lt hle (by norm_num))
    · -- a vehicle is held after the step at `a`
      intro k0 hk0
      unfold findAheadStep at hk0 ⊢
      cases hg : tm.Vehicles.get a with
      | none =>
        simp only [hg] at hk0 ⊢
        obtain ⟨w0, p1, p2, p3⟩ := h1 k0 hk0
        refine ⟨w0, p1, p2, ?_⟩
        intro k hk w hw
        rcases List.mem_append.mp hk with hk | hk
        · exact p3 k hk w hw
        · simp only [List.mem_singleton] at hk
          subst hk
          rw [hw.1] at hg
          cases hg
      | some other =>
        simp only [hg] at hk0 ⊢
        split_ifs at hk0 ⊢ with c1 c2 c3 c4
        · obtain ⟨w0, p1, p2, p3⟩ := h1 k0 hk0
          refine ⟨w0, p1, p2, ?_⟩
          intro k hk w hw
          rcases List.mem_append.mp hk with hk | hk
          · exact p3 k hk w hw
          · simp only [List.mem_singleton] at hk
            subst hk
            have : w = other := Option.some.inj (hw.1.symm.trans hg)
            subst this
            exact absurd c1 hw.2.1
        · obtain ⟨w0, p1, p2, p3⟩ := h1 k0 hk0
          refine ⟨w0, p1, p2, ?_⟩
          intro k hk w hw
          rcases List.mem_append.mp hk with hk | hk
          · exact p3 k hk w hw
          · simp only [List.mem_singleton] at hk
            subst hk
            have : w = other := Option.some.inj (hw.1.symm.trans hg)
            subst this
            rcases c2 with c | c
            · exact absurd hw.2.2.1 c
            · exact absurd hw.2.2.2.1 c
        · obtain ⟨w0, p1, p2, p3⟩ := h1 k0 hk0
          refine ⟨w0, p1, p2, ?_⟩
          intro k hk w hw
          rcases List.mem_append.mp hk with hk | hk
          · exact p3 k hk w hw
          · simp only [List.mem_singleton] at hk
            subst hk
            have : w = other := Option.some.inj (hw.1.symm.trans hg)
            subst this
            rw [hD] at c3
            rcases c3 with c | c
            · exact absurd hw.2.2.2.2.1 (not_lt.mpr c)
            · exact absurd hw.2.2.2.2.2 (not_le.mpr c)
        · -- the step takes `a`
          simp only [Option.some.injEq] at hk0
          subst hk0
          rw [hD] at c3
          have hpos : 0 < fsub other.Pos v.Pos := by
            by_contra hc
            exact c3 (Or.inl (not_lt.mp hc))
          have hle : fsub other.Pos v.Pos ≤ 50 := by
            by_contra hc
            exact c3 (Or.inr (not_le.mp hc))
          have hedge : other.Edge = v.Edge := by
            by_contra hc
            exact c2 (Or.inl hc)
          have hlane : other.Lane = v.Lane := by
            by_contra hc
            exact c2 (Or.inr hc)
          refine ⟨other, ⟨hg, c1, hedge, hlane, hpos, hle⟩, rfl, ?_⟩
          intro k hk w hw
          rcases List.mem_append.mp hk with hk | hk
          · cases hst : st.1 with
            | none =>
              exact absurd hw ((h0 hst).2 k hk w)
            | some kprev =>
              obtain ⟨_, _, _, p3⟩ := h1 kprev hst
              exact le_trans (le_of_lt c4) (p3 k hk w hw)
          · simp only [List.mem_singleton] at hk
            subst hk
            have : w = other := Option.some.inj (hw.1.symm.trans hg)
            subst this
            exact le_rfl
        · obtain ⟨w0, p1, p2, p3⟩ := h1 k0 hk0
          refine ⟨w0, p1, p2, ?_⟩
          intro k hk w hw
          rcases List.mem_append.mp hk with hk | hk
          · exact p3 k hk w hw
          · simp only [List.mem_singleton] at hk
            subst hk
            have : w = other := Option.some.inj (hw.1.symm.trans hg)
            subst this
            exact not_lt.mp c4

/-- The result of `FindVehicleAhead` under a fair schedule: nil exactly when
no vehicle is ahead, otherwise a nearest vehicle ahead. -/
theorem findVehicleAhead_spec (s : Sched) (hfair : s.Fair) (tm : TrafficManager) (v : Vehicle)
    (hD : tm.DetectionDistance = 50) :
    (FindVehicleAhead s tm v = none ↔ ∀ k w, ¬ IsAhead tm v k w) ∧
    (∀ k, FindVehicleAhead s tm v = some k → ∃ w, IsNearestAhead tm v k w) := by
  have hmem : ∀ k w, IsAhead tm v k w → k ∈ [] ++ s.ord "FindVehicleAhead" v.ID tm.Vehicles.keys :=
    fun k w hw => by
      simpa using (hfair _ _ _).mem_iff.mpr (mem_keys_of_get _ _ _ hw.1)
  obtain ⟨f0, f1⟩ := findAhead_fold tm v hD (s.ord "FindVehicleAhead" v.ID tm.Vehicles.keys) []
    (none, fadd tm.DetectionDistance 1)
    (fun _ => ⟨by rw [hD]; exact fadd_fifty_one, fun k hk => by simp at hk⟩)
    (fun k0 hk0 => by cases hk0)
  have hsome : ∀ k, FindVehicleAhead s tm v = some k → ∃ w, IsNearestAhead tm v k w := by
    intro k hk
    obtain ⟨w0, a, b⟩ := f1 k hk
    exact ⟨w0, a, fun k' w' hw' => b k' (hmem k' w' hw') w' hw'⟩
  refine ⟨⟨fun h k w hw => f0 h k (hmem k w hw) w hw, ?_⟩, hsome⟩
  intro hall
  cases hr : FindVehicleAhead s tm v with
  | none => rfl
  | some k =>
    obtain ⟨w, hw, _⟩ := hsome k hr
    exact absurd hw (hall k w)

/-- `FindVehicleAhead` reads the vehicles only through `linkView`. -/
theorem findVehicleAhead_congr (s : Sched) (t tm : TrafficManager) (vt v : Vehicle)
    (hD : t.DetectionDistance = tm.DetectionDistance)
    (hk : t.Vehicles.keys = tm.Vehicles.keys)
    (hg : ∀ k, (t.Vehicles.get k).map linkView = (tm.Vehicles.get k).map linkView)
    (hv : linkView vt = linkView v) :
    FindVehicleAhead s t vt = FindVehicleAhead s tm v := by
  simp only [linkView, Prod.mk.injEq] at hv
  obtain ⟨e1, e2, e3, e4⟩ := hv
  have hstep : findAheadStep t vt = findAheadStep tm v := by
    funext st k
    unfold findAheadStep
    have h := hg k
    cases h1 : t.Vehicles.get k with
    | none =>
      cases h2 : tm.Vehicles.get k with
      | none => rfl
      | some w => rw [h1, h2] at h; cases h
    | some w1 =>
      cases h2 : tm.Vehicles.get k with
      | none => rw [h1, h2] at h; cases h
      | some w2 =>
        rw [h1, h2] at h
        simp only [Option.map_some', Option.some.injEq, linkView, Prod.mk.injEq] at h
        obtain ⟨a1, a2, a3, a4⟩ := h
        simp only [a1, a2, a3, a4, e1, e2, e3, e4, hD]
  unfold FindVehicleAhead
  rw [hstep, hk, e1, hD]

theorem modifyVehicle_keys (tm : TrafficManager) (k : String) (f : Vehicle → Vehicle) :
    (modifyVehicle tm k f).Vehicles.keys = tm.Vehicles.keys := by
  unfold modifyVehicle
  cases h : tm.Vehicles.get k with
  | none => rfl
  | some v =>
    simp only []
    rw [keys_set, if_pos (mem_keys_of_get _ _ _ h)]

theorem modifyVehicle_detection (tm : TrafficManager) (k : String) (f : Vehicle → Vehicle) :
    (modifyVehicle tm k f).DetectionDistance = tm.DetectionDistance := by
  unfold modifyVehicle
  split <;> rfl

theorem modifyVehicle_linkView (tm : TrafficManager) (x k : String) (f : Vehicle → Vehicle)
    (hf : ∀ v, linkView (f v) = linkView v) :
    ((modifyVehicle tm x f).Vehicles.get k).map linkView = (tm.Vehicles.get k).map linkView := by
  rw [modifyVehicle_get]
  split_ifs
  · cases tm.Vehicles.get k with
    | none => rfl
    | some v => simp [hf]
  · rfl

/-- The state that the two loops of `updateLeaderRelationships` maintain
relative to the state `tm` before the call: the detection distance, the keys
and the fields read by `FindVehicleAhead` are those of `tm`. -/
theorem linkStep_frame (s : Sched) (tm t : TrafficManager) (b : String)
    (hI : t.DetectionDistance = tm.DetectionDistance ∧ t.Vehicles.keys = tm.Vehicles.keys ∧
      ∀ k, (t.Vehicles.get k).map linkView = (tm.Vehicles.get k).map linkView) :
    (linkStep s t b).DetectionDistance = tm.DetectionDistance ∧
    (linkStep s t b).Vehicles.keys = tm.Vehicles.keys ∧
    ∀ k, ((linkStep s t b).Vehicles.get k).map linkView = (tm.Vehicles.get k).map linkView := by
  obtain ⟨h1, h2, h3⟩ := hI
  unfold linkStep
  split
  · exact ⟨h1, h2, h3⟩
  · split
    · exact ⟨h1, h2, h3⟩
    · split
      · exact ⟨h1, h2, h3⟩
      · exact ⟨(modifyVehicle_detection _ _ _).trans h1, (modifyVehicle_keys _ _ _).trans h2,
          fun k => by
            refine (modifyVehicle_linkView _ _ _ _ ?_).trans (h3 k)
            intro w
            rfl⟩

/-- The entry that `linkStep` leaves at its own key, on a state that agrees
with `tm` on what `FindVehicleAhead` reads: the leader link is the one computed
on `tm` when a vehicle is found, and is untouched otherwise. -/
theorem linkStep_self (s : Sched) (tm t : TrafficManager) (k : String) (vt : Vehicle)
    (hI : t.DetectionDistance = tm.DetectionDistance ∧ t.Vehicles.keys = tm.Vehicles.keys ∧
      ∀ k, (t.Vehicles.get k).map linkView = (tm.Vehicles.get k).map linkView)
    (hvt : t.Vehicles.get k = some vt)
    (hprev : vt.LeaderID = "" ∨ vt.LeaderID = linkedLeader s tm k) :
    ∃ v', (linkStep s t k).Vehicles.get k = some v' ∧ v'.LeaderID = linkedLeader s tm k := by
  obtain ⟨h1, h2, h3⟩ := hI
  have hk := h3 k
  rw [hvt] at hk
  cases hv : tm.Vehicles.get k with
  | none => rw [hv] at hk; cases hk
  | some v =>
    rw [hv] at hk
    simp only [Option.map_some', Option.some.injEq] at hk
    have hfva : FindVehicleAhead s t vt = FindVehicleAhead s tm v :=
      findVehicleAhead_congr s t tm vt v h1 h2 h3 hk
    unfold linkStep
    simp only [hvt, hfva]
    unfold linkedLeader at hprev ⊢
    simp only [hv] at hprev ⊢
    cases hr : FindVehicleAhead s tm v with
    | none =>
      simp only [hr] at hprev ⊢
      exact ⟨vt, hvt, by rcases hprev with h | h <;> exact h⟩
    | some lk =>
      simp only [hr] at hprev ⊢
      have hl := h3 lk
      cases hlt : t.Vehicles.get lk with
      | none =>
        rw [hlt] at hl
        cases hl0 : tm.Vehicles.get lk with
        | none =>
          simp only [vehicleID, hl0] at hprev ⊢
          exact ⟨vt, hvt, by rcases hprev with h | h <;> exact h⟩
        | some w => rw [hl0] at hl; cases hl
      | some leader =>
        rw [hlt] at hl
        cases hl0 : tm.Vehicles.get lk with
        | none => rw [hl0] at hl; cases hl
        | some w =>
          rw [hl0] at hl
          simp only [Option.map_some', Option.some.injEq, linkView, Prod.mk.injEq] at hl
          simp only [vehicleID, hl0]
          refine ⟨{ vt with LeaderID := leader.ID }, ?_, hl.1⟩
          rw [modifyVehicle_get, if_pos rfl, hvt]
          rfl

theorem linkStep_other (s : Sched) (t : TrafficManager) (b k : String) (h : b ≠ k) :
    (linkStep s t b).Vehicles.get k = t.Vehicles.get k := by
  unfold linkStep
  split
  · rfl
  · split
    · rfl
    · split
      · rfl
      · rw [modifyVehicle_get, if_neg h]

/-- C31 (amended). Nearest vehicle ahead: with `DetectionDistance = 50` and
loops that visit every vehicle once (they insert into no map),
`FindVehicleAhead(v)` returns nil iff no other vehicle `w` is on the edge and
lane of `v` with `0 < w.Pos - v.Pos ≤ 50`, the difference being the one the
`float64` subtraction gives; otherwise it returns such a vehicle whose
`float64` difference is minimal; and after `updateLeaderRelationships` the
`LeaderID` of every stored vehicle `v` is the id of the vehicle that
`FindVehicleAhead(v)` returns, empty when it returns nil. -/
theorem nearest_vehicle_ahead (s : Sched) (hfair : s.Fair) (tm : TrafficManager) (v : Vehicle)
    (hD : tm.DetectionDistance = 50) :
    (FindVehicleAhead s tm v = none ↔ ∀ k w, ¬ IsAhead tm v k w) ∧
    (∀ k, FindVehicleAhead s tm v = some k → ∃ w, IsNearestAhead tm v k w) ∧
    (∀ kv, tm.Vehicles.get kv = some v →
      ∃ v', (updateLeaderRelationships s tm).Vehicles.get kv = some v' ∧
        ((∀ k w, ¬ IsAhead tm v k w) → v'.LeaderID = "") ∧
        (∀ k, FindVehicleAhead s tm v = some k →
          ∃ w, IsNearestAhead tm v k w ∧ v'.LeaderID = w.ID)) := by
  obtain ⟨hnone, hsome⟩ := findVehicleAhead_spec s hfair tm v hD
  refine ⟨hnone, hsome, ?_⟩
  intro kv hv
  -- the clearing loop
  have hclear : ∀ (l : List String) (t : TrafficManager),
      (t.DetectionDistance = tm.DetectionDistance ∧ t.Vehicles.keys = tm.Vehicles.keys ∧
        ∀ k, (t.Vehicles.get k).map linkView = (tm.Vehicles.get k).map linkView) →
      ((l.foldl (fun tm k => modifyVehicle tm k (fun v => { v with LeaderID := "" }))
          t).DetectionDistance = tm.DetectionDistance ∧
        (l.foldl (fun tm k => modifyVehicle tm k (fun v => { v with LeaderID := "" }))
          t).Vehicles.keys = tm.Vehicles.keys ∧
        ∀ k, ((l.foldl (fun tm k => modifyVehicle tm k (fun v => { v with LeaderID := "" }))
          t).Vehicles.get k).map linkView = (tm.Vehicles.get k).map linkView) := by
    intro l t ht
    refine foldl_preserves
      (fun u : TrafficManager => u.DetectionDistance = tm.DetectionDistance ∧
        u.Vehicles.keys = tm.Vehicles.keys ∧
        ∀ k, (u.Vehicles.get k).map linkView = (tm.Vehicles.get k).map linkView)
      _ ?_ l t ht
    rintro u a ⟨h1, h2, h3⟩
    exact ⟨(modifyVehicle_detection _ _ _).trans h1, (modifyVehicle_keys _ _ _).trans h2,
      fun k => by
            refine (modifyVehicle_linkView _ _ _ _ ?_).trans (h3 k)
            intro w
            rfl⟩
  have hcleared : ∀ k v', k ∈ s.ord "updateLeaderRelationships.clear" "" tm.Vehicles.keys →
      ((s.ord "updateLeaderRelationships.clear" "" tm.Vehicles.keys).foldl
        (fun tm k => modifyVehicle tm k (fun v => { v with LeaderID := "" })) tm).Vehicles.get k
          = some v' → v'.LeaderID = "" := by
    intro k v' hk
    refine foldl_establishes
      (fun (u : TrafficManager) (a : String) => ∀ v', u.Vehicles.get a = some v' →
        v'.LeaderID = "")
      _ ?_ ?_ _ tm k hk v'
    · intro u a w hw
      rw [modifyVehicle_get, if_pos rfl] at hw
      cases hu : u.Vehicles.get a with
      | none => rw [hu] at hw; cases hw
      | some w0 =>
        rw [hu] at hw
        simp only [Option.map_some', Option.some.injEq] at hw
        rw [← hw]
    · intro u a b hb w hw
      rw [modifyVehicle_get] at hw
      split_ifs at hw with hab
      · cases hu : u.Vehicles.get b with
        | none => rw [hu] at hw; cases hw
        | some w0 =>
          rw [hu] at hw
          simp only [Option.map_some', Option.some.injEq] at hw
          rw [← hw]
      · exact hb w hw
  unfold updateLeaderRelationships
  simp only []
  generalize hT1 : (s.ord "updateLeaderRelationships.clear" "" tm.Vehicles.keys).foldl
    (fun tm k => modifyVehicle tm k (fun v => { v with LeaderID := "" })) tm = t1 at hcleared
  have hI1 := hclear (s.ord "updateLeaderRelationships.clear" "" tm.Vehicles.keys) tm
    ⟨rfl, rfl, fun _ => rfl⟩
  rw [hT1] at hI1
  have hall1 : ∀ k v', t1.Vehicles.get k = some v' → v'.LeaderID = "" := by
    intro k v' h
    have hk : k ∈ tm.Vehicles.keys := hI1.2.1 ▸ mem_keys_of_get _ _ _ h
    exact hcleared k v' ((hfair _ _ _).mem_iff.mpr hk) h
  -- the linking loop
  have hkv : kv ∈ s.ord "updateLeaderRelationships.link" "" t1.Vehicles.keys :=
    (hfair _ _ _).mem_iff.mpr (hI1.2.1.symm ▸ mem_keys_of_get _ _ _ hv)
  have hfin := foldl_establishes_under
    (fun u : TrafficManager =>
      (u.DetectionDistance = tm.DetectionDistance ∧ u.Vehicles.keys = tm.Vehicles.keys ∧
        ∀ k, (u.Vehicles.get k).map linkView = (tm.Vehicles.get k).map linkView) ∧
      ∀ k w, u.Vehicles.get k = some w → w.LeaderID = "" ∨ w.LeaderID = linkedLeader s tm k)
    (fun u : TrafficManager =>
      ∃ v', u.Vehicles.get kv = some v' ∧ v'.LeaderID = linkedLeader s tm kv)
    (linkStep s) kv ?_ ?_ ?_ (s.ord "updateLeaderRelationships.link" "" t1.Vehicles.keys) t1 hkv
    ⟨hI1, fun k w h => Or.inl (hall1 k w h)⟩
  · obtain ⟨v', hv', hl⟩ := hfin
    refine ⟨v', hv', ?_, ?_⟩
    · intro hno
      rw [hl]
      unfold linkedLeader
      simp only [hv, hnone.mpr hno]
    · intro k hk
      obtain ⟨w, hw⟩ := hsome k hk
      refine ⟨w, hw, ?_⟩
      rw [hl]
      unfold linkedLeader
      simp only [hv, hk, vehicleID, hw.1.1]
  · -- the invariant is kept
    rintro u b ⟨hI, hL⟩
    refine ⟨linkStep_frame s tm u b hI, ?_⟩
    intro k w hw
    by_cases hbk : b = k
    · subst hbk
      cases hu : u.Vehicles.get b with
      | none =>
        have : linkStep s u b = u := by
          unfold linkStep
          simp only [hu]
        rw [this, hu] at hw
        cases hw
      | some vt =>
        obtain ⟨v', e1, e2⟩ := linkStep_self s tm u b vt hI hu (hL b vt hu)
        rw [e1] at hw
        cases hw
        exact Or.inr e2
    · rw [linkStep_other s u b k hbk] at hw
      exact hL k w hw
  · -- the step at `kv`
    rintro u ⟨hI, hL⟩
    have hsome' : (u.Vehicles.get kv).map linkView = (tm.Vehicles.get kv).map linkView :=
      hI.2.2 kv
    rw [hv] at hsome'
    cases hu : u.Vehicles.get kv with
    | none => rw [hu] at hsome'; cases hsome'
    | some vt => exact linkStep_self s tm u kv vt hI hu (hL kv vt hu)
  · -- the other steps
    rintro u b ⟨hI, hL⟩ ⟨v', hv', hl⟩
    by_cases hbk : b = kv
    · subst hbk
      exact linkStep_self s tm u b v' hI hv' (Or.inr hl)
    · exact ⟨v', (linkStep_other s u b kv hbk).trans hv', hl⟩

theorem nearest_vehicle_ahead_witness :
    waitingWorld.Vehicles.get "w2" = some (queuedVehicle "w2" "up_incoming" "P" 108 false) ∧
    FindVehicleAhead (Sched.fixed 0) waitingWorld (queuedVehicle "w2" "up_incoming" "P" 108 false)
      = some "w1" ∧
    ((updateLeaderRelationships (Sched.fixed 0) waitingWorld).Vehicles.get "w2").map
      (fun v => v.LeaderID) = some "w1" ∧
    ((FindVehicleAhead (Sched.fixed 0) waitingWorld
        (queuedVehicle "w2" "up_incoming" "P" 108 false) = none ↔
      ∀ k w, ¬ IsAhead waitingWorld (queuedVehicle "w2" "up_incoming" "P" 108 false) k w) ∧
    (∀ k, FindVehicleAhead (Sched.fixed 0) waitingWorld
        (queuedVehicle "w2" "up_incoming" "P" 108 false) = some k →
      ∃ w, IsNearestAhead waitingWorld (queuedVehicle "w2" "up_incoming" "P" 108 false) k w) ∧
    (∀ kv, waitingWorld.Vehicles.get kv = some (queuedVehicle "w2" "up_incoming" "P" 108 false) →
      ∃ v', (updateLeaderRelationships (Sched.fixed 0) waitingWorld).Vehicles.get kv = some v' ∧
        ((∀ k w, ¬ IsAhead waitingWorld (queuedVehicle "w2" "up_incoming" "P" 108 false) k w) →
          v'.LeaderID = "") ∧
        (∀ k, FindVehicleAhead (Sched.fixed 0) waitingWorld
            (queuedVehicle "w2" "up_incoming" "P" 108 false) = some k →
          ∃ w, IsNearestAhead waitingWorld (queuedVehicle "w2" "up_incoming" "P" 108 false) k w ∧
            v'.LeaderID = w.ID))) :=
  ⟨by decide!, by decide!, by decide!,
    nearest_vehicle_ahead (Sched.fixed 0) (fixed_fair 0) waitingWorld
      (queuedVehicle "w2" "up_incoming" "P" 108 false) (by decide!)⟩

/-! ## The speed passes do not read the desired speeds -/

theorem forget_get (tm : TrafficManager) (k : String) :
    (forgetDesired tm).Vehicles.get k = (tm.Vehicles.get k).map eraseDesired := by
  unfold forgetDesired
  simp only []
  induction tm.Vehicles with
  | nil => rfl
  | cons hd tl ih =>
    obtain ⟨k0, v0⟩ := hd
    by_cases h : k0 = k
    · simp [GoMap.get, h]
    · simp only [List.map_cons, GoMap.get, h, if_false]
      exact ih

theorem forget_keys (tm : TrafficManager) :
    (forgetDesired tm).Vehicles.keys = tm.Vehicles.keys := by
  unfold forgetDesired GoMap.keys
  simp only [List.map_map]
  rfl

theorem map_set_erase (m : GoMap Vehicle) (k : String) (x : Vehicle) :
    (m.set k x).map (fun kv => (kv.1, eraseDesired kv.2)) =
      GoMap.set (m.map (fun kv => (kv.1, eraseDesired kv.2))) k (eraseDesired x) := by
  induction m with
  | nil => rfl
  | cons hd tl ih =>
    obtain ⟨k0, v0⟩ := hd
    by_cases h : k0 = k
    · simp [GoMap.set, h]
    · simp only [GoMap.set, List.map_cons, h, if_false]
      rw [ih]

theorem eraseDesired_idem (v : Vehicle) : eraseDesired (eraseDesired v) = eraseDesired v := rfl

theorem forget_idem (tm : TrafficManager) : forgetDesired (forgetDesired tm) = forgetDesired tm := by
  unfold forgetDesired
  simp only [List.map_map]
  rfl

/-- A write through a vehicle pointer that does not read the desired speed
commutes with forgetting the desired speeds. -/
theorem forget_modifyVehicle (tm : TrafficManager) (k : String) (f : Vehicle → Vehicle)
    (hf : ∀ v, f (eraseDesired v) = f v) :
    forgetDesired (modifyVehicle tm k f) =
      modifyVehicle (forgetDesired tm) k (fun w => eraseDesired (f w)) := by
  unfold modifyVehicle
  rw [forget_get]
  cases h : tm.Vehicles.get k with
  | none => rfl
  | some v =>
    simp only [Option.map_some']
    unfold forgetDesired
    simp only [map_set_erase, hf]

/-- The body of the vehicle loop of `SynchronizeSpeeds` is one write through
the pointer of the visited entry, the same write on a state and on the state
without its desired speeds; the write does not read the desired speed. -/
theorem syncStep_write (now : Int) (t : TrafficManager) (id : String) :
    ∃ f : Vehicle → Vehicle, (∀ v, f (eraseDesired v) = f v) ∧
      syncStep now t id = modifyVehicle t id f ∧
      syncStep now (forgetDesired t) id = modifyVehicle (forgetDesired t) id f := by
  cases hv : t.Vehicles.get id with
  | none =>
    have h2v : (forgetDesired t).Vehicles.get id = none := by rw [forget_get, hv]; rfl
    refine ⟨eraseDesired, fun _ => rfl, ?_, ?_⟩
    · unfold syncStep modifyVehicle
      simp only [hv]
    · unfold syncStep modifyVehicle
      simp only [h2v]
  | some vehicle =>
    have h2v : (forgetDesired t).Vehicles.get id = some (eraseDesired vehicle) := by
      rw [forget_get, hv]; rfl
    have e1 : leaderHasReservation (forgetDesired t) id (eraseDesired vehicle) =
        leaderHasReservation t id vehicle := rfl
    have e2 : (eraseDesired vehicle).LeaderID = vehicle.LeaderID := rfl
    have e3 : (forgetDesired t).VehicleToPlatoon = t.VehicleToPlatoon := rfl
    have e4 : (forgetDesired t).Platoons = t.Platoons := rfl
    have hset : ∀ X : ℚ, syncStep now t id = setDesired t id X →
        syncStep now (forgetDesired t) id = setDesired (forgetDesired t) id X →
        ∃ f : Vehicle → Vehicle, (∀ v, f (eraseDesired v) = f v) ∧
          syncStep now t id = modifyVehicle t id f ∧
          syncStep now (forgetDesired t) id = modifyVehicle (forgetDesired t) id f :=
      fun X a b => ⟨fun w => { w with DesiredSpeed := X }, fun _ => rfl, a, b⟩
    by_cases c1 : leaderHasReservation t id vehicle = true
    · apply hset (min (vehicle.Speed + 2.0) t.MaxPlatoonSpeed)
      · unfold syncStep
        simp only [hv, c1, ↓reduceIte, Bool.false_eq_true]
      · unfold syncStep
        simp only [h2v, e1, c1, ↓reduceIte, Bool.false_eq_true]
        rfl
    · by_cases c2 : vehicle.LeaderID = ""
      · cases h3 : t.VehicleToPlatoon.get id with
        | none =>
          apply hset 13.9
          · unfold syncStep
            simp only [hv, c1, c2, h3, ↓reduceIte, Bool.false_eq_true]
          · unfold syncStep
            simp only [h2v, e1, e2, e3, c1, c2, h3, ↓reduceIte, Bool.false_eq_true]
        | some platoonID =>
          cases h4 : t.Platoons.get platoonID with
          | none =>
            apply hset 13.9
            · unfold syncStep
              simp only [hv, c1, c2, h3, h4, ↓reduceIte, Bool.false_eq_true]
            · unfold syncStep
              simp only [h2v, e1, e2, e3, e4, c1, c2, h3, h4, ↓reduceIte, Bool.false_eq_true]
          | some platoon =>
            by_cases c5 : platoon.LeaderID = id
            · by_cases c6 : platoon.StabilityRatio > 0.8 ∧ platoon.VehicleIDs.length > 3
              · apply hset (min t.StablePlatoonSpeed (vehicle.Speed + 1.0))
                · unfold syncStep
                  simp only [hv, c1, c2, h3, h4, c5, ↓reduceIte, Bool.false_eq_true]
                  rw [if_pos c6]
                · unfold syncStep
                  simp only [h2v, e1, e2, e3, e4, c1, c2, h3, h4, c5, ↓reduceIte, Bool.false_eq_true]
                  rw [if_pos c6]
                  rfl
              · by_cases c7 : platoon.StabilityRatio > 0.6
                · apply hset (min t.MaxPlatoonSpeed (vehicle.Speed + 0.8))
                  · unfold syncStep
                    simp only [hv, c1, c2, h3, h4, c5, ↓reduceIte, Bool.false_eq_true]
                    rw [if_neg c6, if_pos c7]
                  · unfold syncStep
                    simp only [h2v, e1, e2, e3, e4, c1, c2, h3, h4, c5, ↓reduceIte, Bool.false_eq_true]
                    rw [if_neg c6, if_pos c7]
                    rfl
                · apply hset t.MaxRegularSpeed
                  · unfold syncStep
                    simp only [hv, c1, c2, h3, h4, c5, ↓reduceIte, Bool.false_eq_true]
                    rw [if_neg c6, if_neg c7]
                  · unfold syncStep
                    simp only [h2v, e1, e2, e3, e4, c1, c2, h3, h4, c5, ↓reduceIte, Bool.false_eq_true]
                    rw [if_neg c6, if_neg c7]
                    rfl
            · apply hset 13.9
              · unfold syncStep
                simp only [hv, c1, c2, h3, h4, c5, ↓reduceIte, Bool.false_eq_true]
              · unfold syncStep
                simp only [h2v, e1, e2, e3, e4, c1, c2, h3, h4, c5, ↓reduceIte, Bool.false_eq_true]
      · cases hl : t.Vehicles.get vehicle.LeaderID with
        | none =>
          have hl2 : (forgetDesired t).Vehicles.get vehicle.LeaderID = none := by
            rw [forget_get, hl]; rfl
          apply hset 13.9
          · unfold syncStep
            simp only [hv, c1, c2, hl, ↓reduceIte, Bool.false_eq_true]
          · unfold syncStep
            simp only [h2v, e1, e2, c1, c2, hl2, ↓reduceIte, Bool.false_eq_true]
        | some leader =>
          have hl2 : (forgetDesired t).Vehicles.get vehicle.LeaderID =
              some (eraseDesired leader) := by
            rw [forget_get, hl]; rfl
          refine ⟨fun w => { w with
              DesiredSpeed :=
                (if vehicle.PlatoonID ≠ "" then
                  min t.MaxPlatoonSpeed (max 0.0
                    (if vehicle.Speed < 0.5 ∧ leader.Pos - vehicle.Pos >
                        calculateOptimalGap t vehicle then
                      max 5.0 (followSpeed (leader.Pos - vehicle.Pos)
                        (calculateOptimalGap t vehicle) leader.Speed)
                     else followSpeed (leader.Pos - vehicle.Pos)
                       (calculateOptimalGap t vehicle) leader.Speed))
                 else
                  min t.MaxRegularSpeed (max 0.0
                    (if vehicle.Speed < 0.5 ∧ leader.Pos - vehicle.Pos >
                        calculateOptimalGap t vehicle then
                      max 5.0 (followSpeed (leader.Pos - vehicle.Pos)
                        (calculateOptimalGap t vehicle) leader.Speed)
                     else followSpeed (leader.Pos - vehicle.Pos)
                       (calculateOptimalGap t vehicle) leader.Speed)))
              LastSpeedChange :=
                if |(if vehicle.PlatoonID ≠ "" then
                  min t.MaxPlatoonSpeed (max 0.0
                    (if vehicle.Speed < 0.5 ∧ leader.Pos - vehicle.Pos >
                        calculateOptimalGap t vehicle then
                      max 5.0 (followSpeed (leader.Pos - vehicle.Pos)
                        (calculateOptimalGap t vehicle) leader.Speed)
                     else followSpeed (leader.Pos - vehicle.Pos)
                       (calculateOptimalGap t vehicle) leader.Speed))
                 else
                  min t.MaxRegularSpeed (max 0.0
                    (if vehicle.Speed < 0.5 ∧ leader.Pos - vehicle.Pos >
                        calculateOptimalGap t vehicle then
                      max 5.0 (followSpeed (leader.Pos - vehicle.Pos)
                        (calculateOptimalGap t vehicle) leader.Speed)
                     else followSpeed (leader.Pos - vehicle.Pos)
                       (calculateOptimalGap t vehicle) leader.Speed))) - w.Speed| > 0.5
                then now else w.LastSpeedChange },
            fun _ => rfl, ?_, ?_⟩
          · unfold syncStep
            simp only [hv, c1, c2, hl, ↓reduceIte, Bool.false_eq_true]
          · unfold syncStep
            simp only [h2v, e1, e2, c1, c2, hl2, ↓reduceIte, Bool.false_eq_true]
            rfl

theorem modifyVehicle_congr_at (c : TrafficManager) (k : String) (f g : Vehicle → Vehicle)
    (h : ∀ w, c.Vehicles.get k = some w → f w = g w) :
    modifyVehicle c k f = modifyVehicle c k g := by
  unfold modifyVehicle
  cases hc : c.Vehicles.get k with
  | none => rfl
  | some w => simp only [h w hc]

/-- One step of the vehicle loop on two states that differ only in desired
speeds: the states after the step differ only in desired speeds, and their
entries at the visited key are equal. -/
theorem syncStep_forget (now : Int) (t1 t2 : TrafficManager) (id : String)
    (h : forgetDesired t1 = forgetDesired t2) :
    forgetDesired (syncStep now t1 id) = forgetDesired (syncStep now t2 id) ∧
    (syncStep now t1 id).Vehicles.get id = (syncStep now t2 id).Vehicles.get id := by
  obtain ⟨f1, c1, a1, b1⟩ := syncStep_write now t1 id
  obtain ⟨f2, c2, a2, b2⟩ := syncStep_write now t2 id
  -- the two writes agree on the record without its desired speed
  have hagree : ∀ w, (forgetDesired t1).Vehicles.get id = some w → f1 w = f2 w := by
    intro w hw
    have e := b1.symm.trans ((congrArg (fun u => syncStep now u id) h).trans b2)
    have e' := congrArg (fun u : TrafficManager => u.Vehicles.get id) e
    simp only [modifyVehicle_get, if_true] at e'
    rw [← h, hw] at e'
    simpa using e'
  have hg1 := forget_get t1 id
  have hg2 := forget_get t2 id
  constructor
  · rw [a1, a2, forget_modifyVehicle _ _ _ c1, forget_modifyVehicle _ _ _ c2, ← h]
    exact modifyVehicle_congr_at _ _ _ _ (fun w hw => congrArg eraseDesired (hagree w hw))
  · rw [a1, a2, modifyVehicle_get, modifyVehicle_get, if_pos rfl, if_pos rfl]
    rw [← h] at hg2
    cases h1 : t1.Vehicles.get id with
    | none =>
      cases h2 : t2.Vehicles.get id with
      | none => rfl
      | some v2 =>
        rw [h1] at hg1
        rw [h2, hg1] at hg2
        cases hg2
    | some v1 =>
      cases h2 : t2.Vehicles.get id with
      | none =>
        rw [h1] at hg1
        rw [h2, hg1] at hg2
        cases hg2
      | some v2 =>
        rw [h1] at hg1
        rw [h2, hg1] at hg2
        simp only [Option.map_some', Option.some.injEq] at hg2 ⊢
        rw [← c1 v1, ← c2 v2, ← hg2]
        exact hagree _ hg1

theorem syncStep_get_other (now : Int) (t : TrafficManager) (id k : String) (h : id ≠ k) :
    (syncStep now t id).Vehicles.get k = t.Vehicles.get k := by
  obtain ⟨f, _, a, _⟩ := syncStep_write now t id
  rw [a, modifyVehicle_get, if_neg h]

theorem syncStep_keys (now : Int) (t : TrafficManager) (id : String) :
    (syncStep now t id).Vehicles.keys = t.Vehicles.keys := by
  obtain ⟨f, _, a, _⟩ := syncStep_write now t id
  rw [a, modifyVehicle_keys]

/-- The vehicle loop on two states that differ only in desired speeds, after
the keys `l`: the states still differ only in desired speeds, and their entries
at the visited keys are equal. -/
theorem syncLoop_forget (now : Int) (l : List String) (t1 t2 : TrafficManager)
    (h : forgetDesired t1 = forgetDesired t2) :
    forgetDesired (l.foldl (syncStep now) t1) = forgetDesired (l.foldl (syncStep now) t2) ∧
    (∀ k, k ∈ l → (l.foldl (syncStep now) t1).Vehicles.get k =
      (l.foldl (syncStep now) t2).Vehicles.get k) ∧
    (l.foldl (syncStep now) t1).Vehicles.keys = t1.Vehicles.keys := by
  have key : ∀ (l visited : List String) (u1 u2 : TrafficManager),
      forgetDesired u1 = forgetDesired u2 →
      (∀ k, k ∈ visited → u1.Vehicles.get k = u2.Vehicles.get k) →
      forgetDesired (l.foldl (syncStep now) u1) = forgetDesired (l.foldl (syncStep now) u2) ∧
      (∀ k, k ∈ visited ++ l → (l.foldl (syncStep now) u1).Vehicles.get k =
        (l.foldl (syncStep now) u2).Vehicles.get k) ∧
      (l.foldl (syncStep now) u1).Vehicles.keys = u1.Vehicles.keys := by
    intro l
    induction l with
    | nil =>
      intro visited u1 u2 hf hv
      exact ⟨hf, fun k hk => hv k (by simpa using hk), rfl⟩
    | cons a l ih =>
      intro visited u1 u2 hf hv
      simp only [List.foldl_cons]
      obtain ⟨s1, s2⟩ := syncStep_forget now u1 u2 a hf
      obtain ⟨r1, r2, r3⟩ := ih (visited ++ [a]) (syncStep now u1 a) (syncStep now u2 a) s1
        (by
          intro k hk
          rcases List.mem_append.mp hk with hk | hk
          · by_cases hak : a = k
            · subst hak; exact s2
            · rw [syncStep_get_other now u1 a k hak, syncStep_get_other now u2 a k hak]
              exact hv k hk
          · simp only [List.mem_singleton] at hk
            subst hk
            exact s2)
      refine ⟨r1, ?_, r3.trans (syncStep_keys now u1 a)⟩
      intro k hk
      exact r2 k (by simpa using hk)
  obtain ⟨r1, r2, r3⟩ := key l [] t1 t2 h (fun k hk => by simp at hk)
  exact ⟨r1, fun k hk => r2 k (by simpa using hk), r3⟩

theorem vehicles_ext (l1 l2 : GoMap Vehicle)
    (hm : l1.map (fun kv => (kv.1, eraseDesired kv.2)) =
      l2.map (fun kv => (kv.1, eraseDesired kv.2)))
    (hn : GoMap.keys l1 = GoMap.keys l1 ∧ (GoMap.keys l1).Nodup)
    (hg : ∀ k, k ∈ GoMap.keys l1 → GoMap.get l1 k = GoMap.get l2 k) : l1 = l2 := by
  induction l1 generalizing l2 with
  | nil =>
    cases l2 with
    | nil => rfl
    | cons hd tl => simp at hm
  | cons hd1 tl1 ih =>
    cases l2 with
    | nil => simp at hm
    | cons hd2 tl2 =>
      obtain ⟨k1, v1⟩ := hd1
      obtain ⟨k2, v2⟩ := hd2
      simp only [List.map_cons, List.cons.injEq, Prod.mk.injEq] at hm
      obtain ⟨⟨hk, _⟩, htl⟩ := hm
      subst hk
      have hnd := hn.2
      simp only [GoMap.keys, List.map_cons, List.nodup_cons] at hnd
      have hhead := hg k1 (by simp [GoMap.keys])
      simp only [GoMap.get, if_true, Option.some.injEq] at hhead
      subst hhead
      have htail : tl1 = tl2 := by
        refine ih tl2 htl ⟨rfl, hnd.2⟩ ?_
        intro k hk
        have hne : ¬ k1 = k := by
          intro e
          subst e
          exact hnd.1 hk
        have := hg k (by simp only [GoMap.keys, List.map_cons, List.mem_cons]; exact Or.inr hk)
        simpa only [GoMap.get, hne, if_false] using this
      rw [htail]

/-- C33. Arbitration speeds do not reach the output: under a fair schedule,
two states that differ only in the desired speeds of their vehicles (and whose
vehicle map has no repeated key) are the same state after `SynchronizeSpeeds`;
in particular every vehicle has the same desired speed in both, and so the
states after the density adjustment that ends the tick are the same too. -/
theorem sync_forgets_desired (s : Sched) (hfair : s.Fair) (t1 t2 : TrafficManager)
    (hn : t1.Vehicles.keys.Nodup) (h : forgetDesired t1 = forgetDesired t2) :
    SynchronizeSpeeds s t1 = SynchronizeSpeeds s t2 ∧
    (∀ k, ((SynchronizeSpeeds s t1).Vehicles.get k).map (fun v => v.DesiredSpeed) =
      ((SynchronizeSpeeds s t2).Vehicles.get k).map (fun v => v.DesiredSpeed)) ∧
    AdjustSpeedForTrafficDensity s (SynchronizeSpeeds s t1) =
      AdjustSpeedForTrafficDensity s (SynchronizeSpeeds s t2) := by
  have hkeys : t1.Vehicles.keys = t2.Vehicles.keys := by
    rw [← forget_keys t1, ← forget_keys t2, h]
  obtain ⟨r1, r2, r3⟩ := syncLoop_forget (s.now "SynchronizeSpeeds" "")
    (s.ord "SynchronizeSpeeds" "" t1.Vehicles.keys) t1 t2 h
  have hloop : (s.ord "SynchronizeSpeeds" "" t1.Vehicles.keys).foldl
      (syncStep (s.now "SynchronizeSpeeds" "")) t1 =
      (s.ord "SynchronizeSpeeds" "" t1.Vehicles.keys).foldl
        (syncStep (s.now "SynchronizeSpeeds" "")) t2 := by
    generalize (s.ord "SynchronizeSpeeds" "" t1.Vehicles.keys).foldl
      (syncStep (s.now "SynchronizeSpeeds" "")) t1 = u1 at r1 r2 r3
    generalize (s.ord "SynchronizeSpeeds" "" t1.Vehicles.keys).foldl
      (syncStep (s.now "SynchronizeSpeeds" "")) t2 = u2 at r1 r2
    have hv : u1.Vehicles = u2.Vehicles := by
      refine vehicles_ext u1.Vehicles u2.Vehicles ?_ ⟨rfl, r3 ▸ hn⟩ ?_
      · exact congrArg (fun u : TrafficManager => u.Vehicles) r1
      · intro k hk
        exact r2 k ((hfair _ _ _).mem_iff.mpr (r3 ▸ hk))
    have e1 : u1 = { forgetDesired u1 with Vehicles := u1.Vehicles } := rfl
    have e2 : u2 = { forgetDesired u2 with Vehicles := u2.Vehicles } := rfl
    rw [e1, e2, r1, hv]
  have hsync : SynchronizeSpeeds s t1 = SynchronizeSpeeds s t2 := by
    unfold SynchronizeSpeeds
    simp only []
    rw [← hkeys, hloop]
  exact ⟨hsync, fun k => by rw [hsync], by rw [hsync]⟩

theorem sync_forgets_desired_witness :
    fastPlatoonWorld ≠ forgetDesired fastPlatoonWorld ∧
    forgetDesired fastPlatoonWorld = forgetDesired (forgetDesired fastPlatoonWorld) ∧
    (SynchronizeSpeeds (Sched.fixed 0) fastPlatoonWorld =
        SynchronizeSpeeds (Sched.fixed 0) (forgetDesired fastPlatoonWorld) ∧
      (∀ k, ((SynchronizeSpeeds (Sched.fixed 0) fastPlatoonWorld).Vehicles.get k).map
          (fun v => v.DesiredSpeed) =
        ((SynchronizeSpeeds (Sched.fixed 0) (forgetDesired fastPlatoonWorld)).Vehicles.get k).map
          (fun v => v.DesiredSpeed)) ∧
      AdjustSpeedForTrafficDensity (Sched.fixed 0)
          (SynchronizeSpeeds (Sched.fixed 0) fastPlatoonWorld) =
        AdjustSpeedForTrafficDensity (Sched.fixed 0)
          (SynchronizeSpeeds (Sched.fixed 0) (forgetDesired fastPlatoonWorld))) :=
  ⟨by decide!, (forget_idem fastPlatoonWorld).symm,
    sync_forgets_desired (Sched.fixed 0) (fixed_fair 0) fastPlatoonWorld
      (forgetDesired fastPlatoonWorld) (by decide) (forget_idem fastPlatoonWorld).symm⟩

/-! ## What a run never changes -/

theorem modifyVehicle_rest (tm : TrafficManager) (k : String) (f : Vehicle → Vehicle) :
    (modifyVehicle tm k f).Platoons = tm.Platoons ∧
    (modifyVehicle tm k f).Intersections = tm.Intersections ∧
    (modifyVehicle tm k f).IntersectionReservations = tm.IntersectionReservations := by
  unfold modifyVehicle
  split <;> exact ⟨rfl, rfl, rfl⟩

theorem modifyPlatoon_rest (tm : TrafficManager) (k : String) (f : Platoon → Platoon) :
    (modifyPlatoon tm k f).Vehicles = tm.Vehicles ∧
    (modifyPlatoon tm k f).Intersections = tm.Intersections ∧
    (modifyPlatoon tm k f).IntersectionReservations = tm.IntersectionReservations := by
  unfold modifyPlatoon
  split <;> exact ⟨rfl, rfl, rfl⟩

theorem modifyIntersection_rest (tm : TrafficManager) (k : String)
    (f : Intersection → Intersection) :
    (modifyIntersection tm k f).Vehicles = tm.Vehicles ∧
    (modifyIntersection tm k f).Platoons = tm.Platoons ∧
    (modifyIntersection tm k f).IntersectionReservations = tm.IntersectionReservations := by
  unfold modifyIntersection
  split <;> exact ⟨rfl, rfl, rfl⟩

/-- An entry read after a write through a pointer is the image of an entry
of before, or an entry of before. -/
theorem modifyVehicle_get_cases (tm : TrafficManager) (k k' : String)
    (f : Vehicle → Vehicle) (v' : Vehicle)
    (h : (modifyVehicle tm k f).Vehicles.get k' = some v') :
    ∃ v, tm.Vehicles.get k' = some v ∧ (v' = f v ∨ v' = v) := by
  rw [modifyVehicle_get] at h
  split at h
  · cases hv : tm.Vehicles.get k' with
    | none => rw [hv] at h; cases h
    | some v =>
      rw [hv] at h
      exact ⟨v, rfl, Or.inl (Option.some.inj h).symm⟩
  · exact ⟨v', h, Or.inr rfl⟩

theorem modifyPlatoon_get_cases (tm : TrafficManager) (k k' : String)
    (f : Platoon → Platoon) (p' : Platoon)
    (h : (modifyPlatoon tm k f).Platoons.get k' = some p') :
    ∃ p, tm.Platoons.get k' = some p ∧ (p' = f p ∨ p' = p) := by
  rw [modifyPlatoon_get] at h
  split at h
  · cases hv : tm.Platoons.get k' with
    | none => rw [hv] at h; cases h
    | some v =>
      rw [hv] at h
      exact ⟨v, rfl, Or.inl (Option.some.inj h).symm⟩
  · exact ⟨p', h, Or.inr rfl⟩

theorem modifyIntersection_get_cases (tm : TrafficManager) (k k' : String)
    (f : Intersection → Intersection) (i' : Intersection)
    (h : (modifyIntersection tm k f).Intersections.get k' = some i') :
    ∃ i, tm.Intersections.get k' = some i ∧ (i' = f i ∨ i' = i) := by
  rw [modifyIntersection_get] at h
  split at h
  · cases hv : tm.Intersections.get k' with
    | none => rw [hv] at h; cases h
    | some v =>
      rw [hv] at h
      exact ⟨v, rfl, Or.inl (Option.some.inj h).symm⟩
  · exact ⟨i', h, Or.inr rfl⟩

theorem dormant_closed : TickClosed Dormant := by
  refine ⟨?_, ?_, ?_, ?_, ?_, ?_⟩
  · intro t k f hf h
    obtain ⟨h1, h2, h3, h4⟩ := h
    obtain ⟨e1, e2, e3⟩ := modifyVehicle_rest t k f
    refine ⟨e3.trans h1, ?_, ?_, ?_⟩
    · rw [e2]; exact h2
    · intro k' v' hv'
      obtain ⟨v, hv, hc⟩ := modifyVehicle_get_cases t k k' f v' hv'
      rcases hc with hc | hc
      · rw [hc, (hf v).2]; exact h3 k' v hv
      · rw [hc]; exact h3 k' v hv
    · rw [e1]; exact h4
  · intro t k f hf h
    obtain ⟨h1, h2, h3, h4⟩ := h
    obtain ⟨e1, e2, e3⟩ := modifyPlatoon_rest t k f
    refine ⟨e3.trans h1, ?_, ?_, ?_⟩
    · rw [e2]; exact h2
    · rw [e1]; exact h3
    · intro k' p' hp'
      obtain ⟨p, hp, hc⟩ := modifyPlatoon_get_cases t k k' f p' hp'
      rcases hc with hc | hc
      · rw [hc]; exact hf p (h4 k' p hp)
      · rw [hc]; exact h4 k' p hp
  · intro t k f hf h
    obtain ⟨h1, h2, h3, h4⟩ := h
    obtain ⟨e1, e2, e3⟩ := modifyIntersection_rest t k f
    refine ⟨e3.trans h1, ?_, ?_, ?_⟩
    · intro k' i' hi'
      obtain ⟨i, hi, hc⟩ := modifyIntersection_get_cases t k k' f i' hi'
      rcases hc with hc | hc
      · rw [hc, (hf i).1]; exact h2 k' i hi
      · rw [hc]; exact h2 k' i hi
    · rw [e1]; exact h3
    · rw [e2]; exact h4
  · intro t k p hp h
    obtain ⟨h1, h2, h3, h4⟩ := h
    refine ⟨h1, h2, h3, ?_⟩
    intro k' p' hp'
    have hp2 : (t.Platoons.set k p).get k' = some p' := hp'
    rw [get_set] at hp2
    split at hp2
    · rw [← Option.some.inj hp2]; exact hp
    · exact h4 k' p' hp2
  · intro t k h
    obtain ⟨h1, h2, h3, h4⟩ := h
    refine ⟨h1, h2, h3, ?_⟩
    intro k' p' hp'
    have hp2 : (t.Platoons.del k).get k' = some p' := hp'
    rw [get_del] at hp2
    split at hp2
    · cases hp2
    · exact h4 k' p' hp2
  · intro t t' eV eP eI eR h
    obtain ⟨h1, h2, h3, h4⟩ := h
    refine ⟨eR.trans h1, ?_, ?_, ?_⟩
    · rw [eI]; exact h2
    · rw [eV]; exact h3
    · rw [eP]; exact h4

theorem rosterInternal_closed : TickClosed RosterInternal := by
  refine ⟨?_, ?_, ?_, ?_, ?_, ?_⟩
  · intro t k f hf h k' i id v' hi hid hv'
    obtain ⟨e1, e2, e3⟩ := modifyVehicle_rest t k f
    rw [e2] at hi
    obtain ⟨v, hv, hc⟩ := modifyVehicle_get_cases t k id f v' hv'
    rcases hc with hc | hc
    · rw [hc, (hf v).1]; exact h k' i id v hi hid hv
    · rw [hc]; exact h k' i id v hi hid hv
  · intro t k f _ h k' i id v hi hid hv
    obtain ⟨e1, e2, e3⟩ := modifyPlatoon_rest t k f
    rw [e2] at hi
    rw [e1] at hv
    exact h k' i id v hi hid hv
  · intro t k f hf h k' i' id v hi' hid hv
    obtain ⟨e1, e2, e3⟩ := modifyIntersection_rest t k f
    rw [e1] at hv
    obtain ⟨i, hi, hc⟩ := modifyIntersection_get_cases t k k' f i' hi'
    rcases hc with hc | hc
    · rw [hc, (hf i).2] at hid; exact h k' i id v hi hid hv
    · rw [hc] at hid; exact h k' i id v hi hid hv
  · intro t k p _ h
    exact h
  · intro t k h
    exact h
  · intro t t' eV eP eI eR h k i id v hi hid hv
    rw [eI] at hi
    rw [eV] at hv
    exact h k i id v hi hid hv

theorem TickClosed.both {P Q : TrafficManager → Prop} (hP : TickClosed P)
    (hQ : TickClosed Q) : TickClosed (fun t => P t ∧ Q t) :=
  ⟨fun t k f hf h => ⟨hP.mv t k f hf h.1, hQ.mv t k f hf h.2⟩,
   fun t k f hf h => ⟨hP.mp t k f hf h.1, hQ.mp t k f hf h.2⟩,
   fun t k f hf h => ⟨hP.mi t k f hf h.1, hQ.mi t k f hf h.2⟩,
   fun t k p hp h => ⟨hP.setP t k p hp h.1, hQ.setP t k p hp h.2⟩,
   fun t k h => ⟨hP.delP t k h.1, hQ.delP t k h.2⟩,
   fun t t' e1 e2 e3 e4 h => ⟨hP.same t t' e1 e2 e3 e4 h.1, hQ.same t t' e1 e2 e3 e4 h.2⟩⟩

theorem TickClosed.desired {P : TrafficManager → Prop} (hP : TickClosed P)
    (t : TrafficManager) (k : String) (x : ℚ) (h : P t) : P (setDesired t k x) :=
  hP.mv t k _ (fun _ => ⟨rfl, rfl⟩) h

theorem TickClosed.vtp {P : TrafficManager → Prop} (hP : TickClosed P)
    (t : TrafficManager) (m : GoMap String) (h : P t) :
    P { t with VehicleToPlatoon := m } :=
  hP.same t _ rfl rfl rfl rfl h

theorem AddVehicleToPlatoon_closed {P : TrafficManager → Prop} (hP : TickClosed P)
    (t : TrafficManager) (a b : String) (h : P t) : P (AddVehicleToPlatoon t a b) := by
  unfold AddVehicleToPlatoon
  split
  · exact h
  · split
    · exact h
    · try simp only []
      refine hP.vtp _ _ (hP.mv _ _ _ (fun _ => ⟨rfl, rfl⟩) ?_)
      split
      · exact hP.mp _ _ _ (fun _ hp => hp) h
      · exact h

theorem RemoveVehicleFromPlatoon_closed {P : TrafficManager → Prop} (hP : TickClosed P)
    (t : TrafficManager) (a b : String) (h : P t) : P (RemoveVehicleFromPlatoon t a b) := by
  unfold RemoveVehicleFromPlatoon
  split
  · exact h
  · try simp only []
    refine hP.mv _ _ _ (fun _ => ⟨rfl, rfl⟩) ?_
    split
    · split
      · exact hP.mv _ _ _ (fun _ => ⟨rfl, rfl⟩)
          (hP.mp _ _ _ (fun _ hp => hp) (hP.mp _ _ _ (fun _ hp => hp) h))
      · exact hP.mp _ _ _ (fun _ hp => hp) h
    · exact hP.mp _ _ _ (fun _ hp => hp) h

theorem updateLeaderRelationships_closed {P : TrafficManager → Prop} (hP : TickClosed P)
    (s : Sched) (t : TrafficManager) (h : P t) : P (updateLeaderRelationships s t) := by
  unfold updateLeaderRelationships
  try simp only []
  refine foldl_preserves P _ ?_ _ _ (foldl_preserves P _ ?_ _ _ h)
  · intro u k hu
    unfold linkStep
    split
    · exact hu
    · split
      · exact hu
      · split
        · exact hu
        · exact hP.mv _ _ _ (fun _ => ⟨rfl, rfl⟩) hu
  · intro u k hu
    exact hP.mv _ _ _ (fun _ => ⟨rfl, rfl⟩) hu

theorem formStep_closed {P : TrafficManager → Prop} (hP : TickClosed P)
    (t : TrafficManager) (id : String) (h : P t) : P (formStep t id) := by
  unfold formStep
  split
  · exact h
  · split
    · exact h
    · split
      · exact h
      · split
        · split
          · exact AddVehicleToPlatoon_closed hP _ _ _ h
          · split
            · exact AddVehicleToPlatoon_closed hP _ _ _
                (RemoveVehicleFromPlatoon_closed hP _ _ _ h)
            · exact h
        · try simp only []
          split
          · exact hP.mv _ _ _ (fun _ => ⟨rfl, rfl⟩) (hP.mv _ _ _ (fun _ => ⟨rfl, rfl⟩)
              (hP.vtp _ _ (hP.setP _ _ _ rfl h)))
          · exact h

theorem cleanupStep_closed {P : TrafficManager → Prop} (hP : TickClosed P)
    (t : TrafficManager) (id : String) (h : P t) : P (cleanupStep t id) := by
  unfold cleanupStep
  split
  · exact h
  · split
    · try simp only []
      refine hP.delP _ _ (foldl_preserves P _ ?_ _ _ h)
      intro u vid hu
      exact hP.vtp _ _ (hP.mv _ _ _ (fun _ => ⟨rfl, rfl⟩) hu)
    · exact h

theorem createNewPlatoonFromVehicles_closed {P : TrafficManager → Prop} (hP : TickClosed P)
    (t : TrafficManager) (l : List String) (e : String) (h : P t) :
    P (createNewPlatoonFromVehicles t l e) := by
  unfold createNewPlatoonFromVehicles
  split
  · exact h
  · try simp only []
    split
    · exact h
    · refine hP.setP _ _ _ rfl (foldl_preserves P _ ?_ _ _ h)
      intro u k hu
      try simp only []
      split
      · exact hu
      · exact hP.vtp _ _ (hP.mv _ _ _ (fun _ => ⟨rfl, rfl⟩) hu)

theorem edgeTransitionStep_closed {P : TrafficManager → Prop} (hP : TickClosed P)
    (s : Sched) (t : TrafficManager) (id : String) (h : P t) :
    P (edgeTransitionStep s t id) := by
  unfold edgeTransitionStep
  split
  · exact h
  · try simp only []
    split
    · exact h
    · split
      · refine foldl_preserves P _ (fun u vid hu => hP.vtp _ _ hu) _ _
          (hP.delP _ _ (foldl_preserves P _ ?_ _ _ h))
        intro u edge hu
        try simp only []
        split
        · exact hu
        · split
          · exact createNewPlatoonFromVehicles_closed hP _ _ _ hu
          · exact hu
      · exact h

theorem mergePlatoons_closed {P : TrafficManager → Prop} (hP : TickClosed P)
    (t : TrafficManager) (a b : String) (h : P t) : P (mergePlatoons t a b) := by
  unfold mergePlatoons
  split
  · try simp only []
    refine hP.delP _ _ (hP.mp _ _ _ (fun _ hp => hp) ?_)
    have h1 : ∀ (l : List String) (lead x : String), P (l.foldl
        (fun tm vid =>
          match tm.Vehicles.get vid with
          | none => tm
          | some _ =>
            if vid ≠ lead then
              let tm' := modifyVehicle tm vid (fun v => { v with PlatoonID := x })
              { tm' with VehicleToPlatoon := tm'.VehicleToPlatoon.set vid x }
            else tm) t) := by
      intro l lead x
      refine foldl_preserves P _ ?_ _ _ h
      intro u vid hu
      try simp only []
      split
      · exact hu
      · split
        · exact hP.vtp _ _ (hP.mv _ _ _ (fun _ => ⟨rfl, rfl⟩) hu)
        · exact hu
    split
    · exact h1 _ _ _
    · exact hP.vtp _ _ (hP.mv _ _ _ (fun _ => ⟨rfl, rfl⟩) (h1 _ _ _))
  · exact h

theorem consolidateStep_closed {P : TrafficManager → Prop} (hP : TickClosed P)
    (s : Sched) (t : TrafficManager) (id : String) (h : P t) :
    P (consolidateStep s t id) := by
  unfold consolidateStep
  split
  · exact h
  · split
    · exact h
    · refine foldl_preserves P _ ?_ _ _ h
      intro u o hu
      unfold consolidateInner
      split
      · try simp only []
        split
        · exact hu
        · split
          · exact hu
          · split
            · exact hu
            · split
              · exact hu
              · split
                · exact hu
                · split
                  · exact mergePlatoons_closed hP _ _ _ hu
                  · exact mergePlatoons_closed hP _ _ _ hu
      · exact hu

theorem UpdatePlatoons_closed {P : TrafficManager → Prop} (hP : TickClosed P)
    (s : Sched) (t : TrafficManager) (h : P t) : P (UpdatePlatoons s t) := by
  unfold UpdatePlatoons consolidatePlatoons checkEdgeTransitions cleanupPlatoons
    formAndUpdatePlatoons
  refine foldl_preserves P _ (fun u k hu => consolidateStep_closed hP s u k hu) _ _ ?_
  refine foldl_preserves P _ (fun u k hu => edgeTransitionStep_closed hP s u k hu) _ _ ?_
  refine foldl_preserves P _ (fun u k hu => cleanupStep_closed hP u k hu) _ _ ?_
  refine foldl_preserves P _ (fun u k hu => formStep_closed hP u k hu) _ _ ?_
  exact updateLeaderRelationships_closed hP s t h

theorem stabilityStep_closed {P : TrafficManager → Prop} (hP : TickClosed P)
    (t : TrafficManager) (id : String) (hd : Dormant t) (h : P t) :
    P (stabilityStep t id) := by
  have hnil : ∀ (l : List String) (p : String → Bool), (∀ x ∈ l, p x = false) →
      ((l.filter p).length : ℚ) / ((l.length : ℚ) - 1) = 0 := by
    intro l p hp
    have h0 : l.filter p = [] := List.filter_eq_nil_iff.mpr (fun x hx => by simp [hp x hx])
    rw [h0]
    simp
  unfold stabilityStep
  split
  · exact h
  · split
    · exact h
    · split
      · exact h
      · try simp only []
        split
        · refine hP.mv _ _ _ (fun _ => ⟨rfl, rfl⟩) (hP.mp _ _ _ (fun _ _ => ?_) h)
          refine hnil _ _ ?_
          intro x _
          split
          · rfl
          · split
            · rfl
            · next follower hf =>
              rw [hd.2.2.1 _ _ hf]
              norm_num
        · refine hP.mp _ _ _ (fun _ _ => ?_) h
          refine hnil _ _ ?_
          intro x _
          split
          · rfl
          · split
            · rfl
            · next follower hf =>
              rw [hd.2.2.1 _ _ hf]
              norm_num

theorem EstimatePlatoonStability_closed {P : TrafficManager → Prop} (hP : TickClosed P)
    (s : Sched) (t : TrafficManager) (hd : Dormant t) (h : P t) :
    Dormant (EstimatePlatoonStability s t) ∧ P (EstimatePlatoonStability s t) := by
  unfold EstimatePlatoonStability
  exact foldl_preserves (fun u => Dormant u ∧ P u) _
    (fun u k hu => ⟨stabilityStep_closed dormant_closed u k hu.1 hu.1,
      stabilityStep_closed hP u k hu.1 hu.2⟩) _ _ ⟨hd, h⟩

/-- With no edge listed for any intersection the search for the next
intersection of a vehicle finds nothing. -/
theorem findNextIntersectionForVehicle_none (s : Sched) (tm : TrafficManager)
    (hE : ∀ k i, tm.Intersections.get k = some i → i.Edges = []) (vehicle : Vehicle) :
    findNextIntersectionForVehicle s tm vehicle = none := by
  have h1 : ∀ (order : List String) (next : String),
      findIntersectionFor tm order next = none := by
    intro order next
    unfold findIntersectionFor
    rw [List.find?_eq_none]
    intro x _
    split
    · simp
    · next i hi => rw [hE _ _ hi]; simp
  have h2 : ∀ (l : List String) (n i : Nat), findNextFrom s tm vehicle n i l = none := by
    intro l
    induction l with
    | nil => intro n i; rfl
    | cons edge rest ih =>
      intro n i
      cases rest with
      | nil => rfl
      | cons next rest =>
        unfold findNextFrom
        split
        · rw [h1]
          exact ih n (i + 1)
        · exact ih n (i + 1)
  unfold findNextIntersectionForVehicle
  simp only []
  split
  · rfl
  · exact h2 _ _ _

theorem reserveStep_dormant (s : Sched) (t : TrafficManager) (id : String)
    (hd : Dormant t) : reserveStep s t id = t := by
  unfold reserveStep
  split
  · rfl
  · split
    · rfl
    · split
      · rfl
      · split
        · rfl
        · rw [findNextIntersectionForVehicle_none s t hd.2.1]

theorem ReservePlatoonIntersectionSlots_dormant (s : Sched) (t : TrafficManager)
    (hd : Dormant t) : ReservePlatoonIntersectionSlots s t = t := by
  unfold ReservePlatoonIntersectionSlots
  exact foldl_preserves (fun u => u = t) _
    (fun u k hu => by rw [hu]; exact reserveStep_dormant s t k hd) _ _ rfl

theorem updatePlatoonWaitTimes_closed {P : TrafficManager → Prop} (hP : TickClosed P)
    (s : Sched) (t : TrafficManager) (h : P t) : P (updatePlatoonWaitTimes s t) := by
  unfold updatePlatoonWaitTimes
  refine foldl_preserves P _ ?_ _ _ h
  intro u k hu
  unfold waitStep
  split
  · exact hu
  · split
    · exact hu
    · split
      · exact hP.mp _ _ _ (fun _ hp => hp) hu
      · split
        · exact hP.mp _ _ _ (fun _ hp => hp) hu
        · exact hP.mp _ _ _ (fun _ hp => hp) hu

theorem enforceStep_closed {P : TrafficManager → Prop} (hP : TickClosed P)
    (m : Nat) (t : TrafficManager) (id : String) (t' : TrafficManager)
    (he : enforceStep m t id = some t') (h : P t) : P t' := by
  unfold enforceStep at he
  split at he
  · cases he; exact h
  · split at he
    · simp only [] at he
      split at he
      · cases he
      · split at he
        · cases he; exact h
        · have h2 := Option.some.inj he
          rw [← h2]
          have h3 : ∀ (l : List String) (x y : String), P (l.foldl
              (fun tm k =>
                match tm.Vehicles.get k with
                | none => tm
                | some v =>
                  let tm' := modifyVehicle tm k (fun w =>
                    { w with PlatoonID := x, IsLeader := decide (w.ID = y) })
                  { tm' with VehicleToPlatoon := tm'.VehicleToPlatoon.set v.ID x }) t) := by
            intro l x y
            refine foldl_preserves P _ ?_ _ _ h
            intro u k hu
            simp only []
            split
            · exact hu
            · exact hP.vtp _ _ (hP.mv _ _ _ (fun _ => ⟨rfl, rfl⟩) hu)
          split
          · exact hP.setP _ _ _ rfl (h3 _ _ _)
          · exact hP.mp _ _ _ (fun _ hp => hp) (hP.setP _ _ _ rfl (h3 _ _ _))
    · cases he; exact h

theorem enforcePlatoonSizeLimits_closed {P : TrafficManager → Prop} (hP : TickClosed P)
    (s : Sched) (m : Nat) (t t' : TrafficManager)
    (he : enforcePlatoonSizeLimits s m t = some t') (h : P t) : P t' := by
  have key : ∀ (l : List String) (acc : Option TrafficManager),
      (∀ u, acc = some u → P u) →
      ∀ u, l.foldl (fun acc k => acc.bind (fun tm => enforceStep m tm k)) acc = some u →
        P u := by
    intro l
    induction l with
    | nil => intro acc hacc u hu; exact hacc u hu
    | cons k rest ih =>
      intro acc hacc u hu
      refine ih (acc.bind (fun tm => enforceStep m tm k)) ?_ u hu
      intro w hw
      cases hacc2 : acc with
      | none => rw [hacc2] at hw; cases hw
      | some a =>
        rw [hacc2] at hw
        exact enforceStep_closed hP m a k w hw (hacc a hacc2)
  exact key _ (some t) (fun u hu => by cases hu; exact h) t' he

theorem boostPlatoon_closed {P : TrafficManager → Prop} (hP : TickClosed P)
    (t : TrafficManager) (p : Platoon) (a b c : ℚ) (h : P t) :
    P (boostPlatoon t p a b c) := by
  unfold boostPlatoon
  try simp only []
  refine foldl_preserves P _ ?_ _ _ (hP.desired _ _ _ h)
  intro u vid hu
  try simp only []
  split
  · exact hu
  · split
    · exact hu
    · exact hP.desired _ _ _ hu

theorem stopOtherEdges_closed {P : TrafficManager → Prop} (hP : TickClosed P)
    (t : TrafficManager) (order : List String) (m : GoMap (List String)) (e : String)
    (h : P t) : P (stopOtherEdges t order m e) := by
  unfold stopOtherEdges
  refine foldl_preserves P _ ?_ _ _ h
  intro u o hu
  try simp only []
  split
  · exact hu
  · split
    · exact hu
    · exact foldl_preserves P _ (fun w v hw => hP.desired _ _ _ hw) _ _ hu

theorem handleForcedPriorityPlatoons_closed {P : TrafficManager → Prop} (hP : TickClosed P)
    (s : Sched) (t : TrafficManager) (id : String) (m1 m2 : GoMap (List String))
    (h : P t) : P (handleForcedPriorityPlatoons s t id m1 m2) := by
  unfold handleForcedPriorityPlatoons
  try simp only []
  split
  · split
    · exact h
    · exact stopOtherEdges_closed hP _ _ _ _ (boostPlatoon_closed hP _ _ _ _ _ h)
  · split
    · exact h
    · split
      · exact h
      · exact stopOtherEdges_closed hP _ _ _ _
          (boostPlatoon_closed hP _ _ _ _ _ (hP.mp _ _ _ (fun _ hp => hp) h))

theorem slowIncompatible_closed {P : TrafficManager → Prop} (hP : TickClosed P)
    (t : TrafficManager) (order : List String) (m : GoMap (List String))
    (r : IntersectionReservation) (h : P t) : P (slowIncompatible t order m r) := by
  unfold slowIncompatible
  refine foldl_preserves P _ ?_ _ _ h
  intro u o hu
  try simp only []
  split
  · exact hu
  · split
    · exact hu
    · refine foldl_preserves P _ ?_ _ _ hu
      intro w k hw
      try simp only []
      split
      · exact hP.desired _ _ _ hw
      · exact hw

theorem reservationMemberStep_closed {P : TrafficManager → Prop} (hP : TickClosed P)
    (s : Sched) (id : String) (m : GoMap (List String)) (r : IntersectionReservation)
    (p : Platoon) (t : TrafficManager) (k : String) (h : P t) :
    P (reservationMemberStep s id m r p t k) := by
  unfold reservationMemberStep
  split
  · exact h
  · split
    · exact h
    · try simp only []
      split
      · exact h
      · next tm1 heq =>
        refine slowIncompatible_closed hP _ _ _ _ ?_
        split at heq
        · cases heq
          exact hP.desired _ _ _ h
        · split at heq
          · cases heq
          · cases heq
            exact hP.desired _ _ _ h

theorem handleReservations_closed {P : TrafficManager → Prop} (hP : TickClosed P)
    (s : Sched) (t : TrafficManager) (id : String) (m : GoMap (List String))
    (h : P t) : P (handleReservations s t id m) := by
  unfold handleReservations
  try simp only []
  refine foldl_preserves P _ ?_ _ _ h
  intro u rid hu
  try simp only []
  split
  · exact hu
  · split
    · split
      · exact hu
      · exact foldl_preserves P _
          (fun w k hw => reservationMemberStep_closed hP _ _ _ _ _ w k hw) _ _ hu
    · exact hu

theorem stopOthersUnlessPriority_closed {P : TrafficManager → Prop} (hP : TickClosed P)
    (t : TrafficManager) (now : Int) (order : List String) (m : GoMap (List String))
    (e : String) (h : P t) : P (stopOthersUnlessPriority t now order m e) := by
  unfold stopOthersUnlessPriority
  refine foldl_preserves P _ ?_ _ _ h
  intro u o hu
  try simp only []
  split
  · exact hu
  · split
    · exact hu
    · refine foldl_preserves P _ ?_ _ _ hu
      intro w k hw
      try simp only []
      split
      · exact hP.desired _ _ _ hw
      · split
        · exact hP.desired _ _ _ hw
        · split
          · exact hP.desired _ _ _ hw
          · split
            · exact hP.desired _ _ _ hw
            · exact hw

theorem stopOthersUnlessWaiting_closed {P : TrafficManager → Prop} (hP : TickClosed P)
    (t : TrafficManager) (sel : String) (order : List String) (m : GoMap (List String))
    (e : String) (h : P t) : P (stopOthersUnlessWaiting t sel order m e) := by
  unfold stopOthersUnlessWaiting
  refine foldl_preserves P _ ?_ _ _ h
  intro u o hu
  try simp only []
  split
  · exact hu
  · split
    · exact hu
    · refine foldl_preserves P _ ?_ _ _ hu
      intro w k hw
      try simp only []
      split
      · exact hP.desired _ _ _ hw
      · split
        · split
          · exact hP.desired _ _ _ hw
          · exact hw
        · exact hP.desired _ _ _ hw

theorem handlePriorityPlatoons_closed {P : TrafficManager → Prop} (hP : TickClosed P)
    (s : Sched) (t : TrafficManager) (id : String) (m1 m2 : GoMap (List String))
    (h : P t) : P (handlePriorityPlatoons s t id m1 m2) := by
  unfold handlePriorityPlatoons
  try simp only []
  split
  · exact h
  · split
    · exact h
    · split
      · split
        · exact h
        · exact hP.mi _ _ _ (fun _ => ⟨rfl, rfl⟩)
            (stopOthersUnlessPriority_closed hP _ _ _ _ _
              (boostPlatoon_closed hP _ _ _ _ _ h))
      · split
        · exact h
        · split
          · exact h
          · split
            · exact hP.mp _ _ _ (fun _ hp => hp) h
            · exact hP.mi _ _ _ (fun _ => ⟨rfl, rfl⟩)
                (stopOthersUnlessWaiting_closed hP _ _ _ _ _
                  (boostPlatoon_closed hP _ _ _ _ _ (hP.mp _ _ _ (fun _ hp => hp) h)))

theorem boostFollowers_closed {P : TrafficManager → Prop} (hP : TickClosed P)
    (t : TrafficManager) (v : Vehicle) (a b : ℚ) (h : P t) :
    P (boostFollowers t v a b) := by
  unfold boostFollowers
  split
  · exact h
  · split
    · exact h
    · split
      · refine foldl_preserves P _ ?_ _ _ h
        intro u k hu
        try simp only []
        split
        · exact hu
        · split
          · exact hu
          · exact hP.desired _ _ _ hu
      · exact h

theorem rightTurnStep_closed {P : TrafficManager → Prop} (hP : TickClosed P)
    (m : GoMap (List String)) (t : TrafficManager) (x : String) (h : P t) :
    P (rightTurnStep m t x) := by
  unfold rightTurnStep
  split
  · exact h
  · split
    · exact boostFollowers_closed hP _ _ _ _ (hP.desired _ _ _ h)
    · exact h

theorem leftTurnStep_closed {P : TrafficManager → Prop} (hP : TickClosed P)
    (m : GoMap (List String)) (e : String) (t : TrafficManager) (x : String) (h : P t) :
    P (leftTurnStep m e t x) := by
  unfold leftTurnStep
  split
  · exact h
  · split
    · exact h
    · try simp only []
      split
      · exact boostFollowers_closed hP _ _ _ _ (hP.desired _ _ _ h)
      · exact h

theorem biasStraight_closed {P : TrafficManager → Prop} (hP : TickClosed P)
    (t : TrafficManager) (m : GoMap (List String)) (edges : List String) (f : ℚ → ℚ)
    (h : P t) : P (biasStraight t m edges f) := by
  unfold biasStraight
  refine foldl_preserves P _ ?_ _ _ h
  intro u e hu
  refine foldl_preserves P _ ?_ _ _ hu
  intro w k hw
  try simp only []
  split
  · exact hP.desired _ _ _ hw
  · exact hw

theorem turnLoops_closed {P : TrafficManager → Prop} (hP : TickClosed P)
    (s : Sched) (t : TrafficManager) (id : String) (m : GoMap (List String))
    (rt : List String) (h : P t) : P (turnLoops s t id m rt) := by
  unfold turnLoops
  refine foldl_preserves P _ ?_ _ _
    (foldl_preserves P _ (fun u x hu => rightTurnStep_closed hP m u x hu) _ _ h)
  intro u e hu
  exact foldl_preserves P _ (fun w x hw => leftTurnStep_closed hP m e w x hw) _ _ hu

/-- The biasing of `handleNonConflictingMovements` starts from the state
after the two turn loops. -/
theorem handleNonConflictingMovements_closed {P : TrafficManager → Prop}
    (hP : TickClosed P) (s : Sched) (t : TrafficManager) (id : String)
    (m1 m2 : GoMap (List String)) (rt : List String) (h : P t) :
    P (handleNonConflictingMovements s t id m1 m2 rt) := by
  have h2 := turnLoops_closed hP s t id m1 rt h
  unfold turnLoops at h2
  unfold handleNonConflictingMovements
  try simp only []
  split_ifs <;> first
    | exact h2
    | exact biasStraight_closed hP _ _ _ _ (biasStraight_closed hP _ _ _ _ h2)

theorem classifyStep_closed {P : TrafficManager → Prop} (hP : TickClosed P)
    (st : TrafficManager × Buckets) (vid : String) (h : P st.1) :
    P (classifyStep st vid).1 := by
  unfold classifyStep
  try simp only []
  split
  · exact h
  · try simp only []
    split
    · exact hP.mv _ _ _ (fun _ => ⟨rfl, rfl⟩) h
    · exact h

theorem classifyRoster_closed {P : TrafficManager → Prop} (hP : TickClosed P)
    (t : TrafficManager) (i : Intersection) (h : P t) : P (classifyRoster t i).1 := by
  unfold classifyRoster
  exact foldl_preserves (fun st : TrafficManager × Buckets => P st.1) _
    (fun st vid hst => classifyStep_closed hP st vid hst) _ _ h

theorem intersectionStep_closed {P : TrafficManager → Prop} (hP : TickClosed P)
    (s : Sched) (t : TrafficManager) (id : String) (h : P t) :
    P (intersectionStep s t id) := by
  unfold intersectionStep
  split
  · exact h
  · split
    · exact h
    · next i hi hlen =>
      exact handleNonConflictingMovements_closed hP _ _ _ _ _ _
        (handlePriorityPlatoons_closed hP _ _ _ _ _
          (handleReservations_closed hP _ _ _ _
            (handleForcedPriorityPlatoons_closed hP _ _ _ _ _
              (classifyRoster_closed hP t i h))))

theorem splitPlatoon_closed {P : TrafficManager → Prop} (hP : TickClosed P)
    (t : TrafficManager) (now : Int) (a b : String) (h : P t) :
    P (splitPlatoon t now a b) := by
  unfold splitPlatoon
  split
  · exact h
  · try simp only []
    split
    · exact h
    · split
      · exact h
      · split
        · refine hP.delP _ _ (foldl_preserves P _ ?_ _ _
            (hP.setP _ _ _ rfl (foldl_preserves P _ ?_ _ _ h)))
          all_goals
            intro u k hu
            try simp only []
            split
            · exact hu
            · exact hP.vtp _ _ (hP.mv _ _ _ (fun _ => ⟨rfl, rfl⟩) hu)
        · split
          · refine hP.setP _ _ _ rfl (foldl_preserves P _ ?_ _ _ h)
            intro u k hu
            try simp only []
            split
            · exact hu
            · exact hP.vtp _ _ (hP.mv _ _ _ (fun _ => ⟨rfl, rfl⟩) hu)
          · refine hP.mp _ _ _ (fun _ hp => hp)
              (hP.setP _ _ _ rfl (foldl_preserves P _ ?_ _ _ h))
            intro u k hu
            try simp only []
            split
            · exact hu
            · exact hP.vtp _ _ (hP.mv _ _ _ (fun _ => ⟨rfl, rfl⟩) hu)

theorem spacingStep_closed {P : TrafficManager → Prop} (hP : TickClosed P)
    (t : TrafficManager) (a b : String) (h : P t) : P (spacingStep t a b) := by
  unfold spacingStep
  split
  · exact hP.desired _ _ _ h
  · exact h

theorem spacingLoop_closed {P : TrafficManager → Prop} (hP : TickClosed P)
    (l : List String) : ∀ (t : TrafficManager) (front : String), P t →
      P (spacingLoop t front l) := by
  induction l with
  | nil => intro t front h; exact h
  | cons c rest ih =>
    intro t front h
    exact ih _ _ (spacingStep_closed hP t front c h)

theorem ensureProperSpacingOnLeavingEdge_closed {P : TrafficManager → Prop}
    (hP : TickClosed P) (t : TrafficManager) (l : List String) (h : P t) :
    P (ensureProperSpacingOnLeavingEdge t l) := by
  unfold ensureProperSpacingOnLeavingEdge
  split
  · exact h
  · split
    · exact h
    · exact spacingLoop_closed hP _ _ _ h

theorem postPlatoonStep_closed {P : TrafficManager → Prop} (hP : TickClosed P)
    (s : Sched) (e : String) (m : GoMap (List String)) (t : TrafficManager) (id : String)
    (h : P t) : P (postPlatoonStep s e m t id) := by
  unfold postPlatoonStep
  split
  · exact h
  · split
    · exact h
    · split
      · exact h
      · try simp only []
        split
        · exact splitPlatoon_closed hP _ _ _ _ h
        · exact h

theorem handlePostIntersectionVehicles_closed {P : TrafficManager → Prop}
    (hP : TickClosed P) (s : Sched) (t : TrafficManager) (h : P t) :
    P (handlePostIntersectionVehicles s t) := by
  unfold handlePostIntersectionVehicles
  try simp only []
  refine foldl_preserves P _ ?_ _ _ h
  intro u e hu
  try simp only []
  split
  · exact hu
  · split
    · exact hu
    · exact ensureProperSpacingOnLeavingEdge_closed hP _ _
        (foldl_preserves P _ (fun w k hw => postPlatoonStep_closed hP s e _ w k hw) _ _ hu)

theorem intersectionLoop_closed {P : TrafficManager → Prop} (hP : TickClosed P)
    (s : Sched) (l : List String) (t : TrafficManager) (h : P t) :
    P (l.foldl (intersectionStep s) t) :=
  foldl_preserves P _ (fun u k hu => intersectionStep_closed hP s u k hu) _ _ h

theorem ManageIntersections_closed {P : TrafficManager → Prop} (hP : TickClosed P)
    (s : Sched) (t t' : TrafficManager) (he : ManageIntersections s t = some t')
    (h : P t) : P t' := by
  unfold ManageIntersections at he
  cases hc : enforcePlatoonSizeLimits s 15 (updatePlatoonWaitTimes s t) with
  | none => rw [hc] at he; cases he
  | some t1 =>
    rw [hc] at he
    have h1 : P t1 := enforcePlatoonSizeLimits_closed hP s 15 _ t1 hc
      (updatePlatoonWaitTimes_closed hP s t h)
    have h2 := Option.some.inj he
    rw [← h2]
    exact handlePostIntersectionVehicles_closed hP s _ (intersectionLoop_closed hP s _ t1 h1)

theorem syncStep_closed {P : TrafficManager → Prop} (hP : TickClosed P)
    (now : Int) (t : TrafficManager) (id : String) (h : P t) : P (syncStep now t id) := by
  unfold syncStep
  repeat' first
    | exact h
    | exact hP.desired _ _ _ h
    | exact hP.mv _ _ _ (fun _ => ⟨rfl, rfl⟩) h
    | split

theorem cohesionLoop_closed {P : TrafficManager → Prop} (hP : TickClosed P)
    (r : ℚ) (l : List String) : ∀ (t : TrafficManager) (front : String), P t →
      P (cohesionLoop r t front l) := by
  induction l with
  | nil => intro t front h; exact h
  | cons c rest ih =>
    intro t front h
    refine ih _ _ ?_
    unfold cohesionStep
    split
    · exact hP.desired _ _ _ h
    · exact h

theorem SynchronizeSpeeds_closed {P : TrafficManager → Prop} (hP : TickClosed P)
    (s : Sched) (t : TrafficManager) (h : P t) : P (SynchronizeSpeeds s t) := by
  unfold SynchronizeSpeeds processPlatoonsIndependently
  try simp only []
  refine foldl_preserves P _ ?_ _ _
    (foldl_preserves P _ (fun u k hu => syncStep_closed hP _ u k hu) _ _ h)
  intro u k hu
  try simp only []
  split
  · exact hu
  · split
    · exact cohesionLoop_closed hP _ _ _ _ hu
    · exact hu

theorem AdjustSpeedForTrafficDensity_closed {P : TrafficManager → Prop}
    (hP : TickClosed P) (s : Sched) (t : TrafficManager) (h : P t) :
    P (AdjustSpeedForTrafficDensity s t) := by
  unfold AdjustSpeedForTrafficDensity
  refine foldl_preserves P _ ?_ _ _ h
  intro u k hu
  unfold adjustStep
  repeat' first
    | exact hu
    | exact hP.desired _ _ _ hu
    | split

theorem benchmarkTick_closed {P : TrafficManager → Prop} (hP : TickClosed P)
    (s : Sched) (t : TrafficManager) (h : P t) : P (benchmarkTick s t) := by
  have h1 : P (UpdateVehicleThroughput s t) := by
    unfold UpdateVehicleThroughput
    refine foldl_preserves P _ ?_ _ _ h
    intro u k hu
    try simp only []
    split
    · exact hu
    · split
      · exact hP.mv _ _ _ (fun _ => ⟨rfl, rfl⟩) (hP.same u _ rfl rfl rfl rfl hu)
      · exact hu
  unfold benchmarkTick
  split
  · unfold RecordBenchmarkMetrics
    split
    · exact h1
    · try simp only []
      split
      · exact hP.same (UpdateVehicleThroughput s t) _ rfl rfl rfl rfl h1
      · exact hP.same (UpdateVehicleThroughput s t) _ rfl rfl rfl rfl h1
  · exact h

/-- A tick keeps a dormant state dormant, and with it every property that
the writes of a tick keep. -/
theorem Update_closed {P : TrafficManager → Prop} (hP : TickClosed P)
    (s : Sched) (t t' : TrafficManager) (he : Update s t = some t')
    (hd : Dormant t) (h : P t) : Dormant t' ∧ P t' := by
  have hQ : TickClosed (fun u => Dormant u ∧ P u) := dormant_closed.both hP
  have h0 : Dormant { t with TimeStep := t.TimeStep + 1 } ∧
      P { t with TimeStep := t.TimeStep + 1 } :=
    hQ.same t _ rfl rfl rfl rfl ⟨hd, h⟩
  unfold Update at he
  simp only [] at he
  split at he
  · unfold engineTick at he
    have h1 := UpdatePlatoons_closed hQ s _ h0
    have h2 := EstimatePlatoonStability_closed hP s _ h1.1 h1.2
    rw [ReservePlatoonIntersectionSlots_dormant s _ h2.1] at he
    cases hm : ManageIntersections s (EstimatePlatoonStability s
        (UpdatePlatoons s { t with TimeStep := t.TimeStep + 1 })) with
    | none => rw [hm] at he; cases he
    | some t1 =>
      rw [hm] at he
      have h3 := ManageIntersections_closed hQ s _ t1 hm h2
      have h4 := Option.some.inj he
      rw [← h4]
      exact benchmarkTick_closed hQ s _
        (AdjustSpeedForTrafficDensity_closed hQ s _ (SynchronizeSpeeds_closed hQ s _ h3))
  · have h4 := Option.some.inj he
    rw [← h4]
    exact benchmarkTick_closed hQ s _ h0

theorem measureTrafficDensity_closed {P : TrafficManager → Prop} (hP : TickClosed P)
    (s : Sched) (t : TrafficManager) (h : P t) : P (measureTrafficDensity s t) := by
  unfold measureTrafficDensity
  try simp only []
  split
  · exact h
  · refine foldl_preserves P _ ?_ _ _ (hP.same t _ rfl rfl rfl rfl h)
    intro u e hu
    try simp only []
    split
    · exact hu
    · split
      · exact hP.same u _ rfl rfl rfl rfl hu
      · exact hu

/-- A write to a vehicle that keeps `StablePlatoonTime` keeps a dormant
state dormant, whatever it does to the edge. -/
theorem dormant_modifyVehicle (t : TrafficManager) (k : String) (f : Vehicle → Vehicle)
    (hf : ∀ v, (f v).StablePlatoonTime = v.StablePlatoonTime) (h : Dormant t) :
    Dormant (modifyVehicle t k f) := by
  obtain ⟨h1, h2, h3, h4⟩ := h
  obtain ⟨e1, e2, e3⟩ := modifyVehicle_rest t k f
  refine ⟨e3.trans h1, ?_, ?_, ?_⟩
  · rw [e2]; exact h2
  · intro k' v' hv'
    obtain ⟨v, hv, hc⟩ := modifyVehicle_get_cases t k k' f v' hv'
    rcases hc with hc | hc
    · rw [hc, hf v]; exact h3 k' v hv
    · rw [hc]; exact h3 k' v hv
  · rw [e1]; exact h4

/-- A write to an intersection that keeps `Edges` keeps a dormant state
dormant, whatever it does to the roster. -/
theorem dormant_modifyIntersection (t : TrafficManager) (k : String)
    (f : Intersection → Intersection) (hf : ∀ i, (f i).Edges = i.Edges) (h : Dormant t) :
    Dormant (modifyIntersection t k f) := by
  obtain ⟨h1, h2, h3, h4⟩ := h
  obtain ⟨e1, e2, e3⟩ := modifyIntersection_rest t k f
  refine ⟨e3.trans h1, ?_, ?_, ?_⟩
  · intro k' i' hi'
    obtain ⟨i, hi, hc⟩ := modifyIntersection_get_cases t k k' f i' hi'
    rcases hc with hc | hc
    · rw [hc, hf i]; exact h2 k' i hi
    · rw [hc]; exact h2 k' i hi
  · rw [e1]; exact h3
  · rw [e2]; exact h4

theorem upsertStep_dormant (s : Sched) (c : GoMap CensusRecord) (t : TrafficManager)
    (id : String) (h : Dormant t) : Dormant (upsertStep s c t id) := by
  unfold upsertStep
  split
  · exact h
  · split
    · exact dormant_modifyVehicle _ _ _ (fun _ => rfl)
        (dormant_modifyVehicle _ _ _ (fun _ => rfl) h)
    · obtain ⟨h1, h2, h3, h4⟩ := h
      refine ⟨h1, h2, ?_, h4⟩
      intro k' v' hv'
      have hv2 := hv'
      simp only [] at hv2
      rw [get_set] at hv2
      split at hv2
      · rw [← Option.some.inj hv2]
      · exact h3 k' v' hv2

theorem removeStep_dormant (s : Sched) (c : GoMap CensusRecord) (t : TrafficManager)
    (id : String) (h : Dormant t) : Dormant (removeStep s c t id) := by
  unfold removeStep
  split
  · exact h
  · split
    · exact h
    · try simp only []
      have h1 : Dormant (match t.VehicleToPlatoon.get id with
          | none => t
          | some platoonID =>
            let tm' := RemoveVehicleFromPlatoon t id platoonID
            { tm' with VehicleToPlatoon := tm'.VehicleToPlatoon.del id }) := by
        split
        · exact h
        · exact dormant_closed.vtp _ _ (RemoveVehicleFromPlatoon_closed dormant_closed _ _ _ h)
      have h2 := foldl_preserves Dormant
        (fun tm k => modifyIntersection tm k (fun i => { i with Vehicles := i.Vehicles.erase id }))
        (fun u k hu => dormant_modifyIntersection u k _ (fun _ => rfl) hu)
        (s.ord "UpdateVehicleData.intersections" id
          (match t.VehicleToPlatoon.get id with
          | none => t
          | some platoonID =>
            let tm' := RemoveVehicleFromPlatoon t id platoonID
            { tm' with VehicleToPlatoon := tm'.VehicleToPlatoon.del id }).Intersections.keys)
        _ h1
      obtain ⟨g1, g2, g3, g4⟩ := h2
      refine ⟨g1, g2, ?_, g4⟩
      intro k' v' hv'
      have hv2 := hv'
      simp only [] at hv2
      rw [get_del] at hv2
      split at hv2
      · cases hv2
      · exact g3 k' v' hv2

theorem updateIntersectionStatus_dormant (s : Sched) (t : TrafficManager)
    (h : Dormant t) : Dormant (updateIntersectionStatus s t) := by
  unfold updateIntersectionStatus cleanExpiredReservations
  try simp only []
  refine foldl_preserves Dormant _ ?_ _ _ ?_
  · intro u id hu
    try simp only []
    have hnone : u.IntersectionReservations.get id = none := by rw [hu.1]; rfl
    rw [hnone]
    exact hu
  · refine foldl_preserves Dormant _ ?_ _ _ ?_
    · intro u id hu
      unfold rosterStep
      split
      · exact hu
      · split
        · split
          · exact hu
          · split
            · refine dormant_modifyIntersection _ _ _ (fun _ => rfl) ?_
              split
              · obtain ⟨h1, h2, h3, h4⟩ := hu
                refine ⟨h1, ?_, h3, h4⟩
                intro k' i' hi'
                have hi2 := hi'
                simp only [] at hi2
                rw [get_set] at hi2
                split at hi2
                · rw [← Option.some.inj hi2]
                · exact h2 k' i' hi2
              · exact hu
            · exact hu
        · exact hu
    · refine foldl_preserves Dormant _ ?_ _ _ h
      intro u k hu
      exact dormant_modifyIntersection u k _ (fun _ => rfl) hu

/-- The ingest keeps a dormant state dormant. -/
theorem UpdateVehicleData_dormant (s : Sched) (c : GoMap CensusRecord)
    (t : TrafficManager) (h : Dormant t) : Dormant (UpdateVehicleData s c t) := by
  unfold UpdateVehicleData
  try simp only []
  refine measureTrafficDensity_closed dormant_closed s _
    (updateIntersectionStatus_dormant s _ ?_)
  refine foldl_preserves Dormant _ (fun u k hu => removeStep_dormant s c u k hu) _ _ ?_
  exact foldl_preserves Dormant _ (fun u k hu => upsertStep_dormant s c u k hu) _ _ h

/-- After the rosters are rebuilt under a fair schedule, every listed vehicle
is on an internal edge. -/
theorem updateIntersectionStatus_rosterInternal (s : Sched) (hfair : s.Fair)
    (t : TrafficManager) : RosterInternal (updateIntersectionStatus s t) := by
  obtain ⟨order, _, hV, hL, _⟩ := updateIntersectionStatus_rosters s hfair t
  intro k i id v hi hid hv
  have hl := hL k i.Vehicles (by rw [hi]; rfl)
  rw [hl, List.mem_filter] at hid
  have hk := of_decide_eq_true hid.2
  rw [hV] at hv
  rw [hv] at hk
  exact ((rosterKey_eq_some v k).mp hk).2.1

theorem UpdateVehicleData_rosterInternal (s : Sched) (hfair : s.Fair)
    (c : GoMap CensusRecord) (t : TrafficManager) :
    RosterInternal (UpdateVehicleData s c t) := by
  unfold UpdateVehicleData
  try simp only []
  exact measureTrafficDensity_closed rosterInternal_closed s _
    (updateIntersectionStatus_rosterInternal s hfair _)

theorem newTrafficManager_dormant (t0 : Int) : Dormant (NewTrafficManager t0) := by
  refine ⟨rfl, ?_, ?_, ?_⟩
  · intro k i h
    have h2 : (none : Option Intersection) = some i := h
    cases h2
  · intro k v h
    have h2 : (none : Option Vehicle) = some v := h
    cases h2
  · intro k p h
    have h2 : (none : Option Platoon) = some p := h
    cases h2

theorem newTrafficManager_rosterInternal (t0 : Int) :
    RosterInternal (NewTrafficManager t0) := by
  intro k i id v h
  have h2 : (none : Option Intersection) = some i := h
  cases h2

/-- Every run keeps a dormant state dormant. -/
theorem runCalls_dormant (calls : List Call) :
    ∀ t t' : TrafficManager, Dormant t → runCalls t calls = some t' → Dormant t' := by
  induction calls with
  | nil =>
    intro t t' h hr
    cases hr
    exact h
  | cons c rest ih =>
    intro t t' h hr
    cases c with
    | ingest s vehicleData =>
      exact ih _ t' (UpdateVehicleData_dormant s vehicleData t h) hr
    | tick s =>
      unfold runCalls at hr
      cases hu : Update s t with
      | none => rw [hu] at hr; cases hr
      | some t1 =>
        rw [hu] at hr
        exact ih t1 t' (Update_closed dormant_closed s t t1 hu h h).1 hr

/-- Every run from a dormant state keeps the rosters on internal edges, when
the loops of each `UpdateVehicleData` call visit every key once; the ticks run
under any schedule. -/
theorem runCalls_rosterInternal (calls : List Call) :
    ∀ t t' : TrafficManager, (∀ s vd, Call.ingest s vd ∈ calls → s.Fair) → Dormant t →
      RosterInternal t → runCalls t calls = some t' → RosterInternal t' := by
  induction calls with
  | nil =>
    intro t t' _ _ h hr
    cases hr
    exact h
  | cons c rest ih =>
    intro t t' hfair hd h hr
    have hrest : ∀ s vd, Call.ingest s vd ∈ rest → s.Fair :=
      fun s vd hc => hfair s vd (List.mem_cons_of_mem _ hc)
    cases c with
    | ingest s vehicleData =>
      have hs : s.Fair := hfair s vehicleData (List.mem_cons_self _ _)
      exact ih _ t' hrest (UpdateVehicleData_dormant s vehicleData t hd)
        (UpdateVehicleData_rosterInternal s hs vehicleData t) hr
    | tick s =>
      unfold runCalls at hr
      cases hu : Update s t with
      | none => rw [hu] at hr; cases hr
      | some t1 =>
        rw [hu] at hr
        obtain ⟨hd1, h1⟩ := Update_closed rosterInternal_closed s t t1 hu hd h
        exact ih t1 t' hrest hd1 h1 hr

/-- C34. No reservation is ever booked: in every state reached from
`NewTrafficManager` by any sequence of `UpdateVehicleData` and `Update` calls,
whatever the schedules, the reservation table is empty; every intersection
has an empty `Edges` list, `findNextIntersectionForVehicle` returns nil for
every vehicle, and `ReservePlatoonIntersectionSlots` changes nothing. -/
theorem no_reservation_ever (t0 : Int) (calls : List Call) (tm : TrafficManager)
    (hrun : runCalls (NewTrafficManager t0) calls = some tm) :
    tm.IntersectionReservations = [] ∧
    (∀ k i, tm.Intersections.get k = some i → i.Edges = []) ∧
    (∀ (s : Sched) (vehicle : Vehicle), findNextIntersectionForVehicle s tm vehicle = none) ∧
    (∀ s : Sched, ReservePlatoonIntersectionSlots s tm = tm) := by
  have hd := runCalls_dormant calls _ tm (newTrafficManager_dormant t0) hrun
  exact ⟨hd.1, hd.2.1, fun s v => findNextIntersectionForVehicle_none s tm hd.2.1 v,
    fun s => ReservePlatoonIntersectionSlots_dormant s tm hd⟩

theorem no_reservation_ever_witness :
    ∃ tm, runCalls (NewTrafficManager 0)
        [Call.ingest (Sched.fixed 0) crossingCensus, Call.tick (Sched.fixed 0),
         Call.ingest (Sched.fixed 0) crossingCensus] = some tm ∧
      tm.IntersectionReservations = [] ∧
      (∀ k i, tm.Intersections.get k = some i → i.Edges = []) ∧
      (∀ (s : Sched) (vehicle : Vehicle),
        findNextIntersectionForVehicle s tm vehicle = none) ∧
      (∀ s : Sched, ReservePlatoonIntersectionSlots s tm = tm) := by
  have h : (runCalls (NewTrafficManager 0)
      [Call.ingest (Sched.fixed 0) crossingCensus, Call.tick (Sched.fixed 0),
       Call.ingest (Sched.fixed 0) crossingCensus]).isSome = true := by decide!
  obtain ⟨tm, htm⟩ := Option.isSome_iff_exists.mp h
  exact ⟨tm, htm, no_reservation_ever 0 _ tm htm⟩

/-- C35. Stability is constantly zero: in every state reached from
`NewTrafficManager` by any sequence of `UpdateVehicleData` and `Update` calls,
whatever the schedules, every vehicle has `StablePlatoonTime = 0` and every
platoon has `StabilityRatio = 0`. -/
theorem stability_constantly_zero (t0 : Int) (calls : List Call) (tm : TrafficManager)
    (hrun : runCalls (NewTrafficManager t0) calls = some tm) :
    (∀ k v, tm.Vehicles.get k = some v → v.StablePlatoonTime = 0) ∧
    (∀ k p, tm.Platoons.get k = some p → p.StabilityRatio = 0) := by
  have hd := runCalls_dormant calls _ tm (newTrafficManager_dormant t0) hrun
  exact ⟨hd.2.2.1, hd.2.2.2⟩

theorem stability_constantly_zero_witness :
    ∃ tm, runCalls (NewTrafficManager 0)
        [Call.ingest (Sched.fixed 0) crossingCensus, Call.tick (Sched.fixed 0)] = some tm ∧
      (tm.Vehicles.keys.length = 7 ∧ 0 < tm.Platoons.keys.length) ∧
      (∀ k v, tm.Vehicles.get k = some v → v.StablePlatoonTime = 0) ∧
      (∀ k p, tm.Platoons.get k = some p → p.StabilityRatio = 0) := by
  have h : ((runCalls (NewTrafficManager 0)
      [Call.ingest (Sched.fixed 0) crossingCensus, Call.tick (Sched.fixed 0)]).map
        (fun tm => decide (tm.Vehicles.keys.length = 7 ∧ 0 < tm.Platoons.keys.length))) =
      some true := by decide!
  obtain ⟨tm, htm, hsz⟩ := Option.map_eq_some'.mp h
  exact ⟨tm, htm, of_decide_eq_true hsz, stability_constantly_zero 0 _ tm htm⟩

theorem foldl_preserves_mem {σ α : Type} (P : σ → Prop) (f : σ → α → σ) (l : List α)
    (hf : ∀ s a, a ∈ l → P s → P (f s a)) (s : σ) (hs : P s) : P (l.foldl f s) := by
  induction l generalizing s with
  | nil => exact hs
  | cons a l ih =>
    exact ih (fun s b hb h => hf s b (List.mem_cons_of_mem _ hb) h) (f s a)
      (hf s a (List.mem_cons_self _ _) hs)

/-- No piece of a split holds the separator. -/
theorem splitChars_no_sep (sep : Char) (cs : List Char) :
    ∀ cur : List Char, sep ∉ cur → ∀ p ∈ splitChars sep cs cur, sep ∉ p := by
  induction cs with
  | nil =>
    intro cur hcur p hp
    simp only [splitChars, List.mem_singleton] at hp
    rw [hp]
    simpa using hcur
  | cons c cs ih =>
    intro cur hcur p hp
    unfold splitChars at hp
    split at hp
    · rcases List.mem_cons.mp hp with h | h
      · rw [h]
        simpa using hcur
      · exact ih [] (by simp) p h
    · next hne =>
      refine ih (c :: cur) ?_ p hp
      intro hmem
      rcases List.mem_cons.mp hmem with h | h
      · exact hne h.symm
      · exact hcur h

theorem getSourceEdgeForInternal_no_underscore (v : Vehicle) :
    '_' ∉ (getSourceEdgeForInternal v).data := by
  unfold getSourceEdgeForInternal
  split
  · next a second rest heq =>
    have hmem : second ∈ splitUnderscore v.Edge := by rw [heq]; simp
    unfold splitUnderscore at hmem
    obtain ⟨p, hp, hps⟩ := List.mem_map.mp hmem
    rw [← hps]
    exact splitChars_no_sep '_' v.Edge.data [] (by simp) p hp
  · simp

/-- The bucket key of a vehicle on an internal edge begins with `:` or holds
no `_`. -/
theorem internalKey_of_internal (v : Vehicle) (h : startsWithColon v.Edge = true) :
    InternalKey (if startsWithColon v.Edge then
        (if getSourceEdgeForInternal v ≠ "" then getSourceEdgeForInternal v else v.Edge)
      else v.Edge) := by
  rw [if_pos h]
  split
  · exact Or.inr (getSourceEdgeForInternal_no_underscore v)
  · exact Or.inl h

/-- Every key of the buckets after a step of the classification loop is a
key of before or the bucket key of the vehicle classified. -/
theorem classifyStep_keys (st : TrafficManager × Buckets) (vid key : String)
    (hk : key ∈ (classifyStep st vid).2.vehiclesByEdge.keys ∨
      key ∈ (classifyStep st vid).2.platoonsByEdge.keys) :
    (key ∈ st.2.vehiclesByEdge.keys ∨ key ∈ st.2.platoonsByEdge.keys) ∨
    ∃ v0, st.1.Vehicles.get vid = some v0 ∧
      key = (if startsWithColon v0.Edge then
          (if getSourceEdgeForInternal v0 ≠ "" then getSourceEdgeForInternal v0 else v0.Edge)
        else v0.Edge) := by
  unfold classifyStep at hk
  cases hv : st.1.Vehicles.get vid with
  | none =>
    simp only [hv] at hk
    exact Or.inl hk
  | some v0 =>
    simp only [hv] at hk
    refine Or.elim (?_ : (key ∈ st.2.vehiclesByEdge.keys ∨ key ∈ st.2.platoonsByEdge.keys) ∨
      key = (if startsWithColon v0.Edge then
          (if getSourceEdgeForInternal v0 ≠ "" then getSourceEdgeForInternal v0 else v0.Edge)
        else v0.Edge)) Or.inl (fun h => Or.inr ⟨v0, rfl, h⟩)
    generalize (if startsWithColon v0.Edge then
          (if getSourceEdgeForInternal v0 ≠ "" then getSourceEdgeForInternal v0 else v0.Edge)
        else v0.Edge) = ek at hk ⊢
    split at hk <;> split_ifs at hk <;> (try simp only [keys_set] at hk) <;>
      (try split_ifs at hk) <;>
      (try simp only [List.mem_append, List.mem_singleton] at hk) <;> tauto

theorem classifyStep_intersections (st : TrafficManager × Buckets) (vid : String) :
    (classifyStep st vid).1.Intersections = st.1.Intersections := by
  unfold classifyStep
  try simp only []
  split
  · rfl
  · try simp only []
    split
    · exact (modifyVehicle_rest _ _ _).2.1
    · rfl

/-- On a state whose rosters hold vehicles on internal edges only, every key
of the buckets built from a roster begins with `:` or holds no `_`. -/
theorem classifyRoster_keys (u : TrafficManager) (hR : RosterInternal u) (k : String)
    (i : Intersection) (hi : u.Intersections.get k = some i) (key : String)
    (hk : key ∈ (classifyRoster u i).2.vehiclesByEdge.keys ∨
      key ∈ (classifyRoster u i).2.platoonsByEdge.keys) : InternalKey key := by
  have hfold := foldl_preserves_mem
    (fun st : TrafficManager × Buckets =>
      (RosterInternal st.1 ∧ st.1.Intersections = u.Intersections) ∧
      ∀ key, key ∈ st.2.vehiclesByEdge.keys ∨ key ∈ st.2.platoonsByEdge.keys →
        InternalKey key)
    classifyStep i.Vehicles
    (fun st vid hvid hst => by
      refine ⟨⟨classifyStep_closed rosterInternal_closed st vid hst.1.1,
        (classifyStep_intersections st vid).trans hst.1.2⟩, ?_⟩
      intro key hkey
      rcases classifyStep_keys st vid key hkey with h | ⟨v0, hv0, hkv⟩
      · exact hst.2 key h
      · rw [hkv]
        refine internalKey_of_internal v0 (hst.1.1 k i vid v0 ?_ hvid hv0)
        rw [hst.1.2]
        exact hi)
    (u, emptyBuckets)
    ⟨⟨hR, rfl⟩, fun key h => by
      rcases h with h | h
      · cases h
      · cases h⟩
  exact hfold.2 key hk

theorem canonical_not_internal (e : String) (he : e ∈ incomingEdges) : ¬ InternalKey e := by
  unfold incomingEdges at he
  simp only [List.mem_cons, List.mem_singleton, List.mem_nil_iff, or_false] at he
  unfold InternalKey
  rcases he with h | h | h | h <;> rw [h] <;> decide

/-- With no bucket under a canonical incoming edge the directional biasing
is not entered: `handleNonConflictingMovements` ends after the two turn
loops. -/
theorem handleNonConflictingMovements_unbiased (s : Sched) (t : TrafficManager)
    (id : String) (m1 m2 : GoMap (List String)) (rt : List String)
    (h1 : ∀ e ∈ incomingEdges, m1.get e = none)
    (h2 : ∀ e ∈ incomingEdges, m2.get e = none) :
    handleNonConflictingMovements s t id m1 m2 rt = turnLoops s t id m1 rt := by
  have a1 := h1 "down_incoming" (by decide)
  have a2 := h1 "up_incoming" (by decide)
  have a3 := h1 "left_incoming" (by decide)
  have a4 := h1 "right_incoming" (by decide)
  have b1 := h2 "down_incoming" (by decide)
  have b2 := h2 "up_incoming" (by decide)
  have b3 := h2 "left_incoming" (by decide)
  have b4 := h2 "right_incoming" (by decide)
  unfold handleNonConflictingMovements turnLoops
  simp [a1, a2, a3, a4, b1, b2, b3, b4]

/-- The body of the loop of `ManageIntersections` in terms of the buckets
of the roster. -/
theorem intersectionStep_eq (s : Sched) (u : TrafficManager) (k : String)
    (i : Intersection) (hi : u.Intersections.get k = some i) :
    intersectionStep s u k =
      if i.Vehicles.length < 2 then u
      else
        handleNonConflictingMovements s
          (handlePriorityPlatoons s
            (handleReservations s
              (handleForcedPriorityPlatoons s (classifyRoster u i).1 k
                (classifyRoster u i).2.vehiclesByEdge (classifyRoster u i).2.platoonsByEdge)
              k (classifyRoster u i).2.vehiclesByEdge)
            k (classifyRoster u i).2.vehiclesByEdge (classifyRoster u i).2.platoonsByEdge)
          k (classifyRoster u i).2.vehiclesByEdge (classifyRoster u i).2.platoonsByEdge
          (classifyRoster u i).2.rightTurn := by
  unfold intersectionStep
  rw [hi]
  rfl

/-- C36. Arbiter bucket keys are never canonical edges.  Take a state reached
from `NewTrafficManager` by any sequence of `UpdateVehicleData` and `Update`
calls, the `Update` calls under any schedule and the loops of each
`UpdateVehicleData` call visiting every key of the map they range over once
(they insert into no map they range over); the tick that follows it under any
schedule; and any point of the intersection loop of `ManageIntersections` in
that tick (after the intersections `visited`).  For
every intersection of that point, every key of `vehiclesByEdge` and
`platoonsByEdge` built from its roster begins with `:` or holds no `_`; the
buckets of the four incoming edges do not exist; the call of
`handleNonConflictingMovements` ends after the two turn loops, so the
directional biasing writes no speed; and the loop body for the intersection
is the handlers up to these turn loops. -/
theorem arbiter_buckets_never_canonical (t0 : Int) (calls : List Call)
    (hfair : ∀ s vd, Call.ingest s vd ∈ calls → s.Fair) (tm : TrafficManager)
    (hrun : runCalls (NewTrafficManager t0) calls = some tm)
    (s : Sched) (tm1 : TrafficManager)
    (hcap : enforcePlatoonSizeLimits s 15
      (updatePlatoonWaitTimes s (beforeArbitration s tm)) = some tm1)
    (visited : List String) (k : String) (i : Intersection)
    (hi : (visited.foldl (intersectionStep s) tm1).Intersections.get k = some i) :
    (∀ key, key ∈ (classifyRoster (visited.foldl (intersectionStep s) tm1) i).2.vehiclesByEdge.keys ∨
        key ∈ (classifyRoster (visited.foldl (intersectionStep s) tm1) i).2.platoonsByEdge.keys →
      InternalKey key) ∧
    (∀ e ∈ incomingEdges,
      (classifyRoster (visited.foldl (intersectionStep s) tm1) i).2.vehiclesByEdge.get e = none ∧
      (classifyRoster (visited.foldl (intersectionStep s) tm1) i).2.platoonsByEdge.get e = none) ∧
    (∀ (t : TrafficManager) (id : String),
      handleNonConflictingMovements s t id
        (classifyRoster (visited.foldl (intersectionStep s) tm1) i).2.vehiclesByEdge
        (classifyRoster (visited.foldl (intersectionStep s) tm1) i).2.platoonsByEdge
        (classifyRoster (visited.foldl (intersectionStep s) tm1) i).2.rightTurn =
      turnLoops s t id
        (classifyRoster (visited.foldl (intersectionStep s) tm1) i).2.vehiclesByEdge
        (classifyRoster (visited.foldl (intersectionStep s) tm1) i).2.rightTurn) ∧
    intersectionStep s (visited.foldl (intersectionStep s) tm1) k =
      (if i.Vehicles.length < 2 then visited.foldl (intersectionStep s) tm1
       else
        turnLoops s
          (handlePriorityPlatoons s
            (handleReservations s
              (handleForcedPriorityPlatoons s
                (classifyRoster (visited.foldl (intersectionStep s) tm1) i).1 k
                (classifyRoster (visited.foldl (intersectionStep s) tm1) i).2.vehiclesByEdge
                (classifyRoster (visited.foldl (intersectionStep s) tm1) i).2.platoonsByEdge)
              k (classifyRoster (visited.foldl (intersectionStep s) tm1) i).2.vehiclesByEdge)
            k (classifyRoster (visited.foldl (intersectionStep s) tm1) i).2.vehiclesByEdge
            (classifyRoster (visited.foldl (intersectionStep s) tm1) i).2.platoonsByEdge)
          k (classifyRoster (visited.foldl (intersectionStep s) tm1) i).2.vehiclesByEdge
          (classifyRoster (visited.foldl (intersectionStep s) tm1) i).2.rightTurn) := by
  have hd := runCalls_dormant calls _ tm (newTrafficManager_dormant t0) hrun
  have hr := runCalls_rosterInternal calls _ tm hfair (newTrafficManager_dormant t0)
    (newTrafficManager_rosterInternal t0) hrun
  have hQ : TickClosed (fun u => Dormant u ∧ RosterInternal u) :=
    dormant_closed.both rosterInternal_closed
  have h0 : Dormant { tm with TimeStep := tm.TimeStep + 1 } ∧
      RosterInternal { tm with TimeStep := tm.TimeStep + 1 } :=
    hQ.same tm _ rfl rfl rfl rfl ⟨hd, hr⟩
  have h1 := UpdatePlatoons_closed hQ s _ h0
  have h2 := EstimatePlatoonStability_closed rosterInternal_closed s _ h1.1 h1.2
  have h3 : Dormant (beforeArbitration s tm) ∧ RosterInternal (beforeArbitration s tm) := by
    unfold beforeArbitration
    rw [ReservePlatoonIntersectionSlots_dormant s _ h2.1]
    exact h2
  have h4 := enforcePlatoonSizeLimits_closed hQ s 15 _ tm1 hcap
    (updatePlatoonWaitTimes_closed hQ s _ h3)
  have h5 := intersectionLoop_closed hQ s visited tm1 h4
  generalize visited.foldl (intersectionStep s) tm1 = u at hi h5 ⊢
  have hkeys := classifyRoster_keys u h5.2 k i hi
  have hnone : ∀ e ∈ incomingEdges,
      (classifyRoster u i).2.vehiclesByEdge.get e = none ∧
      (classifyRoster u i).2.platoonsByEdge.get e = none := by
    intro e he
    constructor
    · exact get_none_of_not_mem_keys _ _
        (fun hm => canonical_not_internal e he (hkeys e (Or.inl hm)))
    · exact get_none_of_not_mem_keys _ _
        (fun hm => canonical_not_internal e he (hkeys e (Or.inr hm)))
  have hbias : ∀ (t : TrafficManager) (id : String),
      handleNonConflictingMovements s t id (classifyRoster u i).2.vehiclesByEdge
        (classifyRoster u i).2.platoonsByEdge (classifyRoster u i).2.rightTurn =
      turnLoops s t id (classifyRoster u i).2.vehiclesByEdge
        (classifyRoster u i).2.rightTurn :=
    fun t id => handleNonConflictingMovements_unbiased s t id _ _ _
      (fun e he => (hnone e he).1) (fun e he => (hnone e he).2)
  refine ⟨hkeys, hnone, hbias, ?_⟩
  rw [intersectionStep_eq s u k i hi, hbias]

theorem arbiter_buckets_never_canonical_witness :
    ∃ tm1 i,
      enforcePlatoonSizeLimits (Sched.fixed 0) 15
        (updatePlatoonWaitTimes (Sched.fixed 0)
          (beforeArbitration (Sched.fixed 0) crossingState)) = some tm1 ∧
      tm1.Intersections.get ":J" = some i ∧ i.Vehicles.length = 6 ∧
      (∀ key, key ∈ (classifyRoster tm1 i).2.vehiclesByEdge.keys ∨
          key ∈ (classifyRoster tm1 i).2.platoonsByEdge.keys → InternalKey key) ∧
      (∀ e ∈ incomingEdges,
        (classifyRoster tm1 i).2.vehiclesByEdge.get e = none ∧
        (classifyRoster tm1 i).2.platoonsByEdge.get e = none) ∧
      (∀ (t : TrafficManager) (id : String),
        handleNonConflictingMovements (Sched.fixed 0) t id
          (classifyRoster tm1 i).2.vehiclesByEdge (classifyRoster tm1 i).2.platoonsByEdge
          (classifyRoster tm1 i).2.rightTurn =
        turnLoops (Sched.fixed 0) t id (classifyRoster tm1 i).2.vehiclesByEdge
          (classifyRoster tm1 i).2.rightTurn) := by
  have h : ((enforcePlatoonSizeLimits (Sched.fixed 0) 15
      (updatePlatoonWaitTimes (Sched.fixed 0)
        (beforeArbitration (Sched.fixed 0) crossingState))).bind
      (fun tm1 => (tm1.Intersections.get ":J").map
        (fun i => decide (i.Vehicles.length = 6)))) = some true := by decide!
  obtain ⟨tm1, htm1, h'⟩ := Option.bind_eq_some.mp h
  obtain ⟨i, hi, hlen⟩ := Option.map_eq_some'.mp h'
  have hw := arbiter_buckets_never_canonical 0
    [Call.ingest (Sched.fixed 0) crossingCensus]
    (fun s vd hc => by
      rw [List.mem_singleton] at hc
      cases hc
      exact fixed_fair 0)
    crossingState rfl (Sched.fixed 0) tm1 htm1 [] ":J" i hi
  exact ⟨tm1, i, htm1, hi, of_decide_eq_true hlen, hw.1, hw.2.1, hw.2.2.1⟩

/-! ## Formation and detection at the boundaries -/

/-- C10, counterexample. Three worlds with exactly two vehicles on
`up_incoming`, lane `u0`, neither in a platoon.  With the empty string as the
id of the vehicle in front and a gap of 10 m, no platoon is formed: the
follower records the empty id as `LeaderID`, which is the mark for "no
leader".  With the vehicles at 32.2 m and 7.2 m the gap is 25 in exact
arithmetic, the `float64` subtraction gives a value above 25, and no platoon
is formed.  With a gap of 40 m and a platoon `q` of two vehicles that are not
in the world, `q` is still there after `UpdatePlatoons`. -/
theorem formation_fails_at_the_boundaries :
    (worldEmptyID.Vehicles.map (fun kv => (kv.1, kv.2.ID, kv.2.Edge, kv.2.Lane, kv.2.Pos,
        kv.2.PlatoonID)) =
        [("", "", "up_incoming", "u0", 50, ""), ("B", "B", "up_incoming", "u0", 40, "")] ∧
      worldEmptyID.Platoons = [] ∧ worldEmptyID.VehicleToPlatoon = [] ∧
      (UpdatePlatoons (Sched.fixed 0) worldEmptyID).Platoons = []) ∧
    (worldGapTwentyFive.Vehicles.map (fun kv => (kv.1, kv.2.ID, kv.2.Edge, kv.2.Lane,
        kv.2.Pos, kv.2.PlatoonID)) =
        [("A", "A", "up_incoming", "u0", 32.2, ""), ("B", "B", "up_incoming", "u0", 7.2, "")] ∧
      worldGapTwentyFive.Platoons = [] ∧ worldGapTwentyFive.VehicleToPlatoon = [] ∧
      (32.2 : ℚ) - 7.2 = 25 ∧ 25 < fsub 32.2 7.2 ∧
      (UpdatePlatoons (Sched.fixed 0) worldGapTwentyFive).Platoons = []) ∧
    (worldStalePlatoon.Vehicles.map (fun kv => (kv.1, kv.2.ID, kv.2.Edge, kv.2.Lane, kv.2.Pos,
        kv.2.PlatoonID)) =
        [("A", "A", "up_incoming", "u0", 80, ""), ("B", "B", "up_incoming", "u0", 40, "")] ∧
      worldStalePlatoon.Platoons = [("q", stalePlatoon)] ∧
      stalePlatoon.VehicleIDs = ["x", "y"] ∧
      worldStalePlatoon.VehicleToPlatoon = [] ∧
      (UpdatePlatoons (Sched.fixed 0) worldStalePlatoon).Platoons = [("q", stalePlatoon)]) := by
  refine ⟨⟨?_, ?_, ?_, ?_⟩, ⟨?_, ?_, ?_, ?_, ?_, ?_⟩, ⟨?_, ?_, ?_, ?_, ?_⟩⟩ <;>
    first | rfl | decide!

/-- C31, counterexample. With `v` at 14.4 m and `w` at 64.4 m on the same edge
and lane, `w.Pos - v.Pos` is 50 in exact arithmetic, the `float64`
subtraction gives a value above 50, and `FindVehicleAhead(v)` returns nil.
With `v` at `3 · 2^-49` m and `w` at `50 + 2^-47` m, both `float64` values,
`w.Pos - v.Pos` is above 50, the `float64` subtraction gives 50, and
`FindVehicleAhead(v)` returns `w`, which `updateLeaderRelationships` records
as the leader of `v`. -/
theorem detection_differs_at_the_boundary :
    (worldFiftyApart.Vehicles.map (fun kv => (kv.1, kv.2.ID, kv.2.Edge, kv.2.Lane, kv.2.Pos)) =
        [("v", "v", "up_incoming", "u0", 14.4), ("w", "w", "up_incoming", "u0", 64.4)] ∧
      worldFiftyApart.Vehicles.get "v" = some vehicleAtFourteen ∧
      worldFiftyApart.DetectionDistance = 50 ∧
      (64.4 : ℚ) - 14.4 = 50 ∧ 50 < fsub 64.4 14.4 ∧
      FindVehicleAhead (Sched.fixed 0) worldFiftyApart vehicleAtFourteen = none) ∧
    (worldJustBeyond.Vehicles.map (fun kv => (kv.1, kv.2.ID, kv.2.Edge, kv.2.Lane, kv.2.Pos)) =
        [("v", "v", "up_incoming", "u0", 3 / 2 ^ 49),
          ("w", "w", "up_incoming", "u0", 50 + 1 / 2 ^ 47)] ∧
      worldJustBeyond.Vehicles.get "v" = some vehicleNearZero ∧
      worldJustBeyond.DetectionDistance = 50 ∧
      f64 (3 / 2 ^ 49) = 3 / 2 ^ 49 ∧ f64 (50 + 1 / 2 ^ 47) = 50 + 1 / 2 ^ 47 ∧
      (50 : ℚ) < (50 + 1 / 2 ^ 47) - 3 / 2 ^ 49 ∧
      fsub (50 + 1 / 2 ^ 47) (3 / 2 ^ 49) = 50 ∧
      FindVehicleAhead (Sched.fixed 0) worldJustBeyond vehicleNearZero = some "w" ∧
      ((updateLeaderRelationships (Sched.fixed 0) worldJustBeyond).Vehicles.get "v").map
        (fun v => v.LeaderID) = some "w") := by
  refine ⟨⟨?_, ?_, ?_, ?_, ?_, ?_⟩, ⟨?_, ?_, ?_, ?_, ?_, ?_, ?_, ?_, ?_⟩⟩ <;>
    first | rfl | decide!

/-! ## Ties in the scored priority -/

/-- C24 (amended). When `handlePriorityPlatoons` runs past its cooldown with
no listed platoon holding an active priority window, and one candidate `k`
has a score strictly above the score of every other candidate, then `k` is
the platoon that receives `PriorityUntil = now + 15 s`, whatever the order in
which the buckets of `platoonsByEdge` are visited. -/
theorem strict_top_score_is_granted (s : Sched) (tm : TrafficManager)
    (intersectionID : String) (vehiclesByEdge platoonsByEdge : GoMap (List String))
    (intersection : Intersection) (hfair : s.Fair)
    (hi : tm.Intersections.get intersectionID = some intersection)
    (hcool : ¬ (((s.now "handlePriorityPlatoons" intersectionID -
      intersection.LastPlatoonPassTime : Int) : ℚ) / (second : ℚ) < 3.0))
    (hnone : ∀ edge platoons platoonID, platoonsByEdge.get edge = some platoons →
      platoonID ∈ platoons →
      hasActivePriority tm (s.now "handlePriorityPlatoons" intersectionID) platoonID = false)
    (k : String) (p : Platoon) (hc : IsCandidate tm platoonsByEdge k p)
    (htop : ∀ k' p', IsCandidate tm platoonsByEdge k' p' → k' ≠ k →
      specScore p'.VehicleIDs.length p'.IntersectionWaitTime <
        specScore p.VehicleIDs.length p.IntersectionWaitTime) :
    (handlePriorityPlatoons s tm intersectionID vehiclesByEdge platoonsByEdge).Platoons =
      tm.Platoons.set k { p with
        PriorityUntil := some (s.now "handlePriorityPlatoons" intersectionID + 15 * second) } := by
  obtain ⟨k0, p0, hc0, hmax, hres⟩ := scored_grant_is_maximal s tm intersectionID
    vehiclesByEdge platoonsByEdge intersection hfair hi hcool hnone ⟨k, p, hc⟩
  by_cases hk : k0 = k
  · subst hk
    have hp : p0 = p := Option.some.inj (hc0.2.1.symm.trans hc.2.1)
    subst hp
    exact hres
  · exact absurd (hmax k p hc) (not_le.mpr (htop k0 p0 hc0 hk))

theorem untiedWorld_no_window (k : String) : hasActivePriority untiedWorld 0 k = false := by
  by_cases ha : k = "a"
  · subst ha; decide!
  · by_cases hb : k = "b"
    · subst hb; decide!
    · have hnone : untiedWorld.Platoons.get k = none := by
        have h1 : ¬ "a" = k := fun h => ha h.symm
        have h2 : ¬ "b" = k := fun h => hb h.symm
        simp [untiedWorld, GoMap.get, h1, h2]
      unfold hasActivePriority
      rw [hnone]

/-- In `untiedWorld` every candidate other than `b` has a lower score than
`b`. -/
theorem untiedWorld_top (sw : Bool) (k' : String) (p' : Platoon)
    (hc : IsCandidate untiedWorld (tiedPlatoons sw) k' p') (hne : k' ≠ "b") :
    specScore p'.VehicleIDs.length p'.IntersectionWaitTime < specScore 2 9 := by
  obtain ⟨_, hp, _⟩ := hc
  by_cases ha : k' = "a"
  · subst ha
    have : untiedWorld.Platoons.get "a" = some (waitingPair "a" "a1" "a2" "up_incoming") := by
      decide!
    rw [this] at hp
    cases hp
    decide!
  · have hnone : untiedWorld.Platoons.get k' = none := by
      have h1 : ¬ "a" = k' := fun h => ha h.symm
      have h2 : ¬ "b" = k' := fun h => hne h.symm
      simp [untiedWorld, GoMap.get, h1, h2]
    rw [hnone] at hp
    cases hp

theorem strict_top_score_is_granted_witness :
    (untiedWorld.Platoons.map (fun kv => (kv.1, priorityScore kv.2)) =
      [("a", 120), ("b", 130)]) ∧
    (handlePriorityPlatoons (Sched.fixed 0) untiedWorld ":J" (tiedVehicles false)
        (tiedPlatoons false)).Platoons.map (fun kv => (kv.1, kv.2.PriorityUntil)) =
      [("a", none), ("b", some (15 * second))] ∧
    (handlePriorityPlatoons (Sched.fixed 0) untiedWorld ":J" (tiedVehicles true)
        (tiedPlatoons true)).Platoons.map (fun kv => (kv.1, kv.2.PriorityUntil)) =
      [("a", none), ("b", some (15 * second))] := by
  have hb : ∀ sw, IsCandidate untiedWorld (tiedPlatoons sw) "b"
      { waitingPair "b" "b1" "b2" "left_incoming" with IntersectionWaitTime := 9 } := by
    intro sw
    refine ⟨⟨"left_incoming", ["b"], ?_, by decide⟩, by decide!,
      queuedVehicle "b1" "left_incoming" "b" 122 true, by decide!, by decide!⟩
    cases sw <;> decide
  have h := fun sw => strict_top_score_is_granted (Sched.fixed 0) untiedWorld ":J"
    (tiedVehicles sw) (tiedPlatoons sw) tiedJunction (fixed_fair 0) (by decide!) (by decide!)
    (fun _ _ k _ _ => untiedWorld_no_window k) "b" _ (hb sw)
    (fun k' p' hc hne => untiedWorld_top sw k' p' hc hne)
  refine ⟨by decide!, ?_, ?_⟩
  · rw [h false]; decide!
  · rw [h true]; decide!

/-! ## The orientation of the right-turn rule -/

/-- C30 (amended). For every canonical incoming edge `e` and every direction
string `d`: a RIGHT movement from `getLeftEdge e` and a movement with
direction `d` from `e` are compatible, in either argument order, when `d` is
neither straight nor left; a RIGHT movement from `e` and a movement with
direction `d` from `getLeftEdge e` are compatible, in either argument order,
exactly when `d` is RIGHT. -/
theorem right_turn_rule_orientation (e d : String) (he : e ∈ incomingEdges) :
    (d ≠ TurnStraight → d ≠ TurnLeft →
      areMovementsCompatible (getLeftEdge e) TurnRight e d = true ∧
      areMovementsCompatible e d (getLeftEdge e) TurnRight = true) ∧
    (areMovementsCompatible e TurnRight (getLeftEdge e) d = true ↔ d = TurnRight) ∧
    (areMovementsCompatible (getLeftEdge e) d e TurnRight = true ↔ d = TurnRight) := by
  simp only [incomingEdges, List.mem_cons, List.mem_singleton, List.not_mem_nil,
    or_false] at he
  rcases he with rfl | rfl | rfl | rfl <;>
    simp [areMovementsCompatible, getLeftEdge, getOppositeEdge, TurnRight, TurnStraight,
      TurnLeft] <;>
    exact fun hs hl => ⟨hs, hl⟩

theorem right_turn_rule_orientation_witness :
    getLeftEdge "down_incoming" = "right_incoming" ∧
    (areMovementsCompatible "right_incoming" TurnRight "down_incoming" "" = true ∧
      areMovementsCompatible "down_incoming" "" "right_incoming" TurnRight = true) ∧
    (areMovementsCompatible "down_incoming" TurnRight "right_incoming" "" = true ↔
      "" = TurnRight) ∧
    (areMovementsCompatible "right_incoming" "" "down_incoming" TurnRight = true ↔
      "" = TurnRight) :=
  have h := right_turn_rule_orientation "down_incoming" "" (by decide)
  ⟨by decide, h.1 (by decide) (by decide), h.2.1, h.2.2⟩

/-! ## The speed bounds after both passes -/

theorem cohesionSpeed_nonneg (g b f : ℚ) : 0 ≤ cohesionSpeed g b f := by
  have key : ¬ f < 0.5 → 0 ≤ f := fun h => by
    have := not_lt.mp h
    norm_num at this
    linarith
  unfold cohesionSpeed
  split_ifs with h0 <;>
    first
    | (norm_num; done)
    | exact le_max_of_le_left (by norm_num)
    | exact mul_nonneg (key h0) (by norm_num)
    | exact key h0

/-- A step of the cohesion loop leaves the world as it is or writes a
non-negative desired speed to `current`. -/
theorem cohesionStep_shape (r : ℚ) (t : TrafficManager) (front current : String) :
    cohesionStep r t front current = t ∨
      ∃ x, 0 ≤ x ∧ cohesionStep r t front current = setDesired t current x := by
  have hx : ∀ (c : Prop) [Decidable c] (d : ℚ), 0 ≤ d → 0 ≤ (if c then max 5.0 d else d) := by
    intro c _ d hd
    split_ifs
    · exact le_max_of_le_right hd
    · exact hd
  unfold cohesionStep
  split
  · rename_i fv v _ _
    exact Or.inr ⟨_, hx (v.Speed < 0.5 ∧ fv.Pos - v.Pos > (if r > 0.6 then 5.0 else 7.0))
      (cohesionSpeed (fv.Pos - v.Pos) (if r > 0.6 then 5.0 else 7.0) fv.Speed)
      (cohesionSpeed_nonneg _ _ _), rfl⟩
  · exact Or.inl rfl

theorem setDesired_pos (t : TrafficManager) (x k : String) (d : ℚ) :
    ((setDesired t x d).Vehicles.get k).map (fun v => v.Pos) =
      (t.Vehicles.get k).map (fun v => v.Pos) := by
  rw [setDesired_get]
  split_ifs
  · cases t.Vehicles.get k <;> rfl
  · rfl

/-- The cohesion loop over `l` keeps the platoons and the positions, leaves
the vehicles outside `l` as they are, and keeps desired speeds non-negative. -/
theorem cohesionLoop_spec (r : ℚ) (l : List String) :
    ∀ (t : TrafficManager) (front : String),
      (cohesionLoop r t front l).Platoons = t.Platoons ∧
      (∀ k, ((cohesionLoop r t front l).Vehicles.get k).map (fun v => v.Pos) =
        (t.Vehicles.get k).map (fun v => v.Pos)) ∧
      (∀ k, k ∉ l → (cohesionLoop r t front l).Vehicles.get k = t.Vehicles.get k) ∧
      (∀ k v, t.Vehicles.get k = some v → 0 ≤ v.DesiredSpeed →
        ∃ v', (cohesionLoop r t front l).Vehicles.get k = some v' ∧ 0 ≤ v'.DesiredSpeed) := by
  induction l with
  | nil => intro t front; exact ⟨rfl, fun _ => rfl, fun _ _ => rfl, fun k v h h0 => ⟨v, h, h0⟩⟩
  | cons c rest ih =>
    intro t front
    unfold cohesionLoop
    obtain ⟨i1, i2, i3, i4⟩ := ih (cohesionStep r t front c) c
    rcases cohesionStep_shape r t front c with he | ⟨x, hx, he⟩
    · rw [he] at i1 i2 i3 i4 ⊢
      exact ⟨i1, i2, fun k hk => i3 k (fun h => hk (List.mem_cons_of_mem _ h)), i4⟩
    · rw [he] at i1 i2 i3 i4 ⊢
      refine ⟨i1.trans (setDesired_platoons _ _ _), fun k => (i2 k).trans (setDesired_pos _ _ _ _),
        ?_, ?_⟩
      · intro k hk
        rw [i3 k (fun h => hk (List.mem_cons_of_mem _ h)), setDesired_get,
          if_neg (fun h => hk (by rw [h]; exact List.mem_cons_self _ _))]
      · intro k v hv h0
        by_cases hck : c = k
        · exact i4 k { v with DesiredSpeed := x }
            (by rw [setDesired_get, if_pos hck, hv]; rfl) hx
        · exact i4 k v (by rw [setDesired_get, if_neg hck]; exact hv) h0

/-- The ordered members of a platoon depend on the vehicles only through
their positions. -/
theorem getOrdered_congr (t tm : TrafficManager) (p : Platoon)
    (h : ∀ k, (t.Vehicles.get k).map (fun v => v.Pos) =
      (tm.Vehicles.get k).map (fun v => v.Pos)) :
    getOrderedPlatoonVehicles t p = getOrderedPlatoonVehicles tm p := by
  have hhas : ∀ k, t.Vehicles.has k = tm.Vehicles.has k := by
    intro k
    have := congrArg Option.isSome (h k)
    simpa [GoMap.has] using this
  have hless : posLess t = posLess tm := by
    funext a b
    unfold posLess
    have ha := h a
    have hb := h b
    cases h1 : t.Vehicles.get a <;> cases h2 : tm.Vehicles.get a <;>
      cases h3 : t.Vehicles.get b <;> cases h4 : tm.Vehicles.get b <;>
      simp_all
  unfold getOrderedPlatoonVehicles
  simp only [hhas, hless]

theorem modifyVehicle_pos (t : TrafficManager) (x k : String) (f : Vehicle → Vehicle)
    (hf : ∀ v, (f v).Pos = v.Pos) :
    ((modifyVehicle t x f).Vehicles.get k).map (fun v => v.Pos) =
      (t.Vehicles.get k).map (fun v => v.Pos) := by
  rw [modifyVehicle_get]
  split_ifs
  · cases t.Vehicles.get k with
    | none => rfl
    | some v => simp [hf]
  · rfl

theorem syncStep_frame (now : Int) (t : TrafficManager) (a : String) :
    (syncStep now t a).Platoons = t.Platoons ∧
    ∀ k, ((syncStep now t a).Vehicles.get k).map (fun v => v.Pos) =
      (t.Vehicles.get k).map (fun v => v.Pos) := by
  unfold syncStep
  repeat' split
  all_goals
    first
    | exact ⟨rfl, fun _ => rfl⟩
    | exact ⟨setDesired_platoons _ _ _, fun k => setDesired_pos _ _ _ _⟩
    | exact ⟨modifyVehicle_platoons _ _ _, fun k => modifyVehicle_pos _ _ _ _ (fun _ => rfl)⟩

theorem syncPass_frame (s : Sched) (tm : TrafficManager) :
    (syncPass s tm).Platoons = tm.Platoons ∧
    ∀ k, ((syncPass s tm).Vehicles.get k).map (fun v => v.Pos) =
      (tm.Vehicles.get k).map (fun v => v.Pos) := by
  unfold syncPass
  refine foldl_preserves
    (fun t : TrafficManager => t.Platoons = tm.Platoons ∧
      ∀ k, (t.Vehicles.get k).map (fun v => v.Pos) = (tm.Vehicles.get k).map (fun v => v.Pos))
    _ ?_ _ tm ⟨rfl, fun _ => rfl⟩
  intro t a ⟨h1, h2⟩
  obtain ⟨f1, f2⟩ := syncStep_frame (s.now "SynchronizeSpeeds" "") t a
  exact ⟨f1.trans h1, fun k => (f2 k).trans (h2 k)⟩

/-- The traversal of the platoons keeps every non-negative desired speed
non-negative and leaves the vehicles it does not rewrite as they are. -/
theorem cohesion_pass_spec (s : Sched) (t : TrafficManager) (id : String) (v1 : Vehicle)
    (hv : t.Vehicles.get id = some v1) (h0 : 0 ≤ v1.DesiredSpeed) :
    ∃ v, (processPlatoonsIndependently s t).Vehicles.get id = some v ∧ 0 ≤ v.DesiredSpeed ∧
      (¬ RewrittenByCohesion t id → v = v1) := by
  unfold processPlatoonsIndependently
  have key := foldl_preserves
    (fun u : TrafficManager => u.Platoons = t.Platoons ∧
      (∀ k, (u.Vehicles.get k).map (fun v => v.Pos) = (t.Vehicles.get k).map (fun v => v.Pos)) ∧
      ∃ v, u.Vehicles.get id = some v ∧ 0 ≤ v.DesiredSpeed ∧
        (¬ RewrittenByCohesion t id → v = v1))
    (fun tm platoonID =>
      match tm.Platoons.get platoonID with
      | none => tm
      | some platoon =>
        match getOrderedPlatoonVehicles tm platoon with
        | first :: second :: rest => cohesionLoop platoon.StabilityRatio tm first (second :: rest)
        | _ => tm)
    ?_ (s.ord "processPlatoonsIndependently" "" t.Platoons.keys) t
    ⟨rfl, fun _ => rfl, v1, hv, h0, fun _ => rfl⟩
  · exact key.2.2
  · rintro u pid ⟨hp, hpos, v, hg, hnn, hkeep⟩
    simp only []
    split
    · exact ⟨hp, hpos, v, hg, hnn, hkeep⟩
    · rename_i platoon hplat
      split
      · rename_i first second rest hord
        obtain ⟨c1, c2, c3, c4⟩ := cohesionLoop_spec platoon.StabilityRatio (second :: rest) u first
        obtain ⟨v', hv', hnn'⟩ := c4 id v hg hnn
        refine ⟨c1.trans hp, fun k => (c2 k).trans (hpos k), v', hv', hnn', ?_⟩
        intro hnot
        have hnotin : id ∉ second :: rest := by
          intro hin
          apply hnot
          refine ⟨pid, platoon, by rw [← hp]; exact hplat, ?_⟩
          rw [← getOrdered_congr u t platoon hpos, hord]
          exact hin
        have := c3 id hnotin
        rw [hv', hg] at this
        rw [Option.some.inj this]
        exact hkeep hnot
      · exact ⟨hp, hpos, v, hg, hnn, hkeep⟩

/-- C25 (amended). Speed bounds of `SynchronizeSpeeds` with the caps 19.4 and
16.7, for a vehicle with a leader link and a non-negative speed.  After the
vehicle loop its desired speed lies between 0 and 19.4, and is at most 16.7
when its `PlatoonID` is empty and it has no `VehicleToPlatoon` entry.  After
both passes its desired speed is still at least 0; and when no platoon has it
behind the front of its ordered members, the second pass leaves its record as
it is, so the bounds 19.4 and 16.7 hold after both passes too.  Of the
schedule it is only used that the vehicle loop visits every vehicle. -/
theorem speed_bounds_after_both_passes (s : Sched) (tm : TrafficManager)
    (hvisit : s.VisitsAll "SynchronizeSpeeds")
    (hP : tm.MaxPlatoonSpeed = 19.4) (hR : tm.MaxRegularSpeed = 16.7)
    (id : String) (v0 : Vehicle) (hv : tm.Vehicles.get id = some v0)
    (hl : v0.LeaderID ≠ "") (hs : 0 ≤ v0.Speed) :
    ∃ v1 v, (syncPass s tm).Vehicles.get id = some v1 ∧
      (SynchronizeSpeeds s tm).Vehicles.get id = some v ∧
      (0 ≤ v1.DesiredSpeed ∧ v1.DesiredSpeed ≤ 19.4 ∧
        (v0.PlatoonID = "" → tm.VehicleToPlatoon.get id = none → v1.DesiredSpeed ≤ 16.7)) ∧
      0 ≤ v.DesiredSpeed ∧
      (¬ RewrittenByCohesion tm id →
        v = v1 ∧ v.DesiredSpeed ≤ 19.4 ∧
        (v0.PlatoonID = "" → tm.VehicleToPlatoon.get id = none → v.DesiredSpeed ≤ 16.7)) := by
  obtain ⟨hsplit, v1, hv1, _, _, _, b0, b1, b2⟩ :=
    vehicle_loop_speed_cap s tm hvisit hP hR id v0 hv hl hs
  obtain ⟨v, hv2, hnn, hkeep⟩ := cohesion_pass_spec s (syncPass s tm) id v1 hv1 b0
  obtain ⟨fp, fpos⟩ := syncPass_frame s tm
  have hrw : RewrittenByCohesion (syncPass s tm) id ↔ RewrittenByCohesion tm id := by
    unfold RewrittenByCohesion
    constructor
    · rintro ⟨pid, p, h1, h2⟩
      exact ⟨pid, p, by rw [← fp]; exact h1, by rw [← getOrdered_congr _ tm p fpos]; exact h2⟩
    · rintro ⟨pid, p, h1, h2⟩
      exact ⟨pid, p, by rw [fp]; exact h1, by rw [getOrdered_congr _ tm p fpos]; exact h2⟩
  refine ⟨v1, v, hv1, by rw [hsplit]; exact hv2, ⟨b0, b1, b2⟩, hnn, ?_⟩
  intro hnot
  have he : v = v1 := hkeep (fun h => hnot (hrw.mp h))
  exact ⟨he, by rw [he]; exact b1, fun c1 c2 => by rw [he]; exact b2 c1 c2⟩

theorem speed_bounds_after_both_passes_witness :
    linkedPair.Vehicles.get "B" = some { vehicleS1B with LeaderID := "A" } ∧
    linkedPair.Platoons = [] ∧
    ∃ v1 v, (syncPass (Sched.fixed 0) linkedPair).Vehicles.get "B" = some v1 ∧
      (SynchronizeSpeeds (Sched.fixed 0) linkedPair).Vehicles.get "B" = some v ∧
      0 ≤ v1.DesiredSpeed ∧ v1.DesiredSpeed ≤ 16.7 ∧
      0 ≤ v.DesiredSpeed ∧ v = v1 ∧ v.DesiredSpeed ≤ 16.7 := by
  obtain ⟨v1, v, h1, h2, ⟨a0, _, a2⟩, b0, hk⟩ :=
    speed_bounds_after_both_passes (Sched.fixed 0) linkedPair
      (fun _ _ _ hk => (fixed_fair 0 _ _ _).mem_iff.mpr hk) (by decide!) (by decide!)
      "B" { vehicleS1B with LeaderID := "A" } (by decide!) (by decide) (by decide!)
  have hnot : ¬ RewrittenByCohesion linkedPair "B" := by
    rintro ⟨pid, p, hp, _⟩
    have : linkedPair.Platoons.get pid = none := rfl
    rw [this] at hp
    cases hp
  obtain ⟨e, _, c2⟩ := hk hnot
  exact ⟨by decide!, rfl, v1, v, h1, h2, a0, a2 (by decide) (by decide), b0, e,
    c2 (by decide) (by decide)⟩

/-! ## The routes inferred from vehicle ids -/

end Platooning
